import Mathlib

/-!
# telnetd (networking/telnetd.c, ATLAS build): buffers, telnet filter, protocol switch

Shallow embedding of the per-session ring buffers, `remove_iacs`, the
line-oriented protocol switch of `telnetd_main` and the crontab sink.

Conventions of the embedding

* a byte is a `Nat` (an `unsigned char` holds values below 256);
* the `int` fields of `struct tsession` are `Int`;
* each of the two buffers is a map from byte offset (relative to `TS_BUF1`,
  resp. `TS_BUF2`) to byte;
* `BUFSIZE` is `(4 * 1024 - sizeof(struct tsession)) / 2`, which depends on the
  ABI; it is a parameter of every definition that uses it;
* a C string is the list of its bytes in memory; the string functions read it up
  to the first NUL (or the end of the list, where the terminator stands);
* results of system calls are parameters of the step that makes the call.
-/

namespace Telnetd

/-! ## Constants -/

/-- Modelled from the spec: `IAC` of `<arpa/telnet.h>` (the header is not part of
the repository), the telnet command marker byte 0xFF. -/
def IAC : Nat := 255
/-- Modelled from the spec: `NOP` of `<arpa/telnet.h>`. -/
def NOP : Nat := 241
/-- Modelled from the spec: `SB` of `<arpa/telnet.h>`, start of sub-negotiation. -/
def SB : Nat := 250
/-- Modelled from the spec: `SE` of `<arpa/telnet.h>`, end of sub-negotiation. -/
def SE : Nat := 240
/-- Modelled from the spec: `DO` of `<arpa/telnet.h>`. -/
def DO : Nat := 253
/-- Modelled from the spec: `WILL` of `<arpa/telnet.h>`. -/
def WILL : Nat := 251
/-- Modelled from the spec: `TELOPT_ECHO` of `<arpa/telnet.h>`. -/
def TELOPT_ECHO : Nat := 1
/-- Modelled from the spec: `TELOPT_SGA` of `<arpa/telnet.h>`. -/
def TELOPT_SGA : Nat := 3
/-- Modelled from the spec: `TELOPT_NAWS` of `<arpa/telnet.h>`. -/
def TELOPT_NAWS : Nat := 31
/-- Modelled from the spec: `TELOPT_LFLOW` of `<arpa/telnet.h>`. -/
def TELOPT_LFLOW : Nat := 33

/-- The byte `'\r'`. -/
def CR : Nat := 13
/-- The byte `'\n'`. -/
def LF : Nat := 10
/-- The byte `'\0'`. -/
def NUL : Nat := 0

/-- Bytes of a string literal (without the terminating NUL). -/
def bytes (s : String) : List Nat := s.toList.map Char.toNat

/-! ## Memory -/

/-- One of the two buffers behind `struct tsession`: offset to byte. -/
abbrev Buf := Int → Nat

/-- The assignment `b[i] = v`. -/
def poke (b : Buf) (i : Int) (v : Nat) : Buf := fun j => if j = i then v else b j

/-- The call `memmove(b + dst, b + src, n)`: the source bytes are read before any is written. -/
def memmove (b : Buf) (dst src n : Int) : Buf :=
  fun j => if dst ≤ j ∧ j < dst + n then b (j - dst + src) else b j

/-- The call `memcpy(b + dst, src, n)` from a byte array outside the buffer. -/
def memcpy (b : Buf) (dst : Int) (src : List Nat) (n : Nat) : Buf :=
  fun j => if dst ≤ j ∧ j < dst + n then src.getD (j - dst).toNat 0 else b j

/-- The `n` bytes stored at offsets `start, start + 1, ...`. -/
def peek (b : Buf) (start : Int) (n : Nat) : List Nat :=
  (List.range n).map fun (k : Nat) => b (start + (k : Int))

/-! ## Sessions -/

/-- The protocol phase, `enum state`. -/
inductive state where
  | DO_TRADITIONAL
  | GET_LOGINNAME
  | GET_PASSWORD
  | GET_CMD
  | DO_CRONTAB
  | EOM_SEEN
  deriving DecidableEq, Repr

/-- The session record `struct tsession` with the two buffers that follow it in
memory (`TS_BUF1`, `TS_BUF2`). The link `next` is the registry's list. -/
structure tsession where
  sockfd_read : Int
  sockfd_write : Int
  ptyfd : Int
  shell_pid : Int
  state : state
  buf1 : Buf
  buf2 : Buf
  rdidx1 : Int
  wridx1 : Int
  size1 : Int
  rdidx2 : Int
  wridx2 : Int
  size2 : Int

/-- The fields of `struct winsize` that `remove_iacs` assigns. -/
structure winsize where
  ws_row : Nat
  ws_col : Nat
  deriving DecidableEq, Repr

/-! ## remove_iacs -/

/-- The call `ioctl(fd, TIOCSWINSZ, &ws)`, whose return value the source ignores, as far
as the window size of the session's pty goes (`cur` is that size before the call). Under
ATLAS `ptyfd` is 0 from `make_new_session` until `start_login` stores the master of the
pty it has opened (`free_session` tests `ptyfd != 0` before it closes it): with `fd = 0`
the request goes to descriptor 0, which is not the session's pty, and the size stays as
it is; on the master of the pty the request sets the size. -/
def tiocswinsz (fd : Int) (ws cur : winsize) : winsize :=
  if fd = 0 then cur else ws

/-- The local variables of the loop of `remove_iacs`, as offsets from `TS_BUF1`, with
what the loop reads and writes besides: the buffer, the window size of the session's
pty, and the descriptor `ts->ptyfd` that the loop passes to `ioctl`. -/
structure scan where
  buf : Buf
  ptr : Int
  totty : Int
  ws : winsize
  ptyfd : Int

/-- One pass through the body of `while (ptr < end)` in `remove_iacs`, entered with
`ptr < end`: `some` is the state at `continue` (or at the end of the body), `none`
is `break`. -/
def remove_iacs_body (end_ : Int) (s : scan) : Option scan :=
  if s.buf s.ptr ≠ IAC then
    let c := s.buf s.ptr
    let buf := poke s.buf s.totty c
    let totty := s.totty + 1
    let ptr := s.ptr + 1
    if c = CR ∧ ptr < end_ ∧ (buf ptr = LF ∨ buf ptr = NUL) then
      some { s with buf := buf, totty := totty, ptr := ptr + 1 }
    else
      some { s with buf := buf, totty := totty, ptr := ptr }
  else if s.ptr + 1 ≥ end_ then
    none
  else if s.buf (s.ptr + 1) = NOP then
    some { s with ptr := s.ptr + 2 }
  else if s.buf (s.ptr + 1) = IAC then
    some { s with buf := poke s.buf s.totty (s.buf (s.ptr + 1)), totty := s.totty + 1,
                  ptr := s.ptr + 2 }
  else if s.ptr + 2 ≥ end_ then
    none
  else if s.buf (s.ptr + 1) = SB ∧ s.buf (s.ptr + 2) = TELOPT_NAWS then
    if s.ptr + 8 ≥ end_ then
      none
    else
      let ws_col := ((s.buf (s.ptr + 3) <<< 8) ||| s.buf (s.ptr + 4)) % 65536
      let ws_row := ((s.buf (s.ptr + 5) <<< 8) ||| s.buf (s.ptr + 6)) % 65536
      some { s with ws := tiocswinsz s.ptyfd { ws_row := ws_row, ws_col := ws_col } s.ws,
                    ptr := s.ptr + 9 }
  else
    some { s with ptr := s.ptr + 3 }

/-- The loop `while (ptr < end)` of `remove_iacs`; every pass that continues moves
`ptr` forward, so `end - ptr` passes are enough (`remove_iacs_loop_exit`). -/
def remove_iacs_loop (end_ : Int) : Nat → scan → scan
  | 0, s => s
  | fuel + 1, s =>
    if s.ptr < end_ then
      match remove_iacs_body end_ s with
      | some s1 => remove_iacs_loop end_ fuel s1
      | none => s
    else s

/-- What `remove_iacs` hands back: the session, the offset of the returned pointer,
`*pnum_totty`, and the pty window size. -/
structure iacs_result where
  ts : tsession
  ptr : Int
  num_totty : Int
  ws : winsize

/-- The function `remove_iacs(ts, &num_totty)`. -/
def remove_iacs (BUFSIZE : Int) (ts : tsession) (ws : winsize) : iacs_result :=
  let ptr0 := ts.wridx1
  let end_ := ptr0 + min (BUFSIZE - ts.wridx1) ts.size1
  let s := remove_iacs_loop end_ (end_ - ptr0).toNat
    { buf := ts.buf1, ptr := ptr0, totty := ptr0, ws := ws, ptyfd := ts.ptyfd }
  let num_totty := s.totty - ptr0
  if s.ptr - s.totty = 0 then
    { ts := { ts with buf1 := s.buf }, ptr := ptr0, num_totty := num_totty, ws := s.ws }
  else
    { ts := { ts with buf1 := memmove s.buf (s.ptr - num_totty) ptr0 num_totty,
                      wridx1 := ts.wridx1 + (s.ptr - s.totty),
                      size1 := ts.size1 - (s.ptr - s.totty) },
      ptr := s.ptr - num_totty, num_totty := num_totty, ws := s.ws }

/-- The bytes `remove_iacs` asks the caller to write to the pty. -/
def iacs_result.totty (r : iacs_result) : List Nat := peek r.ts.buf1 r.ptr r.num_totty.toNat

/-- The span `remove_iacs` scans: `MIN(BUFSIZE - wridx1, size1)` bytes from `wridx1`. -/
def scanned_span (BUFSIZE : Int) (ts : tsession) : List Nat :=
  peek ts.buf1 ts.wridx1 (min (BUFSIZE - ts.wridx1) ts.size1).toNat

/-- The spec's mapping, in its own words: one left-to-right pass in which a CR
immediately followed by LF or NUL is replaced by that CR alone. -/
def collapse_cr : List Nat → List Nat
  | [] => []
  | [c] => [c]
  | c :: d :: rest =>
    if c = CR ∧ (d = LF ∨ d = NUL) then c :: collapse_cr rest
    else c :: collapse_cr (d :: rest)

/-- A buffer holding the given bytes from offset 0 (and NUL elsewhere). -/
def buf_of (l : List Nat) : Buf := fun j => if 0 ≤ j then l.getD j.toNat 0 else 0

/-- A session with empty buffer B, for examples. -/
def session_with (st : state) (b1 : List Nat) (rdidx1 wridx1 size1 : Int) : tsession :=
  { sockfd_read := 4, sockfd_write := 4, ptyfd := 0, shell_pid := 0, state := st,
    buf1 := buf_of b1, buf2 := buf_of [], rdidx1 := rdidx1, wridx1 := wridx1, size1 := size1,
    rdidx2 := 0, wridx2 := 0, size2 := 0 }

/-! ## Strings and literals of the ATLAS dialect -/

/-- The macro `LOGIN_PREFIX`. -/
def LOGIN_PREFIX : List Nat := bytes "(telnet) "
/-- The macro `LOGIN_PROMPT`. -/
def LOGIN_PROMPT : List Nat := bytes " login: "
/-- The macro `PASSWORD_PROMPT`. -/
def PASSWORD_PROMPT : List Nat := bytes "\r\nPassword: "
/-- The macro `ATLAS_LOGIN`. -/
def ATLAS_LOGIN : List Nat := bytes "C_TO_P_TEST_V1"
/-- The macro `ATLAS_PASSWORD`. -/
def ATLAS_PASSWORD : List Nat := bytes "vuurwerk19"
/-- The macro `SESSION_ID_PREFIX`. -/
def SESSION_ID_PREFIX : List Nat := bytes "SESSION_ID "
/-- The macro `CMD_CRONTAB`. -/
def CMD_CRONTAB : List Nat := bytes "CRONTAB "
/-- The macro `CMD_CRONLINE`. -/
def CMD_CRONLINE : List Nat := bytes "CRONLINE "
/-- The macro `CMD_ONEOFF`. -/
def CMD_ONEOFF : List Nat := bytes "ONEOFF"
/-- The macro `RESULT_OK`. -/
def RESULT_OK : List Nat := bytes "OK\r\n\r\n"
/-- The macro `BAD_PASSWORD`. -/
def BAD_PASSWORD : List Nat := bytes "BAD_PASSWORD\r\n\r\n"
/-- The macro `BAD_COMMAND`. -/
def BAD_COMMAND : List Nat := bytes "BAD_COMMAND\r\n\r\n"
/-- The macro `NAME_TOO_LONG`. -/
def NAME_TOO_LONG : List Nat := bytes "NAME_TOO_LONG\r\n\r\n"
/-- The macro `CRONTAB_BUSY`. -/
def CRONTAB_BUSY : List Nat := bytes "CRONTAB_BUSY\r\n\r\n"
/-- The macro `CREATE_FAILED`. -/
def CREATE_FAILED : List Nat := bytes "UNABLE_TO_CREATE_NEW_CRONTAB\r\n\r\n"
/-- The macro `IO_ERROR`. -/
def IO_ERROR : List Nat := bytes "IO_ERROR\r\n\r\n"
/-- The macro `CRONTAB_NEW_SUF`, that is `"/" CRONUSER ".new"`. -/
def CRONTAB_NEW_SUF : List Nat := bytes "/root.new"
/-- The macro `CRONTAB_SUFFIX`, that is `"/" CRONUSER`. -/
def CRONTAB_SUFFIX : List Nat := bytes "/root"
/-- The macro `CRONUPDATE`. -/
def CRONUPDATE : List Nat := bytes "/cron.update"
/-- The macro `UPDATELINE`, that is `CRONUSER "\n"`. -/
def UPDATELINE : List Nat := bytes "root\n"

/-- The C string held in a char array: the bytes before the first NUL. Strings that
are passed between functions are kept in this form, so `strlen` is the length. -/
def cstr (raw : List Nat) : List Nat := raw.takeWhile fun c => c ≠ NUL

/-- The test `strncmp(a, b, n) == 0` on C strings. -/
def strncmp_eq (a b : List Nat) (n : Nat) : Bool := a.take n = b.take n

/-- What `strlcpy(dst, src, size)` leaves in `dst`. -/
def strlcpy (src : List Nat) (size : Nat) : List Nat := src.take (size - 1)

/-- What `strlcat(dst, src, size)` leaves in `dst`. -/
def strlcat (dst src : List Nat) (size : Nat) : List Nat :=
  dst ++ src.take (size - 1 - dst.length)

/-- The call `memchr(b + start, c, n)`: offset of the first byte equal to `c`. -/
def memchr (b : Buf) (start : Int) (c : Nat) : Nat → Option Int
  | 0 => none
  | n + 1 => if b start = c then some start else memchr b (start + 1) c n

/-! ## Ring buffers -/

/-- Why a step does not come back: `abort()`; undefined behaviour (a memory access
outside the session's allocation, a use after `free`); `exit()`; and, in the model
only, `fuel`: the pass budget given to a loop was too small. -/
inductive fault where
  | abort
  | undefined
  | exit
  | fuel
  deriving DecidableEq, Repr

/-- The logical content of buffer A: `size1` bytes read circularly from `wridx1`. -/
def content1 (BUFSIZE : Int) (ts : tsession) : List Nat :=
  (List.range ts.size1.toNat).map fun (k : Nat) => ts.buf1 ((ts.wridx1 + (k : Int)) % BUFSIZE)

/-- The logical content of buffer B: `size2` bytes read circularly from `wridx2`. -/
def content2 (BUFSIZE : Int) (ts : tsession) : List Nat :=
  (List.range ts.size2.toNat).map fun (k : Nat) => ts.buf2 ((ts.wridx2 + (k : Int)) % BUFSIZE)

/-- The bounds of the spec's data model: occupancy in `[0, BUFSIZE]`, cursors in
`[0, BUFSIZE)`, for both buffers. -/
def ring_bounds (BUFSIZE : Int) (ts : tsession) : Prop :=
  (0 ≤ ts.size1 ∧ ts.size1 ≤ BUFSIZE) ∧ (0 ≤ ts.rdidx1 ∧ ts.rdidx1 < BUFSIZE) ∧
  (0 ≤ ts.wridx1 ∧ ts.wridx1 < BUFSIZE) ∧
  (0 ≤ ts.size2 ∧ ts.size2 ≤ BUFSIZE) ∧ (0 ≤ ts.rdidx2 ∧ ts.rdidx2 < BUFSIZE) ∧
  (0 ≤ ts.wridx2 ∧ ts.wridx2 < BUFSIZE)

instance (BUFSIZE : Int) (ts : tsession) : Decidable (ring_bounds BUFSIZE ts) := by
  unfold ring_bounds
  infer_instance

/-- The same bounds with the cursors allowed to stand at `BUFSIZE`, one past the last
byte, where the source leaves them without wrapping. -/
def ring_bounds_incl (BUFSIZE : Int) (ts : tsession) : Prop :=
  (0 ≤ ts.size1 ∧ ts.size1 ≤ BUFSIZE) ∧ (0 ≤ ts.rdidx1 ∧ ts.rdidx1 ≤ BUFSIZE) ∧
  (0 ≤ ts.wridx1 ∧ ts.wridx1 ≤ BUFSIZE) ∧
  (0 ≤ ts.size2 ∧ ts.size2 ≤ BUFSIZE) ∧ (0 ≤ ts.rdidx2 ∧ ts.rdidx2 ≤ BUFSIZE) ∧
  (0 ≤ ts.wridx2 ∧ ts.wridx2 ≤ BUFSIZE)

instance (BUFSIZE : Int) (ts : tsession) : Decidable (ring_bounds_incl BUFSIZE ts) := by
  unfold ring_bounds_incl
  infer_instance

/-- The function `pack_4sock()`: not implemented, it aborts. -/
def pack_4sock : Except fault Unit := Except.error fault.abort

/-- The function `add_2sock(ts, str)`; `str` is the C string, `len` its `strlen`.
The two comparisons are made in `size_t`; they agree with the integer ones for
the non-negative `size2` and `rdidx2` of a session. -/
def add_2sock (BUFSIZE : Int) (ts : tsession) (str : List Nat) : Except fault tsession :=
  let len := str.length
  if ts.size2 + len > BUFSIZE then
    Except.error fault.abort
  else
    match (if ts.rdidx2 + len > BUFSIZE then pack_4sock else Except.ok ()) with
    | Except.error e => Except.error e
    | Except.ok _ =>
      Except.ok { ts with buf2 := memcpy ts.buf2 ts.rdidx2 str len,
                          rdidx2 := ts.rdidx2 + len,
                          size2 := ts.size2 + len }

/-- The function `pack_2pty(ts)`. The lengths `size_hi` and `size_lo` are `size_t`:
when one of them would be negative it wraps to a huge value and `memmove` leaves
the allocation, and with `size1 > BUFSIZE` the first `memmove` writes past buffer A. -/
def pack_2pty (BUFSIZE : Int) (ts : tsession) : Except fault tsession :=
  let size1 := ts.size1
  let wridx1 := ts.wridx1
  let size_hi := BUFSIZE - wridx1
  let size_lo := size1 - size_hi
  if wridx1 < 0 ∨ size_hi < 0 ∨ size_lo < 0 ∨ size1 > BUFSIZE then
    Except.error fault.undefined
  else
    let buf := memmove ts.buf1 size_hi 0 size_lo
    let buf := memmove buf 0 wridx1 size_hi
    Except.ok { ts with buf1 := buf, wridx1 := 0, rdidx1 := size1 }

/-- The function `getline_2pty(ts)`: the session afterwards and the returned C
string (`none` is `NULL`). -/
def getline_2pty (BUFSIZE : Int) (ts : tsession) :
    Except fault (tsession × Option (List Nat)) :=
  let size1 := ts.size1
  match (if ts.wridx1 + size1 > BUFSIZE then pack_2pty BUFSIZE ts else Except.ok ts) with
  | Except.error e => Except.error e
  | Except.ok ts =>
    let cp := memchr ts.buf1 ts.wridx1 CR size1.toNat
    let cp2 := memchr ts.buf1 ts.wridx1 LF size1.toNat
    let patched : Buf × Option Int :=
      match cp2, cp with
      | some q, none => (poke ts.buf1 q CR, some q)
      | some q, some p => if q < p then (poke ts.buf1 q CR, some q) else (ts.buf1, some p)
      | none, cp => (ts.buf1, cp)
    match patched.2 with
    | none => Except.ok ({ ts with buf1 := patched.1 }, none)
    | some p =>
      let len := p - ts.wridx1 + 1
      let line := cstr (peek patched.1 ts.wridx1 len.toNat)
      let ts := { ts with buf1 := patched.1, wridx1 := ts.wridx1 + len,
                          size1 := ts.size1 - len }
      if CR ∈ line ∧ line.indexOf CR + 1 = line.length then
        Except.ok (ts, some (line.take (line.indexOf CR)))
      else
        Except.ok (ts, none)

/-- The line `getline_2pty` returns, if it returns one. -/
def extracted_line (BUFSIZE : Int) (ts : tsession) : Option (List Nat) :=
  match getline_2pty BUFSIZE ts with
  | Except.ok (_, some line) => some line
  | _ => none

/-- The session as `getline_2pty` leaves it. -/
def after_getline (BUFSIZE : Int) (ts : tsession) : tsession :=
  match getline_2pty BUFSIZE ts with
  | Except.ok (ts1, _) => ts1
  | Except.error _ => ts

/-- Buffer B is a well-formed ring: occupancy and `wridx2` within bounds, and `rdidx2`
at the end of the queued bytes (at `wridx2 + size2`, wrapped or not). -/
def ring2_ok (BUFSIZE : Int) (ts : tsession) : Prop :=
  0 ≤ ts.size2 ∧ (0 ≤ ts.wridx2 ∧ ts.wridx2 < BUFSIZE) ∧ 0 ≤ ts.rdidx2 ∧
  (ts.rdidx2 = ts.wridx2 + ts.size2 ∨ ts.rdidx2 = ts.wridx2 + ts.size2 - BUFSIZE)

instance (BUFSIZE : Int) (ts : tsession) : Decidable (ring2_ok BUFSIZE ts) := by
  unfold ring2_ok
  infer_instance

/-- Buffer B can take `len` more bytes at `rdidx2` without `add_2sock` aborting. -/
def room2 (BUFSIZE : Int) (ts : tsession) (len : Nat) : Prop :=
  ts.size2 + len ≤ BUFSIZE ∧ ts.rdidx2 + len ≤ BUFSIZE

instance (BUFSIZE : Int) (ts : tsession) (len : Nat) : Decidable (room2 BUFSIZE ts len) := by
  unfold room2
  infer_instance

/-- The fields of a session that `remove_iacs`, `pack_2pty` and `getline_2pty` leave
alone: the phase, the descriptors, and buffer B with its cursors. -/
def same_side2 (a b : tsession) : Prop :=
  a.state = b.state ∧ a.buf2 = b.buf2 ∧ a.rdidx2 = b.rdidx2 ∧ a.wridx2 = b.wridx2 ∧
  a.size2 = b.size2 ∧ a.ptyfd = b.ptyfd ∧ a.shell_pid = b.shell_pid ∧
  a.sockfd_read = b.sockfd_read ∧ a.sockfd_write = b.sockfd_write

/-- A byte string that can stand inside one line: no CR, no LF, no NUL. -/
def line_clean (l : List Nat) : Prop := ∀ c ∈ l, c ≠ CR ∧ c ≠ LF ∧ c ≠ NUL

instance (l : List Nat) : Decidable (line_clean l) := by
  unfold line_clean
  infer_instance

/-! ## The steps of the event loop on one session -/

/-- What `safe_write` returned: a count, or -1 with `errno == EAGAIN`, or -1 with
another error. -/
inductive write_result where
  | wrote (count : Nat)
  | eagain
  | failed
  deriving DecidableEq, Repr

/-- What `safe_read` returned: the bytes stored (none at all for 0, end of file),
or -1 with `errno == EAGAIN`, or -1 with another error. -/
inductive read_result where
  | got (data : List Nat)
  | eagain
  | failed
  deriving DecidableEq, Repr

/-- Where a step of the loop body goes next. -/
inductive jump where
  | next
  | kill_session
  deriving DecidableEq, Repr

/-- "Write to pty from buffer 1": `remove_iacs`, `safe_write` of the returned region,
cursor update with wrap to 0. -/
def drain_pty (BUFSIZE : Int) (ts : tsession) (ws : winsize) (w : write_result) :
    tsession × winsize × jump :=
  let r := remove_iacs BUFSIZE ts ws
  match w with
  | write_result.eagain => (r.ts, r.ws, jump.next)
  | write_result.failed => (r.ts, r.ws, jump.kill_session)
  | write_result.wrote count =>
    let ts := { r.ts with size1 := r.ts.size1 - count, wridx1 := r.ts.wridx1 + count }
    let ts := if ts.wridx1 ≥ BUFSIZE then { ts with wridx1 := 0 } else ts
    (ts, r.ws, jump.next)

/-- The count asked of `safe_write` in "Write to socket from buffer 2". -/
def drain_sock_request (BUFSIZE : Int) (ts : tsession) : Int :=
  min (BUFSIZE - ts.wridx2) ts.size2

/-- "Write to socket from buffer 2". -/
def drain_sock (BUFSIZE : Int) (ts : tsession) (w : write_result) : tsession × jump :=
  match w with
  | write_result.eagain => (ts, jump.next)
  | write_result.failed => (ts, jump.kill_session)
  | write_result.wrote count =>
    let ts := { ts with size2 := ts.size2 - count, wridx2 := ts.wridx2 + count }
    let ts := if ts.wridx2 ≥ BUFSIZE then { ts with wridx2 := 0 } else ts
    (ts, jump.next)

/-- The reset of the cursors of a buffer that holds nothing. -/
def reset_cursors (ts : tsession) : tsession :=
  let ts := if ts.size1 = 0 then { ts with rdidx1 := 0, wridx1 := 0 } else ts
  if ts.size2 = 0 then { ts with rdidx2 := 0, wridx2 := 0 } else ts

/-- The count asked of `safe_read` in "Read from socket to buffer 1". -/
def read_sock_request (BUFSIZE : Int) (ts : tsession) : Int :=
  min (BUFSIZE - ts.rdidx1) (BUFSIZE - ts.size1)

/-- "Read from socket to buffer 1", with the `pack_2pty` before it and the drop of a
trailing NUL. -/
def read_sock (BUFSIZE : Int) (ts : tsession) (r : read_result) :
    Except fault (tsession × jump) :=
  match (if ts.rdidx1 ≥ BUFSIZE ∧ ts.size1 < BUFSIZE then pack_2pty BUFSIZE ts
         else Except.ok ts) with
  | Except.error e => Except.error e
  | Except.ok ts =>
    match r with
    | read_result.eagain => Except.ok (ts, jump.next)
    | read_result.failed => Except.ok (ts, jump.kill_session)
    | read_result.got data =>
      let count : Int := data.length
      if count ≤ 0 then Except.ok (ts, jump.kill_session)
      else
        let buf := memcpy ts.buf1 ts.rdidx1 data data.length
        let count := if buf (ts.rdidx1 + count - 1) = NUL then count - 1 else count
        let ts := { ts with buf1 := buf, size1 := ts.size1 + count,
                            rdidx1 := ts.rdidx1 + count }
        let ts := if ts.rdidx1 ≥ BUFSIZE then { ts with rdidx1 := 0 } else ts
        Except.ok (ts, jump.next)

/-- The count asked of `safe_read` in "Read from pty to buffer 2". -/
def read_pty_request (BUFSIZE : Int) (ts : tsession) : Int :=
  min (BUFSIZE - ts.rdidx2) (BUFSIZE - ts.size2)

/-- "Read from pty to buffer 2". -/
def read_pty (BUFSIZE : Int) (ts : tsession) (r : read_result) : tsession × jump :=
  match r with
  | read_result.eagain => (ts, jump.next)
  | read_result.failed => (ts, jump.kill_session)
  | read_result.got data =>
    let count : Int := data.length
    if count ≤ 0 then (ts, jump.kill_session)
    else
      let ts := { ts with buf2 := memcpy ts.buf2 ts.rdidx2 data data.length,
                          size2 := ts.size2 + count, rdidx2 := ts.rdidx2 + count }
      let ts := if ts.rdidx2 ≥ BUFSIZE then { ts with rdidx2 := 0 } else ts
      (ts, jump.next)

/-! ## The world outside the session: statics, files, the login spawner -/

/-- The file system as the crontab sink uses it: path to content. -/
structure fsys where
  files : List Nat → Option (List Nat)

/-- The file at `p` holds `c`. -/
def fsys.store (fs : fsys) (p c : List Nat) : fsys :=
  { files := fun q => if q = p then some c else fs.files q }

/-- The file at `p` is gone. -/
def fsys.remove (fs : fsys) (p : List Nat) : fsys :=
  { files := fun q => if q = p then none else fs.files q }

/-- A successful `write` through a descriptor opened `O_WRONLY|O_CREAT|O_APPEND`. -/
def fsys.append (fs : fsys) (p data : List Nat) : fsys :=
  fs.store p ((fs.files p).getD [] ++ data)

/-- A successful `rename(a, b)`. -/
def fsys.rename (fs : fsys) (a b : List Nat) : fsys :=
  { files := fun q => if q = b then fs.files a else if q = a then none else fs.files q }

/-- A stdio stream opened for writing, known by the path it was opened with. Output
is taken to reach the file as it is written (no user-space buffering). -/
structure FILE where
  name : List Nat
  deriving DecidableEq, Repr

/-- The statics `atlas_crontab`, `atlas_dirname`, `atlas_ts` (a session is known by
its address), the file system, and the identities handed to `start_login`. -/
structure world where
  atlas_crontab : Option FILE
  atlas_dirname : List Nat
  atlas_ts : Option Nat
  fs : fsys
  login_requests : List (List Nat)

/-- What `xgetpty` and `vfork` do in `start_login`, seen from the parent. -/
inductive spawn_result where
  | no_pty
  | vfork_failed (fd : Int)
  | parent (fd : Int) (pid : Int)
  deriving DecidableEq, Repr

/-- The results of the system calls a protocol step makes. -/
structure sysenv where
  /-- readable content of `ATLAS_SESSION_FILE`, `none` when `fopen` fails -/
  session_file : Option (List Nat)
  /-- `safe_gethostname()` -/
  hostname : List Nat
  /-- `xgetpty` and `vfork` for the given user -/
  spawn : List Nat → spawn_result
  /-- `fopen(path, "w")` succeeds -/
  fopen_ok : List Nat → Bool
  /-- `fputs(line, stream)` succeeds -/
  fputs_ok : List Nat → List Nat → Bool
  /-- `fputc('\n', stream)` succeeds -/
  fputc_ok : List Nat → Bool
  /-- `fclose(stream)` succeeds -/
  fclose_ok : List Nat → Bool
  /-- `rename(from, to)` succeeds -/
  rename_ok : List Nat → List Nat → Bool
  /-- `open(path, O_WRONLY|O_CREAT|O_APPEND, 0600)` succeeds -/
  open_ok : List Nat → Bool
  /-- `write(fd, UPDATELINE, len)` writes all of it -/
  write_ok : List Nat → Bool
  /-- `fstat(fd, &st)` succeeds -/
  fstat_ok : List Nat → Bool
  /-- how many times in a row the reload file is found unlinked (`st_nlink == 0`) -/
  unlink_races : Nat

/-- What `fgets(line, size, file)` stores, on a file with the given content read from
its start: at most `size - 1` bytes, through the first newline. -/
def fgets_bytes : Nat → List Nat → List Nat
  | 0, _ => []
  | _ + 1, [] => []
  | n + 1, c :: rest => if c = LF then [c] else c :: fgets_bytes n rest

/-- The call `fgets(line, size, file)`: `none` is `NULL` (nothing to read). -/
def fgets (size : Nat) (content : List Nat) : Option (List Nat) :=
  if content = [] then none else some (fgets_bytes (size - 1) content)

/-- The function `equal_sessionid(passwd)`. -/
def equal_sessionid (env : sysenv) (passwd : List Nat) : Bool :=
  match env.session_file with
  | none => false
  | some content =>
    match fgets 80 content with
    | none => false
    | some raw =>
      let line := cstr raw
      let len := SESSION_ID_PREFIX.length
      if line.length < len then false
      else if line.take len ≠ SESSION_ID_PREFIX then false
      else if LF ∉ line then false
      else
        let line := line.take (line.indexOf LF)
        if line.drop len = passwd then true else false

/-- The function `start_login(ts, user)` in the parent: the session, the world and
the return value. When `vfork` fails the session record has been freed. -/
def start_login (env : sysenv) (ts : tsession) (w : world) (user : List Nat) :
    Except fault (tsession × world × Int) :=
  let w := { w with login_requests := w.login_requests ++ [user] }
  match env.spawn user with
  | spawn_result.no_pty => Except.error fault.exit
  | spawn_result.vfork_failed fd => Except.ok ({ ts with ptyfd := fd }, w, -1)
  | spawn_result.parent fd pid => Except.ok ({ ts with ptyfd := fd, shell_pid := pid }, w, 0)

/-! ## The crontab sink -/

/-- The function `start_crontab(ts, line)`. -/
def start_crontab (BUFSIZE : Int) (env : sysenv) (ts : tsession) (w : world)
    (line : List Nat) : Except fault (tsession × world × Int) :=
  if w.atlas_crontab.isSome then
    match add_2sock BUFSIZE ts CRONTAB_BUSY with
    | Except.error e => Except.error e
    | Except.ok ts => Except.ok (ts, w, -1)
  else
    let cp := line.drop CMD_CRONTAB.length
    let len := cp.length
    if len + 1 > 256 then
      match add_2sock BUFSIZE ts NAME_TOO_LONG with
      | Except.error e => Except.error e
      | Except.ok ts => Except.ok (ts, w, -1)
    else
      let w := { w with atlas_dirname := strlcpy cp 256 }
      if len + CRONTAB_NEW_SUF.length + 1 > 256 then
        match add_2sock BUFSIZE ts NAME_TOO_LONG with
        | Except.error e => Except.error e
        | Except.ok ts => Except.ok (ts, w, -1)
      else
        let filename := strlcat (strlcpy w.atlas_dirname 256) CRONTAB_NEW_SUF 256
        if env.fopen_ok filename then
          Except.ok (ts, { w with atlas_crontab := some { name := filename },
                                  fs := w.fs.store filename [] }, 0)
        else
          match add_2sock BUFSIZE ts CREATE_FAILED with
          | Except.error e => Except.error e
          | Except.ok ts => Except.ok (ts, w, -1)

/-- The function `add_to_crontab(ts, line)`. -/
def add_to_crontab (BUFSIZE : Int) (env : sysenv) (ts : tsession) (w : world)
    (line : List Nat) : Except fault (tsession × world) :=
  match w.atlas_crontab with
  | none => Except.ok (ts, w)
  | some f =>
    if env.fputs_ok f.name line then
      let w := { w with fs := w.fs.append f.name line }
      if env.fputc_ok f.name then
        Except.ok (ts, { w with fs := w.fs.append f.name [LF] })
      else
        match add_2sock BUFSIZE ts IO_ERROR with
        | Except.error e => Except.error e
        | Except.ok ts => Except.ok (ts, { w with atlas_crontab := none })
    else
      match add_2sock BUFSIZE ts IO_ERROR with
      | Except.error e => Except.error e
      | Except.ok ts => Except.ok (ts, { w with atlas_crontab := none })

/-- How the loop `while (fd = open(...), fd >= 0)` of `end_crontab` ends. -/
inductive reload_end where
  | done
  | io_error
  | open_failed
  deriving DecidableEq, Repr

/-- The loop `while (fd = open(filename1, O_WRONLY|O_CREAT|O_APPEND, 0600), fd >= 0)`
of `end_crontab`; `races` counts the passes that still find the file unlinked. -/
def reload_loop (env : sysenv) (filename1 : List Nat) : Nat → fsys → fsys × reload_end
  | races, fs =>
    if env.open_ok filename1 then
      if env.write_ok filename1 then
        let fs1 := fs.append filename1 UPDATELINE
        if env.fstat_ok filename1 then
          match races with
          | 0 => (fs1, reload_end.done)
          | n + 1 => reload_loop env filename1 n (fs1.remove filename1)
        else (fs1, reload_end.io_error)
      else (fs, reload_end.io_error)
    else (fs, reload_end.open_failed)

/-- The function `end_crontab(ts)`. -/
def end_crontab (BUFSIZE : Int) (env : sysenv) (ts : tsession) (w : world) :
    Except fault (tsession × world) :=
  match w.atlas_crontab with
  | none => Except.ok (ts, w)
  | some f =>
    let w := { w with atlas_crontab := none }
    if ¬ env.fclose_ok f.name then
      match add_2sock BUFSIZE ts IO_ERROR with
      | Except.error e => Except.error e
      | Except.ok ts => Except.ok (ts, w)
    else
      let len := w.atlas_dirname.length
      if len + CRONTAB_NEW_SUF.length + 1 > 256 then
        match add_2sock BUFSIZE ts NAME_TOO_LONG with
        | Except.error e => Except.error e
        | Except.ok ts => Except.ok (ts, w)
      else
        let filename1 := strlcat (strlcpy w.atlas_dirname 256) CRONTAB_NEW_SUF 256
        if len + CRONTAB_SUFFIX.length + 1 > 256 then
          match add_2sock BUFSIZE ts NAME_TOO_LONG with
          | Except.error e => Except.error e
          | Except.ok ts => Except.ok (ts, w)
        else
          let filename2 := strlcat (strlcpy w.atlas_dirname 256) CRONTAB_SUFFIX 256
          if ¬ env.rename_ok filename1 filename2 then
            match add_2sock BUFSIZE ts IO_ERROR with
            | Except.error e => Except.error e
            | Except.ok ts => Except.ok (ts, w)
          else
            let w := { w with fs := w.fs.rename filename1 filename2 }
            if w.atlas_dirname.length + CRONUPDATE.length + 1 > 256 then
              match add_2sock BUFSIZE ts NAME_TOO_LONG with
              | Except.error e => Except.error e
              | Except.ok ts => Except.ok (ts, w)
            else
              let filename1 := strlcat (strlcpy w.atlas_dirname 256) CRONUPDATE 256
              let r := reload_loop env filename1 env.unlink_races w.fs
              let w := { w with fs := r.1 }
              match r.2 with
              | reload_end.done => Except.ok (ts, w)
              | reload_end.io_error =>
                match add_2sock BUFSIZE ts IO_ERROR with
                | Except.error e => Except.error e
                | Except.ok ts => Except.ok (ts, w)
              | reload_end.open_failed =>
                match add_2sock BUFSIZE ts CREATE_FAILED with
                | Except.error e => Except.error e
                | Except.ok ts => Except.ok (ts, w)

/-! ## The protocol switch of `telnetd_main` -/

/-- The label a pass through `switch(ts->state)` jumps to. -/
inductive target where
  | skip3
  | skip3a
  | kill_session
  deriving DecidableEq, Repr

/-- What a pass through the switch works on: the session, the world, and the window
size of the session's pty. -/
structure machine where
  ts : tsession
  w : world
  ws : winsize

/-- The function `do_oneoff(ts, line)`: it only logs. -/
def do_oneoff (ts : tsession) (_line : List Nat) : tsession := ts

/-- The code from the label `do_cmd` to the end of `case GET_CMD`. -/
def do_cmd (BUFSIZE : Int) (env : sysenv) (m : machine) (line : List Nat) :
    Except fault (machine × target) :=
  if strncmp_eq line CMD_CRONTAB CMD_CRONTAB.length then
    match start_crontab BUFSIZE env m.ts m.w line with
    | Except.error e => Except.error e
    | Except.ok (ts, w, r) =>
      if r = -1 then Except.ok ({ m with ts := ts, w := w }, target.skip3)
      else Except.ok ({ m with ts := { ts with state := state.DO_CRONTAB }, w := w },
                      target.skip3)
  else if strncmp_eq line CMD_ONEOFF CMD_ONEOFF.length then
    Except.ok ({ m with ts := do_oneoff m.ts line }, target.skip3)
  else if line.length = 0 then
    match add_2sock BUFSIZE m.ts RESULT_OK with
    | Except.error e => Except.error e
    | Except.ok ts => Except.ok ({ m with ts := { ts with state := state.EOM_SEEN } },
                                 target.skip3)
  else
    match add_2sock BUFSIZE m.ts BAD_COMMAND with
    | Except.error e => Except.error e
    | Except.ok ts => Except.ok ({ m with ts := ts }, target.skip3a)

/-- The window size of the pty `xgetpty` has just opened in `start_login`: a new pty has
0 rows and 0 columns until a `TIOCSWINSZ` request reaches it. -/
def new_pty_ws : winsize := ⟨0, 0⟩

/-- One pass through `switch(ts->state)` for the session at address `self`, from the
label `skip3` to the next jump. In `case GET_LOGINNAME`, a failed `start_login` has
freed the session record before `kill_session` uses it; after a successful one the
session's pty is the new one, with the window size of a new pty. -/
def dispatch (BUFSIZE : Int) (env : sysenv) (self : Nat) (m : machine) :
    Except fault (machine × target) :=
  match m.ts.state with
  | state.DO_TRADITIONAL => Except.ok (m, target.skip3a)
  | state.GET_LOGINNAME =>
    let r := remove_iacs BUFSIZE m.ts m.ws
    match getline_2pty BUFSIZE r.ts with
    | Except.error e => Except.error e
    | Except.ok (ts, none) => Except.ok ({ m with ts := ts, ws := r.ws }, target.skip3a)
    | Except.ok (ts, some line) =>
      if line = ATLAS_LOGIN then
        match add_2sock BUFSIZE ts PASSWORD_PROMPT with
        | Except.error e => Except.error e
        | Except.ok ts =>
          Except.ok ({ m with ts := { ts with state := state.GET_PASSWORD }, ws := r.ws },
                     target.skip3)
      else
        match add_2sock BUFSIZE ts line with
        | Except.error e => Except.error e
        | Except.ok ts =>
          match start_login env ts m.w line with
          | Except.error e => Except.error e
          | Except.ok (ts, w, rc) =>
            if rc = -1 then Except.error fault.undefined
            else
              Except.ok ({ ts := { ts with state := state.DO_TRADITIONAL }, w := w,
                           ws := new_pty_ws }, target.skip3a)
  | state.GET_PASSWORD =>
    match getline_2pty BUFSIZE m.ts with
    | Except.error e => Except.error e
    | Except.ok (ts, none) => Except.ok ({ m with ts := ts }, target.skip3a)
    | Except.ok (ts, some line) =>
      if equal_sessionid env line ∨ line = ATLAS_PASSWORD then
        let w := if m.w.atlas_ts.isSome then
            (if m.w.atlas_crontab.isSome then { m.w with atlas_crontab := none } else m.w)
          else m.w
        let w := { w with atlas_ts := some self }
        Except.ok ({ m with ts := { ts with state := state.GET_CMD }, w := w },
                   target.skip3)
      else
        match add_2sock BUFSIZE ts BAD_PASSWORD with
        | Except.error e => Except.error e
        | Except.ok ts => Except.ok ({ m with ts := ts }, target.skip3)
  | state.GET_CMD =>
    if m.w.atlas_ts ≠ some self then Except.ok (m, target.kill_session)
    else
      match getline_2pty BUFSIZE m.ts with
      | Except.error e => Except.error e
      | Except.ok (ts, none) => Except.ok ({ m with ts := ts }, target.skip3a)
      | Except.ok (ts, some line) => do_cmd BUFSIZE env { m with ts := ts } line
  | state.DO_CRONTAB =>
    if m.w.atlas_ts ≠ some self then Except.ok (m, target.kill_session)
    else
      match getline_2pty BUFSIZE m.ts with
      | Except.error e => Except.error e
      | Except.ok (ts, none) => Except.ok ({ m with ts := ts }, target.skip3a)
      | Except.ok (ts, some line) =>
        if ¬ strncmp_eq line CMD_CRONLINE CMD_CRONLINE.length then
          match end_crontab BUFSIZE env ts m.w with
          | Except.error e => Except.error e
          | Except.ok (ts, w) =>
            do_cmd BUFSIZE env { m with ts := { ts with state := state.GET_CMD }, w := w }
              line
        else
          match add_to_crontab BUFSIZE env ts m.w (line.drop CMD_CRONLINE.length) with
          | Except.error e => Except.error e
          | Except.ok (ts, w) => Except.ok ({ m with ts := ts, w := w }, target.skip3)
  | state.EOM_SEEN =>
    if m.w.atlas_ts ≠ some self then Except.ok (m, target.kill_session)
    else
      match getline_2pty BUFSIZE m.ts with
      | Except.error e => Except.error e
      | Except.ok (ts, none) => Except.ok ({ m with ts := ts }, target.skip3a)
      | Except.ok (ts, some _) =>
        match add_2sock BUFSIZE ts BAD_COMMAND with
        | Except.error e => Except.error e
        | Except.ok ts => Except.ok ({ m with ts := ts }, target.skip3)

/-- The switch with its jumps back to `skip3`, for at most `fuel` passes: it ends at
`skip3a` (`jump.next`) or at `kill_session`. -/
def protocol_switch (BUFSIZE : Int) (env : sysenv) (self : Nat) :
    Nat → machine → Except fault (machine × jump)
  | 0, _ => Except.error fault.fuel
  | fuel + 1, m =>
    match dispatch BUFSIZE env self m with
    | Except.error e => Except.error e
    | Except.ok (m, target.skip3) => protocol_switch BUFSIZE env self fuel m
    | Except.ok (m, target.skip3a) => Except.ok (m, jump.next)
    | Except.ok (m, target.kill_session) => Except.ok (m, jump.kill_session)

/-- The protocol step of one session in one iteration of the event loop: every jump
back to `skip3` follows a line taken from buffer A, so `size1 + 1` passes are enough. -/
def protocol_step (BUFSIZE : Int) (env : sysenv) (self : Nat) (m : machine) :
    Except fault (machine × jump) :=
  protocol_switch BUFSIZE env self (m.ts.size1.toNat + 1) m

/-! ## The registry -/

/-- A session in the list `sessions`: its address, its record, and the window size of
its pty. -/
structure entry where
  addr : Nat
  ts : tsession
  ws : winsize

/-- The process: the list `sessions` (head first), `maxfd`, and the world. -/
structure server where
  sessions : List entry
  maxfd : Int
  w : world

/-- The scan "find new maxfd" at the end of `free_session`. -/
def new_maxfd : List entry → Int → Int
  | [], maxfd => maxfd
  | e :: rest, maxfd =>
    let maxfd := if maxfd < e.ts.ptyfd then e.ts.ptyfd else maxfd
    let maxfd := if maxfd < e.ts.sockfd_read then e.ts.sockfd_read else maxfd
    new_maxfd rest maxfd

/-- The function `free_session(ts)` for the session at address `self`; `inetd` is
`option_mask32 & OPT_INETD`. -/
def free_session (inetd : Bool) (srv : server) (self : Nat) : Except fault server :=
  if inetd then Except.error fault.exit
  else
    let sessions := srv.sessions.filter fun e => e.addr ≠ self
    Except.ok { srv with sessions := sessions, maxfd := new_maxfd sessions 0 }

/-- The code at the label `kill_session`. -/
def kill_session (inetd : Bool) (srv : server) (self : Nat) : Except fault server :=
  let w := if srv.w.atlas_ts = some self then
      { (if srv.w.atlas_crontab.isSome then { srv.w with atlas_crontab := none } else srv.w)
        with atlas_ts := none }
    else srv.w
  free_session inetd { srv with w := w } self

/-- The function `make_new_session(sock)`: memory from `xzalloc` is zero. -/
def make_new_session (sock : Int) : tsession :=
  let iacs_to_send : List Nat :=
    [IAC, DO, TELOPT_ECHO, IAC, DO, TELOPT_NAWS, IAC, DO, TELOPT_LFLOW,
     IAC, WILL, TELOPT_ECHO, IAC, WILL, TELOPT_SGA]
  { sockfd_read := sock, sockfd_write := if sock = 0 then sock + 1 else sock, ptyfd := 0,
    shell_pid := 0, state := state.GET_LOGINNAME,
    buf1 := fun _ => 0, buf2 := memcpy (fun _ => 0) 0 iacs_to_send iacs_to_send.length,
    rdidx1 := 0, wridx1 := 0, size1 := 0,
    rdidx2 := iacs_to_send.length, wridx2 := 0, size2 := iacs_to_send.length }

/-! ## One session in one iteration of the event loop -/

/-- What `select` and the system calls give one session in one iteration: the two
descriptor sets after `select`, and the result of each transfer it may try. -/
structure session_io where
  rdfdset : Int → Bool
  wrfdset : Int → Bool
  pty_write : write_result
  sock_write : write_result
  sock_read : read_result
  pty_read : read_result

/-- The body of the loop "For all sessions..." from the write to the pty to the
label `skip4`, for the session at address `self`: `jump.next` is `ts = next;
continue`, `jump.kill_session` the label of that name. -/
def session_pass (BUFSIZE : Int) (env : sysenv) (self : Nat) (io : session_io)
    (m : machine) : Except fault (machine × jump) :=
  let a : machine × jump :=
    if io.wrfdset m.ts.ptyfd then
      let r := drain_pty BUFSIZE m.ts m.ws io.pty_write
      ({ m with ts := r.1, ws := r.2.1 }, r.2.2)
    else (m, jump.next)
  match a with
  | (m, jump.kill_session) => Except.ok (m, jump.kill_session)
  | (m, jump.next) =>
    let b : tsession × jump :=
      if io.wrfdset m.ts.sockfd_write then drain_sock BUFSIZE m.ts io.sock_write
      else (m.ts, jump.next)
    match b with
    | (ts, jump.kill_session) => Except.ok ({ m with ts := ts }, jump.kill_session)
    | (ts, jump.next) =>
      let ts := reset_cursors ts
      match (if io.rdfdset ts.sockfd_read then read_sock BUFSIZE ts io.sock_read
             else Except.ok (ts, jump.next)) with
      | Except.error e => Except.error e
      | Except.ok (ts, jump.kill_session) => Except.ok ({ m with ts := ts }, jump.kill_session)
      | Except.ok (ts, jump.next) =>
        match protocol_step BUFSIZE env self { m with ts := ts } with
        | Except.error e => Except.error e
        | Except.ok (m, jump.kill_session) => Except.ok (m, jump.kill_session)
        | Except.ok (m, jump.next) =>
          if io.rdfdset m.ts.ptyfd then
            let r := read_pty BUFSIZE m.ts io.pty_read
            Except.ok ({ m with ts := r.1 }, r.2)
          else Except.ok (m, jump.next)

/-- One turn of the loop "For all sessions..." for the listed session `e`: the pass,
then either the record is stored back or the session is killed. -/
def serve_session (BUFSIZE : Int) (env : sysenv) (inetd : Bool) (io : session_io)
    (srv : server) (e : entry) : Except fault server :=
  match session_pass BUFSIZE env e.addr io { ts := e.ts, w := srv.w, ws := e.ws } with
  | Except.error f => Except.error f
  | Except.ok (m, jump.next) =>
    Except.ok { srv with
      w := m.w,
      sessions := srv.sessions.map fun x =>
        if x.addr = e.addr then { x with ts := m.ts, ws := m.ws } else x }
  | Except.ok (m, jump.kill_session) => kill_session inetd { srv with w := m.w } e.addr

/-! ## Examples -/

/-- A server with two sessions, for examples: the one at address 1 is in the given
phase with the given bytes in buffer A, the one at address 2 is the holder. -/
def two_sessions (st : state) (b1 : List Nat) : server :=
  { sessions := [{ addr := 1, ts := session_with st b1 b1.length 0 b1.length, ws := ⟨24, 80⟩ },
                 { addr := 2, ts := session_with state.GET_CMD [] 0 0 0, ws := ⟨24, 80⟩ }],
    maxfd := 4,
    w := { atlas_crontab := none, atlas_dirname := [], atlas_ts := some 2,
           fs := { files := fun _ => none }, login_requests := [] } }

/-- An environment in which every call succeeds and no session file exists. -/
def env_ok : sysenv :=
  { session_file := none, hostname := bytes "probe", spawn := fun _ => spawn_result.parent 5 100,
    fopen_ok := fun _ => true, fputs_ok := fun _ _ => true, fputc_ok := fun _ => true,
    fclose_ok := fun _ => true, rename_ok := fun _ _ => true, open_ok := fun _ => true,
    write_ok := fun _ => true, fstat_ok := fun _ => true, unlink_races := 0 }

/-- The world after a session at `self` has claimed `atlas_ts` in `case GET_PASSWORD`. -/
def take_over (w : world) (self : Nat) : world :=
  { (if w.atlas_ts.isSome then
      (if w.atlas_crontab.isSome then { w with atlas_crontab := none } else w)
     else w) with atlas_ts := some self }

/-- A world in which the session at address 2 holds `atlas_ts` with a draft open. -/
def world_busy : world :=
  { atlas_crontab := some { name := bytes "d/root.new" }, atlas_dirname := bytes "d",
    atlas_ts := some 2, fs := { files := fun _ => none }, login_requests := [] }

/-- A world without holder and without draft. -/
def world_idle : world :=
  { atlas_crontab := none, atlas_dirname := [], atlas_ts := none,
    fs := { files := fun _ => none }, login_requests := [] }

/-- A session in GET_PASSWORD whose buffer B still holds 2017 unsent bytes (the offer,
the login and password prompts and 123 `BAD_PASSWORD` blocks) and whose buffer A holds
one more wrong password. -/
def flooded_session : tsession :=
  { session_with state.GET_PASSWORD (bytes "x\r") 2 0 2 with
    rdidx2 := 2017, wridx2 := 0, size2 := 2017 }

/-- A fresh session (`BUFSIZE = 2020`) whose 37 bytes of offer and login prompt are still
queued in buffer B and whose buffer A has received a login name of 1990 letters `a`
and CR. -/
def long_login : tsession :=
  { session_with state.GET_LOGINNAME (List.replicate 1990 97 ++ [CR]) 1991 0 1991 with
    rdidx2 := 37, wridx2 := 0, size2 := 37 }

/-- A world in which the session at address 1 is the holder and no draft is open. -/
def world_held : world :=
  { atlas_crontab := none, atlas_dirname := [], atlas_ts := some 1,
    fs := { files := fun _ => none }, login_requests := [] }

/-- An environment in which no file can be opened for writing. -/
def env_nofile : sysenv := { env_ok with fopen_ok := fun _ => false }

/-- The holder in GET_CMD with 2014 unsent bytes queued in buffer B and `CRONTAB d` in
buffer A. -/
def crowded_holder : tsession :=
  { session_with state.GET_CMD (bytes "CRONTAB d\r") 10 0 10 with
    rdidx2 := 2014, wridx2 := 0, size2 := 2014 }

/-- The session `pack_2pty` returns. -/
def packed (BUFSIZE : Int) (ts : tsession) : tsession :=
  { ts with buf1 := memmove (memmove ts.buf1 (BUFSIZE - ts.wridx1) 0
                      (ts.size1 - (BUFSIZE - ts.wridx1))) 0 ts.wridx1 (BUFSIZE - ts.wridx1),
            wridx1 := 0, rdidx1 := ts.size1 }

/-- A session (`BUFSIZE = 2020`) whose buffer A holds one byte, a CR, in the last
physical position. -/
def cr_at_end : tsession :=
  { session_with state.GET_CMD [] 0 2019 1 with buf1 := fun j => if j = 2019 then CR else 0 }

/-- A session (`BUFSIZE = 2020`) whose buffer B holds 6 bytes ending 6 bytes before the
physical end. -/
def six_before_end : tsession :=
  { session_with state.GET_CMD [] 0 0 0 with rdidx2 := 2014, wridx2 := 2008, size2 := 6 }

/-- A session (`BUFSIZE = 2020`) whose buffer A holds the two bytes IAC NOP in the last
two physical positions. -/
def nop_at_end : tsession :=
  { session_with state.DO_TRADITIONAL [] 0 2018 2 with
    buf1 := fun j => if j = 2018 then IAC else if j = 2019 then NOP else 0 }

/-- A session (`BUFSIZE = 2020`) whose buffer A is full and starts at offset 5. -/
def full_from_five : tsession := session_with state.GET_CMD [] 5 5 2020

/-- Buffer A holds exactly the bytes `input`, stored from `wridx1` without wrapping. -/
def holds_input (BUFSIZE : Int) (ts : tsession) (input : List Nat) : Prop :=
  0 ≤ ts.wridx1 ∧ ts.wridx1 + ts.size1 ≤ BUFSIZE ∧ ts.size1 = input.length ∧
  peek ts.buf1 ts.wridx1 input.length = input

/-- Every file operation of the crontab sink succeeds, and the reload file is not found
unlinked. -/
def files_ok (env : sysenv) : Prop :=
  (∀ p, env.fopen_ok p = true) ∧ (∀ p l, env.fputs_ok p l = true) ∧
  (∀ p, env.fputc_ok p = true) ∧ (∀ p, env.fclose_ok p = true) ∧
  (∀ p q, env.rename_ok p q = true) ∧ (∀ p, env.open_ok p = true) ∧
  (∀ p, env.write_ok p = true) ∧ (∀ p, env.fstat_ok p = true) ∧ env.unlink_races = 0

/-- An upload is in progress for the session at `self`: the draft for directory `d` is
open, the staging file holds `acc`, and the reload file is as `u` says. -/
def uploading (w : world) (self : Nat) (d acc : List Nat) (u : Option (List Nat)) : Prop :=
  w.atlas_ts = some self ∧ w.atlas_crontab = some { name := d ++ CRONTAB_NEW_SUF } ∧
  w.atlas_dirname = d ∧ w.fs.files (d ++ CRONTAB_NEW_SUF) = some acc ∧
  w.fs.files (d ++ CRONUPDATE) = u

/-- The lines `CRONLINE t1`, CR, ..., `CRONLINE tn`, CR as the client sends them. -/
def cronlines : List (List Nat) → List Nat
  | [] => []
  | t :: rest => CMD_CRONLINE ++ t ++ CR :: cronlines rest

/-- The file content t1 LF ... tn LF. -/
def crontab_body : List (List Nat) → List Nat
  | [] => []
  | t :: rest => t ++ LF :: crontab_body rest

instance (BUFSIZE : Int) (ts : tsession) (input : List Nat) :
    Decidable (holds_input BUFSIZE ts input) := by
  unfold holds_input
  infer_instance

/-- The holder in GET_CMD with the upload of the spec's example in buffer A. -/
def upload_session : tsession :=
  session_with state.GET_CMD (bytes "CRONTAB mydir\rCRONLINE * * * * * true\r\r") 39 0 39

/-- A session (`BUFSIZE = 2020`) whose buffer A holds 1011 bytes from offset 1010:
1010 letters `a` up to the physical end and one `z` at offset 0. -/
def wrapped_session : tsession :=
  { session_with state.GET_CMD [] 1 1010 1011 with
    buf1 := fun j => if j = 0 then 122 else 97 }

/-- Buffer B of `b` is buffer B of `a` after the strings `strs` have been appended in
order by `add_2sock`: the cursors have moved by the total length, and from a well-formed
ring the queued bytes are the old ones followed by the strings. -/
def sent (BUFSIZE : Int) (a b : tsession) (strs : List (List Nat)) : Prop :=
  (ring2_ok BUFSIZE a →
    content2 BUFSIZE b = content2 BUFSIZE a ++ strs.flatten ∧ ring2_ok BUFSIZE b) ∧
  b.size2 = a.size2 + strs.flatten.length ∧ b.rdidx2 = a.rdidx2 + strs.flatten.length ∧
  b.wridx2 = a.wridx2

/-- The spec's list of fixed responses: password prompt, OK, BAD_PASSWORD, BAD_COMMAND,
NAME_TOO_LONG, CRONTAB_BUSY, UNABLE_TO_CREATE_NEW_CRONTAB, IO_ERROR. -/
def fixed_responses : List (List Nat) :=
  [PASSWORD_PROMPT, RESULT_OK, BAD_PASSWORD, BAD_COMMAND, NAME_TOO_LONG, CRONTAB_BUSY,
   CREATE_FAILED, IO_ERROR]

/-- The phases in which a session has passed the password check. -/
def admin_state (st : state) : Prop :=
  st = state.GET_CMD ∨ st = state.DO_CRONTAB ∨ st = state.EOM_SEEN

instance (st : state) : Decidable (admin_state st) := by
  unfold admin_state
  infer_instance

/-- The spec's invariant for buffer A: with occupancy 0, both cursors are 0. -/
def cursors_reset1 (ts : tsession) : Prop := ts.size1 = 0 → ts.rdidx1 = 0 ∧ ts.wridx1 = 0

/-- The spec's invariant for buffer B: with occupancy 0, both cursors are 0. -/
def cursors_reset2 (ts : tsession) : Prop := ts.size2 = 0 → ts.rdidx2 = 0 ∧ ts.wridx2 = 0

instance (ts : tsession) : Decidable (cursors_reset1 ts) := by
  unfold cursors_reset1
  infer_instance

instance (ts : tsession) : Decidable (cursors_reset2 ts) := by
  unfold cursors_reset2
  infer_instance

/-- A session whose socket has just delivered `data`, and nothing else is ready. -/
def io_received (data : List Nat) : session_io :=
  { rdfdset := fun fd => fd = 4, wrfdset := fun _ => false,
    pty_write := write_result.eagain, sock_write := write_result.eagain,
    sock_read := read_result.got data, pty_read := read_result.eagain }

/-- A session whose pty has just taken `count` bytes, and nothing else is ready. -/
def io_pty_took (count : Nat) : session_io :=
  { rdfdset := fun _ => false, wrfdset := fun fd => fd = 0,
    pty_write := write_result.wrote count, sock_write := write_result.eagain,
    sock_read := read_result.eagain, pty_read := read_result.eagain }

/-- A session for which nothing is ready in this iteration. -/
def io_idle : session_io :=
  { rdfdset := fun _ => false, wrfdset := fun _ => false,
    pty_write := write_result.eagain, sock_write := write_result.eagain,
    sock_read := read_result.eagain, pty_read := read_result.eagain }

/-- The spec's proper prefixes of a control sequence: a lone IAC; IAC and one byte that
is neither NOP nor IAC; IAC SB NAWS followed by fewer than 6 further bytes. -/
def cut_sequence (p : List Nat) : Prop :=
  p = [IAC] ∨ (∃ c, p = [IAC, c] ∧ c ≠ NOP ∧ c ≠ IAC) ∨
  (∃ rest, p = [IAC, SB, TELOPT_NAWS] ++ rest ∧ rest.length < 6)

/-- The local variables of `remove_iacs` on entry to its loop. -/
def scan_start (ts : tsession) (ws : winsize) : scan :=
  { buf := ts.buf1, ptr := ts.wridx1, totty := ts.wridx1, ws := ws, ptyfd := ts.ptyfd }

/-- The value of `end` in `remove_iacs`, as an offset from `TS_BUF1`. -/
def scan_end (BUFSIZE : Int) (ts : tsession) : Int :=
  ts.wridx1 + min (BUFSIZE - ts.wridx1) ts.size1

/-- An open draft is the stream opened on `<atlas_dirname>/root.new`. -/
def draft_on_staging (w : world) : Prop :=
  ∀ f, w.atlas_crontab = some f → f.name = w.atlas_dirname ++ CRONTAB_NEW_SUF

/-- Every canonical file `<dir>/root` has in `w1` the content it has in `w`. -/
def canonical_kept (w w1 : world) : Prop :=
  ∀ dir, w1.fs.files (dir ++ CRONTAB_SUFFIX) = w.fs.files (dir ++ CRONTAB_SUFFIX)

/-- The world of `world_busy` with an old crontab in `d/root` and one uploaded line in
the staging file `d/root.new`. -/
def world_drafted : world :=
  { world_busy with
    fs := { files := fun q =>
      if q = bytes "d/root.new" then some (bytes "* * * * * true\n")
      else if q = bytes "d/root" then some (bytes "old\n") else none } }

/-- The inner loop of `handle_sigchld`: the first session whose `shell_pid` is `pid`
gets `shell_pid = -1`. -/
def mark_exited (pid : Int) : List entry → List entry
  | [] => []
  | e :: rest =>
    if e.ts.shell_pid = pid then { e with ts := { e.ts with shell_pid := -1 } } :: rest
    else e :: mark_exited pid rest

/-- The function `handle_sigchld`; `pids` are the values `wait_any_nohang` returns, in
order, and the loop ends at the first that is not positive (or when they run out). -/
def handle_sigchld : List Int → List entry → List entry
  | [], sessions => sessions
  | pid :: pids, sessions =>
    if pid ≤ 0 then sessions else handle_sigchld pids (mark_exited pid sessions)

/-- The loop over the sessions after the label `again`, as far as it changes the
registry: a session whose `shell_pid` is -1 is freed. The list walked is the list as it
was on entry (`next` is read before the session is freed). -/
def sweep (inetd : Bool) : List entry → server → Except fault server
  | [], srv => Except.ok srv
  | e :: rest, srv =>
    if e.ts.shell_pid = -1 then
      match free_session inetd srv e.addr with
      | Except.error f => Except.error f
      | Except.ok srv1 => sweep inetd rest srv1
    else sweep inetd rest srv

/-- The code under "check for and accept new sessions" once `accept` has returned `fd`:
`addr` is the address `xzalloc` returns for the new record. -/
def accept_session (BUFSIZE : Int) (env : sysenv) (srv : server) (addr : Nat) (fd : Int) :
    Except fault server :=
  let new_ts := make_new_session fd
  let maxfd := if (if fd = 0 then fd + 1 else fd) > srv.maxfd
    then (if fd = 0 then fd + 1 else fd) else srv.maxfd
  match add_2sock BUFSIZE new_ts LOGIN_PREFIX with
  | Except.error f => Except.error f
  | Except.ok ts =>
    match add_2sock BUFSIZE ts env.hostname with
    | Except.error f => Except.error f
    | Except.ok ts =>
      match add_2sock BUFSIZE ts LOGIN_PROMPT with
      | Except.error f => Except.error f
      | Except.ok ts =>
        Except.ok { srv with sessions := { addr := addr, ts := ts, ws := ⟨0, 0⟩ } :: srv.sessions,
                             maxfd := maxfd }

/-- The process before the first pass of the event loop: no session in standalone mode,
the one session made for descriptor 0 (at address `addr`) under inetd; no holder, no
draft. -/
def boot (inetd : Bool) (addr : Nat) (fs : fsys) : server :=
  { sessions := if inetd then [{ addr := addr, ts := make_new_session 0, ws := ⟨0, 0⟩ }] else [],
    maxfd := if inetd then 1 else 0,
    w := { atlas_crontab := none, atlas_dirname := [], atlas_ts := none, fs := fs,
           login_requests := [] } }

/-- The states of the process between two steps of the event loop: from `boot`, any
number of deliveries of SIGCHLD, sweeps of exited children, accepted connections (the
new record at an address no live session has) and turns of listed sessions, in any
order. -/
inductive reachable (BUFSIZE : Int) (env : sysenv) (inetd : Bool) : server → Prop where
  | boot (addr : Nat) (fs : fsys) : reachable BUFSIZE env inetd (boot inetd addr fs)
  | sigchld (srv : server) (pids : List Int) :
      reachable BUFSIZE env inetd srv →
      reachable BUFSIZE env inetd { srv with sessions := handle_sigchld pids srv.sessions }
  | sweep (srv srv1 : server) :
      reachable BUFSIZE env inetd srv → sweep inetd srv.sessions srv = Except.ok srv1 →
      reachable BUFSIZE env inetd srv1
  | accept (srv srv1 : server) (addr : Nat) (fd : Int) :
      reachable BUFSIZE env inetd srv → (∀ e ∈ srv.sessions, e.addr ≠ addr) →
      accept_session BUFSIZE env srv addr fd = Except.ok srv1 →
      reachable BUFSIZE env inetd srv1
  | serve (srv srv1 : server) (e : entry) (io : session_io) :
      reachable BUFSIZE env inetd srv → e ∈ srv.sessions →
      serve_session BUFSIZE env inetd io srv e = Except.ok srv1 →
      reachable BUFSIZE env inetd srv1

/-- What the proof of the registry invariant carries along: a session that has not
spawned a login has `shell_pid = 0`; the holder is a listed session; a listed session
at the holder's address has passed the password check. -/
def registry_ok (srv : server) : Prop :=
  (∀ e ∈ srv.sessions, e.ts.state ≠ state.DO_TRADITIONAL → e.ts.shell_pid = 0) ∧
  (∀ a, srv.w.atlas_ts = some a → ∃ e ∈ srv.sessions, e.addr = a) ∧
  (∀ e ∈ srv.sessions, srv.w.atlas_ts = some e.addr → admin_state e.ts.state)

/-- The same for the session a pass works on. -/
def pass_ok (self : Nat) (m : machine) : Prop :=
  (m.ts.state ≠ state.DO_TRADITIONAL → m.ts.shell_pid = 0) ∧
  (m.w.atlas_ts = some self → admin_state m.ts.state)

/-- The spec's condition on the session-id source, in its own words: the source can be
read, and its first line is `SESSION_ID ` followed by exactly `p` and then a newline,
the newline falling within the first 79 bytes. -/
def session_id_line (source : Option (List Nat)) (p : List Nat) : Prop :=
  ∃ content rest, source = some content ∧
    content = SESSION_ID_PREFIX ++ p ++ LF :: rest ∧ LF ∉ p ∧
    (SESSION_ID_PREFIX ++ p).length < 79

/-- The environment `env_ok` with a session-id file of the given content. -/
def env_session (content : List Nat) : sysenv := { env_ok with session_file := some content }

/-- The number of passes through the switch that `protocol_switch` makes with the given
budget: one for each jump back to `skip3`, and the pass that ends the step. -/
def protocol_passes (BUFSIZE : Int) (env : sysenv) (self : Nat) : Nat → machine → Nat
  | 0, _ => 0
  | fuel + 1, m =>
    match dispatch BUFSIZE env self m with
    | Except.ok (m1, target.skip3) => 1 + protocol_passes BUFSIZE env self fuel m1
    | _ => 1

/-- Whether the pass through the switch that starts in `m` takes a line from buffer A:
the `getline_2pty` call of the case of `m.ts.state` is reached and returns a line. -/
def line_taken (BUFSIZE : Int) (self : Nat) (m : machine) : Bool :=
  match m.ts.state with
  | state.DO_TRADITIONAL => false
  | state.GET_LOGINNAME =>
    match getline_2pty BUFSIZE (remove_iacs BUFSIZE m.ts m.ws).ts with
    | Except.ok (_, some _) => true
    | _ => false
  | state.GET_PASSWORD =>
    match getline_2pty BUFSIZE m.ts with
    | Except.ok (_, some _) => true
    | _ => false
  | _ =>
    if m.w.atlas_ts ≠ some self then false
    else
      match getline_2pty BUFSIZE m.ts with
      | Except.ok (_, some _) => true
      | _ => false

/-- The number of lines that `protocol_switch` dispatches with the given budget of
passes. -/
def protocol_lines (BUFSIZE : Int) (env : sysenv) (self : Nat) : Nat → machine → Nat
  | 0, _ => 0
  | fuel + 1, m =>
    (if line_taken BUFSIZE self m then 1 else 0) +
    match dispatch BUFSIZE env self m with
    | Except.ok (m1, target.skip3) => protocol_lines BUFSIZE env self fuel m1
    | _ => 0

/-- A session in GET_PASSWORD with two wrong passwords, `x` and `y`, in buffer A. -/
def two_passwords : machine :=
  { ts := session_with state.GET_PASSWORD (bytes "x\ry\r") 4 0 4, w := world_idle,
    ws := ⟨24, 80⟩ }

/-- What an open draft asks of the session a pass works on: there is a holder, and if
the holder is this session, it is in DO_CRONTAB. -/
def draft_held (self : Nat) (m : machine) : Prop :=
  m.w.atlas_crontab ≠ none →
    m.w.atlas_ts ≠ none ∧ (m.w.atlas_ts = some self → m.ts.state = state.DO_CRONTAB)

/-- What an open draft asks of the process: there is a holder, and a listed session at
the holder's address is in DO_CRONTAB. -/
def draft_ok (srv : server) : Prop :=
  srv.w.atlas_crontab ≠ none →
    ∃ a, srv.w.atlas_ts = some a ∧
      ∀ e ∈ srv.sessions, e.addr = a → e.ts.state = state.DO_CRONTAB

/-- The machines on which a pass through the switch starts, for the session at address
`self`: the first pass of a turn starts with the world of a reachable state of the
process and the record of a listed session at that address, as the transfers before the
switch have left it (they change the buffers and cursors, not the phase nor
`shell_pid`); a later pass starts where a pass that jumped back to `skip3` ended. -/
inductive pass_reachable (BUFSIZE : Int) (env : sysenv) (inetd : Bool) (self : Nat) :
    machine → Prop where
  | first (srv : server) (e : entry) (ts : tsession) (ws : winsize) :
      reachable BUFSIZE env inetd srv → e ∈ srv.sessions → e.addr = self →
      ts.state = e.ts.state → ts.shell_pid = e.ts.shell_pid →
      pass_reachable BUFSIZE env inetd self { ts := ts, w := srv.w, ws := ws }
  | back (m m1 : machine) :
      pass_reachable BUFSIZE env inetd self m →
      dispatch BUFSIZE env self m = Except.ok (m1, target.skip3) →
      pass_reachable BUFSIZE env inetd self m1

/-- What a client sends first when it answers the `IAC DO NAWS` of `make_new_session`
with 80 columns and 24 rows and then logs in as `root`. -/
def naws_then_login : List Nat := [255, 250, 31, 0, 80, 0, 24, 255, 240] ++ bytes "root\r"

/-- The environment of `env_ok` when `vfork` fails after `xgetpty` has returned
descriptor 5. -/
def env_novfork : sysenv := { env_ok with spawn := fun _ => spawn_result.vfork_failed 5 }

end Telnetd

/-! ## Lemmas on memory -/

namespace Telnetd

theorem peek_length (b : Buf) (i : Int) (n : Nat) : (peek b i n).length = n := by
  simp [peek]

theorem peek_zero (b : Buf) (i : Int) : peek b i 0 = [] := by
  simp [peek]

theorem peek_succ (b : Buf) (i : Int) (n : Nat) :
    peek b i (n + 1) = b i :: peek b (i + 1) n := by
  simp only [peek, List.range_succ_eq_map, List.map_cons, List.map_map]
  refine congrArg₂ _ (by simp) (List.map_congr_left fun k _ => ?_)
  simp only [Function.comp, Nat.cast_succ]
  congr 1
  omega

theorem peek_congr (b c : Buf) (i : Int) (n : Nat)
    (h : ∀ j, i ≤ j → j < i + n → b j = c j) : peek b i n = peek c i n := by
  simp only [peek]
  refine List.map_congr_left fun k hk => h _ (by omega) ?_
  have := List.mem_range.mp hk
  omega

theorem peek_append (b : Buf) (i : Int) (m n : Nat) :
    peek b i (m + n) = peek b i m ++ peek b (i + m) n := by
  induction m generalizing i with
  | zero => simp [peek_zero]
  | succ m ih =>
    rw [Nat.succ_add, peek_succ, peek_succ, ih, List.cons_append]
    congr 3
    push_cast
    omega

theorem peek_memmove (b : Buf) (dst src : Int) (n : Nat) :
    peek (memmove b dst src n) dst n = peek b src n := by
  simp only [peek]
  refine List.map_congr_left fun k hk => ?_
  have := List.mem_range.mp hk
  simp only [memmove]
  rw [if_pos ⟨by omega, by omega⟩]
  congr 1
  omega

theorem getElem_peek (b : Buf) (i : Int) (n k : Nat) (h : k < (peek b i n).length) :
    (peek b i n)[k] = b (i + k) := by
  simp [peek]

end Telnetd

/-! ## Lemmas on `remove_iacs` -/

namespace Telnetd

theorem remove_iacs_loop_zero (end_ : Int) (s : scan) : remove_iacs_loop end_ 0 s = s := rfl

theorem remove_iacs_loop_done (end_ : Int) (fuel : Nat) (s : scan) (h : ¬ s.ptr < end_) :
    remove_iacs_loop end_ fuel s = s := by
  cases fuel with
  | zero => rfl
  | succ n => simp [remove_iacs_loop, h]

theorem remove_iacs_loop_some (end_ : Int) (fuel : Nat) (s s1 : scan) (h : s.ptr < end_)
    (hb : remove_iacs_body end_ s = some s1) :
    remove_iacs_loop end_ (fuel + 1) s = remove_iacs_loop end_ fuel s1 := by
  simp [remove_iacs_loop, h, hb]

theorem remove_iacs_loop_none (end_ : Int) (fuel : Nat) (s : scan)
    (hb : remove_iacs_body end_ s = none) :
    remove_iacs_loop end_ fuel s = s := by
  cases fuel with
  | zero => rfl
  | succ n => by_cases h : s.ptr < end_ <;> simp [remove_iacs_loop, h, hb]

/-- A data byte CR followed inside the span by LF or NUL: one byte out, two consumed. -/
theorem remove_iacs_body_pair (end_ : Int) (s : scan) (h0 : s.buf s.ptr = CR)
    (h1 : s.ptr + 1 < end_) (h2 : s.buf (s.ptr + 1) = LF ∨ s.buf (s.ptr + 1) = NUL)
    (ht : s.totty ≤ s.ptr) :
    remove_iacs_body end_ s =
      some { s with buf := poke s.buf s.totty CR, totty := s.totty + 1, ptr := s.ptr + 1 + 1 } := by
  have hne : s.ptr + 1 ≠ s.totty := by omega
  have hI : CR ≠ IAC := by decide
  simp [remove_iacs_body, h0, h1, poke, hne, h2, hI]

/-- Any other data byte: one byte out, one consumed. -/
theorem remove_iacs_body_single (end_ : Int) (s : scan) (h0 : s.buf s.ptr ≠ IAC)
    (h1 : ¬ (s.buf s.ptr = CR ∧ s.ptr + 1 < end_ ∧
      (s.buf (s.ptr + 1) = LF ∨ s.buf (s.ptr + 1) = NUL)))
    (ht : s.totty ≤ s.ptr) :
    remove_iacs_body end_ s =
      some { s with buf := poke s.buf s.totty (s.buf s.ptr), totty := s.totty + 1,
                    ptr := s.ptr + 1 } := by
  have hne : s.ptr + 1 ≠ s.totty := by omega
  simp only [remove_iacs_body, h0, ne_eq, not_false_eq_true, if_true, poke, hne, if_false]
  rw [if_neg h1]

theorem collapse_cr_length_le : ∀ (n : Nat) (l : List Nat), l.length ≤ n →
    (collapse_cr l).length ≤ l.length := by
  intro n
  induction n with
  | zero =>
    intro l hl
    have : l = [] := List.length_eq_zero.mp (by omega)
    subst this
    simp [collapse_cr]
  | succ n ih =>
    intro l hl
    match l with
    | [] => simp [collapse_cr]
    | [c] => simp [collapse_cr]
    | c :: d :: rest =>
      simp only [List.length_cons] at hl
      simp only [collapse_cr]
      split
      · have := ih rest (by omega)
        simp only [List.length_cons]
        omega
      · have := ih (d :: rest) (by simp only [List.length_cons]; omega)
        simp only [List.length_cons] at this ⊢
        omega

/-- The loop of `remove_iacs` over a stretch without IAC: it runs to the end of the
span, the bytes it stores from `totty` on are the stretch with CR LF and CR NUL
collapsed, and nothing else in the buffer changes. -/
theorem remove_iacs_loop_plain (end_ : Int) : ∀ (fuel : Nat) (rest : List Nat) (s : scan),
    rest.length ≤ fuel → peek s.buf s.ptr rest.length = rest → end_ = s.ptr + rest.length →
    s.totty ≤ s.ptr → IAC ∉ rest →
    (remove_iacs_loop end_ fuel s).ptr = end_ ∧
    (remove_iacs_loop end_ fuel s).totty = s.totty + (collapse_cr rest).length ∧
    peek (remove_iacs_loop end_ fuel s).buf s.totty (collapse_cr rest).length
      = collapse_cr rest ∧
    (remove_iacs_loop end_ fuel s).ws = s.ws ∧
    (∀ j, j < s.totty ∨ end_ ≤ j → (remove_iacs_loop end_ fuel s).buf j = s.buf j) := by
  intro fuel
  induction fuel with
  | zero =>
    intro rest s hl _ he _ _
    have : rest = [] := List.length_eq_zero.mp (by omega)
    subst this
    simp at he
    simp [remove_iacs_loop, collapse_cr, peek_zero, he]
  | succ fuel ih =>
    intro rest s hl hp he ht hI
    match rest, hl, hp, he, hI with
    | [], _, _, he, _ =>
      simp at he
      rw [remove_iacs_loop_done end_ _ s (by omega)]
      simp [collapse_cr, peek_zero, he]
    | [c], _, hp, he, hI =>
      simp only [List.length_singleton, peek_succ, peek_zero, List.cons.injEq, and_true] at hp
      simp only [List.length_singleton, Nat.cast_one] at he
      have hc : s.buf s.ptr ≠ IAC := by
        rw [hp]; intro h; exact hI (by simp [h])
      have hb := remove_iacs_body_single end_ s hc (by omega) ht
      rw [remove_iacs_loop_some end_ fuel s _ (by omega) hb,
        remove_iacs_loop_done end_ _ _ (by simp; omega)]
      simp only [collapse_cr, List.length_singleton, Nat.cast_one, peek_succ, peek_zero]
      refine ⟨by omega, trivial, by simp [poke, hp], trivial, fun j hj => ?_⟩
      have : j ≠ s.totty := by omega
      simp [poke, this]
    | c :: d :: rest, hl, hp, he, hI =>
      simp only [List.length_cons, peek_succ, List.cons.injEq] at hp
      simp only [List.length_cons, Nat.cast_add, Nat.cast_one] at he hl
      obtain ⟨hpc, hpd, hpr⟩ := hp
      have hc : s.buf s.ptr ≠ IAC := by
        rw [hpc]; intro h; exact hI (by simp [h])
      by_cases hcr : c = CR ∧ (d = LF ∨ d = NUL)
      · have hb := remove_iacs_body_pair end_ s (by rw [hpc]; exact hcr.1) (by omega)
          (by rw [hpd]; exact hcr.2) ht
        rw [remove_iacs_loop_some end_ fuel s _ (by omega) hb]
        have hrest : peek (poke s.buf s.totty CR) (s.ptr + 1 + 1) rest.length = rest := by
          refine (peek_congr _ _ _ _ fun j hj _ => ?_).trans hpr
          have : j ≠ s.totty := by omega
          simp [poke, this]
        obtain ⟨i1, i2, i3, i4, i5⟩ := ih rest
          { s with buf := poke s.buf s.totty CR, totty := s.totty + 1, ptr := s.ptr + 1 + 1 }
          (by omega) hrest (by simp only; omega) (by simp only; omega)
          (fun h => hI (by simp [h]))
        simp only at i1 i2 i3 i4 i5
        simp only [collapse_cr, hcr, and_self, if_true, List.length_cons, peek_succ,
          Nat.cast_add, Nat.cast_one]
        refine ⟨i1, by omega, ?_, i4, fun j hj => ?_⟩
        · rw [i3, i5 s.totty (by omega)]
          simp [poke, hcr.1]
        · rw [i5 j (by omega)]
          have : j ≠ s.totty := by omega
          simp [poke, this]
      · have hb := remove_iacs_body_single end_ s hc
          (by rw [hpc, hpd]; intro h; exact hcr ⟨h.1, h.2.2⟩) ht
        rw [remove_iacs_loop_some end_ fuel s _ (by omega) hb]
        have hrest : peek (poke s.buf s.totty (s.buf s.ptr)) (s.ptr + 1) (d :: rest).length
            = d :: rest := by
          have : peek s.buf (s.ptr + 1) (d :: rest).length = d :: rest := by
            simp only [List.length_cons, peek_succ, hpd, hpr]
          refine (peek_congr _ _ _ _ fun j hj _ => ?_).trans this
          have : j ≠ s.totty := by omega
          simp [poke, this]
        obtain ⟨i1, i2, i3, i4, i5⟩ := ih (d :: rest)
          { s with buf := poke s.buf s.totty (s.buf s.ptr), totty := s.totty + 1,
                   ptr := s.ptr + 1 }
          (by simp only [List.length_cons]; omega) hrest
          (by simp only [List.length_cons, Nat.cast_add, Nat.cast_one]; omega)
          (by simp only; omega) (fun h => hI (by simp [h]))
        simp only at i1 i2 i3 i4 i5
        simp only [collapse_cr, hcr, if_false, List.length_cons, peek_succ,
          Nat.cast_add, Nat.cast_one]
        refine ⟨i1, by omega, ?_, i4, fun j hj => ?_⟩
        · rw [i3, i5 s.totty (by omega)]
          simp [poke, hpc]
        · rw [i5 j (by omega)]
          have : j ≠ s.totty := by omega
          simp [poke, this]

end Telnetd

/-! ## The filter on input without control sequences -/

namespace Telnetd

/-- `remove_iacs` on a scanned span without IAC (the statement of C1, for use in other
proofs). -/
theorem remove_iacs_plain (BUFSIZE : Int) (ts : tsession) (ws : winsize)
    (h : IAC ∉ scanned_span BUFSIZE ts) :
    (remove_iacs BUFSIZE ts ws).ptr + (remove_iacs BUFSIZE ts ws).num_totty
      = ts.wridx1 + (scanned_span BUFSIZE ts).length ∧
    (remove_iacs BUFSIZE ts ws).totty = collapse_cr (scanned_span BUFSIZE ts) ∧
    ts.size1 - (remove_iacs BUFSIZE ts ws).ts.size1
      = (scanned_span BUFSIZE ts).length - (collapse_cr (scanned_span BUFSIZE ts)).length ∧
    (remove_iacs BUFSIZE ts ws).ts.wridx1 = (remove_iacs BUFSIZE ts ws).ptr ∧
    (remove_iacs BUFSIZE ts ws).ws = ws := by
  have hlen : (scanned_span BUFSIZE ts).length = (min (BUFSIZE - ts.wridx1) ts.size1).toNat :=
    peek_length _ _ _
  by_cases hneg : min (BUFSIZE - ts.wridx1) ts.size1 ≤ 0
  · have hnil : scanned_span BUFSIZE ts = [] := List.length_eq_zero.mp (by rw [hlen]; omega)
    have hl : remove_iacs_loop (ts.wridx1 + min (BUFSIZE - ts.wridx1) ts.size1)
        (ts.wridx1 + min (BUFSIZE - ts.wridx1) ts.size1 - ts.wridx1).toNat
        { buf := ts.buf1, ptr := ts.wridx1, totty := ts.wridx1, ws := ws, ptyfd := ts.ptyfd }
        = { buf := ts.buf1, ptr := ts.wridx1, totty := ts.wridx1, ws := ws, ptyfd := ts.ptyfd } :=
      remove_iacs_loop_done _ _ _ (by simp only; omega)
    simp only [remove_iacs, iacs_result.totty, hl, hnil, sub_self, if_true, collapse_cr]
    simp [peek_zero]
  · have hfuel : (ts.wridx1 + min (BUFSIZE - ts.wridx1) ts.size1 - ts.wridx1).toNat
        = (scanned_span BUFSIZE ts).length := by rw [hlen]; congr 1; omega
    have hend : ts.wridx1 + min (BUFSIZE - ts.wridx1) ts.size1
        = ts.wridx1 + ((scanned_span BUFSIZE ts).length : Int) := by rw [hlen]; omega
    obtain ⟨i1, i2, i3, i4, _⟩ := remove_iacs_loop_plain
      (ts.wridx1 + min (BUFSIZE - ts.wridx1) ts.size1) (scanned_span BUFSIZE ts).length
      (scanned_span BUFSIZE ts)
      { buf := ts.buf1, ptr := ts.wridx1, totty := ts.wridx1, ws := ws, ptyfd := ts.ptyfd }
      (le_refl _) (by rw [hlen]; rfl) hend (le_refl _) h
    simp only at i1 i2 i3 i4
    have hle := collapse_cr_length_le _ (scanned_span BUFSIZE ts) (le_refl _)
    simp only [remove_iacs, iacs_result.totty, hfuel]
    split
    · rename_i heq
      simp only [i2, add_sub_cancel_left, Int.toNat_ofNat, i3, i4, and_true, true_and]
      omega
    · rename_i hne
      simp only [i2, add_sub_cancel_left, Int.toNat_ofNat, i4, and_true, true_and]
      refine ⟨by omega, ?_, by omega, by omega⟩
      rw [i1, hend]
      have := peek_memmove
        (remove_iacs_loop (ts.wridx1 + (scanned_span BUFSIZE ts).length)
          (scanned_span BUFSIZE ts).length
          { buf := ts.buf1, ptr := ts.wridx1, totty := ts.wridx1, ws := ws, ptyfd := ts.ptyfd }).buf
        (ts.wridx1 + (scanned_span BUFSIZE ts).length
          - (collapse_cr (scanned_span BUFSIZE ts)).length)
        ts.wridx1 (collapse_cr (scanned_span BUFSIZE ts)).length
      rw [hend] at i3
      exact this.trans i3

/-- C1: when the scanned span of buffer A holds no IAC byte, `remove_iacs` consumes the
whole span (the region it returns ends where the span ends), the bytes it hands to the
pty are the span with every CR LF and CR NUL collapsed to CR, in order, `size1` drops by
the number of dropped bytes, `wridx1` is the start of the returned region and the window
size is not touched. -/
theorem remove_iacs_no_iac (BUFSIZE : Int) (ts : tsession) (ws : winsize)
    (h : IAC ∉ scanned_span BUFSIZE ts) :
    (remove_iacs BUFSIZE ts ws).ptr + (remove_iacs BUFSIZE ts ws).num_totty
      = ts.wridx1 + (scanned_span BUFSIZE ts).length ∧
    (remove_iacs BUFSIZE ts ws).totty = collapse_cr (scanned_span BUFSIZE ts) ∧
    ts.size1 - (remove_iacs BUFSIZE ts ws).ts.size1
      = (scanned_span BUFSIZE ts).length - (collapse_cr (scanned_span BUFSIZE ts)).length ∧
    (remove_iacs BUFSIZE ts ws).ts.wridx1 = (remove_iacs BUFSIZE ts ws).ptr ∧
    (remove_iacs BUFSIZE ts ws).ws = ws :=
  remove_iacs_plain BUFSIZE ts ws h

/-- C1, the spec's example: `hello\r\n` in buffer A reaches the pty as `hello\r`. -/
theorem remove_iacs_no_iac_witness :
    IAC ∉ scanned_span 16 (session_with state.DO_TRADITIONAL (bytes "hello\r\n") 7 0 7) ∧
    (remove_iacs 16 (session_with state.DO_TRADITIONAL (bytes "hello\r\n") 7 0 7)
      ⟨24, 80⟩).totty = bytes "hello\r" :=
  ⟨by decide, by
    have h := (remove_iacs_no_iac 16
      (session_with state.DO_TRADITIONAL (bytes "hello\r\n") 7 0 7) ⟨24, 80⟩ (by decide)).2.1
    rw [h]
    decide⟩

end Telnetd

/-! ## The window-size sub-negotiation -/

namespace Telnetd

theorem naws_decode (hi lo : Nat) (hhi : hi < 256) (hlo : lo < 256) :
    ((hi <<< 8) ||| lo) % 65536 = hi * 256 + lo := by
  have h : (hi <<< 8) ||| lo = hi * 256 + lo := by
    rw [Nat.shiftLeft_eq, Nat.mul_comm hi]
    exact (Nat.mul_add_lt_is_or (by simpa using hlo) hi).symm
  rw [h]
  omega

/-- At a pass of the scan that starts on the nine bytes IAC SB NAWS c1 c0 r1 r0 IAC SE,
all of them inside the span (SE may be its last byte), the body stores no byte for the
pty (buffer and `totty` unchanged), moves `ptr` by exactly 9 and passes the window size
columns = c1*256 + c0, rows = r1*256 + r0 to `ioctl` on `ptyfd`; the loop goes on from
that state. The size of the session's pty becomes the decoded one when `ptyfd` is not 0,
and stays as it was when `ptyfd` is 0. -/
theorem remove_iacs_naws (end_ : Int) (fuel : Nat) (s : scan) (c1 c0 r1 r0 : Nat)
    (hbytes : peek s.buf s.ptr 9 = [IAC, SB, TELOPT_NAWS, c1, c0, r1, r0, IAC, SE])
    (hin : s.ptr + 9 ≤ end_)
    (hc1 : c1 < 256) (hc0 : c0 < 256) (hr1 : r1 < 256) (hr0 : r0 < 256) :
    remove_iacs_body end_ s =
      some { buf := s.buf, ptr := s.ptr + 9, totty := s.totty,
             ws := tiocswinsz s.ptyfd { ws_row := r1 * 256 + r0, ws_col := c1 * 256 + c0 }
               s.ws,
             ptyfd := s.ptyfd } ∧
    remove_iacs_loop end_ (fuel + 1) s =
      remove_iacs_loop end_ fuel
        { buf := s.buf, ptr := s.ptr + 9, totty := s.totty,
          ws := tiocswinsz s.ptyfd { ws_row := r1 * 256 + r0, ws_col := c1 * 256 + c0 }
            s.ws,
          ptyfd := s.ptyfd } ∧
    (s.ptyfd ≠ 0 →
      tiocswinsz s.ptyfd { ws_row := r1 * 256 + r0, ws_col := c1 * 256 + c0 } s.ws
        = { ws_row := r1 * 256 + r0, ws_col := c1 * 256 + c0 }) ∧
    (s.ptyfd = 0 →
      tiocswinsz s.ptyfd { ws_row := r1 * 256 + r0, ws_col := c1 * 256 + c0 } s.ws
        = s.ws) := by
  simp only [peek_succ, peek_zero, List.cons.injEq, and_true] at hbytes
  obtain ⟨b0, b1, b2, b3, b4, b5, b6, _, _⟩ := hbytes
  have e1 : s.ptr + 1 + 1 = s.ptr + 2 := by omega
  have e2 : s.ptr + 1 + 1 + 1 = s.ptr + 3 := by omega
  have e3 : s.ptr + 1 + 1 + 1 + 1 = s.ptr + 4 := by omega
  have e4 : s.ptr + 1 + 1 + 1 + 1 + 1 = s.ptr + 5 := by omega
  have e5 : s.ptr + 1 + 1 + 1 + 1 + 1 + 1 = s.ptr + 6 := by omega
  rw [e1] at b2
  rw [e2] at b3
  rw [e3] at b4
  rw [e4] at b5
  rw [e5] at b6
  have hbody : remove_iacs_body end_ s =
      some { buf := s.buf, ptr := s.ptr + 9, totty := s.totty,
             ws := tiocswinsz s.ptyfd { ws_row := r1 * 256 + r0, ws_col := c1 * 256 + c0 }
               s.ws,
             ptyfd := s.ptyfd } := by
    have n1 : ¬ s.ptr + 1 ≥ end_ := by omega
    have n2 : ¬ s.ptr + 2 ≥ end_ := by omega
    have n8 : ¬ s.ptr + 8 ≥ end_ := by omega
    have k1 : SB ≠ NOP := by decide
    have k2 : SB ≠ IAC := by decide
    simp only [remove_iacs_body, b0, ne_eq, not_true_eq_false, if_false, n1, b1, k1, k2, n2,
      b2, and_self, if_true, n8, b3, b4, b5, b6, naws_decode _ _ hc1 hc0,
      naws_decode _ _ hr1 hr0]
  refine ⟨hbody, remove_iacs_loop_some end_ fuel s _ (by omega) hbody, fun h => ?_,
    fun h => ?_⟩
  · unfold tiocswinsz
    rw [if_neg h]
  · unfold tiocswinsz
    rw [if_pos h]

/-- The sub-negotiation on an example: `a`, then the nine bytes for 80 columns and 24
rows ending on the last byte of the span, in a session whose pty is descriptor 5, gives
the pty `a` and the window size 24 x 80. -/
theorem remove_iacs_naws_witness :
    (peek (buf_of [97, 255, 250, 31, 0, 80, 0, 24, 255, 240]) 1 9
        = [IAC, SB, TELOPT_NAWS, 0, 80, 0, 24, IAC, SE] ∧ (1 : Int) + 9 ≤ 10) ∧
    remove_iacs_body 10 { buf := buf_of [97, 255, 250, 31, 0, 80, 0, 24, 255, 240],
                          ptr := 1, totty := 1, ws := ⟨0, 0⟩, ptyfd := 5 } =
      some { buf := buf_of [97, 255, 250, 31, 0, 80, 0, 24, 255, 240], ptr := 1 + 9,
             totty := 1,
             ws := tiocswinsz 5 { ws_row := 0 * 256 + 24, ws_col := 0 * 256 + 80 } ⟨0, 0⟩,
             ptyfd := 5 } ∧
    (remove_iacs 16 { session_with state.DO_TRADITIONAL
        [97, 255, 250, 31, 0, 80, 0, 24, 255, 240] 10 0 10 with ptyfd := 5 } ⟨0, 0⟩).totty
      = [97] ∧
    (remove_iacs 16 { session_with state.DO_TRADITIONAL
        [97, 255, 250, 31, 0, 80, 0, 24, 255, 240] 10 0 10 with ptyfd := 5 } ⟨0, 0⟩).ws
      = ⟨24, 80⟩ :=
  ⟨⟨by decide, by decide⟩,
   (remove_iacs_naws 10 0
      { buf := buf_of [97, 255, 250, 31, 0, 80, 0, 24, 255, 240],
        ptr := 1, totty := 1, ws := ⟨0, 0⟩, ptyfd := 5 }
      0 80 0 24 (by decide) (by decide) (by decide) (by decide) (by decide) (by decide)).1,
   by decide, by decide⟩

end Telnetd

/-! ## Appending to buffer B -/

namespace Telnetd

theorem emod_wrap (x B : Int) (h0 : 0 ≤ x) (h1 : x < 2 * B) :
    x % B = if x < B then x else x - B := by
  split
  · exact Int.emod_eq_of_lt h0 (by assumption)
  · rw [Int.emod_eq_sub_self_emod]
    exact Int.emod_eq_of_lt (by omega) (by omega)

theorem add_2sock_ok (BUFSIZE : Int) (ts : tsession) (str : List Nat)
    (h1 : ¬ ts.size2 + str.length > BUFSIZE) (h2 : ¬ ts.rdidx2 + str.length > BUFSIZE) :
    add_2sock BUFSIZE ts str =
      Except.ok { ts with buf2 := memcpy ts.buf2 ts.rdidx2 str str.length,
                          rdidx2 := ts.rdidx2 + str.length,
                          size2 := ts.size2 + str.length } := by
  simp only [add_2sock, h1, h2, if_false]

theorem add_2sock_error (BUFSIZE : Int) (ts : tsession) (str : List Nat)
    (h : ts.size2 + str.length > BUFSIZE ∨ ts.rdidx2 + str.length > BUFSIZE) :
    add_2sock BUFSIZE ts str = Except.error fault.abort := by
  by_cases h1 : ts.size2 + str.length > BUFSIZE
  · simp only [add_2sock, h1, if_true]
  · have h2 : ts.rdidx2 + str.length > BUFSIZE := by
      cases h with
      | inl h => exact absurd h h1
      | inr h => exact h
    simp only [add_2sock, h1, h2, if_false, if_true, pack_4sock]

theorem content2_memcpy (BUFSIZE : Int) (ts : tsession) (str : List Nat)
    (hs : 0 ≤ ts.size2) (hw : 0 ≤ ts.wridx2 ∧ ts.wridx2 < BUFSIZE) (hr : 0 ≤ ts.rdidx2)
    (he : ts.rdidx2 = ts.wridx2 + ts.size2 ∨ ts.rdidx2 = ts.wridx2 + ts.size2 - BUFSIZE)
    (h1 : ¬ ts.size2 + str.length > BUFSIZE) (h2 : ¬ ts.rdidx2 + str.length > BUFSIZE) :
    content2 BUFSIZE { ts with buf2 := memcpy ts.buf2 ts.rdidx2 str str.length,
                               rdidx2 := ts.rdidx2 + str.length,
                               size2 := ts.size2 + str.length }
      = content2 BUFSIZE ts ++ str := by
  apply List.ext_getElem
  · simp [content2]
    omega
  · intro k hk1 hk2
    have hlen : (content2 BUFSIZE ts).length = ts.size2.toNat := by simp [content2]
    have hk : (k : Int) < ts.size2 + str.length := by
      simp only [content2, List.length_map, List.length_range] at hk1
      omega
    have hm := emod_wrap (ts.wridx2 + k) BUFSIZE (by omega) (by omega)
    by_cases hlt : (k : Int) < ts.size2
    · rw [List.getElem_append_left (by rw [hlen]; omega)]
      simp only [content2, List.getElem_map, List.getElem_range, memcpy]
      rw [if_neg]
      rw [hm]
      split <;> omega
    · rw [List.getElem_append_right (by rw [hlen]; omega)]
      simp only [content2, List.getElem_map, List.getElem_range, memcpy]
      have hidx : (ts.wridx2 + ↑k) % BUFSIZE = ts.rdidx2 + (k - ts.size2.toNat : Nat) := by
        rw [hm]
        split <;> omega
      rw [if_pos (by rw [hidx]; omega), hidx]
      simp only [add_sub_cancel_left, Int.toNat_ofNat]
      have hklt : k - ts.size2.toNat < str.length := by omega
      rw [List.getD_eq_getElem _ _ hklt]
      congr 1
      simp

/-- On a well-formed buffer B with room for `str`, `add_2sock` returns a session whose
queued bytes are the old ones followed by `str`; nothing else of the session changes,
and buffer B stays well formed. -/
theorem add_2sock_appends (BUFSIZE : Int) (ts : tsession) (str : List Nat)
    (hring : ring2_ok BUFSIZE ts) (hroom : room2 BUFSIZE ts str.length) :
    ∃ ts1, add_2sock BUFSIZE ts str = Except.ok ts1 ∧
      content2 BUFSIZE ts1 = content2 BUFSIZE ts ++ str ∧
      ts1.size2 = ts.size2 + str.length ∧ ts1.rdidx2 = ts.rdidx2 + str.length ∧
      ts1.wridx2 = ts.wridx2 ∧ ring2_ok BUFSIZE ts1 ∧
      ts1.state = ts.state ∧ ts1.buf1 = ts.buf1 ∧ ts1.rdidx1 = ts.rdidx1 ∧
      ts1.wridx1 = ts.wridx1 ∧ ts1.size1 = ts.size1 ∧ ts1.ptyfd = ts.ptyfd ∧
      ts1.shell_pid = ts.shell_pid ∧ ts1.sockfd_read = ts.sockfd_read ∧
      ts1.sockfd_write = ts.sockfd_write := by
  obtain ⟨hs, hw, hr, he⟩ := hring
  obtain ⟨r1, r2⟩ := hroom
  have h1 : ¬ ts.size2 + str.length > BUFSIZE := by omega
  have h2 : ¬ ts.rdidx2 + str.length > BUFSIZE := by omega
  refine ⟨_, add_2sock_ok BUFSIZE ts str h1 h2,
    content2_memcpy BUFSIZE ts str hs hw hr he h1 h2, rfl, rfl, rfl, ?_,
    rfl, rfl, rfl, rfl, rfl, rfl, rfl, rfl, rfl⟩
  refine ⟨?_, hw, ?_, ?_⟩
  · show 0 ≤ ts.size2 + (str.length : Int)
    omega
  · show 0 ≤ ts.rdidx2 + (str.length : Int)
    omega
  · show ts.rdidx2 + (str.length : Int) = ts.wridx2 + (ts.size2 + (str.length : Int)) ∨
      ts.rdidx2 + (str.length : Int) = ts.wridx2 + (ts.size2 + (str.length : Int)) - BUFSIZE
    omega

/-- C10, as the code has it: `add_2sock` aborts exactly when `size2 + len > BUFSIZE` or
`rdidx2 + len > BUFSIZE` (the bytes would run past the physical end of buffer B, and
`pack_4sock` aborts); in every other case, on a well-formed buffer B, it appends the
bytes of `str` to the queued bytes, which stay as they were, and raises `size2` by
`len`. -/
theorem add_2sock_spec (BUFSIZE : Int) (ts : tsession) (str : List Nat)
    (hring : ring2_ok BUFSIZE ts) :
    (add_2sock BUFSIZE ts str = Except.error fault.abort ↔
      (ts.size2 + str.length > BUFSIZE ∨ ts.rdidx2 + str.length > BUFSIZE)) ∧
    (¬ (ts.size2 + str.length > BUFSIZE ∨ ts.rdidx2 + str.length > BUFSIZE) →
      ∃ ts1, add_2sock BUFSIZE ts str = Except.ok ts1 ∧
        content2 BUFSIZE ts1 = content2 BUFSIZE ts ++ str ∧
        ts1.size2 = ts.size2 + str.length) := by
  constructor
  · constructor
    · intro h
      by_contra hn
      have h1 : ¬ ts.size2 + str.length > BUFSIZE := fun h => hn (Or.inl h)
      have h2 : ¬ ts.rdidx2 + str.length > BUFSIZE := fun h => hn (Or.inr h)
      rw [add_2sock_ok BUFSIZE ts str h1 h2] at h
      cases h
    · exact add_2sock_error BUFSIZE ts str
  · intro hn
    have hroom : room2 BUFSIZE ts str.length := by
      unfold room2
      omega
    obtain ⟨ts1, e1, e2, e3, _⟩ := add_2sock_appends BUFSIZE ts str hring hroom
    exact ⟨ts1, e1, e2, e3⟩

/-- C10 on an example: `OK` appended to an empty buffer B. -/
theorem add_2sock_spec_witness :
    ring2_ok 2020 (session_with state.GET_CMD [] 0 0 0) ∧
    ∃ ts1, add_2sock 2020 (session_with state.GET_CMD [] 0 0 0) RESULT_OK = Except.ok ts1 ∧
      content2 2020 ts1 = content2 2020 (session_with state.GET_CMD [] 0 0 0) ++ RESULT_OK ∧
      ts1.size2 = (session_with state.GET_CMD [] 0 0 0).size2 + RESULT_OK.length :=
  ⟨by decide,
   (add_2sock_spec 2020 (session_with state.GET_CMD [] 0 0 0) RESULT_OK (by decide)).2
     (by decide)⟩

/-- C10 as stated fails: with 6 bytes queued near the physical end of buffer B
(`rdidx2 = 2016`, `BUFSIZE = 2020`) the 6 bytes of `OK` fit the occupancy
(`size2 + len = 12`), yet `add_2sock` aborts through `pack_4sock`. -/
theorem add_2sock_aborts_with_room :
    ¬ ((6 : Int) + RESULT_OK.length > 2020) ∧
    add_2sock 2020
      { session_with state.GET_CMD [] 0 0 0 with rdidx2 := 2016, wridx2 := 2010, size2 := 6 }
      RESULT_OK = Except.error fault.abort :=
  ⟨by decide, rfl⟩

end Telnetd

/-! ## What the buffer A operations leave alone -/

namespace Telnetd

theorem same_side2_refl (a : tsession) : same_side2 a a :=
  ⟨rfl, rfl, rfl, rfl, rfl, rfl, rfl, rfl, rfl⟩

theorem same_side2_trans {a b c : tsession} (h1 : same_side2 a b) (h2 : same_side2 b c) :
    same_side2 a c := by
  obtain ⟨a1, a2, a3, a4, a5, a6, a7, a8, a9⟩ := h1
  obtain ⟨b1, b2, b3, b4, b5, b6, b7, b8, b9⟩ := h2
  exact ⟨a1.trans b1, a2.trans b2, a3.trans b3, a4.trans b4, a5.trans b5, a6.trans b6,
    a7.trans b7, a8.trans b8, a9.trans b9⟩

theorem remove_iacs_side2 (BUFSIZE : Int) (ts : tsession) (ws : winsize) :
    same_side2 (remove_iacs BUFSIZE ts ws).ts ts := by
  unfold remove_iacs
  simp only
  split <;> exact ⟨rfl, rfl, rfl, rfl, rfl, rfl, rfl, rfl, rfl⟩

theorem pack_2pty_side2 (BUFSIZE : Int) (ts ts1 : tsession)
    (h : pack_2pty BUFSIZE ts = Except.ok ts1) : same_side2 ts1 ts := by
  unfold pack_2pty at h
  simp only at h
  split at h
  · cases h
  · cases h
    exact ⟨rfl, rfl, rfl, rfl, rfl, rfl, rfl, rfl, rfl⟩

theorem getline_2pty_side2 (BUFSIZE : Int) (ts ts1 : tsession) (l : Option (List Nat))
    (h : getline_2pty BUFSIZE ts = Except.ok (ts1, l)) : same_side2 ts1 ts := by
  unfold getline_2pty at h
  simp only at h
  split at h
  · cases h
  · rename_i ts0 hp
    have h0 : same_side2 ts0 ts := by
      split at hp
      · exact pack_2pty_side2 BUFSIZE ts ts0 hp
      · cases hp
        exact same_side2_refl _
    split at h
    · cases h
      exact same_side2_trans ⟨rfl, rfl, rfl, rfl, rfl, rfl, rfl, rfl, rfl⟩ h0
    · split at h <;> cases h <;>
        exact same_side2_trans ⟨rfl, rfl, rfl, rfl, rfl, rfl, rfl, rfl, rfl⟩ h0

theorem extracted_line_some (BUFSIZE : Int) (ts : tsession) (line : List Nat)
    (h : extracted_line BUFSIZE ts = some line) :
    getline_2pty BUFSIZE ts = Except.ok (after_getline BUFSIZE ts, some line) := by
  unfold extracted_line at h
  unfold after_getline
  split at h
  · rename_i ts1 l heq
    cases h
    rw [heq]
  · cases h

end Telnetd

/-! ## Stale sessions -/

namespace Telnetd

theorem dispatch_stale (BUFSIZE : Int) (env : sysenv) (self : Nat) (m : machine)
    (hst : m.ts.state = state.GET_CMD ∨ m.ts.state = state.DO_CRONTAB ∨
      m.ts.state = state.EOM_SEEN)
    (hne : m.w.atlas_ts ≠ some self) :
    dispatch BUFSIZE env self m = Except.ok (m, target.kill_session) := by
  unfold dispatch
  rcases hst with h | h | h <;> rw [h] <;> simp only [hne, ne_eq, not_false_eq_true, if_true]

/-- C9: a session in GET_CMD, DO_CRONTAB or EOM_SEEN that is not `atlas_ts` goes
from its protocol step straight to `kill_session`, with the session and the world
exactly as they were (no line taken from buffer A, nothing added to buffer B, the
draft and the files untouched); `kill_session` then leaves the world as it is and
removes the session from the list (or, in inetd mode, ends the process). -/
theorem stale_session_removed (BUFSIZE : Int) (env : sysenv) (self : Nat) (m : machine)
    (inetd : Bool) (srv : server)
    (hst : m.ts.state = state.GET_CMD ∨ m.ts.state = state.DO_CRONTAB ∨
      m.ts.state = state.EOM_SEEN)
    (hne : m.w.atlas_ts ≠ some self) (hsrv : srv.w = m.w) :
    protocol_step BUFSIZE env self m = Except.ok (m, jump.kill_session) ∧
    kill_session inetd srv self =
      (if inetd then Except.error fault.exit
       else Except.ok { sessions := srv.sessions.filter fun e => e.addr ≠ self,
                        maxfd := new_maxfd (srv.sessions.filter fun e => e.addr ≠ self) 0,
                        w := m.w }) ∧
    ∀ e ∈ srv.sessions.filter (fun e => e.addr ≠ self), e.addr ≠ self := by
  refine ⟨?_, ?_, ?_⟩
  · simp only [protocol_step, protocol_switch, dispatch_stale BUFSIZE env self m hst hne]
  · simp only [kill_session, hsrv, hne, if_false, free_session]
  · intro e he
    simpa using (List.mem_filter.mp he).2

/-- C9 on an example: the session at address 1 is in GET_CMD with a command waiting in
buffer A, but the holder is the session at address 2. -/
theorem stale_session_removed_witness :
    ((session_with state.GET_CMD (bytes "CRONTAB d\r") 10 0 10).state = state.GET_CMD ∧
      (two_sessions state.GET_CMD (bytes "CRONTAB d\r")).w.atlas_ts ≠ some 1) ∧
    protocol_step 2020 env_ok 1
      { ts := session_with state.GET_CMD (bytes "CRONTAB d\r") 10 0 10,
        w := (two_sessions state.GET_CMD (bytes "CRONTAB d\r")).w, ws := ⟨24, 80⟩ }
      = Except.ok ({ ts := session_with state.GET_CMD (bytes "CRONTAB d\r") 10 0 10,
                     w := (two_sessions state.GET_CMD (bytes "CRONTAB d\r")).w,
                     ws := ⟨24, 80⟩ }, jump.kill_session) :=
  ⟨⟨by decide, by decide⟩,
   (stale_session_removed 2020 env_ok 1
      { ts := session_with state.GET_CMD (bytes "CRONTAB d\r") 10 0 10,
        w := (two_sessions state.GET_CMD (bytes "CRONTAB d\r")).w, ws := ⟨24, 80⟩ }
      false (two_sessions state.GET_CMD (bytes "CRONTAB d\r"))
      (Or.inl (by decide)) (by decide) rfl).1⟩

end Telnetd

/-! ## Taking a line from buffer A -/

namespace Telnetd

theorem memchr_skip (b : Buf) (c : Nat) : ∀ (k n : Nat) (start : Int),
    (∀ i : Nat, i < k → b (start + i) ≠ c) → k ≤ n →
    memchr b start c n = memchr b (start + k) c (n - k) := by
  intro k
  induction k with
  | zero => intro n start _ _; simp
  | succ k ih =>
    intro n start h hn
    obtain ⟨n1, rfl⟩ : ∃ n1, n = n1 + 1 := ⟨n - 1, by omega⟩
    have h0 : b start ≠ c := by simpa using h 0 (by omega)
    rw [memchr, if_neg h0, ih n1 (start + 1) (fun i hi => by
      have := h (i + 1) (by omega)
      rw [show start + 1 + (i : Int) = start + ((i + 1 : Nat) : Int) by push_cast; omega]
      exact this) (by omega)]
    congr 1
    · push_cast; omega
    · omega

theorem memchr_found (b : Buf) (c : Nat) (k n : Nat) (start : Int)
    (h : ∀ i : Nat, i < k → b (start + i) ≠ c) (hk : b (start + k) = c) (hn : k < n) :
    memchr b start c n = some (start + k) := by
  rw [memchr_skip b c k n start h (by omega)]
  obtain ⟨n1, hn1⟩ : ∃ n1, n - k = n1 + 1 := ⟨n - k - 1, by omega⟩
  rw [hn1, memchr, if_pos hk]

theorem memchr_some_ge (b : Buf) (c : Nat) : ∀ (n : Nat) (start q : Int),
    memchr b start c n = some q → start ≤ q ∧ q < start + n ∧ b q = c := by
  intro n
  induction n with
  | zero => intro start q h; simp [memchr] at h
  | succ n ih =>
    intro start q h
    rw [memchr] at h
    split at h
    · cases h
      rename_i hb
      exact ⟨le_refl _, by push_cast; omega, hb⟩
    · obtain ⟨h1, h2, h3⟩ := ih _ _ h
      exact ⟨by omega, by push_cast; omega, h3⟩

theorem memchr_none (b : Buf) (c : Nat) : ∀ (n : Nat) (start : Int),
    (∀ i : Nat, i < n → b (start + i) ≠ c) → memchr b start c n = none := by
  intro n start h
  rw [memchr_skip b c n n start h (le_refl _)]
  simp [memchr]

theorem peek_getElem_eq (b : Buf) (start : Int) (n : Nat) (l : List Nat)
    (h : peek b start n = l) (i : Nat) (hi : i < l.length) : b (start + i) = l[i] := by
  subst h
  simp [peek]

theorem cstr_line_cr (ln : List Nat) (h : line_clean ln) :
    cstr (ln ++ [CR]) = ln ++ [CR] := by
  unfold cstr
  rw [List.takeWhile_eq_self_iff]
  intro c hc
  simp only [List.mem_append, List.mem_singleton] at hc
  rcases hc with hc | hc
  · simpa using (h c hc).2.2
  · subst hc
    decide

theorem indexOf_line_cr (ln : List Nat) (h : line_clean ln) :
    (ln ++ [CR]).indexOf CR = ln.length := by
  induction ln with
  | nil => simp [List.indexOf_cons]
  | cons c rest ih =>
    have hc : c ≠ CR := (h c (by simp)).1
    have := ih (fun d hd => h d (by simp [hd]))
    rw [List.cons_append, List.indexOf_cons_ne _ hc, this]
    simp

theorem getline_2pty_line (BUFSIZE : Int) (ts : tsession) (ln : List Nat) (t : Nat)
    (hfit : ts.wridx1 + ts.size1 ≤ BUFSIZE)
    (hsz : (ln.length : Int) + 1 ≤ ts.size1)
    (hbuf : peek ts.buf1 ts.wridx1 (ln.length + 1) = ln ++ [t])
    (ht : t = CR ∨ t = LF)
    (hclean : line_clean ln) :
    getline_2pty BUFSIZE ts =
      Except.ok ({ ts with buf1 := if t = LF then poke ts.buf1 (ts.wridx1 + ln.length) CR
                                   else ts.buf1,
                           wridx1 := ts.wridx1 + (ln.length + 1),
                           size1 := ts.size1 - (ln.length + 1) }, some ln) := by
  have hpre : ∀ i : Nat, i < ln.length → ts.buf1 (ts.wridx1 + i) ≠ CR ∧
      ts.buf1 (ts.wridx1 + i) ≠ LF := by
    intro i hi
    have := peek_getElem_eq _ _ _ _ hbuf i (by simp; omega)
    rw [this, List.getElem_append_left hi]
    have hm := hclean (ln[i]) (List.getElem_mem _)
    exact ⟨hm.1, hm.2.1⟩
  have hterm : ts.buf1 (ts.wridx1 + ln.length) = t := by
    have := peek_getElem_eq _ _ _ _ hbuf ln.length (by simp)
    rw [this]
    simp
  have hnat : ln.length < ts.size1.toNat := by omega
  have hnopack : ¬ ts.wridx1 + ts.size1 > BUFSIZE := by omega
  have hraw : ∀ b : Buf, (∀ i : Nat, i < ln.length → b (ts.wridx1 + i) = ts.buf1 (ts.wridx1 + i)) →
      b (ts.wridx1 + ln.length) = CR →
      peek b ts.wridx1 (ts.wridx1 + ln.length - ts.wridx1 + 1).toNat = ln ++ [CR] := by
    intro b hb hc
    have e : (ts.wridx1 + ln.length - ts.wridx1 + 1).toNat = ln.length + 1 := by omega
    rw [e]
    apply List.ext_getElem
    · simp [peek_length]
    · intro i h1 h2
      rw [getElem_peek]
      simp only [peek_length] at h1
      by_cases hi : i < ln.length
      · rw [hb i hi, List.getElem_append_left hi]
        have := peek_getElem_eq _ _ _ _ hbuf i (by simp; omega)
        rw [this, List.getElem_append_left hi]
      · have : i = ln.length := by omega
        subst this
        rw [hc]
        simp
  have hfin : ∀ (b : Buf), peek b ts.wridx1 (ts.wridx1 + ln.length - ts.wridx1 + 1).toNat
        = ln ++ [CR] →
      (match (some (ts.wridx1 + (ln.length : Int)) : Option Int) with
        | none => (Except.ok ({ ts with buf1 := b }, none) :
            Except fault (tsession × Option (List Nat)))
        | some p =>
          let len := p - ts.wridx1 + 1
          let ln := cstr (peek b ts.wridx1 len.toNat)
          let ts := { ts with buf1 := b, wridx1 := ts.wridx1 + len,
                              size1 := ts.size1 - len }
          if CR ∈ ln ∧ ln.indexOf CR + 1 = ln.length then
            Except.ok (ts, some (ln.take (ln.indexOf CR)))
          else
            Except.ok (ts, none))
      = Except.ok ({ ts with buf1 := b, wridx1 := ts.wridx1 + (ln.length + 1),
                             size1 := ts.size1 - (ln.length + 1) }, some ln) := by
    intro b hb
    simp only [hb, cstr_line_cr ln hclean, indexOf_line_cr ln hclean]
    rw [if_pos ⟨by simp, by simp⟩]
    rw [List.take_left' rfl]
    congr 3 <;> first | rfl | (congr 1; omega)
  unfold getline_2pty
  simp only [hnopack, if_false]
  rcases ht with ht | ht
  · subst ht
    have hcp : memchr ts.buf1 ts.wridx1 CR ts.size1.toNat = some (ts.wridx1 + ln.length) :=
      memchr_found _ _ _ _ _ (fun i hi => (hpre i hi).1) hterm hnat
    have hnl : ∀ i : Nat, i < ln.length + 1 → ts.buf1 (ts.wridx1 + i) ≠ LF := by
      intro i hi
      by_cases h : i < ln.length
      · exact (hpre i h).2
      · have : i = ln.length := by omega
        subst this
        rw [hterm]
        decide
    rw [hcp]
    have hC : CR ≠ LF := by decide
    simp only [hC, if_false]
    cases hcp2 : memchr ts.buf1 ts.wridx1 LF ts.size1.toNat with
    | none =>
      simp only
      exact hfin ts.buf1 (hraw ts.buf1 (fun _ _ => rfl) hterm)
    | some q =>
      obtain ⟨q1, q2, q3⟩ := memchr_some_ge _ _ _ _ _ hcp2
      have hq : ¬ q < ts.wridx1 + ln.length := by
        intro hlt
        have := hnl (q - ts.wridx1).toNat (by omega)
        rw [show ts.wridx1 + ((q - ts.wridx1).toNat : Int) = q by omega] at this
        exact this q3
      simp only [hq, if_false]
      exact hfin ts.buf1 (hraw ts.buf1 (fun _ _ => rfl) hterm)
  · subst ht
    have hcp2 : memchr ts.buf1 ts.wridx1 LF ts.size1.toNat = some (ts.wridx1 + ln.length) :=
      memchr_found _ _ _ _ _ (fun i hi => (hpre i hi).2) hterm hnat
    have hnc : ∀ i : Nat, i < ln.length + 1 → ts.buf1 (ts.wridx1 + i) ≠ CR := by
      intro i hi
      by_cases h : i < ln.length
      · exact (hpre i h).1
      · have : i = ln.length := by omega
        subst this
        rw [hterm]
        decide
    have hpk : peek (poke ts.buf1 (ts.wridx1 + ln.length) CR) ts.wridx1
        (ts.wridx1 + ln.length - ts.wridx1 + 1).toNat = ln ++ [CR] :=
      hraw _ (fun i hi => by
        have : ts.wridx1 + (i : Int) ≠ ts.wridx1 + ln.length := by omega
        simp [poke, this]) (by simp [poke])
    rw [hcp2]
    simp only [if_true]
    cases hcp : memchr ts.buf1 ts.wridx1 CR ts.size1.toNat with
    | none =>
      simp only
      exact hfin _ hpk
    | some q =>
      obtain ⟨q1, q2, q3⟩ := memchr_some_ge _ _ _ _ _ hcp
      have hq : ts.wridx1 + ln.length < q := by
        by_contra hlt
        have := hnc (q - ts.wridx1).toNat (by omega)
        rw [show ts.wridx1 + ((q - ts.wridx1).toNat : Int) = q by omega] at this
        exact this q3
      simp only [hq, if_true]
      exact hfin _ hpk

end Telnetd

/-! ## The password phase -/

namespace Telnetd

theorem after_getline_side2 (BUFSIZE : Int) (ts : tsession) :
    same_side2 (after_getline BUFSIZE ts) ts := by
  unfold after_getline
  split
  · rename_i ts1 l h
    exact getline_2pty_side2 BUFSIZE ts ts1 l h
  · exact same_side2_refl _

theorem content2_congr (BUFSIZE : Int) (a b : tsession) (h : same_side2 a b) :
    content2 BUFSIZE a = content2 BUFSIZE b := by
  obtain ⟨_, h2, _, h4, h5, _⟩ := h
  simp only [content2, h2, h4, h5]

theorem ring2_ok_congr (BUFSIZE : Int) (a b : tsession) (h : same_side2 a b)
    (hb : ring2_ok BUFSIZE b) : ring2_ok BUFSIZE a := by
  obtain ⟨_, _, h3, h4, h5, _⟩ := h
  unfold ring2_ok at hb ⊢
  rw [h3, h4, h5]
  exact hb

theorem room2_congr (BUFSIZE : Int) (a b : tsession) (n : Nat) (h : same_side2 a b)
    (hb : room2 BUFSIZE b n) : room2 BUFSIZE a n := by
  obtain ⟨_, _, h3, _, h5, _⟩ := h
  unfold room2 at hb ⊢
  rw [h3, h5]
  exact hb

/-- `case GET_PASSWORD` on a line that passes the check. -/
theorem dispatch_password_ok (BUFSIZE : Int) (env : sysenv) (self : Nat) (m : machine)
    (ln : List Nat) (hst : m.ts.state = state.GET_PASSWORD)
    (hline : extracted_line BUFSIZE m.ts = some ln)
    (hpw : equal_sessionid env ln = true ∨ ln = ATLAS_PASSWORD) :
    dispatch BUFSIZE env self m =
      Except.ok ({ m with ts := { after_getline BUFSIZE m.ts with state := state.GET_CMD },
                          w := take_over m.w self }, target.skip3) := by
  unfold dispatch
  rw [hst]
  simp only [extracted_line_some BUFSIZE m.ts ln hline, hpw, if_true, take_over]

/-- `case GET_PASSWORD` on a line that fails the check. -/
theorem dispatch_password_bad (BUFSIZE : Int) (env : sysenv) (self : Nat) (m : machine)
    (ln : List Nat) (hst : m.ts.state = state.GET_PASSWORD)
    (hline : extracted_line BUFSIZE m.ts = some ln)
    (hpw : ¬ (equal_sessionid env ln = true ∨ ln = ATLAS_PASSWORD)) :
    dispatch BUFSIZE env self m =
      match add_2sock BUFSIZE (after_getline BUFSIZE m.ts) BAD_PASSWORD with
      | Except.error e => Except.error e
      | Except.ok ts => Except.ok ({ m with ts := ts }, target.skip3) := by
  unfold dispatch
  rw [hst]
  simp only [extracted_line_some BUFSIZE m.ts ln hline, hpw, if_false]

/-- C5: in GET_PASSWORD, on an extracted line that equals the fixed password or passes
the session-id check, the pass ends at `skip3` with `atlas_ts` set to this session, a
draft left open under a previous holder closed (`atlas_crontab` is `NULL`), buffer B
and its cursors exactly as before, the files untouched, and the phase GET_CMD. -/
theorem password_accepted (BUFSIZE : Int) (env : sysenv) (self : Nat) (m : machine)
    (ln : List Nat) (hst : m.ts.state = state.GET_PASSWORD)
    (hline : extracted_line BUFSIZE m.ts = some ln)
    (hpw : equal_sessionid env ln = true ∨ ln = ATLAS_PASSWORD) :
    ∃ m1, dispatch BUFSIZE env self m = Except.ok (m1, target.skip3) ∧
      m1.w.atlas_ts = some self ∧
      (m.w.atlas_ts.isSome → m1.w.atlas_crontab = none) ∧
      (m1.ts.buf2 = m.ts.buf2 ∧ m1.ts.rdidx2 = m.ts.rdidx2 ∧ m1.ts.wridx2 = m.ts.wridx2 ∧
        m1.ts.size2 = m.ts.size2) ∧
      content2 BUFSIZE m1.ts = content2 BUFSIZE m.ts ∧
      m1.w.fs = m.w.fs ∧ m1.w.login_requests = m.w.login_requests ∧
      m1.ts.state = state.GET_CMD := by
  refine ⟨_, dispatch_password_ok BUFSIZE env self m ln hst hline hpw, ?_⟩
  obtain ⟨_, s2, s3, s4, s5, _⟩ := after_getline_side2 BUFSIZE m.ts
  refine ⟨rfl, ?_, ⟨s2, s3, s4, s5⟩, ?_, ?_, ?_, rfl⟩
  · intro h
    simp only [take_over, h, if_true]
    split
    · rfl
    · rename_i hc
      simpa using hc
  · simp only [content2, s2, s4, s5]
  · simp only [take_over]
    split <;> [split; skip] <;> rfl
  · simp only [take_over]
    split <;> [split; skip] <;> rfl

/-- C5 on an example: the fixed password arrives while the session at address 2 is
the holder and has a draft open. -/
theorem password_accepted_witness :
    ((session_with state.GET_PASSWORD (bytes "vuurwerk19\r") 11 0 11).state
        = state.GET_PASSWORD ∧
      extracted_line 2020 (session_with state.GET_PASSWORD (bytes "vuurwerk19\r") 11 0 11)
        = some (bytes "vuurwerk19")) ∧
    ∃ m1, dispatch 2020 env_ok 1
        { ts := session_with state.GET_PASSWORD (bytes "vuurwerk19\r") 11 0 11,
          w := world_busy, ws := ⟨24, 80⟩ } = Except.ok (m1, target.skip3) ∧
      m1.w.atlas_ts = some 1 ∧ m1.w.atlas_crontab = none ∧ m1.ts.state = state.GET_CMD :=
  ⟨⟨by decide, by decide⟩, by
    obtain ⟨m1, h1, h2, h3, _, _, _, _, h4⟩ := password_accepted 2020 env_ok 1
      { ts := session_with state.GET_PASSWORD (bytes "vuurwerk19\r") 11 0 11,
        w := world_busy, ws := ⟨24, 80⟩ } (bytes "vuurwerk19") (by decide) (by decide)
      (Or.inr (by decide))
    exact ⟨m1, h1, h2, h3 (by decide), h4⟩⟩

/-- C6, as the code has it: in GET_PASSWORD, on an extracted line that is neither the
fixed password nor a session-id match, and with room in buffer B for the 16 bytes of
the block (otherwise `add_2sock` aborts the process), the pass ends at `skip3` with
exactly `BAD_PASSWORD` appended to the queued bytes of buffer B, the phase still
GET_PASSWORD, the world (holder, draft, files) unchanged, and the session not killed;
a line that passes the check afterwards still takes the session to GET_CMD. -/
theorem password_rejected (BUFSIZE : Int) (env : sysenv) (self : Nat) (m : machine)
    (ln : List Nat) (hst : m.ts.state = state.GET_PASSWORD)
    (hline : extracted_line BUFSIZE m.ts = some ln)
    (hpw : equal_sessionid env ln = false ∧ ln ≠ ATLAS_PASSWORD)
    (hring : ring2_ok BUFSIZE m.ts) (hroom : room2 BUFSIZE m.ts BAD_PASSWORD.length) :
    ∃ ts1, dispatch BUFSIZE env self m = Except.ok ({ m with ts := ts1 }, target.skip3) ∧
      content2 BUFSIZE ts1 = content2 BUFSIZE m.ts ++ BAD_PASSWORD ∧
      ts1.state = state.GET_PASSWORD ∧
      (ts1.buf1 = (after_getline BUFSIZE m.ts).buf1 ∧
        ts1.wridx1 = (after_getline BUFSIZE m.ts).wridx1 ∧
        ts1.size1 = (after_getline BUFSIZE m.ts).size1) ∧
      ∀ ln2, extracted_line BUFSIZE ts1 = some ln2 →
        (equal_sessionid env ln2 = true ∨ ln2 = ATLAS_PASSWORD) →
        ∃ m2, dispatch BUFSIZE env self { m with ts := ts1 } = Except.ok (m2, target.skip3) ∧
          m2.ts.state = state.GET_CMD ∧ m2.w.atlas_ts = some self := by
  have hs := after_getline_side2 BUFSIZE m.ts
  obtain ⟨ts1, e1, e2, _, _, _, _, e7, e8, _, e10, e11, _⟩ :=
    add_2sock_appends BUFSIZE (after_getline BUFSIZE m.ts) BAD_PASSWORD
      (ring2_ok_congr BUFSIZE _ _ hs hring) (room2_congr BUFSIZE _ _ _ hs hroom)
  have hbad : ¬ (equal_sessionid env ln = true ∨ ln = ATLAS_PASSWORD) := by
    rw [hpw.1]
    simp [hpw.2]
  have hd := dispatch_password_bad BUFSIZE env self m ln hst hline hbad
  rw [e1] at hd
  have hst1 : ts1.state = state.GET_PASSWORD := by rw [e7, hs.1, hst]
  refine ⟨ts1, hd, ?_, hst1, ⟨e8, e10, e11⟩, ?_⟩
  · rw [e2, content2_congr BUFSIZE _ _ hs]
  · intro ln2 hl2 hp2
    exact ⟨_, dispatch_password_ok BUFSIZE env self { m with ts := ts1 } ln2 hst1 hl2 hp2,
      rfl, rfl⟩

/-- C6 on an example: a wrong password with buffer B empty. -/
theorem password_rejected_witness :
    ((session_with state.GET_PASSWORD (bytes "guess\r") 6 0 6).state = state.GET_PASSWORD ∧
      extracted_line 2020 (session_with state.GET_PASSWORD (bytes "guess\r") 6 0 6)
        = some (bytes "guess") ∧
      (equal_sessionid env_ok (bytes "guess") = false ∧ bytes "guess" ≠ ATLAS_PASSWORD) ∧
      ring2_ok 2020 (session_with state.GET_PASSWORD (bytes "guess\r") 6 0 6) ∧
      room2 2020 (session_with state.GET_PASSWORD (bytes "guess\r") 6 0 6)
        BAD_PASSWORD.length) ∧
    ∃ ts1, dispatch 2020 env_ok 1
        { ts := session_with state.GET_PASSWORD (bytes "guess\r") 6 0 6,
          w := world_busy, ws := ⟨24, 80⟩ }
        = Except.ok ({ ts := ts1, w := world_busy, ws := ⟨24, 80⟩ }, target.skip3) ∧
      content2 2020 ts1
        = content2 2020 (session_with state.GET_PASSWORD (bytes "guess\r") 6 0 6)
          ++ BAD_PASSWORD ∧
      ts1.state = state.GET_PASSWORD :=
  ⟨⟨by decide, by decide, by decide, by decide, by decide⟩, by
    obtain ⟨ts1, h1, h2, h3, _⟩ := password_rejected 2020 env_ok 1
      { ts := session_with state.GET_PASSWORD (bytes "guess\r") 6 0 6,
        w := world_busy, ws := ⟨24, 80⟩ } (bytes "guess") (by decide) (by decide)
      (by decide) (by decide) (by decide)
    exact ⟨ts1, h1, h2, h3⟩⟩

/-- C6 as stated fails: when buffer B has no room for the block, the wrong password
does not append `BAD_PASSWORD` and leave the session connected; the process aborts. -/
theorem password_rejected_aborts :
    (flooded_session.state = state.GET_PASSWORD ∧
      extracted_line 2020 flooded_session = some (bytes "x") ∧
      equal_sessionid env_ok (bytes "x") = false ∧ bytes "x" ≠ ATLAS_PASSWORD) ∧
    dispatch 2020 env_ok 1 { ts := flooded_session, w := world_idle, ws := ⟨24, 80⟩ }
      = Except.error fault.abort :=
  ⟨⟨by decide, by decide, by decide, by decide⟩, rfl⟩

end Telnetd

/-! ## The login phase -/

namespace Telnetd

theorem peek_buf_of (l : List Nat) : peek (buf_of l) 0 l.length = l := by
  apply List.ext_getElem
  · simp [peek_length]
  · intro i h1 h2
    rw [getElem_peek]
    simp only [buf_of, zero_add, Int.toNat_ofNat, Nat.cast_nonneg, if_true]
    exact List.getD_eq_getElem _ _ h2

theorem collapse_cr_no_cr : ∀ (l : List Nat) (c : Nat), CR ∉ l →
    collapse_cr (l ++ [c]) = l ++ [c] := by
  intro l
  induction l with
  | nil => intro c _; simp [collapse_cr]
  | cons a rest ih =>
    intro c h
    have ha : a ≠ CR := fun e => h (by simp [e])
    have hr : CR ∉ rest := fun e => h (by simp [e])
    have := ih c hr
    cases rest with
    | nil => simp [collapse_cr, ha]
    | cons b rest2 =>
      simp only [List.cons_append] at this
      show collapse_cr (a :: b :: (rest2 ++ [c])) = a :: b :: (rest2 ++ [c])
      simp only [collapse_cr, ha, false_and, if_false]
      rw [this]

theorem line_clean_no_cr (ln : List Nat) (h : line_clean ln) : CR ∉ ln :=
  fun hc => (h CR hc).1 rfl

/-- In GET_LOGINNAME, with buffer A holding exactly one line without IAC followed by CR,
stored without wrapping: `remove_iacs` changes nothing that `getline_2pty` reads, and
the line is extracted. -/
theorem login_line_in_buffer (BUFSIZE : Int) (ts : tsession) (ws : winsize) (ln : List Nat)
    (hfit : ts.wridx1 + ts.size1 ≤ BUFSIZE) (hsz : ts.size1 = (ln.length : Int) + 1)
    (hbuf : peek ts.buf1 ts.wridx1 (ln.length + 1) = ln ++ [CR])
    (hclean : line_clean ln) (hiac : IAC ∉ ln) :
    extracted_line BUFSIZE (remove_iacs BUFSIZE ts ws).ts = some ln := by
  have hmin : (min (BUFSIZE - ts.wridx1) ts.size1).toNat = ln.length + 1 := by
    rw [min_eq_right (by omega), hsz]
    omega
  have hspan : scanned_span BUFSIZE ts = ln ++ [CR] := by
    unfold scanned_span
    rw [hmin, hbuf]
  have hno : IAC ∉ scanned_span BUFSIZE ts := by
    rw [hspan]
    simp only [List.mem_append, List.mem_singleton, not_or]
    exact ⟨hiac, by decide⟩
  obtain ⟨p1, p2, p3, p4, _⟩ := remove_iacs_plain BUFSIZE ts ws hno
  rw [hspan, collapse_cr_no_cr ln CR (line_clean_no_cr ln hclean)] at p2 p3
  rw [hspan] at p1
  have hnum : (remove_iacs BUFSIZE ts ws).num_totty.toNat = ln.length + 1 := by
    have := congrArg List.length p2
    simpa [iacs_result.totty, peek_length] using this
  simp only [List.length_append, List.length_singleton, Nat.cast_add, Nat.cast_one] at p1 p3
  have hptr : (remove_iacs BUFSIZE ts ws).ptr = ts.wridx1 := by omega
  have hw : (remove_iacs BUFSIZE ts ws).ts.wridx1 = ts.wridx1 := by rw [p4, hptr]
  have hs : (remove_iacs BUFSIZE ts ws).ts.size1 = ts.size1 := by omega
  have hb : peek (remove_iacs BUFSIZE ts ws).ts.buf1 (remove_iacs BUFSIZE ts ws).ts.wridx1
      (ln.length + 1) = ln ++ [CR] := by
    rw [hw, ← hptr, ← hnum]
    exact p2
  have hg := getline_2pty_line BUFSIZE (remove_iacs BUFSIZE ts ws).ts ln CR
    (by rw [hw, hs]; exact hfit) (by rw [hs, hsz]) hb (Or.inl rfl) hclean
  unfold extracted_line
  rw [hg]

/-- `case GET_LOGINNAME` on the login token, when the prompt goes into buffer B. -/
theorem dispatch_login_token (BUFSIZE : Int) (env : sysenv) (self : Nat) (m : machine)
    (ts2 : tsession) (hst : m.ts.state = state.GET_LOGINNAME)
    (hline : extracted_line BUFSIZE (remove_iacs BUFSIZE m.ts m.ws).ts = some ATLAS_LOGIN)
    (hadd : add_2sock BUFSIZE (after_getline BUFSIZE (remove_iacs BUFSIZE m.ts m.ws).ts)
      PASSWORD_PROMPT = Except.ok ts2) :
    dispatch BUFSIZE env self m =
      Except.ok ({ ts := { ts2 with state := state.GET_PASSWORD }, w := m.w,
                   ws := (remove_iacs BUFSIZE m.ts m.ws).ws }, target.skip3) := by
  unfold dispatch
  rw [hst]
  simp only [extracted_line_some BUFSIZE _ _ hline, if_true, hadd]

/-- `case GET_LOGINNAME` on any other line, when the echo goes into buffer B and
`start_login` succeeds. -/
theorem dispatch_login_other (BUFSIZE : Int) (env : sysenv) (self : Nat) (m : machine)
    (ln : List Nat) (ts2 : tsession) (fd pid : Int)
    (hst : m.ts.state = state.GET_LOGINNAME)
    (hline : extracted_line BUFSIZE (remove_iacs BUFSIZE m.ts m.ws).ts = some ln)
    (hne : ln ≠ ATLAS_LOGIN)
    (hadd : add_2sock BUFSIZE (after_getline BUFSIZE (remove_iacs BUFSIZE m.ts m.ws).ts) ln
      = Except.ok ts2)
    (hsp : env.spawn ln = spawn_result.parent fd pid) :
    dispatch BUFSIZE env self m =
      Except.ok ({ ts := { ts2 with ptyfd := fd, shell_pid := pid,
                                    state := state.DO_TRADITIONAL },
                   w := { m.w with login_requests := m.w.login_requests ++ [ln] },
                   ws := new_pty_ws }, target.skip3a) := by
  unfold dispatch
  rw [hst]
  simp only [extracted_line_some BUFSIZE _ _ hline, hne, if_false, hadd, start_login, hsp]
  rfl

/-- `case GET_LOGINNAME` on a line other than the token whose echo `add_2sock` refuses. -/
theorem dispatch_login_echo_error (BUFSIZE : Int) (env : sysenv) (self : Nat) (m : machine)
    (ln : List Nat) (e : fault) (hst : m.ts.state = state.GET_LOGINNAME)
    (hline : extracted_line BUFSIZE (remove_iacs BUFSIZE m.ts m.ws).ts = some ln)
    (hne : ln ≠ ATLAS_LOGIN)
    (hadd : add_2sock BUFSIZE (after_getline BUFSIZE (remove_iacs BUFSIZE m.ts m.ws).ts) ln
      = Except.error e) :
    dispatch BUFSIZE env self m = Except.error e := by
  unfold dispatch
  rw [hst]
  simp only [extracted_line_some BUFSIZE _ _ hline, hne, if_false, hadd]

theorem login_side2 (BUFSIZE : Int) (ts : tsession) (ws : winsize) :
    same_side2 (after_getline BUFSIZE (remove_iacs BUFSIZE ts ws).ts) ts :=
  same_side2_trans (after_getline_side2 BUFSIZE _) (remove_iacs_side2 BUFSIZE ts ws)

/-- C4, as the code has it: in GET_LOGINNAME, for a line extracted after the filter
has run. If it is the login token and buffer B has room for the prompt, the password
prompt is appended to buffer B, the world is unchanged (no login is requested) and the
phase is GET_PASSWORD, the pass ending at `skip3`. If it is any other line and buffer B
has room for it, the line is appended to buffer B, `start_login` is called with the line
as user and, when it succeeds, the session has the new pty and child and the phase
DO_TRADITIONAL, the pass ending at `skip3a`. Without room, `add_2sock` aborts. -/
theorem login_line (BUFSIZE : Int) (env : sysenv) (self : Nat) (m : machine) (ln : List Nat)
    (hst : m.ts.state = state.GET_LOGINNAME)
    (hline : extracted_line BUFSIZE (remove_iacs BUFSIZE m.ts m.ws).ts = some ln)
    (hring : ring2_ok BUFSIZE m.ts) :
    (ln = ATLAS_LOGIN → room2 BUFSIZE m.ts PASSWORD_PROMPT.length →
      ∃ ts1, dispatch BUFSIZE env self m =
          Except.ok ({ ts := ts1, w := m.w, ws := (remove_iacs BUFSIZE m.ts m.ws).ws },
                     target.skip3) ∧
        content2 BUFSIZE ts1 = content2 BUFSIZE m.ts ++ PASSWORD_PROMPT ∧
        ts1.state = state.GET_PASSWORD) ∧
    (ln ≠ ATLAS_LOGIN → room2 BUFSIZE m.ts ln.length →
      ∀ fd pid, env.spawn ln = spawn_result.parent fd pid →
      ∃ ts1 w1, dispatch BUFSIZE env self m =
          Except.ok ({ ts := ts1, w := w1, ws := new_pty_ws },
                     target.skip3a) ∧
        content2 BUFSIZE ts1 = content2 BUFSIZE m.ts ++ ln ∧
        w1.login_requests = m.w.login_requests ++ [ln] ∧
        (w1.atlas_ts = m.w.atlas_ts ∧ w1.atlas_crontab = m.w.atlas_crontab ∧
          w1.fs = m.w.fs) ∧
        ts1.ptyfd = fd ∧ ts1.shell_pid = pid ∧ ts1.state = state.DO_TRADITIONAL) := by
  have hs := login_side2 BUFSIZE m.ts m.ws
  have hring1 := ring2_ok_congr BUFSIZE _ _ hs hring
  constructor
  · intro htok hroom
    subst htok
    obtain ⟨ts2, e1, e2, _⟩ := add_2sock_appends BUFSIZE _ PASSWORD_PROMPT hring1
      (room2_congr BUFSIZE _ _ _ hs hroom)
    refine ⟨_, dispatch_login_token BUFSIZE env self m ts2 hst hline e1, ?_, rfl⟩
    rw [← content2_congr BUFSIZE _ _ hs, ← e2]
    rfl
  · intro hne hroom fd pid hsp
    obtain ⟨ts2, e1, e2, _⟩ := add_2sock_appends BUFSIZE _ ln hring1
      (room2_congr BUFSIZE _ _ _ hs hroom)
    refine ⟨_, _, dispatch_login_other BUFSIZE env self m ln ts2 fd pid hst hline hne e1 hsp,
      ?_, rfl, ⟨rfl, rfl, rfl⟩, rfl, rfl, rfl⟩
    rw [← content2_congr BUFSIZE _ _ hs, ← e2]
    rfl

/-- C4 on an example: the login token arrives in a fresh session. -/
theorem login_line_witness :
    ((session_with state.GET_LOGINNAME (bytes "C_TO_P_TEST_V1\r") 15 0 15).state
        = state.GET_LOGINNAME ∧
      extracted_line 2020 (remove_iacs 2020
        (session_with state.GET_LOGINNAME (bytes "C_TO_P_TEST_V1\r") 15 0 15) ⟨24, 80⟩).ts
        = some ATLAS_LOGIN ∧
      ring2_ok 2020 (session_with state.GET_LOGINNAME (bytes "C_TO_P_TEST_V1\r") 15 0 15)) ∧
    ∃ ts1, dispatch 2020 env_ok 1
        { ts := session_with state.GET_LOGINNAME (bytes "C_TO_P_TEST_V1\r") 15 0 15,
          w := world_idle, ws := ⟨24, 80⟩ } =
          Except.ok ({ ts := ts1, w := world_idle,
                       ws := (remove_iacs 2020 (session_with state.GET_LOGINNAME
                          (bytes "C_TO_P_TEST_V1\r") 15 0 15) ⟨24, 80⟩).ws },
                     target.skip3) ∧
      content2 2020 ts1 = content2 2020
          (session_with state.GET_LOGINNAME (bytes "C_TO_P_TEST_V1\r") 15 0 15)
        ++ PASSWORD_PROMPT ∧
      ts1.state = state.GET_PASSWORD :=
  ⟨⟨by decide, by decide, by decide⟩,
   (login_line 2020 env_ok 1
      { ts := session_with state.GET_LOGINNAME (bytes "C_TO_P_TEST_V1\r") 15 0 15,
        w := world_idle, ws := ⟨24, 80⟩ } ATLAS_LOGIN (by decide) (by decide)
      (by decide)).1 rfl (by decide)⟩

/-- C4 as stated fails: the login name of `long_login` is a line other than the token,
but it is not echoed and no login is spawned; `add_2sock` aborts the process because
37 + 1990 > 2020. -/
theorem login_line_aborts :
    (long_login.state = state.GET_LOGINNAME ∧
      extracted_line 2020 (remove_iacs 2020 long_login ⟨24, 80⟩).ts
        = some (List.replicate 1990 97) ∧
      List.replicate 1990 97 ≠ ATLAS_LOGIN) ∧
    dispatch 2020 env_ok 1 { ts := long_login, w := world_idle, ws := ⟨24, 80⟩ }
      = Except.error fault.abort := by
  have hlen : (List.replicate 1990 97 : List Nat).length = 1990 := List.length_replicate _ _
  have hclean : line_clean (List.replicate 1990 97) := by
    intro c hc
    rw [List.eq_of_mem_replicate hc]
    decide
  have hiac : IAC ∉ (List.replicate 1990 97 : List Nat) := by
    intro hc
    have := List.eq_of_mem_replicate hc
    exact absurd this (by decide)
  have hbuf : peek long_login.buf1 long_login.wridx1 ((List.replicate 1990 97).length + 1)
      = List.replicate 1990 97 ++ [CR] := by
    have := peek_buf_of (List.replicate 1990 97 ++ [CR])
    rw [List.length_append, List.length_singleton] at this
    exact this
  have hline := login_line_in_buffer 2020 long_login ⟨24, 80⟩ (List.replicate 1990 97)
    (by decide) (by rw [hlen]; rfl) hbuf hclean hiac
  have hne : List.replicate 1990 97 ≠ ATLAS_LOGIN := by
    intro h
    have := congrArg List.length h
    rw [hlen] at this
    exact absurd this (by decide)
  refine ⟨⟨rfl, hline, hne⟩, ?_⟩
  obtain ⟨_, _, s3, _, s5, _⟩ := login_side2 2020 long_login ⟨24, 80⟩
  exact dispatch_login_echo_error 2020 env_ok 1
    { ts := long_login, w := world_idle, ws := ⟨24, 80⟩ } (List.replicate 1990 97)
    fault.abort rfl hline hne
    (add_2sock_error 2020 _ _ (Or.inl (by
      rw [s5, hlen]
      decide)))

end Telnetd

/-! ## The CRONTAB command -/

namespace Telnetd

theorem strlcpy_short (s : List Nat) (h : s.length ≤ 255) : strlcpy s 256 = s := by
  unfold strlcpy
  exact List.take_of_length_le (by omega)

theorem strlcat_short (d s : List Nat) (h : d.length + s.length ≤ 255) :
    strlcat d s 256 = d ++ s := by
  unfold strlcat
  rw [List.take_of_length_le (by omega)]

theorem crontab_new_suf_length : CRONTAB_NEW_SUF.length = 9 := by decide
theorem crontab_suffix_length : CRONTAB_SUFFIX.length = 5 := by decide
theorem cronupdate_length : CRONUPDATE.length = 12 := by decide
theorem cmd_crontab_length : CMD_CRONTAB.length = 8 := by decide
theorem cmd_cronline_length : CMD_CRONLINE.length = 9 := by decide

/-- `start_crontab` while a draft is open. -/
theorem start_crontab_busy (BUFSIZE : Int) (env : sysenv) (ts ts2 : tsession) (w : world)
    (ln : List Nat) (hbusy : w.atlas_crontab.isSome = true)
    (hadd : add_2sock BUFSIZE ts CRONTAB_BUSY = Except.ok ts2) :
    start_crontab BUFSIZE env ts w ln = Except.ok (ts2, w, -1) := by
  unfold start_crontab
  simp only [hbusy, if_true, hadd]

/-- `start_crontab` on a name of more than 246 bytes. -/
theorem start_crontab_long (BUFSIZE : Int) (env : sysenv) (ts ts2 : tsession) (w : world)
    (name : List Nat) (hfree : w.atlas_crontab = none) (hlong : 246 < name.length)
    (hadd : add_2sock BUFSIZE ts NAME_TOO_LONG = Except.ok ts2) :
    ∃ w1, start_crontab BUFSIZE env ts w (CMD_CRONTAB ++ name) = Except.ok (ts2, w1, -1) ∧
      w1.atlas_crontab = none ∧ w1.atlas_ts = w.atlas_ts ∧ w1.fs = w.fs ∧
      w1.login_requests = w.login_requests := by
  unfold start_crontab
  simp only [hfree, Option.isSome_none, Bool.false_eq_true, if_false, List.drop_left,
    crontab_new_suf_length]
  by_cases h1 : name.length + 1 > 256
  · simp only [h1, if_true, hadd]
    exact ⟨w, rfl, hfree, rfl, rfl, rfl⟩
  · have h2 : name.length + 9 + 1 > 256 := by omega
    simp only [h1, if_false, h2, if_true, hadd]
    exact ⟨_, rfl, rfl, rfl, rfl, rfl⟩

/-- `start_crontab` on a name that fits when the staging file cannot be opened. -/
theorem start_crontab_nofile (BUFSIZE : Int) (env : sysenv) (ts ts2 : tsession) (w : world)
    (name : List Nat) (hfree : w.atlas_crontab = none) (hshort : name.length ≤ 246)
    (hopen : env.fopen_ok (name ++ CRONTAB_NEW_SUF) = false)
    (hadd : add_2sock BUFSIZE ts CREATE_FAILED = Except.ok ts2) :
    start_crontab BUFSIZE env ts w (CMD_CRONTAB ++ name) =
      Except.ok (ts2, { w with atlas_dirname := name }, -1) := by
  unfold start_crontab
  have h1 : ¬ name.length + 1 > 256 := by omega
  have h2 : ¬ name.length + 9 + 1 > 256 := by omega
  simp only [hfree, Option.isSome_none, Bool.false_eq_true, if_false, List.drop_left,
    crontab_new_suf_length, h1, h2, strlcpy_short name (by omega),
    strlcat_short name CRONTAB_NEW_SUF (by rw [crontab_new_suf_length]; omega), hopen, hadd]

/-- `start_crontab` on a name that fits when the staging file is opened. -/
theorem start_crontab_opens (BUFSIZE : Int) (env : sysenv) (ts : tsession) (w : world)
    (name : List Nat) (hfree : w.atlas_crontab = none) (hshort : name.length ≤ 246)
    (hopen : env.fopen_ok (name ++ CRONTAB_NEW_SUF) = true) :
    start_crontab BUFSIZE env ts w (CMD_CRONTAB ++ name) =
      Except.ok (ts, { w with atlas_dirname := name,
                              atlas_crontab := some { name := name ++ CRONTAB_NEW_SUF },
                              fs := w.fs.store (name ++ CRONTAB_NEW_SUF) [] }, 0) := by
  unfold start_crontab
  have h1 : ¬ name.length + 1 > 256 := by omega
  have h2 : ¬ name.length + 9 + 1 > 256 := by omega
  simp only [hfree, Option.isSome_none, Bool.false_eq_true, if_false, List.drop_left,
    crontab_new_suf_length, h1, h2, strlcpy_short name (by omega),
    strlcat_short name CRONTAB_NEW_SUF (by rw [crontab_new_suf_length]; omega), hopen,
    if_true]

theorem strncmp_crontab (name : List Nat) :
    strncmp_eq (CMD_CRONTAB ++ name) CMD_CRONTAB CMD_CRONTAB.length = true := by
  simp [strncmp_eq]

/-- `case GET_CMD` for the holder, once a line is extracted: the code at `do_cmd`. -/
theorem dispatch_cmd (BUFSIZE : Int) (env : sysenv) (self : Nat) (m : machine)
    (ln : List Nat) (hst : m.ts.state = state.GET_CMD) (hholder : m.w.atlas_ts = some self)
    (hline : extracted_line BUFSIZE m.ts = some ln) :
    dispatch BUFSIZE env self m =
      do_cmd BUFSIZE env { m with ts := after_getline BUFSIZE m.ts } ln := by
  unfold dispatch
  rw [hst]
  simp only [hholder, ne_eq, not_true_eq_false, if_false,
    extracted_line_some BUFSIZE m.ts ln hline]

/-- The code at `do_cmd` on `CRONTAB <name>` when `start_crontab` returns -1. -/
theorem do_cmd_crontab_fail (BUFSIZE : Int) (env : sysenv) (m : machine) (name : List Nat)
    (ts2 : tsession) (w2 : world)
    (h : start_crontab BUFSIZE env m.ts m.w (CMD_CRONTAB ++ name) = Except.ok (ts2, w2, -1)) :
    do_cmd BUFSIZE env m (CMD_CRONTAB ++ name) =
      Except.ok ({ m with ts := ts2, w := w2 }, target.skip3) := by
  unfold do_cmd
  simp only [strncmp_crontab, if_true, h]

/-- The code at `do_cmd` on `CRONTAB <name>` when `start_crontab` returns 0. -/
theorem do_cmd_crontab_ok (BUFSIZE : Int) (env : sysenv) (m : machine) (name : List Nat)
    (ts2 : tsession) (w2 : world)
    (h : start_crontab BUFSIZE env m.ts m.w (CMD_CRONTAB ++ name) = Except.ok (ts2, w2, 0)) :
    do_cmd BUFSIZE env m (CMD_CRONTAB ++ name) =
      Except.ok ({ m with ts := { ts2 with state := state.DO_CRONTAB }, w := w2 },
                 target.skip3) := by
  unfold do_cmd
  simp only [strncmp_crontab, if_true, h]
  rfl

/-- C8, as the code has it: in GET_CMD, for the holder, on an extracted line
`CRONTAB <name>`. With a draft open: `CRONTAB_BUSY` is appended, the world (and so the
open draft) is untouched. Otherwise, with a name longer than 246 bytes: `NAME_TOO_LONG`
is appended. Otherwise, when `<name>/root.new` cannot be opened: `CREATE_FAILED` is
appended. In these three cases buffer B must have room for the block (else `add_2sock`
aborts), no draft is open afterwards that was not open before, the files are untouched
and the phase stays GET_CMD. In the remaining case nothing is appended, the staging file
is created empty, the draft for `<name>` is open and the phase is DO_CRONTAB. Every case
ends at `skip3`. -/
theorem crontab_command (BUFSIZE : Int) (env : sysenv) (self : Nat) (m : machine)
    (name : List Nat) (hst : m.ts.state = state.GET_CMD)
    (hholder : m.w.atlas_ts = some self)
    (hline : extracted_line BUFSIZE m.ts = some (CMD_CRONTAB ++ name))
    (hring : ring2_ok BUFSIZE m.ts) :
    (m.w.atlas_crontab.isSome = true → room2 BUFSIZE m.ts CRONTAB_BUSY.length →
      ∃ ts1, dispatch BUFSIZE env self m = Except.ok ({ m with ts := ts1 }, target.skip3) ∧
        content2 BUFSIZE ts1 = content2 BUFSIZE m.ts ++ CRONTAB_BUSY ∧
        ts1.state = state.GET_CMD) ∧
    (m.w.atlas_crontab = none → 246 < name.length →
      room2 BUFSIZE m.ts NAME_TOO_LONG.length →
      ∃ ts1 w1, dispatch BUFSIZE env self m =
          Except.ok ({ m with ts := ts1, w := w1 }, target.skip3) ∧
        content2 BUFSIZE ts1 = content2 BUFSIZE m.ts ++ NAME_TOO_LONG ∧
        ts1.state = state.GET_CMD ∧ w1.atlas_crontab = none ∧
        w1.atlas_ts = m.w.atlas_ts ∧ w1.fs = m.w.fs) ∧
    (m.w.atlas_crontab = none → name.length ≤ 246 →
      env.fopen_ok (name ++ CRONTAB_NEW_SUF) = false →
      room2 BUFSIZE m.ts CREATE_FAILED.length →
      ∃ ts1 w1, dispatch BUFSIZE env self m =
          Except.ok ({ m with ts := ts1, w := w1 }, target.skip3) ∧
        content2 BUFSIZE ts1 = content2 BUFSIZE m.ts ++ CREATE_FAILED ∧
        ts1.state = state.GET_CMD ∧ w1.atlas_crontab = none ∧
        w1.atlas_ts = m.w.atlas_ts ∧ w1.fs = m.w.fs) ∧
    (m.w.atlas_crontab = none → name.length ≤ 246 →
      env.fopen_ok (name ++ CRONTAB_NEW_SUF) = true →
      ∃ ts1 w1, dispatch BUFSIZE env self m =
          Except.ok ({ m with ts := ts1, w := w1 }, target.skip3) ∧
        content2 BUFSIZE ts1 = content2 BUFSIZE m.ts ∧
        (ts1.buf2 = m.ts.buf2 ∧ ts1.rdidx2 = m.ts.rdidx2 ∧ ts1.wridx2 = m.ts.wridx2 ∧
          ts1.size2 = m.ts.size2) ∧
        ts1.state = state.DO_CRONTAB ∧
        w1.atlas_crontab = some { name := name ++ CRONTAB_NEW_SUF } ∧
        w1.atlas_dirname = name ∧ w1.atlas_ts = m.w.atlas_ts ∧
        w1.fs = m.w.fs.store (name ++ CRONTAB_NEW_SUF) []) := by
  have hs := after_getline_side2 BUFSIZE m.ts
  have hring1 := ring2_ok_congr BUFSIZE _ _ hs hring
  have hd := dispatch_cmd BUFSIZE env self m _ hst hholder hline
  have hstate : (after_getline BUFSIZE m.ts).state = state.GET_CMD := by rw [hs.1, hst]
  refine ⟨?_, ?_, ?_, ?_⟩
  · intro hbusy hroom
    obtain ⟨ts2, e1, e2, _, _, _, _, e7, _⟩ := add_2sock_appends BUFSIZE _ CRONTAB_BUSY hring1
      (room2_congr BUFSIZE _ _ _ hs hroom)
    have h1 := start_crontab_busy BUFSIZE env _ ts2 m.w (CMD_CRONTAB ++ name) hbusy e1
    refine ⟨ts2, ?_, ?_, ?_⟩
    · rw [hd, do_cmd_crontab_fail BUFSIZE env _ name ts2 m.w h1]
    · rw [e2, content2_congr BUFSIZE _ _ hs]
    · rw [e7, hstate]
  · intro hfree hlong hroom
    obtain ⟨ts2, e1, e2, _, _, _, _, e7, _⟩ := add_2sock_appends BUFSIZE _ NAME_TOO_LONG
      hring1 (room2_congr BUFSIZE _ _ _ hs hroom)
    obtain ⟨w1, h1, h2, h3, h4, _⟩ :=
      start_crontab_long BUFSIZE env _ ts2 m.w name hfree hlong e1
    refine ⟨ts2, w1, ?_, ?_, ?_, h2, h3, h4⟩
    · rw [hd, do_cmd_crontab_fail BUFSIZE env _ name ts2 w1 h1]
    · rw [e2, content2_congr BUFSIZE _ _ hs]
    · rw [e7, hstate]
  · intro hfree hshort hopen hroom
    obtain ⟨ts2, e1, e2, _, _, _, _, e7, _⟩ := add_2sock_appends BUFSIZE _ CREATE_FAILED
      hring1 (room2_congr BUFSIZE _ _ _ hs hroom)
    have h1 := start_crontab_nofile BUFSIZE env _ ts2 m.w name hfree hshort hopen e1
    refine ⟨ts2, { m.w with atlas_dirname := name }, ?_, ?_, ?_, hfree, rfl, rfl⟩
    · rw [hd, do_cmd_crontab_fail BUFSIZE env _ name ts2 _ h1]
    · rw [e2, content2_congr BUFSIZE _ _ hs]
    · rw [e7, hstate]
  · intro hfree hshort hopen
    have h1 := start_crontab_opens BUFSIZE env (after_getline BUFSIZE m.ts) m.w name hfree
      hshort hopen
    obtain ⟨_, s2, s3, s4, s5, _⟩ := hs
    refine ⟨{ after_getline BUFSIZE m.ts with state := state.DO_CRONTAB },
      { m.w with atlas_dirname := name,
                 atlas_crontab := some { name := name ++ CRONTAB_NEW_SUF },
                 fs := m.w.fs.store (name ++ CRONTAB_NEW_SUF) [] },
      ?_, ?_, ⟨s2, s3, s4, s5⟩, rfl, rfl, rfl, rfl, rfl⟩
    · rw [hd, do_cmd_crontab_ok BUFSIZE env _ name _ _ h1]
    · simp only [content2, s2, s4, s5]

/-- C8 on an example: `CRONTAB mydir` from the holder opens the draft. -/
theorem crontab_command_witness :
    ((session_with state.GET_CMD (bytes "CRONTAB mydir\r") 14 0 14).state = state.GET_CMD ∧
      world_held.atlas_ts = some 1 ∧
      extracted_line 2020 (session_with state.GET_CMD (bytes "CRONTAB mydir\r") 14 0 14)
        = some (CMD_CRONTAB ++ bytes "mydir") ∧
      ring2_ok 2020 (session_with state.GET_CMD (bytes "CRONTAB mydir\r") 14 0 14)) ∧
    ∃ ts1 w1, dispatch 2020 env_ok 1
        { ts := session_with state.GET_CMD (bytes "CRONTAB mydir\r") 14 0 14,
          w := world_held, ws := ⟨24, 80⟩ } =
          Except.ok ({ ts := ts1, w := w1, ws := ⟨24, 80⟩ }, target.skip3) ∧
      ts1.state = state.DO_CRONTAB ∧
      w1.atlas_crontab = some { name := bytes "mydir" ++ CRONTAB_NEW_SUF } := by
  refine ⟨⟨by decide, by decide, by decide, by decide⟩, ?_⟩
  obtain ⟨ts1, w1, h1, _, _, h4, h5, _⟩ := (crontab_command 2020 env_ok 1
    { ts := session_with state.GET_CMD (bytes "CRONTAB mydir\r") 14 0 14,
      w := world_held, ws := ⟨24, 80⟩ } (bytes "mydir") (by decide) (by decide) (by decide)
    (by decide)).2.2.2 (by decide) (by decide) (by decide)
  exact ⟨ts1, w1, h1, h4, h5⟩

/-- C8 as stated fails, in two ways. For the holder: the staging file cannot be
opened, but buffer B has no room for the 32 bytes of `CREATE_FAILED`; no response is
appended, the process aborts. For a session in GET_CMD that is not the holder, with a
draft open and `CRONTAB d` waiting in buffer A: no `CRONTAB_BUSY` is appended, the pass
goes to `kill_session` with the session as it was. -/
theorem crontab_command_fails :
    ((crowded_holder.state = state.GET_CMD ∧ world_held.atlas_ts = some 1 ∧
        world_held.atlas_crontab = none ∧
        extracted_line 2020 crowded_holder = some (CMD_CRONTAB ++ bytes "d") ∧
        env_nofile.fopen_ok (bytes "d" ++ CRONTAB_NEW_SUF) = false) ∧
      dispatch 2020 env_nofile 1 { ts := crowded_holder, w := world_held, ws := ⟨24, 80⟩ }
        = Except.error fault.abort) ∧
    ((session_with state.GET_CMD (bytes "CRONTAB d\r") 10 0 10).state = state.GET_CMD ∧
      world_busy.atlas_crontab.isSome = true ∧ world_busy.atlas_ts = some 2 ∧
      extracted_line 2020 (session_with state.GET_CMD (bytes "CRONTAB d\r") 10 0 10)
        = some (CMD_CRONTAB ++ bytes "d") ∧
      dispatch 2020 env_ok 1
        { ts := session_with state.GET_CMD (bytes "CRONTAB d\r") 10 0 10, w := world_busy,
          ws := ⟨24, 80⟩ }
        = Except.ok ({ ts := session_with state.GET_CMD (bytes "CRONTAB d\r") 10 0 10,
                       w := world_busy, ws := ⟨24, 80⟩ }, target.kill_session)) :=
  ⟨⟨⟨by decide, by decide, by decide, by decide, by decide⟩, rfl⟩,
   ⟨by decide, by decide, by decide, by decide, rfl⟩⟩

end Telnetd

/-! ## Cursor bounds of remove_iacs -/

namespace Telnetd

/-- One continuing pass of the loop of `remove_iacs` moves `ptr` forward, stays inside
the span, and moves `totty` by at most as much as `ptr`. -/
theorem remove_iacs_body_bounds (end_ : Int) (s s1 : scan)
    (h : remove_iacs_body end_ s = some s1) (hlt : s.ptr < end_) (ht : s.totty ≤ s.ptr) :
    s1.totty ≤ s1.ptr ∧ s1.ptr ≤ end_ ∧ s.totty ≤ s1.totty ∧ s.ptr < s1.ptr ∧
    s1.totty - s.totty ≤ s1.ptr - s.ptr := by
  unfold remove_iacs_body at h
  simp only at h
  repeat' split at h
  all_goals cases h <;> (simp only; omega)

/-- The loop of `remove_iacs` keeps `totty <= ptr <= end` and never moves `totty` by
more than `ptr`. -/
theorem remove_iacs_loop_bounds (end_ : Int) : ∀ (fuel : Nat) (s : scan),
    s.totty ≤ s.ptr → s.ptr ≤ end_ →
    (remove_iacs_loop end_ fuel s).totty ≤ (remove_iacs_loop end_ fuel s).ptr ∧
    (remove_iacs_loop end_ fuel s).ptr ≤ end_ ∧
    s.totty ≤ (remove_iacs_loop end_ fuel s).totty ∧
    s.ptr ≤ (remove_iacs_loop end_ fuel s).ptr ∧
    (remove_iacs_loop end_ fuel s).totty - s.totty
      ≤ (remove_iacs_loop end_ fuel s).ptr - s.ptr := by
  intro fuel
  induction fuel with
  | zero => intro s h1 h2; simp only [remove_iacs_loop]; omega
  | succ n ih =>
    intro s h1 h2
    by_cases hlt : s.ptr < end_
    · cases hb : remove_iacs_body end_ s with
      | none =>
        rw [remove_iacs_loop_none end_ _ s hb]
        omega
      | some s1 =>
        rw [remove_iacs_loop_some end_ n s s1 hlt hb]
        obtain ⟨b1, b2, b3, b4, b5⟩ := remove_iacs_body_bounds end_ s s1 hb hlt h1
        obtain ⟨i1, i2, i3, i4, i5⟩ := ih s1 b1 b2
        omega
    · rw [remove_iacs_loop_done end_ _ s hlt]
      omega

/-- What `remove_iacs` does to the cursors of buffer A, from any session with
`0 <= size1` and `0 <= wridx1 <= BUFSIZE`. -/
theorem remove_iacs_bounds (BUFSIZE : Int) (ts : tsession) (ws : winsize)
    (hs : 0 ≤ ts.size1) (hw : 0 ≤ ts.wridx1 ∧ ts.wridx1 ≤ BUFSIZE) :
    0 ≤ (remove_iacs BUFSIZE ts ws).num_totty ∧
    (remove_iacs BUFSIZE ts ws).ts.wridx1 = (remove_iacs BUFSIZE ts ws).ptr ∧
    ts.wridx1 ≤ (remove_iacs BUFSIZE ts ws).ptr ∧
    (remove_iacs BUFSIZE ts ws).ptr + (remove_iacs BUFSIZE ts ws).num_totty
      ≤ ts.wridx1 + min (BUFSIZE - ts.wridx1) ts.size1 ∧
    (remove_iacs BUFSIZE ts ws).num_totty ≤ (remove_iacs BUFSIZE ts ws).ts.size1 ∧
    (remove_iacs BUFSIZE ts ws).ts.size1 ≤ ts.size1 ∧
    (remove_iacs BUFSIZE ts ws).ts.wridx1 - ts.wridx1
      = ts.size1 - (remove_iacs BUFSIZE ts ws).ts.size1 ∧
    (remove_iacs BUFSIZE ts ws).ts.rdidx1 = ts.rdidx1 := by
  have hmin : 0 ≤ min (BUFSIZE - ts.wridx1) ts.size1 := by omega
  have hmin1 : min (BUFSIZE - ts.wridx1) ts.size1 ≤ BUFSIZE - ts.wridx1 := min_le_left _ _
  have hmin2 : min (BUFSIZE - ts.wridx1) ts.size1 ≤ ts.size1 := min_le_right _ _
  unfold remove_iacs
  simp only
  generalize min (BUFSIZE - ts.wridx1) ts.size1 = n at hmin hmin1 hmin2 ⊢
  obtain ⟨l1, l2, l3, l4, l5⟩ := remove_iacs_loop_bounds (ts.wridx1 + n)
    (ts.wridx1 + n - ts.wridx1).toNat
    { buf := ts.buf1, ptr := ts.wridx1, totty := ts.wridx1, ws := ws, ptyfd := ts.ptyfd } (le_refl _)
    (by simp only; omega)
  simp only at l3 l4 l5
  generalize remove_iacs_loop (ts.wridx1 + n) (ts.wridx1 + n - ts.wridx1).toNat
    { buf := ts.buf1, ptr := ts.wridx1, totty := ts.wridx1, ws := ws, ptyfd := ts.ptyfd } = r at l1 l2 l3 l4 l5 ⊢
  split
  · simp only
    refine ⟨?_, ?_, ?_, ?_, ?_, ?_, ?_, ?_⟩
    all_goals first | trivial | omega
  · simp only
    refine ⟨?_, ?_, ?_, ?_, ?_, ?_, ?_, ?_⟩
    all_goals first | trivial | omega

end Telnetd

/-! ## Ring-buffer bounds -/

namespace Telnetd

/-- `pack_2pty` entered with the occupied region reaching the physical end of buffer A
(`wridx1 + size1 >= BUFSIZE`) and the cursors in range: it returns, with `wridx1 = 0`
and `rdidx1 = size1`. -/
theorem pack_2pty_ok (BUFSIZE : Int) (ts : tsession)
    (hw : 0 ≤ ts.wridx1 ∧ ts.wridx1 ≤ BUFSIZE) (hs : ts.size1 ≤ BUFSIZE)
    (hwrap : BUFSIZE ≤ ts.wridx1 + ts.size1) :
    pack_2pty BUFSIZE ts = Except.ok (packed BUFSIZE ts) := by
  unfold pack_2pty packed
  simp only
  rw [if_neg (by omega)]

/-- When `getline_2pty` packs first, it goes on as it would from the packed session. -/
theorem getline_2pty_packed (BUFSIZE : Int) (ts : tsession)
    (hwrap : ts.wridx1 + ts.size1 > BUFSIZE)
    (hw : 0 ≤ ts.wridx1 ∧ ts.wridx1 ≤ BUFSIZE) (hs : ts.size1 ≤ BUFSIZE) :
    getline_2pty BUFSIZE ts = getline_2pty BUFSIZE (packed BUFSIZE ts) := by
  have hfit : ¬ (packed BUFSIZE ts).wridx1 + (packed BUFSIZE ts).size1 > BUFSIZE := by
    show ¬ (0 : Int) + ts.size1 > BUFSIZE
    omega
  unfold getline_2pty
  simp only [hwrap, if_true, pack_2pty_ok BUFSIZE ts hw hs (by omega), hfit, if_false]
  rfl

/-- `getline_2pty` on a region that does not wrap: it returns, `wridx1` moves forward by
what `size1` loses, inside the region, and nothing else but the patched byte changes. -/
theorem getline_2pty_nopack (BUFSIZE : Int) (ts : tsession)
    (hfit : ¬ ts.wridx1 + ts.size1 > BUFSIZE) :
    ∃ ts1 l, getline_2pty BUFSIZE ts = Except.ok (ts1, l) ∧
      ts.wridx1 ≤ ts1.wridx1 ∧ ts1.size1 ≤ ts.size1 ∧ (0 ≤ ts.size1 → 0 ≤ ts1.size1) ∧
      ts1.wridx1 + ts1.size1 = ts.wridx1 + ts.size1 ∧ ts1.rdidx1 = ts.rdidx1 ∧
      (l ≠ none → ts1.size1 < ts.size1) := by
  unfold getline_2pty
  simp only [hfit, if_false]
  cases hcp : memchr ts.buf1 ts.wridx1 CR ts.size1.toNat with
  | none =>
    cases hcp2 : memchr ts.buf1 ts.wridx1 LF ts.size1.toNat with
    | none =>
      simp only
      exact ⟨_, _, rfl, le_refl _, le_refl _, fun h => h, rfl, rfl, fun h => absurd rfl h⟩
    | some q =>
      obtain ⟨q1, q2, _⟩ := memchr_some_ge _ _ _ _ _ hcp2
      simp only
      split
      · exact ⟨_, _, rfl, by simp only; omega, by simp only; omega, by simp only; omega,
          by simp only; omega, rfl, fun _ => by simp only; omega⟩
      · exact ⟨_, _, rfl, by simp only; omega, by simp only; omega, by simp only; omega,
          by simp only; omega, rfl, fun h => absurd rfl h⟩
  | some p =>
    obtain ⟨p1, p2, _⟩ := memchr_some_ge _ _ _ _ _ hcp
    cases hcp2 : memchr ts.buf1 ts.wridx1 LF ts.size1.toNat with
    | none =>
      simp only
      split
      · exact ⟨_, _, rfl, by simp only; omega, by simp only; omega, by simp only; omega,
          by simp only; omega, rfl, fun _ => by simp only; omega⟩
      · exact ⟨_, _, rfl, by simp only; omega, by simp only; omega, by simp only; omega,
          by simp only; omega, rfl, fun h => absurd rfl h⟩
    | some q =>
      obtain ⟨q1, q2, _⟩ := memchr_some_ge _ _ _ _ _ hcp2
      simp only
      by_cases hqp : q < p
      · simp only [hqp, if_true]
        split
        · exact ⟨_, _, rfl, by simp only; omega, by simp only; omega, by simp only; omega,
            by simp only; omega, rfl, fun _ => by simp only; omega⟩
        · exact ⟨_, _, rfl, by simp only; omega, by simp only; omega, by simp only; omega,
            by simp only; omega, rfl, fun h => absurd rfl h⟩
      · simp only [hqp, if_false]
        split
        · exact ⟨_, _, rfl, by simp only; omega, by simp only; omega, by simp only; omega,
            by simp only; omega, rfl, fun _ => by simp only; omega⟩
        · exact ⟨_, _, rfl, by simp only; omega, by simp only; omega, by simp only; omega,
            by simp only; omega, rfl, fun h => absurd rfl h⟩

/-- `getline_2pty` from a session within the bounds (cursors at most `BUFSIZE`): it
returns, and the session it leaves is within the same bounds. -/
theorem getline_2pty_bounds (BUFSIZE : Int) (ts : tsession)
    (hb : ring_bounds_incl BUFSIZE ts) :
    ∃ ts1 l, getline_2pty BUFSIZE ts = Except.ok (ts1, l) ∧ ring_bounds_incl BUFSIZE ts1 ∧
      ts1.size1 ≤ ts.size1 ∧ (l ≠ none → ts1.size1 < ts.size1) := by
  obtain ⟨⟨a1, a2⟩, ⟨a3, a4⟩, ⟨a5, a6⟩, hB⟩ := hb
  by_cases hwrap : ts.wridx1 + ts.size1 > BUFSIZE
  · rw [getline_2pty_packed BUFSIZE ts hwrap ⟨a5, a6⟩ a2]
    obtain ⟨ts1, l, e, g1, g2, g3, g4, g5, g6⟩ := getline_2pty_nopack BUFSIZE (packed BUFSIZE ts)
      (by show ¬ (0 : Int) + ts.size1 > BUFSIZE; omega)
    have hside := getline_2pty_side2 BUFSIZE _ ts1 l e
    obtain ⟨_, _, s3, s4, s5, _⟩ := hside
    have p1 : (packed BUFSIZE ts).wridx1 = 0 := rfl
    have p2 : (packed BUFSIZE ts).size1 = ts.size1 := rfl
    have p3 : (packed BUFSIZE ts).rdidx1 = ts.size1 := rfl
    have p4 : (packed BUFSIZE ts).rdidx2 = ts.rdidx2 := rfl
    have p5 : (packed BUFSIZE ts).wridx2 = ts.wridx2 := rfl
    have p6 : (packed BUFSIZE ts).size2 = ts.size2 := rfl
    simp only [p1, p2, p3, p4, p5, p6] at g1 g2 g3 g4 g5 g6 s3 s4 s5
    refine ⟨ts1, l, e, ?_, g2, g6⟩
    unfold ring_bounds_incl
    rw [s3, s4, s5, g5]
    have := g3 a1
    exact ⟨⟨this, by omega⟩, ⟨by omega, by omega⟩, ⟨by omega, by omega⟩, hB⟩
  · obtain ⟨ts1, l, e, g1, g2, g3, g4, g5, g6⟩ := getline_2pty_nopack BUFSIZE ts hwrap
    obtain ⟨_, _, s3, s4, s5, _⟩ := getline_2pty_side2 BUFSIZE _ ts1 l e
    refine ⟨ts1, l, e, ?_, g2, g6⟩
    unfold ring_bounds_incl
    rw [s3, s4, s5, g5]
    have := g3 a1
    exact ⟨⟨this, by omega⟩, ⟨a3, a4⟩, ⟨by omega, by omega⟩, hB⟩

theorem ring_bounds_weaken (BUFSIZE : Int) (ts : tsession) (h : ring_bounds BUFSIZE ts) :
    ring_bounds_incl BUFSIZE ts := by
  unfold ring_bounds at h
  unfold ring_bounds_incl
  omega

/-- `remove_iacs` keeps a session within the bounds (cursors at most `BUFSIZE`). -/
theorem remove_iacs_ring_bounds (BUFSIZE : Int) (ts : tsession) (ws : winsize)
    (hb : ring_bounds_incl BUFSIZE ts) :
    ring_bounds_incl BUFSIZE (remove_iacs BUFSIZE ts ws).ts := by
  obtain ⟨⟨a1, a2⟩, ⟨a3, a4⟩, ⟨a5, a6⟩, hB⟩ := hb
  obtain ⟨b1, b2, b3, b4, b5, b6, b7, b8⟩ := remove_iacs_bounds BUFSIZE ts ws a1 ⟨a5, a6⟩
  obtain ⟨_, _, s3, s4, s5, _⟩ := remove_iacs_side2 BUFSIZE ts ws
  have hmin1 : min (BUFSIZE - ts.wridx1) ts.size1 ≤ BUFSIZE - ts.wridx1 := min_le_left _ _
  unfold ring_bounds_incl
  rw [s3, s4, s5, b8]
  exact ⟨⟨by omega, by omega⟩, ⟨a3, a4⟩, ⟨by omega, by omega⟩, hB⟩

/-- The pty drain, for a written count within `num_totty`, takes a session within the
strict bounds to one within the strict bounds. -/
theorem drain_pty_ring_bounds (BUFSIZE : Int) (ts : tsession) (ws : winsize) (count : Nat)
    (hb : ring_bounds BUFSIZE ts)
    (hc : (count : Int) ≤ (remove_iacs BUFSIZE ts ws).num_totty) :
    ring_bounds BUFSIZE (drain_pty BUFSIZE ts ws (write_result.wrote count)).1 := by
  obtain ⟨⟨a1, a2⟩, ⟨a3, a4⟩, ⟨a5, a6⟩, hB⟩ := hb
  obtain ⟨b1, b2, b3, b4, b5, b6, b7, b8⟩ :=
    remove_iacs_bounds BUFSIZE ts ws a1 ⟨a5, by omega⟩
  obtain ⟨_, _, s3, s4, s5, _⟩ := remove_iacs_side2 BUFSIZE ts ws
  have hmin1 : min (BUFSIZE - ts.wridx1) ts.size1 ≤ BUFSIZE - ts.wridx1 := min_le_left _ _
  unfold drain_pty
  simp only
  split
  · unfold ring_bounds
    simp only
    rw [s3, s4, s5, b8]
    exact ⟨⟨by omega, by omega⟩, ⟨a3, a4⟩, ⟨by omega, by omega⟩, hB⟩
  · rename_i hlt
    simp only [ge_iff_le, not_le] at hlt
    unfold ring_bounds
    simp only
    rw [s3, s4, s5, b8]
    exact ⟨⟨by omega, by omega⟩, ⟨a3, a4⟩, ⟨by omega, by omega⟩, hB⟩

/-- The socket drain, for a written count within the request, keeps the strict bounds. -/
theorem drain_sock_ring_bounds (BUFSIZE : Int) (ts : tsession) (count : Nat)
    (hb : ring_bounds BUFSIZE ts) (hc : (count : Int) ≤ drain_sock_request BUFSIZE ts) :
    ring_bounds BUFSIZE (drain_sock BUFSIZE ts (write_result.wrote count)).1 := by
  unfold ring_bounds at hb
  unfold drain_sock_request at hc
  have hmin1 : min (BUFSIZE - ts.wridx2) ts.size2 ≤ BUFSIZE - ts.wridx2 := min_le_left _ _
  have hmin2 : min (BUFSIZE - ts.wridx2) ts.size2 ≤ ts.size2 := min_le_right _ _
  unfold drain_sock
  simp only
  split
  · unfold ring_bounds
    simp only
    omega
  · rename_i hlt
    simp only [ge_iff_le, not_le] at hlt
    unfold ring_bounds
    simp only
    omega

/-- The reset of the cursors keeps the strict bounds. -/
theorem reset_cursors_ring_bounds (BUFSIZE : Int) (ts : tsession)
    (hb : ring_bounds BUFSIZE ts) : ring_bounds BUFSIZE (reset_cursors ts) := by
  unfold ring_bounds at hb
  unfold reset_cursors
  by_cases h1 : ts.size1 = 0 <;> by_cases h2 : ts.size2 = 0 <;>
    simp only [h1, h2, if_true, if_false] <;> unfold ring_bounds <;>
    (try simp only) <;> omega

/-- The socket read, for a count within the request, returns and keeps the strict
bounds. -/
theorem read_sock_ring_bounds (BUFSIZE : Int) (ts : tsession) (data : List Nat)
    (hb : ring_bounds BUFSIZE ts) (hc : (data.length : Int) ≤ read_sock_request BUFSIZE ts) :
    ∃ ts1 j, read_sock BUFSIZE ts (read_result.got data) = Except.ok (ts1, j) ∧
      ring_bounds BUFSIZE ts1 := by
  have hb0 := hb
  unfold ring_bounds at hb
  unfold read_sock_request at hc
  have hmin1 : min (BUFSIZE - ts.rdidx1) (BUFSIZE - ts.size1) ≤ BUFSIZE - ts.rdidx1 :=
    min_le_left _ _
  have hmin2 : min (BUFSIZE - ts.rdidx1) (BUFSIZE - ts.size1) ≤ BUFSIZE - ts.size1 :=
    min_le_right _ _
  have hnp : ¬ (ts.rdidx1 ≥ BUFSIZE ∧ ts.size1 < BUFSIZE) := by omega
  unfold read_sock
  simp only [hnp, if_false]
  by_cases h0 : (data.length : Int) ≤ 0
  · simp only [h0, if_true]
    exact ⟨_, _, rfl, hb0⟩
  · simp only [h0, if_false]
    split <;> split <;>
      exact ⟨_, _, rfl, by unfold ring_bounds; simp only; omega⟩

/-- The pty read, for a count within the request, keeps the strict bounds. -/
theorem read_pty_ring_bounds (BUFSIZE : Int) (ts : tsession) (data : List Nat)
    (hb : ring_bounds BUFSIZE ts) (hc : (data.length : Int) ≤ read_pty_request BUFSIZE ts) :
    ring_bounds BUFSIZE (read_pty BUFSIZE ts (read_result.got data)).1 := by
  have hb0 := hb
  unfold ring_bounds at hb
  unfold read_pty_request at hc
  have hmin1 : min (BUFSIZE - ts.rdidx2) (BUFSIZE - ts.size2) ≤ BUFSIZE - ts.rdidx2 :=
    min_le_left _ _
  have hmin2 : min (BUFSIZE - ts.rdidx2) (BUFSIZE - ts.size2) ≤ BUFSIZE - ts.size2 :=
    min_le_right _ _
  unfold read_pty
  simp only
  by_cases h0 : (data.length : Int) ≤ 0
  · simp only [h0, if_true]
    exact hb0
  · simp only [h0, if_false]
    split <;> (unfold ring_bounds; simp only; omega)

/-- `add_2sock` with room for the string returns and keeps a session within the bounds
(cursors at most `BUFSIZE`). -/
theorem add_2sock_ring_bounds (BUFSIZE : Int) (ts : tsession) (str : List Nat)
    (hb : ring_bounds_incl BUFSIZE ts) (hroom : room2 BUFSIZE ts str.length) :
    ∃ ts1, add_2sock BUFSIZE ts str = Except.ok ts1 ∧ ring_bounds_incl BUFSIZE ts1 := by
  unfold room2 at hroom
  refine ⟨_, add_2sock_ok BUFSIZE ts str (by omega) (by omega), ?_⟩
  unfold ring_bounds_incl at hb ⊢
  simp only
  omega

/-- `pack_2pty` entered with `wridx1 + size1 >= BUFSIZE` returns and keeps a session
within the bounds (cursors at most `BUFSIZE`). -/
theorem pack_2pty_ring_bounds (BUFSIZE : Int) (ts : tsession)
    (hb : ring_bounds_incl BUFSIZE ts) (hwrap : BUFSIZE ≤ ts.wridx1 + ts.size1) :
    ∃ ts1, pack_2pty BUFSIZE ts = Except.ok ts1 ∧ ring_bounds_incl BUFSIZE ts1 := by
  unfold ring_bounds_incl at hb
  refine ⟨_, pack_2pty_ok BUFSIZE ts (by omega) (by omega) hwrap, ?_⟩
  unfold ring_bounds_incl packed
  simp only
  omega

/-- C3, as the code has it: from a session with both buffers within the strict bounds
(occupancy in `[0, BUFSIZE]`, cursors in `[0, BUFSIZE)`), the pty drain, the socket
drain, the reset at zero occupancy, the socket read (with the trailing-NUL drop) and the
pty read, for any count within what was requested, end within the strict bounds;
`remove_iacs`, `add_2sock` (with room, so that it does not abort), `getline_2pty` and
`pack_2pty` (entered with `wridx1 + size1 >= BUFSIZE`, as its callers do) end with
occupancy in `[0, BUFSIZE]` and cursors in `[0, BUFSIZE]`: they can leave a cursor at
`BUFSIZE`. -/
theorem ring_bounds_preserved (BUFSIZE : Int) (ts : tsession)
    (hb : ring_bounds BUFSIZE ts) :
    (∀ ws, ring_bounds_incl BUFSIZE (remove_iacs BUFSIZE ts ws).ts) ∧
    (∀ ws (count : Nat), (count : Int) ≤ (remove_iacs BUFSIZE ts ws).num_totty →
      ring_bounds BUFSIZE (drain_pty BUFSIZE ts ws (write_result.wrote count)).1) ∧
    (∀ count : Nat, (count : Int) ≤ drain_sock_request BUFSIZE ts →
      ring_bounds BUFSIZE (drain_sock BUFSIZE ts (write_result.wrote count)).1) ∧
    ring_bounds BUFSIZE (reset_cursors ts) ∧
    (∀ data : List Nat, (data.length : Int) ≤ read_sock_request BUFSIZE ts →
      ∃ ts1 j, read_sock BUFSIZE ts (read_result.got data) = Except.ok (ts1, j) ∧
        ring_bounds BUFSIZE ts1) ∧
    (∀ data : List Nat, (data.length : Int) ≤ read_pty_request BUFSIZE ts →
      ring_bounds BUFSIZE (read_pty BUFSIZE ts (read_result.got data)).1) ∧
    (∀ str : List Nat, room2 BUFSIZE ts str.length →
      ∃ ts1, add_2sock BUFSIZE ts str = Except.ok ts1 ∧ ring_bounds_incl BUFSIZE ts1) ∧
    (∃ ts1 l, getline_2pty BUFSIZE ts = Except.ok (ts1, l) ∧ ring_bounds_incl BUFSIZE ts1) ∧
    (BUFSIZE ≤ ts.wridx1 + ts.size1 →
      ∃ ts1, pack_2pty BUFSIZE ts = Except.ok ts1 ∧ ring_bounds_incl BUFSIZE ts1) := by
  have hw := ring_bounds_weaken BUFSIZE ts hb
  refine ⟨fun ws => remove_iacs_ring_bounds BUFSIZE ts ws hw,
    fun ws count hc => drain_pty_ring_bounds BUFSIZE ts ws count hb hc,
    fun count hc => drain_sock_ring_bounds BUFSIZE ts count hb hc,
    reset_cursors_ring_bounds BUFSIZE ts hb,
    fun data hc => read_sock_ring_bounds BUFSIZE ts data hb hc,
    fun data hc => read_pty_ring_bounds BUFSIZE ts data hb hc,
    fun str hroom => add_2sock_ring_bounds BUFSIZE ts str hw hroom, ?_,
    fun hwrap => pack_2pty_ring_bounds BUFSIZE ts hw hwrap⟩
  obtain ⟨ts1, l, e, h, _⟩ := getline_2pty_bounds BUFSIZE ts hw
  exact ⟨ts1, l, e, h⟩

/-- C3 on an example: a session with `abc`, CR in buffer A; `getline_2pty` returns and
leaves it within the bounds. -/
theorem ring_bounds_preserved_witness :
    ring_bounds 2020 (session_with state.GET_CMD (bytes "abc\r") 4 0 4) ∧
    ∃ ts1 l, getline_2pty 2020 (session_with state.GET_CMD (bytes "abc\r") 4 0 4)
        = Except.ok (ts1, l) ∧ ring_bounds_incl 2020 ts1 :=
  ⟨by decide,
   (ring_bounds_preserved 2020 (session_with state.GET_CMD (bytes "abc\r") 4 0 4)
      (by decide)).2.2.2.2.2.2.2.1⟩

/-- C3 as stated fails: each of `getline_2pty`, `add_2sock`, `remove_iacs` and
`pack_2pty` takes a session within the strict bounds to one with a cursor equal to
`BUFSIZE`. -/
theorem ring_bounds_broken :
    (ring_bounds 2020 cr_at_end ∧ extracted_line 2020 cr_at_end = some [] ∧
      (after_getline 2020 cr_at_end).wridx1 = 2020 ∧
      ¬ ring_bounds 2020 (after_getline 2020 cr_at_end)) ∧
    (ring_bounds 2020 six_before_end ∧
      ∃ ts1, add_2sock 2020 six_before_end RESULT_OK = Except.ok ts1 ∧
        ts1.rdidx2 = 2020 ∧ ¬ ring_bounds 2020 ts1) ∧
    (ring_bounds 2020 nop_at_end ∧
      (remove_iacs 2020 nop_at_end ⟨24, 80⟩).ts.wridx1 = 2020 ∧
      ¬ ring_bounds 2020 (remove_iacs 2020 nop_at_end ⟨24, 80⟩).ts) ∧
    (ring_bounds 2020 full_from_five ∧
      ∃ ts1, pack_2pty 2020 full_from_five = Except.ok ts1 ∧ ts1.rdidx1 = 2020 ∧
        ¬ ring_bounds 2020 ts1) :=
  ⟨⟨by decide, by decide, by decide, by decide⟩,
   ⟨by decide, _, rfl, by decide, by decide⟩,
   ⟨by decide, by decide, by decide⟩,
   ⟨by decide, _, rfl, by decide, by decide⟩⟩

end Telnetd

/-! ## The crontab upload -/

namespace Telnetd

theorem peek_take (b : Buf) (i : Int) (m n : Nat) :
    peek b i m = (peek b i (m + n)).take m := by
  rw [peek_append, List.take_left' (peek_length _ _ _)]

theorem peek_drop (b : Buf) (i : Int) (m n : Nat) :
    peek b (i + m) n = (peek b i (m + n)).drop m := by
  rw [peek_append, List.drop_left' (peek_length _ _ _)]

/-- With a clean line, CR and more input in buffer A, `getline_2pty` returns the line
and leaves the rest of the input in buffer A, the buffer itself untouched. -/
theorem getline_input (BUFSIZE : Int) (ts : tsession) (ln rest : List Nat)
    (h : holds_input BUFSIZE ts (ln ++ CR :: rest)) (hclean : line_clean ln) :
    extracted_line BUFSIZE ts = some ln ∧ holds_input BUFSIZE (after_getline BUFSIZE ts) rest ∧
    same_side2 (after_getline BUFSIZE ts) ts := by
  obtain ⟨h0, h1, h2, h3⟩ := h
  have hlen : (ln ++ CR :: rest).length = (ln.length + 1) + rest.length := by
    simp only [List.length_append, List.length_cons]
    omega
  rw [hlen] at h3
  have hpre : peek ts.buf1 ts.wridx1 (ln.length + 1) = ln ++ [CR] := by
    rw [peek_take _ _ _ rest.length, h3]
    rw [show ln ++ CR :: rest = (ln ++ [CR]) ++ rest by simp]
    exact List.take_left' (by simp)
  have hg := getline_2pty_line BUFSIZE ts ln CR h1 (by rw [h2, hlen]; push_cast; omega) hpre
    (Or.inl rfl) hclean
  have hC : CR ≠ LF := by decide
  simp only [hC, if_false] at hg
  have hex : extracted_line BUFSIZE ts = some ln := by
    unfold extracted_line
    rw [hg]
  have haf : after_getline BUFSIZE ts =
      { ts with buf1 := ts.buf1, wridx1 := ts.wridx1 + (ln.length + 1),
                size1 := ts.size1 - (ln.length + 1) } := by
    unfold after_getline
    rw [hg]
  refine ⟨hex, ?_, after_getline_side2 BUFSIZE ts⟩
  rw [haf]
  refine ⟨by simp only; omega, by simp only; omega, ?_, ?_⟩
  · simp only
    rw [h2, hlen]
    push_cast
    omega
  · simp only
    have := peek_drop ts.buf1 ts.wridx1 (ln.length + 1) rest.length
    rw [h3] at this
    rw [show ts.wridx1 + ((ln.length : Int) + 1) = ts.wridx1 + ((ln.length + 1 : Nat) : Int) by
      push_cast; rfl, this]
    rw [show ln ++ CR :: rest = (ln ++ [CR]) ++ rest by simp]
    exact List.drop_left' (by simp)

/-- With nothing in buffer A, `getline_2pty` returns no line and changes nothing. -/
theorem getline_no_input (BUFSIZE : Int) (ts : tsession)
    (h : holds_input BUFSIZE ts []) :
    getline_2pty BUFSIZE ts = Except.ok (ts, none) := by
  obtain ⟨h0, h1, h2, _⟩ := h
  simp only [List.length_nil, Nat.cast_zero] at h2
  unfold getline_2pty
  have hfit : ¬ ts.wridx1 + ts.size1 > BUFSIZE := by omega
  have hm : ∀ c, memchr ts.buf1 ts.wridx1 c ts.size1.toNat = none := by
    intro c
    rw [h2]
    rfl
  simp only [hfit, if_false, hm]

theorem protocol_switch_skip3 (BUFSIZE : Int) (env : sysenv) (self : Nat) (fuel : Nat)
    (m m1 : machine) (h : dispatch BUFSIZE env self m = Except.ok (m1, target.skip3)) :
    protocol_switch BUFSIZE env self (fuel + 1) m = protocol_switch BUFSIZE env self fuel m1 := by
  simp only [protocol_switch, h]

theorem protocol_switch_skip3a (BUFSIZE : Int) (env : sysenv) (self : Nat) (fuel : Nat)
    (m m1 : machine) (h : dispatch BUFSIZE env self m = Except.ok (m1, target.skip3a)) :
    protocol_switch BUFSIZE env self (fuel + 1) m = Except.ok (m1, jump.next) := by
  simp only [protocol_switch, h]

theorem staging_ne_reload (d : List Nat) : d ++ CRONUPDATE ≠ d ++ CRONTAB_NEW_SUF := by
  intro h
  exact absurd (List.append_cancel_left h) (by decide)

theorem canonical_ne_reload (d : List Nat) : d ++ CRONTAB_SUFFIX ≠ d ++ CRONUPDATE := by
  intro h
  exact absurd (List.append_cancel_left h) (by decide)

theorem staging_ne_canonical (d : List Nat) : d ++ CRONTAB_NEW_SUF ≠ d ++ CRONTAB_SUFFIX := by
  intro h
  exact absurd (List.append_cancel_left h) (by decide)

/-- `add_to_crontab` when the writes succeed: the text and a newline go to the staging
file, nothing else changes. -/
theorem add_to_crontab_ok (BUFSIZE : Int) (env : sysenv) (ts : tsession) (w : world)
    (self : Nat) (d acc t : List Nat) (u : Option (List Nat)) (henv : files_ok env)
    (hup : uploading w self d acc u) :
    ∃ w1, add_to_crontab BUFSIZE env ts w t = Except.ok (ts, w1) ∧
      uploading w1 self d (acc ++ (t ++ [LF])) u ∧
      w1.login_requests = w.login_requests := by
  obtain ⟨u1, u2, u3, u4, u5⟩ := hup
  obtain ⟨_, e2, e3, _⟩ := henv
  unfold add_to_crontab
  simp only [u2, e2, e3, if_true]
  refine ⟨_, rfl, ⟨u1, rfl, u3, ?_, ?_⟩, rfl⟩
  · simp only [fsys.append, fsys.store, if_true, u4, Option.getD_some, List.append_assoc]
  · simp only [fsys.append, fsys.store, staging_ne_reload d, if_false, u5]

theorem reload_loop_ok (env : sysenv) (f : List Nat) (fs : fsys) (henv : files_ok env) :
    reload_loop env f env.unlink_races fs = (fs.append f UPDATELINE, reload_end.done) := by
  obtain ⟨_, _, _, _, _, e6, e7, e8, e9⟩ := henv
  rw [e9]
  simp only [reload_loop, e6, e7, e8, if_true]

/-- `end_crontab` when every operation succeeds and the directory name has at most
243 bytes: the staging file becomes the canonical file, one `UPDATELINE` is appended
to the reload file, no response is sent. -/
theorem end_crontab_ok (BUFSIZE : Int) (env : sysenv) (ts : tsession) (w : world)
    (self : Nat) (d acc : List Nat) (u : Option (List Nat)) (henv : files_ok env)
    (hd : d.length ≤ 243) (hup : uploading w self d acc u) :
    ∃ w1, end_crontab BUFSIZE env ts w = Except.ok (ts, w1) ∧
      w1.atlas_crontab = none ∧ w1.atlas_ts = some self ∧
      w1.fs.files (d ++ CRONTAB_SUFFIX) = some acc ∧
      w1.fs.files (d ++ CRONUPDATE) = some (u.getD [] ++ UPDATELINE) ∧
      w1.fs.files (d ++ CRONTAB_NEW_SUF) = none ∧
      w1.login_requests = w.login_requests := by
  obtain ⟨u1, u2, u3, u4, u5⟩ := hup
  have hl := reload_loop_ok env (d ++ CRONUPDATE)
    (w.fs.rename (d ++ CRONTAB_NEW_SUF) (d ++ CRONTAB_SUFFIX)) henv
  obtain ⟨_, _, _, e4, e5, _⟩ := henv
  have h1 : ¬ d.length + 9 + 1 > 256 := by omega
  have h2 : ¬ d.length + 5 + 1 > 256 := by omega
  have h3 : ¬ d.length + 12 + 1 > 256 := by omega
  unfold end_crontab
  simp only [u2, u3, e4, e5, not_true_eq_false, if_false, crontab_new_suf_length,
    crontab_suffix_length, cronupdate_length, h1, h2, h3, strlcpy_short d (by omega),
    strlcat_short d CRONTAB_NEW_SUF (by rw [crontab_new_suf_length]; omega),
    strlcat_short d CRONTAB_SUFFIX (by rw [crontab_suffix_length]; omega),
    strlcat_short d CRONUPDATE (by rw [cronupdate_length]; omega), hl]
  refine ⟨_, rfl, rfl, u1, ?_, ?_, ?_, rfl⟩
  · simp only [fsys.append, fsys.store, fsys.rename, canonical_ne_reload d, if_false, if_true,
      u4]
  · simp only [fsys.append, fsys.store, fsys.rename, if_true, (canonical_ne_reload d).symm,
      staging_ne_reload d, if_false, u5]
  · simp only [fsys.append, fsys.store, fsys.rename, (staging_ne_reload d).symm,
      staging_ne_canonical d, if_false, if_true]

theorem strncmp_cronline (t : List Nat) :
    strncmp_eq (CMD_CRONLINE ++ t) CMD_CRONLINE CMD_CRONLINE.length = true := by
  simp [strncmp_eq]

/-- `case DO_CRONTAB` for the holder on a line `CRONLINE <text>`. -/
theorem dispatch_cronline (BUFSIZE : Int) (env : sysenv) (self : Nat) (m : machine)
    (t : List Nat) (ts2 : tsession) (w2 : world)
    (hst : m.ts.state = state.DO_CRONTAB) (hholder : m.w.atlas_ts = some self)
    (hline : extracted_line BUFSIZE m.ts = some (CMD_CRONLINE ++ t))
    (hadd : add_to_crontab BUFSIZE env (after_getline BUFSIZE m.ts) m.w t
      = Except.ok (ts2, w2)) :
    dispatch BUFSIZE env self m = Except.ok ({ m with ts := ts2, w := w2 }, target.skip3) := by
  unfold dispatch
  rw [hst]
  simp only [hholder, ne_eq, not_true_eq_false, if_false,
    extracted_line_some BUFSIZE m.ts _ hline, strncmp_cronline, List.drop_left, hadd]

/-- `case DO_CRONTAB` for the holder on a line that is not `CRONLINE ...`, when
`end_crontab` returns: the line is handled at `do_cmd` in phase GET_CMD. -/
theorem dispatch_upload_end (BUFSIZE : Int) (env : sysenv) (self : Nat) (m : machine)
    (ln : List Nat) (ts2 : tsession) (w2 : world)
    (hst : m.ts.state = state.DO_CRONTAB) (hholder : m.w.atlas_ts = some self)
    (hline : extracted_line BUFSIZE m.ts = some ln)
    (hnot : strncmp_eq ln CMD_CRONLINE CMD_CRONLINE.length = false)
    (hend : end_crontab BUFSIZE env (after_getline BUFSIZE m.ts) m.w = Except.ok (ts2, w2)) :
    dispatch BUFSIZE env self m =
      do_cmd BUFSIZE env { m with ts := { ts2 with state := state.GET_CMD }, w := w2 } ln := by
  unfold dispatch
  rw [hst]
  simp only [hholder, ne_eq, not_true_eq_false, if_false,
    extracted_line_some BUFSIZE m.ts _ hline, hnot, Bool.false_eq_true, not_false_eq_true,
    if_true, hend]

/-- The code at `do_cmd` on the empty line. -/
theorem do_cmd_empty (BUFSIZE : Int) (env : sysenv) (m : machine) (ts2 : tsession)
    (hadd : add_2sock BUFSIZE m.ts RESULT_OK = Except.ok ts2) :
    do_cmd BUFSIZE env m [] =
      Except.ok ({ m with ts := { ts2 with state := state.EOM_SEEN } }, target.skip3) := by
  unfold do_cmd
  have h1 : strncmp_eq [] CMD_CRONTAB CMD_CRONTAB.length = false := by decide
  have h2 : strncmp_eq [] CMD_ONEOFF CMD_ONEOFF.length = false := by decide
  simp only [h1, h2, Bool.false_eq_true, if_false, List.length_nil, if_true, hadd]

/-- `case EOM_SEEN` for the holder with nothing in buffer A. -/
theorem dispatch_eom_idle (BUFSIZE : Int) (env : sysenv) (self : Nat) (m : machine)
    (hst : m.ts.state = state.EOM_SEEN) (hholder : m.w.atlas_ts = some self)
    (h : holds_input BUFSIZE m.ts []) :
    dispatch BUFSIZE env self m = Except.ok (m, target.skip3a) := by
  unfold dispatch
  rw [hst]
  simp only [hholder, ne_eq, not_true_eq_false, if_false, getline_no_input BUFSIZE m.ts h]

theorem ring2_ok_fields (BUFSIZE : Int) (a b : tsession) (h1 : a.size2 = b.size2)
    (h2 : a.wridx2 = b.wridx2) (h3 : a.rdidx2 = b.rdidx2) (hb : ring2_ok BUFSIZE b) :
    ring2_ok BUFSIZE a := by
  unfold ring2_ok at hb ⊢
  rw [h1, h2, h3]
  exact hb

theorem line_clean_append (a b : List Nat) (ha : line_clean a) (hb : line_clean b) :
    line_clean (a ++ b) := by
  intro c hc
  rcases List.mem_append.mp hc with h | h
  · exact ha c h
  · exact hb c h

/-- The upload from phase DO_CRONTAB to the end: with the lines `CRONLINE t`, CR for the
texts and one empty line in buffer A, the protocol switch (given at least two passes
more than there are texts) ends at `skip3a` in phase EOM_SEEN, with the canonical file
holding what the staging file held followed by the texts, one `UPDATELINE` appended
to the reload file, the draft closed and `OK` queued in buffer B. -/
theorem upload_runs (BUFSIZE : Int) (env : sysenv) (self : Nat) (d : List Nat)
    (henv : files_ok env) (hd : d.length ≤ 243) :
    ∀ (texts : List (List Nat)) (fuel : Nat) (m : machine) (acc : List Nat)
      (u : Option (List Nat)),
    texts.length + 2 ≤ fuel → m.ts.state = state.DO_CRONTAB →
    holds_input BUFSIZE m.ts (cronlines texts ++ [CR]) →
    (∀ t ∈ texts, line_clean t) → uploading m.w self d acc u →
    ring2_ok BUFSIZE m.ts → room2 BUFSIZE m.ts RESULT_OK.length →
    ∃ m1, protocol_switch BUFSIZE env self fuel m = Except.ok (m1, jump.next) ∧
      m1.ts.state = state.EOM_SEEN ∧
      content2 BUFSIZE m1.ts = content2 BUFSIZE m.ts ++ RESULT_OK ∧
      m1.w.fs.files (d ++ CRONTAB_SUFFIX) = some (acc ++ crontab_body texts) ∧
      m1.w.fs.files (d ++ CRONUPDATE) = some (u.getD [] ++ UPDATELINE) ∧
      m1.w.fs.files (d ++ CRONTAB_NEW_SUF) = none ∧
      m1.w.atlas_crontab = none ∧ m1.w.atlas_ts = some self ∧
      m1.w.login_requests = m.w.login_requests ∧ m1.ts.size1 = 0 := by
  intro texts
  induction texts with
  | nil =>
    intro fuel m acc u hf hst hin _ hup hring hroom
    obtain ⟨f2, rfl⟩ : ∃ f2, fuel = f2 + 1 + 1 := ⟨fuel - 2, by simp at hf; omega⟩
    have hin1 : holds_input BUFSIZE m.ts ([] ++ CR :: []) := by simpa [cronlines] using hin
    obtain ⟨g1, g2, g3⟩ := getline_input BUFSIZE m.ts [] [] hin1 (by intro c hc; cases hc)
    obtain ⟨w1, e1, e2, e3, e4, e5, e6, e7⟩ := end_crontab_ok BUFSIZE env
      (after_getline BUFSIZE m.ts) m.w self d acc u henv hd hup
    have hd1 := dispatch_upload_end BUFSIZE env self m [] _ w1 hst hup.1 g1 (by decide) e1
    obtain ⟨ts2, a1, a2, _, _, _, a6, a7, a8, _, a10, a11, _⟩ := add_2sock_appends BUFSIZE
      { after_getline BUFSIZE m.ts with state := state.GET_CMD } RESULT_OK
      (ring2_ok_fields BUFSIZE _ m.ts g3.2.2.2.2.1 g3.2.2.2.1 g3.2.2.1 hring)
      (by
        unfold room2 at hroom ⊢
        show (after_getline BUFSIZE m.ts).size2 + _ ≤ BUFSIZE ∧
          (after_getline BUFSIZE m.ts).rdidx2 + _ ≤ BUFSIZE
        rw [g3.2.2.2.2.1, g3.2.2.1]
        exact hroom)
    have hd2 := do_cmd_empty BUFSIZE env
      { m with ts := { after_getline BUFSIZE m.ts with state := state.GET_CMD }, w := w1 }
      ts2 a1
    rw [← hd1] at hd2
    rw [protocol_switch_skip3 BUFSIZE env self _ m _ hd2]
    have hin2 : holds_input BUFSIZE { ts2 with state := state.EOM_SEEN } [] := by
      obtain ⟨i0, i1, i2, i3⟩ := g2
      exact ⟨by show 0 ≤ ts2.wridx1; rw [a10]; exact i0,
        by show ts2.wridx1 + ts2.size1 ≤ BUFSIZE; rw [a10, a11]; exact i1,
        by show ts2.size1 = _; rw [a11]; exact i2, peek_zero _ _⟩
    have hd3 := dispatch_eom_idle BUFSIZE env self
      { ts := { ts2 with state := state.EOM_SEEN }, w := w1, ws := m.ws } rfl e3 hin2
    rw [protocol_switch_skip3a BUFSIZE env self _ _ _ hd3]
    refine ⟨_, rfl, rfl, ?_, ?_, e5, e6, e2, e3, e7, ?_⟩
    · show content2 BUFSIZE { ts2 with state := state.EOM_SEEN } = _
      have : content2 BUFSIZE { ts2 with state := state.EOM_SEEN } = content2 BUFSIZE ts2 := rfl
      rw [this, a2]
      congr 1
      simp only [content2, g3.2.1, g3.2.2.2.1, g3.2.2.2.2.1]
    · show _ = some (acc ++ crontab_body [])
      simp only [crontab_body, List.append_nil]
      exact e4
    · show ts2.size1 = 0
      rw [a11]
      simpa using g2.2.2.1
  | cons t rest ih =>
    intro fuel m acc u hf hst hin hcl hup hring hroom
    obtain ⟨f2, rfl⟩ : ∃ f2, fuel = f2 + 1 := ⟨fuel - 1, by simp at hf; omega⟩
    have hin1 : holds_input BUFSIZE m.ts ((CMD_CRONLINE ++ t) ++ CR :: (cronlines rest ++ [CR])) := by
      simpa [cronlines] using hin
    have hct : line_clean (CMD_CRONLINE ++ t) :=
      line_clean_append _ _ (by decide) (hcl t (by simp))
    obtain ⟨g1, g2, g3⟩ := getline_input BUFSIZE m.ts _ _ hin1 hct
    obtain ⟨w1, e1, e2, e3⟩ := add_to_crontab_ok BUFSIZE env (after_getline BUFSIZE m.ts) m.w
      self d acc t u henv hup
    have hd1 := dispatch_cronline BUFSIZE env self m t _ w1 hst hup.1 g1 e1
    rw [protocol_switch_skip3 BUFSIZE env self _ m _ hd1]
    obtain ⟨m1, r1, r2, r3, r4, r5, r6, r7, r8, r9, r10⟩ := ih f2
      { m with ts := after_getline BUFSIZE m.ts, w := w1 } (acc ++ (t ++ [LF])) u
      (by simp at hf ⊢; omega) (by show (after_getline BUFSIZE m.ts).state = _; rw [g3.1, hst])
      g2 (fun x hx => hcl x (by simp [hx])) e2
      (ring2_ok_congr BUFSIZE _ _ g3 hring) (room2_congr BUFSIZE _ _ _ g3 hroom)
    refine ⟨m1, r1, r2, ?_, ?_, r5, r6, r7, r8, r9.trans e3, r10⟩
    · rw [r3]
      exact congrArg (· ++ RESULT_OK) (content2_congr BUFSIZE _ _ g3)
    · rw [r4]
      simp [crontab_body]

end Telnetd

/-! ## The crontab upload, end to end -/

namespace Telnetd

theorem cronlines_length (texts : List (List Nat)) :
    texts.length ≤ (cronlines texts).length := by
  induction texts with
  | nil => simp
  | cons t rest ih =>
    simp only [cronlines, List.length_append, List.length_cons]
    omega

/-- The upload in one step: for a directory name `d` of at most 243 bytes and texts
`t1..tn`, all free of CR, LF and NUL; for the holder in GET_CMD with no draft open, whose
buffer A holds `CRONTAB d`, CR, then `CRONLINE ti`, CR for each text, then one more CR;
with every file operation succeeding and room in buffer B for the `OK` block: the
protocol step ends (at `skip3a`) with the canonical file `d/root` holding exactly
t1 LF ... tn LF, exactly one `root` LF appended to `d/cron.update`, the staging file
gone and the draft closed, exactly the `OK` block appended to buffer B, buffer A empty
and the phase EOM_SEEN. -/
theorem crontab_upload (BUFSIZE : Int) (env : sysenv) (self : Nat) (d : List Nat)
    (texts : List (List Nat)) (m : machine)
    (henv : files_ok env) (hd : d.length ≤ 243) (hdc : line_clean d)
    (hcl : ∀ t ∈ texts, line_clean t)
    (hst : m.ts.state = state.GET_CMD) (hholder : m.w.atlas_ts = some self)
    (hfree : m.w.atlas_crontab = none)
    (hin : holds_input BUFSIZE m.ts ((CMD_CRONTAB ++ d) ++ CR :: (cronlines texts ++ [CR])))
    (hring : ring2_ok BUFSIZE m.ts) (hroom : room2 BUFSIZE m.ts RESULT_OK.length) :
    ∃ m1, protocol_step BUFSIZE env self m = Except.ok (m1, jump.next) ∧
      m1.w.fs.files (d ++ CRONTAB_SUFFIX) = some (crontab_body texts) ∧
      m1.w.fs.files (d ++ CRONUPDATE)
        = some ((m.w.fs.files (d ++ CRONUPDATE)).getD [] ++ UPDATELINE) ∧
      m1.w.fs.files (d ++ CRONTAB_NEW_SUF) = none ∧ m1.w.atlas_crontab = none ∧
      content2 BUFSIZE m1.ts = content2 BUFSIZE m.ts ++ RESULT_OK ∧
      m1.ts.size1 = 0 ∧ m1.ts.state = state.EOM_SEEN := by
  have hfuel : ∃ f, m.ts.size1.toNat = f ∧ texts.length + 2 ≤ f := by
    refine ⟨_, rfl, ?_⟩
    have h2 := hin.2.2.1
    have := cronlines_length texts
    rw [h2]
    simp only [List.length_append, List.length_cons, List.length_nil, Int.toNat_ofNat]
    omega
  obtain ⟨f, hf1, hf2⟩ := hfuel
  have hct : line_clean (CMD_CRONTAB ++ d) := line_clean_append _ _ (by decide) hdc
  obtain ⟨g1, g2, g3⟩ := getline_input BUFSIZE m.ts _ _ hin hct
  have hopen := start_crontab_opens BUFSIZE env (after_getline BUFSIZE m.ts) m.w d hfree
    (by omega) (henv.1 _)
  have hd1 := dispatch_cmd BUFSIZE env self m _ hst hholder g1
  rw [do_cmd_crontab_ok BUFSIZE env _ d _ _ hopen] at hd1
  unfold protocol_step
  rw [hf1, protocol_switch_skip3 BUFSIZE env self _ m _ hd1]
  have hup : uploading
      { m.w with atlas_dirname := d,
                 atlas_crontab := some { name := d ++ CRONTAB_NEW_SUF },
                 fs := m.w.fs.store (d ++ CRONTAB_NEW_SUF) [] }
      self d [] (m.w.fs.files (d ++ CRONUPDATE)) := by
    refine ⟨hholder, rfl, rfl, ?_, ?_⟩
    · simp only [fsys.store, if_true]
    · simp only [fsys.store, staging_ne_reload d, if_false]
  obtain ⟨m1, r1, r2, r3, r4, r5, r6, r7, _, _, r10⟩ := upload_runs BUFSIZE env self d henv hd
    texts f
    { m with ts := { after_getline BUFSIZE m.ts with state := state.DO_CRONTAB },
             w := { m.w with atlas_dirname := d,
                             atlas_crontab := some { name := d ++ CRONTAB_NEW_SUF },
                             fs := m.w.fs.store (d ++ CRONTAB_NEW_SUF) [] } }
    [] (m.w.fs.files (d ++ CRONUPDATE)) hf2 rfl g2 hcl hup
    (ring2_ok_fields BUFSIZE _ m.ts g3.2.2.2.2.1 g3.2.2.2.1 g3.2.2.1 hring)
    (by
      unfold room2 at hroom ⊢
      show (after_getline BUFSIZE m.ts).size2 + _ ≤ BUFSIZE ∧
        (after_getline BUFSIZE m.ts).rdidx2 + _ ≤ BUFSIZE
      rw [g3.2.2.2.2.1, g3.2.2.1]
      exact hroom)
  refine ⟨m1, r1, ?_, r5, r6, r7, ?_, r10, r2⟩
  · simpa using r4
  · rw [r3]
    congr 1
    simp only [content2, g3.2.1, g3.2.2.2.1, g3.2.2.2.2.1]

theorem files_ok_env_ok : files_ok env_ok :=
  ⟨fun _ => rfl, fun _ _ => rfl, fun _ => rfl, fun _ => rfl, fun _ _ => rfl, fun _ => rfl,
    fun _ => rfl, fun _ => rfl, rfl⟩

/-- The upload in one step on the spec's example: directory `mydir`, one text
`* * * * * true`. -/
theorem crontab_upload_witness :
    (files_ok env_ok ∧ (bytes "mydir").length ≤ 243 ∧ line_clean (bytes "mydir") ∧
      (∀ t ∈ [bytes "* * * * * true"], line_clean t) ∧
      upload_session.state = state.GET_CMD ∧ world_held.atlas_ts = some 1 ∧
      world_held.atlas_crontab = none ∧
      holds_input 2020 upload_session
        ((CMD_CRONTAB ++ bytes "mydir") ++ CR :: (cronlines [bytes "* * * * * true"] ++ [CR])) ∧
      ring2_ok 2020 upload_session ∧ room2 2020 upload_session RESULT_OK.length) ∧
    ∃ m1, protocol_step 2020 env_ok 1 { ts := upload_session, w := world_held, ws := ⟨24, 80⟩ }
        = Except.ok (m1, jump.next) ∧
      m1.w.fs.files (bytes "mydir" ++ CRONTAB_SUFFIX)
        = some (crontab_body [bytes "* * * * * true"]) ∧
      m1.w.fs.files (bytes "mydir" ++ CRONUPDATE)
        = some ((world_held.fs.files (bytes "mydir" ++ CRONUPDATE)).getD [] ++ UPDATELINE) ∧
      m1.w.fs.files (bytes "mydir" ++ CRONTAB_NEW_SUF) = none ∧ m1.w.atlas_crontab = none ∧
      content2 2020 m1.ts = content2 2020 upload_session ++ RESULT_OK ∧
      m1.ts.size1 = 0 ∧ m1.ts.state = state.EOM_SEEN :=
  ⟨⟨files_ok_env_ok, by decide, by decide, by decide, by decide, by decide, by decide,
      by decide, by decide, by decide⟩,
   crontab_upload 2020 env_ok 1 (bytes "mydir") [bytes "* * * * * true"]
     { ts := upload_session, w := world_held, ws := ⟨24, 80⟩ } files_ok_env_ok (by decide)
     (by decide) (by decide) (by decide) (by decide) (by decide) (by decide) (by decide)
     (by decide)⟩

end Telnetd

/-! ## Escapes, keepalives and options in the filter -/

namespace Telnetd

/-- C11: at a pass of the scan that starts on an IAC byte. If the next byte is IAC and
lies inside the span, the body stores exactly one byte 0xFF for the pty and moves `ptr`
by 2. If the next byte is NOP and lies inside the span, it stores nothing and moves
`ptr` by 2. For any other pair `a`, `b` after the IAC, all three bytes inside the span
and (`a`, `b`) not (SB, NAWS), it stores nothing and moves `ptr` by exactly 3. The loop
goes on from that state each time. -/
theorem remove_iacs_escapes (end_ : Int) (fuel : Nat) (s : scan) (h0 : s.buf s.ptr = IAC) :
    (s.ptr + 1 < end_ → s.buf (s.ptr + 1) = IAC →
      remove_iacs_body end_ s =
        some { buf := poke s.buf s.totty 255, ptr := s.ptr + 2, totty := s.totty + 1,
               ws := s.ws, ptyfd := s.ptyfd } ∧
      remove_iacs_loop end_ (fuel + 1) s =
        remove_iacs_loop end_ fuel
          { buf := poke s.buf s.totty 255, ptr := s.ptr + 2, totty := s.totty + 1,
            ws := s.ws, ptyfd := s.ptyfd }) ∧
    (s.ptr + 1 < end_ → s.buf (s.ptr + 1) = NOP →
      remove_iacs_body end_ s =
        some { buf := s.buf, ptr := s.ptr + 2, totty := s.totty, ws := s.ws, ptyfd := s.ptyfd } ∧
      remove_iacs_loop end_ (fuel + 1) s =
        remove_iacs_loop end_ fuel
          { buf := s.buf, ptr := s.ptr + 2, totty := s.totty, ws := s.ws, ptyfd := s.ptyfd }) ∧
    (s.ptr + 2 < end_ → s.buf (s.ptr + 1) ≠ IAC → s.buf (s.ptr + 1) ≠ NOP →
      ¬ (s.buf (s.ptr + 1) = SB ∧ s.buf (s.ptr + 2) = TELOPT_NAWS) →
      remove_iacs_body end_ s =
        some { buf := s.buf, ptr := s.ptr + 3, totty := s.totty, ws := s.ws, ptyfd := s.ptyfd } ∧
      remove_iacs_loop end_ (fuel + 1) s =
        remove_iacs_loop end_ fuel
          { buf := s.buf, ptr := s.ptr + 3, totty := s.totty, ws := s.ws, ptyfd := s.ptyfd }) := by
  refine ⟨fun h1 h2 => ?_, fun h1 h2 => ?_, fun h1 h2 h3 h4 => ?_⟩
  · have n1 : ¬ s.ptr + 1 ≥ end_ := by omega
    have k : IAC ≠ NOP := by decide
    have hbody : remove_iacs_body end_ s =
        some { buf := poke s.buf s.totty 255, ptr := s.ptr + 2, totty := s.totty + 1,
               ws := s.ws, ptyfd := s.ptyfd } := by
      simp only [remove_iacs_body, h0, ne_eq, not_true_eq_false, if_false, n1, h2, k, if_true]
      rfl
    exact ⟨hbody, remove_iacs_loop_some end_ fuel s _ (by omega) hbody⟩
  · have n1 : ¬ s.ptr + 1 ≥ end_ := by omega
    have hbody : remove_iacs_body end_ s =
        some { buf := s.buf, ptr := s.ptr + 2, totty := s.totty, ws := s.ws, ptyfd := s.ptyfd } := by
      simp only [remove_iacs_body, h0, ne_eq, not_true_eq_false, if_false, n1, h2, if_true]
    exact ⟨hbody, remove_iacs_loop_some end_ fuel s _ (by omega) hbody⟩
  · have n1 : ¬ s.ptr + 1 ≥ end_ := by omega
    have n2 : ¬ s.ptr + 2 ≥ end_ := by omega
    have hbody : remove_iacs_body end_ s =
        some { buf := s.buf, ptr := s.ptr + 3, totty := s.totty, ws := s.ws, ptyfd := s.ptyfd } := by
      simp only [remove_iacs_body, h0, ne_eq, not_true_eq_false, if_false, n1, h2, h3, n2, h4]
    exact ⟨hbody, remove_iacs_loop_some end_ fuel s _ (by omega) hbody⟩

/-- C11 on an example: in the span `a` IAC IAC IAC NOP IAC WILL ECHO `b` the scan meets
an IAC at offsets 1, 3 and 5; it stores one 0xFF after the `a`, drops the NOP pair and
the three-byte option, and the pty receives `a` 0xFF `b`. -/
theorem remove_iacs_escapes_witness :
    remove_iacs_body 9 { buf := buf_of [97, 255, 255, 255, 241, 255, 251, 1, 98],
                         ptr := 1, totty := 1, ws := ⟨0, 0⟩, ptyfd := 0 } =
      some { buf := poke (buf_of [97, 255, 255, 255, 241, 255, 251, 1, 98]) 1 255,
             ptr := 1 + 2, totty := 1 + 1, ws := ⟨0, 0⟩, ptyfd := 0 } ∧
    remove_iacs_body 9 { buf := buf_of [97, 255, 255, 255, 241, 255, 251, 1, 98],
                         ptr := 3, totty := 2, ws := ⟨0, 0⟩, ptyfd := 0 } =
      some { buf := buf_of [97, 255, 255, 255, 241, 255, 251, 1, 98],
             ptr := 3 + 2, totty := 2, ws := ⟨0, 0⟩, ptyfd := 0 } ∧
    remove_iacs_body 9 { buf := buf_of [97, 255, 255, 255, 241, 255, 251, 1, 98],
                         ptr := 5, totty := 2, ws := ⟨0, 0⟩, ptyfd := 0 } =
      some { buf := buf_of [97, 255, 255, 255, 241, 255, 251, 1, 98],
             ptr := 5 + 3, totty := 2, ws := ⟨0, 0⟩, ptyfd := 0 } ∧
    (remove_iacs 16 (session_with state.DO_TRADITIONAL
        [97, 255, 255, 255, 241, 255, 251, 1, 98] 9 0 9) ⟨0, 0⟩).totty = [97, 255, 98] :=
  ⟨((remove_iacs_escapes 9 0
      { buf := buf_of [97, 255, 255, 255, 241, 255, 251, 1, 98], ptr := 1, totty := 1,
        ws := ⟨0, 0⟩, ptyfd := 0 } (by decide)).1 (by decide) (by decide)).1,
   ((remove_iacs_escapes 9 0
      { buf := buf_of [97, 255, 255, 255, 241, 255, 251, 1, 98], ptr := 3, totty := 2,
        ws := ⟨0, 0⟩, ptyfd := 0 } (by decide)).2.1 (by decide) (by decide)).1,
   ((remove_iacs_escapes 9 0
      { buf := buf_of [97, 255, 255, 255, 241, 255, 251, 1, 98], ptr := 5, totty := 2,
        ws := ⟨0, 0⟩, ptyfd := 0 } (by decide)).2.2 (by decide) (by decide) (by decide) (by decide)).1,
   by decide⟩

end Telnetd

/-! ## A new session -/

namespace Telnetd

/-- C13: the session `make_new_session` returns, for every socket: buffer A is empty with
both cursors 0, the phase is GET_LOGINNAME, buffer B holds the 15 bytes of the offer at
offsets 0..14 with `wridx2 = 0` and `rdidx2 = size2 = 15`; whenever `BUFSIZE` is at
least 15 these 15 bytes are the logical content of buffer B and the first write to the
socket asks for all of them. -/
theorem make_new_session_spec (sock : Int) :
    (make_new_session sock).size1 = 0 ∧ (make_new_session sock).rdidx1 = 0 ∧
    (make_new_session sock).wridx1 = 0 ∧
    (make_new_session sock).state = state.GET_LOGINNAME ∧
    peek (make_new_session sock).buf2 0 15 =
      [IAC, DO, TELOPT_ECHO, IAC, DO, TELOPT_NAWS, IAC, DO, TELOPT_LFLOW,
       IAC, WILL, TELOPT_ECHO, IAC, WILL, TELOPT_SGA] ∧
    (make_new_session sock).wridx2 = 0 ∧ (make_new_session sock).rdidx2 = 15 ∧
    (make_new_session sock).size2 = 15 ∧
    ∀ BUFSIZE : Int, 15 ≤ BUFSIZE →
      content2 BUFSIZE (make_new_session sock) =
        [IAC, DO, TELOPT_ECHO, IAC, DO, TELOPT_NAWS, IAC, DO, TELOPT_LFLOW,
         IAC, WILL, TELOPT_ECHO, IAC, WILL, TELOPT_SGA] ∧
      drain_sock_request BUFSIZE (make_new_session sock) = 15 := by
  refine ⟨rfl, rfl, rfl, rfl, rfl, rfl, rfl, rfl, fun B hB => ⟨?_, ?_⟩⟩
  · have hp : peek (make_new_session sock).buf2 0 15 =
        [IAC, DO, TELOPT_ECHO, IAC, DO, TELOPT_NAWS, IAC, DO, TELOPT_LFLOW,
         IAC, WILL, TELOPT_ECHO, IAC, WILL, TELOPT_SGA] := rfl
    rw [← hp]
    have hs : (make_new_session sock).size2.toNat = 15 := rfl
    have hw : (make_new_session sock).wridx2 = 0 := rfl
    simp only [content2, peek, hs, hw]
    refine List.map_congr_left fun k hk => ?_
    have := List.mem_range.mp hk
    congr 1
    rw [Int.emod_eq_of_lt (by omega) (by omega)]
  · have hs : (make_new_session sock).size2 = 15 := rfl
    have hw : (make_new_session sock).wridx2 = 0 := rfl
    simp only [drain_sock_request, hs, hw]
    omega

/-- C13 on an example: the session made for socket 7 with `BUFSIZE = 2020`. -/
theorem make_new_session_spec_witness :
    (15 : Int) ≤ 2020 ∧
    content2 2020 (make_new_session 7) =
      [255, 253, 1, 255, 253, 31, 255, 253, 33, 255, 251, 1, 255, 251, 3] ∧
    drain_sock_request 2020 (make_new_session 7) = 15 :=
  ⟨by decide, (make_new_session_spec 7).2.2.2.2.2.2.2.2 2020 (by decide)⟩

end Telnetd

/-! ## Compaction of a wrapped buffer A -/

namespace Telnetd

set_option maxRecDepth 100000 in
/-- C20 on a wrapped buffer A with more bytes than `wridx1`: `pack_2pty` returns with
`wridx1 = 0`, `rdidx1 = size1` and `size1` unchanged, but the first `memmove` has
stored the low part over the start of the high part, so the logical content, which
began with `a`, now begins with the `z` that was its last byte. -/
theorem pack_2pty_overlap :
    (wrapped_session.wridx1 < 2020 ∧ wrapped_session.size1 ≤ 2020 ∧
      wrapped_session.wridx1 + wrapped_session.size1 > 2020) ∧
    (∃ ts, pack_2pty 2020 wrapped_session = Except.ok ts ∧
      ts.wridx1 = 0 ∧ ts.rdidx1 = 1011 ∧ ts.size1 = 1011 ∧
      (content1 2020 wrapped_session).head? = some 97 ∧
      (content1 2020 wrapped_session).getLast? = some 122 ∧
      (content1 2020 ts).head? = some 122 ∧
      content1 2020 ts ≠ content1 2020 wrapped_session) := by
  refine ⟨by decide, _, rfl, rfl, rfl, rfl, by decide, by decide, by decide, ?_⟩
  intro h
  have := congrArg List.head? h
  revert this
  decide

end Telnetd

/-! ## Other commands in GET_CMD -/

namespace Telnetd

theorem strncmp_eq_iff (ln p : List Nat) :
    strncmp_eq ln p p.length = true ↔ p <+: ln := by
  simp only [strncmp_eq, List.take_length, decide_eq_true_eq, List.prefix_iff_eq_take]
  exact eq_comm

/-- The code at `do_cmd` on a line that starts with `ONEOFF`. -/
theorem do_cmd_oneoff (BUFSIZE : Int) (env : sysenv) (m : machine) (ln : List Nat)
    (hnc : ¬ CMD_CRONTAB <+: ln) (ho : CMD_ONEOFF <+: ln) :
    do_cmd BUFSIZE env m ln = Except.ok (m, target.skip3) := by
  unfold do_cmd
  have h1 : strncmp_eq ln CMD_CRONTAB CMD_CRONTAB.length = false :=
    Bool.eq_false_iff.mpr fun h => hnc ((strncmp_eq_iff _ _).mp h)
  have h2 : strncmp_eq ln CMD_ONEOFF CMD_ONEOFF.length = true := (strncmp_eq_iff _ _).mpr ho
  simp only [h1, h2, Bool.false_eq_true, if_false, if_true, do_oneoff]

/-- The code at `do_cmd` on a line that is not empty and starts with neither `CRONTAB `
nor `ONEOFF`. -/
theorem do_cmd_bad (BUFSIZE : Int) (env : sysenv) (m : machine) (ln : List Nat)
    (ts2 : tsession) (hnc : ¬ CMD_CRONTAB <+: ln) (ho : ¬ CMD_ONEOFF <+: ln) (hne : ln ≠ [])
    (hadd : add_2sock BUFSIZE m.ts BAD_COMMAND = Except.ok ts2) :
    do_cmd BUFSIZE env m ln = Except.ok ({ m with ts := ts2 }, target.skip3a) := by
  unfold do_cmd
  have h1 : strncmp_eq ln CMD_CRONTAB CMD_CRONTAB.length = false :=
    Bool.eq_false_iff.mpr fun h => hnc ((strncmp_eq_iff _ _).mp h)
  have h2 : strncmp_eq ln CMD_ONEOFF CMD_ONEOFF.length = false :=
    Bool.eq_false_iff.mpr fun h => ho ((strncmp_eq_iff _ _).mp h)
  have h3 : ¬ ln.length = 0 := fun h => hne (List.length_eq_zero.mp h)
  simp only [h1, h2, h3, Bool.false_eq_true, if_false, hadd]

/-- C19, as the code has it: in GET_CMD, for the holder, on an extracted line that does
not start with `CRONTAB `. The empty line, with room in buffer B for the 6 bytes of the
block: exactly `RESULT_OK` is appended and the phase is EOM_SEEN. A line that starts
with `ONEOFF` (whatever follows the six letters): nothing is appended, the phase stays
GET_CMD. Any other line, with room in buffer B for the 15 bytes of the block: exactly
`BAD_COMMAND` is appended, the phase stays GET_CMD. In all three cases the world
(holder, draft, files) is unchanged, so no draft is opened. -/
theorem command_other (BUFSIZE : Int) (env : sysenv) (self : Nat) (m : machine)
    (ln : List Nat) (hst : m.ts.state = state.GET_CMD)
    (hholder : m.w.atlas_ts = some self)
    (hline : extracted_line BUFSIZE m.ts = some ln)
    (hnc : ¬ CMD_CRONTAB <+: ln)
    (hring : ring2_ok BUFSIZE m.ts) :
    (ln = [] → room2 BUFSIZE m.ts RESULT_OK.length →
      ∃ ts1, dispatch BUFSIZE env self m = Except.ok ({ m with ts := ts1 }, target.skip3) ∧
        content2 BUFSIZE ts1 = content2 BUFSIZE m.ts ++ RESULT_OK ∧
        ts1.state = state.EOM_SEEN) ∧
    (CMD_ONEOFF <+: ln →
      ∃ ts1, dispatch BUFSIZE env self m = Except.ok ({ m with ts := ts1 }, target.skip3) ∧
        content2 BUFSIZE ts1 = content2 BUFSIZE m.ts ∧
        ts1.state = state.GET_CMD) ∧
    (ln ≠ [] → ¬ CMD_ONEOFF <+: ln → room2 BUFSIZE m.ts BAD_COMMAND.length →
      ∃ ts1, dispatch BUFSIZE env self m = Except.ok ({ m with ts := ts1 }, target.skip3a) ∧
        content2 BUFSIZE ts1 = content2 BUFSIZE m.ts ++ BAD_COMMAND ∧
        ts1.state = state.GET_CMD) := by
  have hs := after_getline_side2 BUFSIZE m.ts
  have hd := dispatch_cmd BUFSIZE env self m ln hst hholder hline
  refine ⟨fun he hroom => ?_, fun ho => ?_, fun hne ho hroom => ?_⟩
  · obtain ⟨ts1, e1, e2, _, _, _, _, _⟩ :=
      add_2sock_appends BUFSIZE (after_getline BUFSIZE m.ts) RESULT_OK
        (ring2_ok_congr BUFSIZE _ _ hs hring) (room2_congr BUFSIZE _ _ _ hs hroom)
    subst he
    rw [do_cmd_empty BUFSIZE env _ ts1 e1] at hd
    refine ⟨{ ts1 with state := state.EOM_SEEN }, hd, ?_, rfl⟩
    rw [← content2_congr BUFSIZE _ _ hs, ← e2]
    rfl
  · rw [do_cmd_oneoff BUFSIZE env _ ln hnc ho] at hd
    exact ⟨_, hd, content2_congr BUFSIZE _ _ hs, by rw [hs.1, hst]⟩
  · obtain ⟨ts1, e1, e2, _, _, _, _, e7, _⟩ :=
      add_2sock_appends BUFSIZE (after_getline BUFSIZE m.ts) BAD_COMMAND
        (ring2_ok_congr BUFSIZE _ _ hs hring) (room2_congr BUFSIZE _ _ _ hs hroom)
    rw [do_cmd_bad BUFSIZE env _ ln ts1 hnc ho hne e1] at hd
    refine ⟨ts1, hd, ?_, by rw [e7, hs.1, hst]⟩
    rw [e2, content2_congr BUFSIZE _ _ hs]

/-- C19 on examples: the holder sends an empty line, then `ONEOFF`, then `hello`. -/
theorem command_other_witness :
    (∃ ts1, dispatch 2020 env_ok 1
        { ts := session_with state.GET_CMD (bytes "\r") 1 0 1, w := world_held,
          ws := ⟨24, 80⟩ }
        = Except.ok ({ ts := ts1, w := world_held, ws := ⟨24, 80⟩ }, target.skip3) ∧
      content2 2020 ts1 = content2 2020 (session_with state.GET_CMD (bytes "\r") 1 0 1)
        ++ RESULT_OK ∧
      ts1.state = state.EOM_SEEN) ∧
    (∃ ts1, dispatch 2020 env_ok 1
        { ts := session_with state.GET_CMD (bytes "ONEOFF\r") 7 0 7, w := world_held,
          ws := ⟨24, 80⟩ }
        = Except.ok ({ ts := ts1, w := world_held, ws := ⟨24, 80⟩ }, target.skip3) ∧
      content2 2020 ts1 = content2 2020 (session_with state.GET_CMD (bytes "ONEOFF\r") 7 0 7) ∧
      ts1.state = state.GET_CMD) ∧
    (∃ ts1, dispatch 2020 env_ok 1
        { ts := session_with state.GET_CMD (bytes "hello\r") 6 0 6, w := world_held,
          ws := ⟨24, 80⟩ }
        = Except.ok ({ ts := ts1, w := world_held, ws := ⟨24, 80⟩ }, target.skip3a) ∧
      content2 2020 ts1 = content2 2020 (session_with state.GET_CMD (bytes "hello\r") 6 0 6)
        ++ BAD_COMMAND ∧
      ts1.state = state.GET_CMD) :=
  ⟨(command_other 2020 env_ok 1
      { ts := session_with state.GET_CMD (bytes "\r") 1 0 1, w := world_held,
        ws := ⟨24, 80⟩ } [] (by decide) (by decide) (by decide) (by decide) (by decide)).1
      rfl (by decide),
   (command_other 2020 env_ok 1
      { ts := session_with state.GET_CMD (bytes "ONEOFF\r") 7 0 7, w := world_held,
        ws := ⟨24, 80⟩ } (bytes "ONEOFF") (by decide) (by decide) (by decide) (by decide)
      (by decide)).2.1 (by decide),
   (command_other 2020 env_ok 1
      { ts := session_with state.GET_CMD (bytes "hello\r") 6 0 6, w := world_held,
        ws := ⟨24, 80⟩ } (bytes "hello") (by decide) (by decide) (by decide) (by decide)
      (by decide)).2.2 (by decide) (by decide) (by decide)⟩

/-- C19 as stated fails twice. The line `ONEOFFx` is not empty, is not the token
`ONEOFF` and does not start with `CRONTAB `, yet it gets no `BAD_COMMAND`: the pass ends
at `skip3` with buffer B still empty. And with 2017 bytes queued in buffer B the line
`x` does not get `BAD_COMMAND` either: the process aborts. -/
theorem command_other_fails :
    (extracted_line 2020 (session_with state.GET_CMD (bytes "ONEOFFx\r") 8 0 8)
        = some (bytes "ONEOFFx") ∧
      bytes "ONEOFFx" ≠ [] ∧ bytes "ONEOFFx" ≠ CMD_ONEOFF ∧
      ¬ CMD_CRONTAB <+: bytes "ONEOFFx" ∧
      ∃ ts1, dispatch 2020 env_ok 1
          { ts := session_with state.GET_CMD (bytes "ONEOFFx\r") 8 0 8, w := world_held,
            ws := ⟨24, 80⟩ }
          = Except.ok ({ ts := ts1, w := world_held, ws := ⟨24, 80⟩ }, target.skip3) ∧
        content2 2020 ts1 = [] ∧ ts1.state = state.GET_CMD) ∧
    (extracted_line 2020 { flooded_session with state := state.GET_CMD }
        = some (bytes "x") ∧
      ¬ CMD_CRONTAB <+: bytes "x" ∧ ¬ CMD_ONEOFF <+: bytes "x" ∧
      dispatch 2020 env_ok 1
          { ts := { flooded_session with state := state.GET_CMD }, w := world_held,
            ws := ⟨24, 80⟩ }
        = Except.error fault.abort) :=
  ⟨⟨by decide, by decide, by decide, by decide, _, rfl, by decide, by decide⟩,
   ⟨by decide, by decide, by decide, rfl⟩⟩

end Telnetd

/-! ## CR LF outside the login phase -/

namespace Telnetd

/-- C14 on the password followed by CR LF, in GET_PASSWORD with no holder. The line
taken is the password and only the CR goes with it: the LF stays in buffer A, and the
next `getline_2pty` turns it into an empty line. The protocol step therefore runs
`case GET_CMD` on that empty line, appends `RESULT_OK` and ends in EOM_SEEN. In
GET_LOGINNAME, where `remove_iacs` runs first, the login token followed by CR LF leaves
buffer A empty. -/
theorem crlf_dispatched_twice :
    extracted_line 2020 (session_with state.GET_PASSWORD (bytes "vuurwerk19\r\n") 12 0 12)
      = some ATLAS_PASSWORD ∧
    (after_getline 2020
      (session_with state.GET_PASSWORD (bytes "vuurwerk19\r\n") 12 0 12)).size1 = 1 ∧
    extracted_line 2020 (after_getline 2020
      (session_with state.GET_PASSWORD (bytes "vuurwerk19\r\n") 12 0 12)) = some [] ∧
    (∃ m, protocol_step 2020 env_ok 1
        { ts := session_with state.GET_PASSWORD (bytes "vuurwerk19\r\n") 12 0 12,
          w := world_idle, ws := ⟨24, 80⟩ } = Except.ok (m, jump.next) ∧
      m.ts.state = state.EOM_SEEN ∧ content2 2020 m.ts = RESULT_OK ∧ m.ts.size1 = 0) ∧
    (∃ m, dispatch 2020 env_ok 1
        { ts := session_with state.GET_LOGINNAME (bytes "C_TO_P_TEST_V1\r\n") 16 0 16,
          w := world_idle, ws := ⟨24, 80⟩ } = Except.ok (m, target.skip3) ∧
      m.ts.state = state.GET_PASSWORD ∧ m.ts.size1 = 0) :=
  ⟨by decide, by decide, by decide, ⟨_, rfl, by decide, by decide, by decide⟩,
   ⟨_, rfl, by decide, by decide⟩⟩

end Telnetd

/-! ## The responses a pass of the switch appends -/

namespace Telnetd

/-- A returning `add_2sock` found room and changed buffer B only. -/
theorem add_2sock_inv (BUFSIZE : Int) (ts ts1 : tsession) (str : List Nat)
    (h : add_2sock BUFSIZE ts str = Except.ok ts1) :
    room2 BUFSIZE ts str.length ∧
    ts1 = { ts with buf2 := memcpy ts.buf2 ts.rdidx2 str str.length,
                    rdidx2 := ts.rdidx2 + str.length,
                    size2 := ts.size2 + str.length } := by
  by_cases h1 : ts.size2 + str.length > BUFSIZE
  · rw [add_2sock_error BUFSIZE ts str (Or.inl h1)] at h
    cases h
  · by_cases h2 : ts.rdidx2 + str.length > BUFSIZE
    · rw [add_2sock_error BUFSIZE ts str (Or.inr h2)] at h
      cases h
    · rw [add_2sock_ok BUFSIZE ts str h1 h2] at h
      cases h
      exact ⟨⟨by omega, by omega⟩, rfl⟩

theorem add_2sock_side1 (BUFSIZE : Int) (ts ts1 : tsession) (str : List Nat)
    (h : add_2sock BUFSIZE ts str = Except.ok ts1) :
    ts1.state = ts.state ∧ ts1.shell_pid = ts.shell_pid ∧ ts1.ptyfd = ts.ptyfd ∧
    ts1.sockfd_read = ts.sockfd_read ∧ ts1.sockfd_write = ts.sockfd_write ∧
    ts1.buf1 = ts.buf1 ∧ ts1.rdidx1 = ts.rdidx1 ∧ ts1.wridx1 = ts.wridx1 ∧
    ts1.size1 = ts.size1 := by
  rw [(add_2sock_inv BUFSIZE ts ts1 str h).2]
  exact ⟨rfl, rfl, rfl, rfl, rfl, rfl, rfl, rfl, rfl⟩

theorem sent_refl (BUFSIZE : Int) (a : tsession) : sent BUFSIZE a a [] :=
  ⟨fun h => ⟨by simp, h⟩, by simp, by simp, rfl⟩

theorem sent_add (BUFSIZE : Int) (a b : tsession) (str : List Nat)
    (h : add_2sock BUFSIZE a str = Except.ok b) : sent BUFSIZE a b [str] := by
  obtain ⟨hroom, hb⟩ := add_2sock_inv BUFSIZE a b str h
  refine ⟨fun hr => ?_, ?_, ?_, ?_⟩
  · obtain ⟨ts1, e1, e2, _, _, _, e6, _⟩ := add_2sock_appends BUFSIZE a str hr hroom
    rw [h] at e1
    cases e1
    exact ⟨by simpa using e2, e6⟩
  · rw [hb]
    simp
  · rw [hb]
    simp
  · rw [hb]

theorem sent_trans (BUFSIZE : Int) (a b c : tsession) (s1 s2 : List (List Nat))
    (h1 : sent BUFSIZE a b s1) (h2 : sent BUFSIZE b c s2) : sent BUFSIZE a c (s1 ++ s2) := by
  obtain ⟨a1, a3, a4, a5⟩ := h1
  obtain ⟨b1, b3, b4, b5⟩ := h2
  refine ⟨fun hr => ?_, ?_, ?_, b5.trans a5⟩
  · obtain ⟨c1, c2⟩ := a1 hr
    obtain ⟨d1, d2⟩ := b1 c2
    exact ⟨by rw [d1, c1, List.flatten_append, List.append_assoc], d2⟩
  · rw [b3, a3, List.flatten_append, List.length_append]
    push_cast
    omega
  · rw [b4, a4, List.flatten_append, List.length_append]
    push_cast
    omega

/-- Only buffer B and its cursors matter to `sent`. -/
theorem sent_fields (BUFSIZE : Int) (a a1 b b1 : tsession) (strs : List (List Nat))
    (ha : a1.buf2 = a.buf2 ∧ a1.rdidx2 = a.rdidx2 ∧ a1.wridx2 = a.wridx2 ∧ a1.size2 = a.size2)
    (hb : b1.buf2 = b.buf2 ∧ b1.rdidx2 = b.rdidx2 ∧ b1.wridx2 = b.wridx2 ∧ b1.size2 = b.size2)
    (h : sent BUFSIZE a b strs) : sent BUFSIZE a1 b1 strs := by
  obtain ⟨h1, h3, h4, h5⟩ := h
  obtain ⟨a2, a3, a4, a5⟩ := ha
  obtain ⟨b2, b3, b4, b5⟩ := hb
  refine ⟨fun hr => ?_, by rw [b5, a5, h3], by rw [b3, a3, h4], by rw [b4, a4, h5]⟩
  obtain ⟨c1, c2⟩ := h1 (ring2_ok_fields BUFSIZE a a1 a5.symm a4.symm a3.symm hr)
  refine ⟨?_, ring2_ok_fields BUFSIZE b1 b b5 b4 b3 c2⟩
  have e1 : content2 BUFSIZE b1 = content2 BUFSIZE b := by simp only [content2, b2, b4, b5]
  have e2 : content2 BUFSIZE a1 = content2 BUFSIZE a := by simp only [content2, a2, a4, a5]
  rw [e1, e2, c1]

theorem same_side2_fields (a b : tsession) (h : same_side2 a b) :
    a.buf2 = b.buf2 ∧ a.rdidx2 = b.rdidx2 ∧ a.wridx2 = b.wridx2 ∧ a.size2 = b.size2 :=
  ⟨h.2.1, h.2.2.1, h.2.2.2.1, h.2.2.2.2.1⟩

/-- The outcomes of a returning `start_crontab`: -1 after one error response, with
holder, draft and files as they were; or 0 with nothing sent, the directory name stored,
the staging file created empty and the draft open on it. -/
theorem start_crontab_cases (BUFSIZE : Int) (env : sysenv) (ts ts1 : tsession)
    (w w1 : world) (ln : List Nat) (r : Int)
    (h : start_crontab BUFSIZE env ts w ln = Except.ok (ts1, w1, r)) :
    w1.atlas_ts = w.atlas_ts ∧ w1.login_requests = w.login_requests ∧
    ((r = -1 ∧ (∃ s, s ∈ [CRONTAB_BUSY, NAME_TOO_LONG, CREATE_FAILED] ∧
        add_2sock BUFSIZE ts s = Except.ok ts1) ∧
      w1.atlas_crontab = w.atlas_crontab ∧ w1.fs = w.fs ∧
      (w1.atlas_dirname = w.atlas_dirname ∨ w.atlas_crontab = none)) ∨
     (r = 0 ∧ ts1 = ts ∧ w.atlas_crontab = none ∧
      (ln.drop CMD_CRONTAB.length).length ≤ 246 ∧
      w1.atlas_dirname = ln.drop CMD_CRONTAB.length ∧
      w1.atlas_crontab = some { name := ln.drop CMD_CRONTAB.length ++ CRONTAB_NEW_SUF } ∧
      w1.fs = w.fs.store (ln.drop CMD_CRONTAB.length ++ CRONTAB_NEW_SUF) [])) := by
  unfold start_crontab at h
  split at h
  · split at h
    · cases h
    · rename_i ts2 hadd
      cases h
      exact ⟨rfl, rfl, Or.inl ⟨rfl, ⟨_, by simp, hadd⟩, rfl, rfl, Or.inl rfl⟩⟩
  · rename_i hfree
    simp only at h
    split at h
    · split at h
      · cases h
      · rename_i ts2 hadd
        cases h
        exact ⟨rfl, rfl, Or.inl ⟨rfl, ⟨_, by simp, hadd⟩, rfl, rfl,
          Or.inr (by simpa using hfree)⟩⟩
    · rename_i hlen
      split at h
      · split at h
        · cases h
        · rename_i ts2 hadd
          cases h
          exact ⟨rfl, rfl, Or.inl ⟨rfl, ⟨_, by simp, hadd⟩, rfl, rfl,
            Or.inr (by simpa using hfree)⟩⟩
      · rename_i hlen2
        rw [crontab_new_suf_length] at hlen2
        have hl : (ln.drop CMD_CRONTAB.length).length ≤ 246 := by omega
        rw [strlcpy_short (ln.drop CMD_CRONTAB.length) (by omega),
          strlcpy_short (ln.drop CMD_CRONTAB.length) (by omega),
          strlcat_short _ CRONTAB_NEW_SUF (by rw [crontab_new_suf_length]; omega)] at h
        split at h
        · cases h
          refine ⟨rfl, rfl, Or.inr ⟨rfl, rfl, ?_, hl, rfl, rfl, rfl⟩⟩
          simpa using hfree
        · split at h
          · cases h
          · rename_i ts2 hadd
            cases h
            exact ⟨rfl, rfl, Or.inl ⟨rfl, ⟨_, by simp, hadd⟩, rfl, rfl,
              Or.inr (by simpa using hfree)⟩⟩

/-- The outcomes of a returning `add_to_crontab`: nothing at all without a draft; the
line and a newline appended to the draft's file; or `IO_ERROR` sent and the draft
closed, with the file as it was or with the line alone appended. -/
theorem add_to_crontab_cases (BUFSIZE : Int) (env : sysenv) (ts ts1 : tsession)
    (w w1 : world) (ln : List Nat)
    (h : add_to_crontab BUFSIZE env ts w ln = Except.ok (ts1, w1)) :
    w1.atlas_ts = w.atlas_ts ∧ w1.atlas_dirname = w.atlas_dirname ∧
    w1.login_requests = w.login_requests ∧
    ((w.atlas_crontab = none ∧ ts1 = ts ∧ w1 = w) ∨
     (∃ f, w.atlas_crontab = some f ∧ ts1 = ts ∧ w1.atlas_crontab = some f ∧
        w1.fs = (w.fs.append f.name ln).append f.name [LF]) ∨
     (∃ f, w.atlas_crontab = some f ∧ add_2sock BUFSIZE ts IO_ERROR = Except.ok ts1 ∧
        w1.atlas_crontab = none ∧ (w1.fs = w.fs ∨ w1.fs = w.fs.append f.name ln))) := by
  unfold add_to_crontab at h
  split at h
  · rename_i hnone
    cases h
    exact ⟨rfl, rfl, rfl, Or.inl ⟨hnone, rfl, rfl⟩⟩
  · rename_i f hsome
    split at h
    · simp only at h
      split at h
      · cases h
        exact ⟨rfl, rfl, rfl, Or.inr (Or.inl ⟨f, hsome, rfl, hsome, rfl⟩)⟩
      · split at h
        · cases h
        · rename_i ts2 hadd
          cases h
          exact ⟨rfl, rfl, rfl, Or.inr (Or.inr ⟨f, hsome, hadd, rfl, Or.inr rfl⟩)⟩
    · split at h
      · cases h
      · rename_i ts2 hadd
        cases h
        exact ⟨rfl, rfl, rfl, Or.inr (Or.inr ⟨f, hsome, hadd, rfl, Or.inl rfl⟩)⟩

/-- The reload loop of `end_crontab` touches the reload file only. -/
theorem reload_loop_frame (env : sysenv) (f : List Nat) : ∀ (n : Nat) (fs : fsys) (q : List Nat),
    q ≠ f → (reload_loop env f n fs).1.files q = fs.files q := by
  intro n
  induction n with
  | zero =>
    intro fs q hq
    unfold reload_loop
    split
    · split
      · split
        · simp [fsys.append, fsys.store, hq]
        · simp [fsys.append, fsys.store, hq]
      · rfl
    · rfl
  | succ n ih =>
    intro fs q hq
    unfold reload_loop
    split
    · split
      · split
        · simp only
          rw [ih _ q hq]
          simp [fsys.append, fsys.store, fsys.remove, hq]
        · simp [fsys.append, fsys.store, hq]
      · rfl
    · rfl

/-- The outcomes of a returning `end_crontab`: the draft is closed, at most one error
response is sent, and the files are as they were or the staging file has been renamed
to the canonical one (after which only the reload file can differ). -/
theorem end_crontab_cases (BUFSIZE : Int) (env : sysenv) (ts ts1 : tsession)
    (w w1 : world) (h : end_crontab BUFSIZE env ts w = Except.ok (ts1, w1)) :
    w1.atlas_ts = w.atlas_ts ∧ w1.atlas_dirname = w.atlas_dirname ∧
    w1.login_requests = w.login_requests ∧ w1.atlas_crontab = none ∧
    (ts1 = ts ∨ ∃ s, s ∈ [IO_ERROR, NAME_TOO_LONG, CREATE_FAILED] ∧
      add_2sock BUFSIZE ts s = Except.ok ts1) ∧
    (w1.fs = w.fs ∨
      (w.atlas_crontab ≠ none ∧ w.atlas_dirname.length ≤ 246 ∧
        ∀ q, q ≠ w.atlas_dirname ++ CRONUPDATE →
          w1.fs.files q = (w.fs.rename (w.atlas_dirname ++ CRONTAB_NEW_SUF)
            (w.atlas_dirname ++ CRONTAB_SUFFIX)).files q)) := by
  unfold end_crontab at h
  split at h
  · rename_i hnone
    cases h
    exact ⟨rfl, rfl, rfl, hnone, Or.inl rfl, Or.inl rfl⟩
  · rename_i f hsome
    have hs : w.atlas_crontab ≠ none := by simp [hsome]
    simp only at h
    split at h
    · split at h
      · cases h
      · rename_i ts2 hadd
        cases h
        exact ⟨rfl, rfl, rfl, rfl, Or.inr ⟨_, by simp, hadd⟩, Or.inl rfl⟩
    · split at h
      · split at h
        · cases h
        · rename_i ts2 hadd
          cases h
          exact ⟨rfl, rfl, rfl, rfl, Or.inr ⟨_, by simp, hadd⟩, Or.inl rfl⟩
      · rename_i hlen
        rw [crontab_new_suf_length] at hlen
        have hl : w.atlas_dirname.length ≤ 246 := by omega
        split at h
        · split at h
          · cases h
          · rename_i ts2 hadd
            cases h
            exact ⟨rfl, rfl, rfl, rfl, Or.inr ⟨_, by simp, hadd⟩, Or.inl rfl⟩
        · rw [strlcpy_short w.atlas_dirname (by omega),
            strlcat_short _ CRONTAB_NEW_SUF (by rw [crontab_new_suf_length]; omega),
            strlcat_short _ CRONTAB_SUFFIX (by rw [crontab_suffix_length]; omega)] at h
          split at h
          · split at h
            · cases h
            · rename_i ts2 hadd
              cases h
              exact ⟨rfl, rfl, rfl, rfl, Or.inr ⟨_, by simp, hadd⟩, Or.inl rfl⟩
          · split at h
            · split at h
              · cases h
              · rename_i ts2 hadd
                cases h
                exact ⟨rfl, rfl, rfl, rfl, Or.inr ⟨_, by simp, hadd⟩,
                  Or.inr ⟨hs, hl, fun q _ => rfl⟩⟩
            · rename_i hlen3
              rw [cronupdate_length] at hlen3
              rw [strlcat_short _ CRONUPDATE (by rw [cronupdate_length]; omega)] at h
              split at h
              · cases h
                exact ⟨rfl, rfl, rfl, rfl, Or.inl rfl,
                  Or.inr ⟨hs, hl, fun q hq => reload_loop_frame env _ _ _ q hq⟩⟩
              · split at h
                · cases h
                · rename_i ts2 hadd
                  cases h
                  exact ⟨rfl, rfl, rfl, rfl, Or.inr ⟨_, by simp, hadd⟩,
                    Or.inr ⟨hs, hl, fun q hq => reload_loop_frame env _ _ _ q hq⟩⟩
              · split at h
                · cases h
                · rename_i ts2 hadd
                  cases h
                  exact ⟨rfl, rfl, rfl, rfl, Or.inr ⟨_, by simp, hadd⟩,
                    Or.inr ⟨hs, hl, fun q hq => reload_loop_frame env _ _ _ q hq⟩⟩

/-- The outcomes of a returning pass through the code at `do_cmd`. -/
theorem do_cmd_cases (BUFSIZE : Int) (env : sysenv) (m m1 : machine) (ln : List Nat)
    (t : target) (h : do_cmd BUFSIZE env m ln = Except.ok (m1, t)) :
    m1.ws = m.ws ∧ t ≠ target.kill_session ∧
    ((∃ ts1 w1 r, start_crontab BUFSIZE env m.ts m.w ln = Except.ok (ts1, w1, r) ∧
        m1.w = w1 ∧ ((r = -1 ∧ m1.ts = ts1) ∨
          (r ≠ -1 ∧ m1.ts = { ts1 with state := state.DO_CRONTAB }))) ∨
     (m1.ts = m.ts ∧ m1.w = m.w) ∨
     (∃ ts1, add_2sock BUFSIZE m.ts RESULT_OK = Except.ok ts1 ∧
        m1.ts = { ts1 with state := state.EOM_SEEN } ∧ m1.w = m.w) ∨
     (∃ ts1, add_2sock BUFSIZE m.ts BAD_COMMAND = Except.ok ts1 ∧ m1.ts = ts1 ∧
        m1.w = m.w)) := by
  unfold do_cmd at h
  split at h
  · split at h
    · cases h
    · rename_i ts1 w1 r hsc
      split at h
      · rename_i hr
        cases h
        exact ⟨rfl, by decide, Or.inl ⟨ts1, w1, r, hsc, rfl, Or.inl ⟨hr, rfl⟩⟩⟩
      · rename_i hr
        cases h
        exact ⟨rfl, by decide, Or.inl ⟨ts1, w1, r, hsc, rfl, Or.inr ⟨hr, rfl⟩⟩⟩
  · split at h
    · cases h
      exact ⟨rfl, by decide, Or.inr (Or.inl ⟨rfl, rfl⟩)⟩
    · split at h
      · split at h
        · cases h
        · rename_i ts1 hadd
          cases h
          exact ⟨rfl, by decide, Or.inr (Or.inr (Or.inl ⟨ts1, hadd, rfl, rfl⟩))⟩
      · split at h
        · cases h
        · rename_i ts1 hadd
          cases h
          exact ⟨rfl, by decide, Or.inr (Or.inr (Or.inr ⟨ts1, hadd, rfl, rfl⟩))⟩

/-- The outcomes of a returning pass through the switch, branch by branch. Here `ts0`
and `ws0` are the session and the window size when `getline_2pty` is called: after
`remove_iacs` in GET_LOGINNAME, as they were in the other phases. -/
theorem dispatch_cases (BUFSIZE : Int) (env : sysenv) (self : Nat) (m m1 : machine)
    (t : target) (h : dispatch BUFSIZE env self m = Except.ok (m1, t)) :
    (m.ts.state = state.DO_TRADITIONAL ∧ m1 = m ∧ t = target.skip3a) ∨
    (admin_state m.ts.state ∧ m.w.atlas_ts ≠ some self ∧ m1 = m ∧
      t = target.kill_session) ∨
    ∃ ts0 ws0 ts1 l,
      (same_side2 ts0 m.ts ∧ m.ts.state ≠ state.DO_TRADITIONAL ∧
        (m.ts.state = state.GET_LOGINNAME →
          ts0 = (remove_iacs BUFSIZE m.ts m.ws).ts ∧ ws0 = (remove_iacs BUFSIZE m.ts m.ws).ws) ∧
        (m.ts.state ≠ state.GET_LOGINNAME → ts0 = m.ts ∧ ws0 = m.ws) ∧
        (admin_state m.ts.state → m.w.atlas_ts = some self)) ∧
      getline_2pty BUFSIZE ts0 = Except.ok (ts1, l) ∧
      ((l = none ∧ m1 = { m with ts := ts1, ws := ws0 } ∧ t = target.skip3a) ∨
       ∃ ln, l = some ln ∧
        ((m.ts.state = state.GET_LOGINNAME ∧ ln = ATLAS_LOGIN ∧
            ∃ ts2, add_2sock BUFSIZE ts1 PASSWORD_PROMPT = Except.ok ts2 ∧
              m1 = { ts := { ts2 with state := state.GET_PASSWORD }, w := m.w, ws := ws0 } ∧
              t = target.skip3) ∨
         (m.ts.state = state.GET_LOGINNAME ∧ ln ≠ ATLAS_LOGIN ∧
            ∃ ts2 ts3 w3 rc, add_2sock BUFSIZE ts1 ln = Except.ok ts2 ∧
              start_login env ts2 m.w ln = Except.ok (ts3, w3, rc) ∧ rc ≠ -1 ∧
              m1 = { ts := { ts3 with state := state.DO_TRADITIONAL }, w := w3,
                     ws := new_pty_ws } ∧
              t = target.skip3a) ∨
         (m.ts.state = state.GET_PASSWORD ∧
            (equal_sessionid env ln = true ∨ ln = ATLAS_PASSWORD) ∧
            m1 = { m with ts := { ts1 with state := state.GET_CMD },
                          w := take_over m.w self } ∧
            t = target.skip3) ∨
         (m.ts.state = state.GET_PASSWORD ∧
            ¬ (equal_sessionid env ln = true ∨ ln = ATLAS_PASSWORD) ∧
            ∃ ts2, add_2sock BUFSIZE ts1 BAD_PASSWORD = Except.ok ts2 ∧
              m1 = { m with ts := ts2 } ∧ t = target.skip3) ∨
         (m.ts.state = state.GET_CMD ∧
            do_cmd BUFSIZE env { m with ts := ts1 } ln = Except.ok (m1, t)) ∨
         (m.ts.state = state.DO_CRONTAB ∧
            ¬ strncmp_eq ln CMD_CRONLINE CMD_CRONLINE.length = true ∧
            ∃ ts2 w2, end_crontab BUFSIZE env ts1 m.w = Except.ok (ts2, w2) ∧
              do_cmd BUFSIZE env
                { m with ts := { ts2 with state := state.GET_CMD }, w := w2 } ln
                = Except.ok (m1, t)) ∨
         (m.ts.state = state.DO_CRONTAB ∧
            strncmp_eq ln CMD_CRONLINE CMD_CRONLINE.length = true ∧
            ∃ ts2 w2, add_to_crontab BUFSIZE env ts1 m.w (ln.drop CMD_CRONLINE.length)
                = Except.ok (ts2, w2) ∧
              m1 = { m with ts := ts2, w := w2 } ∧ t = target.skip3) ∨
         (m.ts.state = state.EOM_SEEN ∧
            ∃ ts2, add_2sock BUFSIZE ts1 BAD_COMMAND = Except.ok ts2 ∧
              m1 = { m with ts := ts2 } ∧ t = target.skip3))) := by
  unfold dispatch at h
  split at h
  · rename_i hst
    cases h
    exact Or.inl ⟨hst, rfl, rfl⟩
  · rename_i hst
    have hpre : same_side2 (remove_iacs BUFSIZE m.ts m.ws).ts m.ts ∧
        m.ts.state ≠ state.DO_TRADITIONAL ∧
        (m.ts.state = state.GET_LOGINNAME →
          (remove_iacs BUFSIZE m.ts m.ws).ts = (remove_iacs BUFSIZE m.ts m.ws).ts ∧
          (remove_iacs BUFSIZE m.ts m.ws).ws = (remove_iacs BUFSIZE m.ts m.ws).ws) ∧
        (m.ts.state ≠ state.GET_LOGINNAME →
          (remove_iacs BUFSIZE m.ts m.ws).ts = m.ts ∧
          (remove_iacs BUFSIZE m.ts m.ws).ws = m.ws) ∧
        (admin_state m.ts.state → m.w.atlas_ts = some self) := by
      refine ⟨remove_iacs_side2 BUFSIZE m.ts m.ws, by rw [hst]; decide, fun _ => ⟨rfl, rfl⟩,
        fun hn => absurd hst hn, fun ha => ?_⟩
      rw [hst] at ha
      exact absurd ha (by decide)
    simp only at h
    split at h
    · cases h
    · rename_i ts1 hgl
      cases h
      exact Or.inr (Or.inr ⟨_, _, ts1, none, hpre, hgl, Or.inl ⟨rfl, rfl, rfl⟩⟩)
    · rename_i ts1 ln hgl
      split at h
      · rename_i hln
        split at h
        · cases h
        · rename_i ts2 hadd
          cases h
          exact Or.inr (Or.inr ⟨_, _, ts1, some ln, hpre, hgl,
            Or.inr ⟨ln, rfl, Or.inl ⟨hst, hln, ts2, hadd, rfl, rfl⟩⟩⟩)
      · rename_i hln
        split at h
        · cases h
        · rename_i ts2 hadd
          split at h
          · cases h
          · rename_i ts3 w3 rc hsl
            split at h
            · cases h
            · rename_i hrc
              cases h
              exact Or.inr (Or.inr ⟨_, _, ts1, some ln, hpre, hgl,
                Or.inr ⟨ln, rfl, Or.inr (Or.inl ⟨hst, hln, ts2, ts3, w3, rc, hadd, hsl, hrc,
                  rfl, rfl⟩)⟩⟩)
  · rename_i hst
    have hpre : same_side2 m.ts m.ts ∧ m.ts.state ≠ state.DO_TRADITIONAL ∧
        (m.ts.state = state.GET_LOGINNAME →
          m.ts = (remove_iacs BUFSIZE m.ts m.ws).ts ∧
          m.ws = (remove_iacs BUFSIZE m.ts m.ws).ws) ∧
        (m.ts.state ≠ state.GET_LOGINNAME → m.ts = m.ts ∧ m.ws = m.ws) ∧
        (admin_state m.ts.state → m.w.atlas_ts = some self) := by
      refine ⟨same_side2_refl _, by rw [hst]; decide, fun hn => ?_, fun _ => ⟨rfl, rfl⟩,
        fun ha => ?_⟩
      · rw [hst] at hn
        cases hn
      · rw [hst] at ha
        exact absurd ha (by decide)
    split at h
    · cases h
    · rename_i ts1 hgl
      cases h
      exact Or.inr (Or.inr ⟨_, _, ts1, none, hpre, hgl, Or.inl ⟨rfl, rfl, rfl⟩⟩)
    · rename_i ts1 ln hgl
      split at h
      · rename_i hpw
        cases h
        exact Or.inr (Or.inr ⟨_, _, ts1, some ln, hpre, hgl,
          Or.inr ⟨ln, rfl, Or.inr (Or.inr (Or.inl ⟨hst, hpw, rfl, rfl⟩))⟩⟩)
      · rename_i hpw
        split at h
        · cases h
        · rename_i ts2 hadd
          cases h
          exact Or.inr (Or.inr ⟨_, _, ts1, some ln, hpre, hgl,
            Or.inr ⟨ln, rfl, Or.inr (Or.inr (Or.inr (Or.inl ⟨hst, hpw, ts2, hadd, rfl,
              rfl⟩)))⟩⟩)
  · rename_i hst
    split at h
    · rename_i hh
      cases h
      exact Or.inr (Or.inl ⟨by rw [hst]; decide, hh, rfl, rfl⟩)
    · rename_i hh
      have hpre : same_side2 m.ts m.ts ∧ m.ts.state ≠ state.DO_TRADITIONAL ∧
          (m.ts.state = state.GET_LOGINNAME →
            m.ts = (remove_iacs BUFSIZE m.ts m.ws).ts ∧
            m.ws = (remove_iacs BUFSIZE m.ts m.ws).ws) ∧
          (m.ts.state ≠ state.GET_LOGINNAME → m.ts = m.ts ∧ m.ws = m.ws) ∧
          (admin_state m.ts.state → m.w.atlas_ts = some self) := by
        refine ⟨same_side2_refl _, by rw [hst]; decide, fun hn => ?_, fun _ => ⟨rfl, rfl⟩,
          fun _ => not_not.mp hh⟩
        rw [hst] at hn
        cases hn
      split at h
      · cases h
      · rename_i ts1 hgl
        cases h
        exact Or.inr (Or.inr ⟨_, _, ts1, none, hpre, hgl, Or.inl ⟨rfl, rfl, rfl⟩⟩)
      · rename_i ts1 ln hgl
        exact Or.inr (Or.inr ⟨_, _, ts1, some ln, hpre, hgl,
          Or.inr ⟨ln, rfl, Or.inr (Or.inr (Or.inr (Or.inr (Or.inl ⟨hst, h⟩))))⟩⟩)
  · rename_i hst
    split at h
    · rename_i hh
      cases h
      exact Or.inr (Or.inl ⟨by rw [hst]; decide, hh, rfl, rfl⟩)
    · rename_i hh
      have hpre : same_side2 m.ts m.ts ∧ m.ts.state ≠ state.DO_TRADITIONAL ∧
          (m.ts.state = state.GET_LOGINNAME →
            m.ts = (remove_iacs BUFSIZE m.ts m.ws).ts ∧
            m.ws = (remove_iacs BUFSIZE m.ts m.ws).ws) ∧
          (m.ts.state ≠ state.GET_LOGINNAME → m.ts = m.ts ∧ m.ws = m.ws) ∧
          (admin_state m.ts.state → m.w.atlas_ts = some self) := by
        refine ⟨same_side2_refl _, by rw [hst]; decide, fun hn => ?_, fun _ => ⟨rfl, rfl⟩,
          fun _ => not_not.mp hh⟩
        rw [hst] at hn
        cases hn
      split at h
      · cases h
      · rename_i ts1 hgl
        cases h
        exact Or.inr (Or.inr ⟨_, _, ts1, none, hpre, hgl, Or.inl ⟨rfl, rfl, rfl⟩⟩)
      · rename_i ts1 ln hgl
        split at h
        · rename_i hcl
          split at h
          · cases h
          · rename_i ts2 w2 hec
            exact Or.inr (Or.inr ⟨_, _, ts1, some ln, hpre, hgl,
              Or.inr ⟨ln, rfl, Or.inr (Or.inr (Or.inr (Or.inr (Or.inr (Or.inl
                ⟨hst, hcl, ts2, w2, hec, h⟩)))))⟩⟩)
        · rename_i hcl
          split at h
          · cases h
          · rename_i ts2 w2 hac
            cases h
            exact Or.inr (Or.inr ⟨_, _, ts1, some ln, hpre, hgl,
              Or.inr ⟨ln, rfl, Or.inr (Or.inr (Or.inr (Or.inr (Or.inr (Or.inr (Or.inl
                ⟨hst, not_not.mp hcl, ts2, w2, hac, rfl, rfl⟩))))))⟩⟩)
  · rename_i hst
    split at h
    · rename_i hh
      cases h
      exact Or.inr (Or.inl ⟨by rw [hst]; decide, hh, rfl, rfl⟩)
    · rename_i hh
      have hpre : same_side2 m.ts m.ts ∧ m.ts.state ≠ state.DO_TRADITIONAL ∧
          (m.ts.state = state.GET_LOGINNAME →
            m.ts = (remove_iacs BUFSIZE m.ts m.ws).ts ∧
            m.ws = (remove_iacs BUFSIZE m.ts m.ws).ws) ∧
          (m.ts.state ≠ state.GET_LOGINNAME → m.ts = m.ts ∧ m.ws = m.ws) ∧
          (admin_state m.ts.state → m.w.atlas_ts = some self) := by
        refine ⟨same_side2_refl _, by rw [hst]; decide, fun hn => ?_, fun _ => ⟨rfl, rfl⟩,
          fun _ => not_not.mp hh⟩
        rw [hst] at hn
        cases hn
      split at h
      · cases h
      · rename_i ts1 hgl
        cases h
        exact Or.inr (Or.inr ⟨_, _, ts1, none, hpre, hgl, Or.inl ⟨rfl, rfl, rfl⟩⟩)
      · rename_i ts1 ln hgl
        split at h
        · cases h
        · rename_i ts2 hadd
          cases h
          exact Or.inr (Or.inr ⟨_, _, ts1, some ln, hpre, hgl,
            Or.inr ⟨ln, rfl, Or.inr (Or.inr (Or.inr (Or.inr (Or.inr (Or.inr (Or.inr
              ⟨hst, ts2, hadd, rfl, rfl⟩))))))⟩⟩)

theorem fixed_responses_length (s : List Nat) (h : s ∈ fixed_responses) : s.length ≤ 32 := by
  simp only [fixed_responses, List.mem_cons, List.mem_singleton, List.not_mem_nil,
    or_false] at h
  rcases h with h | h | h | h | h | h | h | h <;> (rw [h]; decide)

/-- What a returning pass through `do_cmd` appends to buffer B. -/
theorem do_cmd_sends (BUFSIZE : Int) (env : sysenv) (m m1 : machine) (ln : List Nat)
    (t : target) (h : do_cmd BUFSIZE env m ln = Except.ok (m1, t)) :
    ∃ strs, sent BUFSIZE m.ts m1.ts strs ∧ ∀ s ∈ strs, s ∈ fixed_responses := by
  obtain ⟨_, _, hc⟩ := do_cmd_cases BUFSIZE env m m1 ln t h
  rcases hc with ⟨ts1, w1, r, hsc, _, hr⟩ | ⟨e, _⟩ | ⟨ts1, hadd, e, _⟩ | ⟨ts1, hadd, e, _⟩
  · obtain ⟨_, _, hs⟩ := start_crontab_cases BUFSIZE env m.ts ts1 m.w w1 ln r hsc
    have hts : m1.ts.buf2 = ts1.buf2 ∧ m1.ts.rdidx2 = ts1.rdidx2 ∧
        m1.ts.wridx2 = ts1.wridx2 ∧ m1.ts.size2 = ts1.size2 := by
      rcases hr with ⟨_, e⟩ | ⟨_, e⟩ <;> (rw [e]; exact ⟨rfl, rfl, rfl, rfl⟩)
    rcases hs with ⟨_, ⟨s, hs1, hadd⟩, _⟩ | ⟨_, e, _⟩
    · refine ⟨[s], sent_fields BUFSIZE _ _ _ _ _ ⟨rfl, rfl, rfl, rfl⟩ hts
        (sent_add BUFSIZE _ _ _ hadd), fun x hx => ?_⟩
      rw [List.mem_singleton.mp hx]
      simp only [List.mem_cons, List.mem_singleton, List.not_mem_nil, or_false] at hs1
      rcases hs1 with e | e | e <;> (rw [e]; simp [fixed_responses])
    · refine ⟨[], sent_fields BUFSIZE _ _ _ _ _ ⟨rfl, rfl, rfl, rfl⟩ hts ?_, by simp⟩
      rw [e]
      exact sent_refl BUFSIZE _
  · refine ⟨[], ?_, by simp⟩
    rw [e]
    exact sent_refl BUFSIZE _
  · refine ⟨[RESULT_OK], ?_, by simp [fixed_responses]⟩
    rw [e]
    exact sent_fields BUFSIZE m.ts m.ts ts1 _ _ ⟨rfl, rfl, rfl, rfl⟩ ⟨rfl, rfl, rfl, rfl⟩
      (sent_add BUFSIZE _ _ _ hadd)
  · refine ⟨[BAD_COMMAND], ?_, by simp [fixed_responses]⟩
    rw [e]
    exact sent_add BUFSIZE _ _ _ hadd

/-- The outcomes of a returning `start_login`: the identity is recorded, the session
gets the pty, and on success the child's pid. -/
theorem start_login_cases (env : sysenv) (ts ts1 : tsession) (w w1 : world)
    (user : List Nat) (rc : Int)
    (h : start_login env ts w user = Except.ok (ts1, w1, rc)) :
    w1 = { w with login_requests := w.login_requests ++ [user] } ∧
    ((rc = -1 ∧ ∃ fd, ts1 = { ts with ptyfd := fd }) ∨
     (rc = 0 ∧ ∃ fd pid, env.spawn user = spawn_result.parent fd pid ∧
        ts1 = { ts with ptyfd := fd, shell_pid := pid })) := by
  unfold start_login at h
  simp only at h
  split at h
  · cases h
  · cases h
    exact ⟨rfl, Or.inl ⟨rfl, _, rfl⟩⟩
  · rename_i fd pid hsp
    cases h
    exact ⟨rfl, Or.inr ⟨rfl, fd, pid, hsp, rfl⟩⟩

theorem extracted_line_of_getline (BUFSIZE : Int) (ts ts1 : tsession) (ln : List Nat)
    (h : getline_2pty BUFSIZE ts = Except.ok (ts1, some ln)) :
    extracted_line BUFSIZE ts = some ln := by
  unfold extracted_line
  rw [h]

/-- What a returning pass through the switch appends to buffer B: fixed responses, or
in GET_LOGINNAME the line just taken, when it is not the login token. -/
theorem dispatch_sends (BUFSIZE : Int) (env : sysenv) (self : Nat) (m m1 : machine)
    (t : target) (h : dispatch BUFSIZE env self m = Except.ok (m1, t)) :
    ∃ strs, sent BUFSIZE m.ts m1.ts strs ∧
      ∀ s ∈ strs, s ∈ fixed_responses ∨
        (m.ts.state = state.GET_LOGINNAME ∧ s ≠ ATLAS_LOGIN ∧
          extracted_line BUFSIZE (remove_iacs BUFSIZE m.ts m.ws).ts = some s) := by
  rcases dispatch_cases BUFSIZE env self m m1 t h with
    ⟨_, e, _⟩ | ⟨_, _, e, _⟩ | ⟨ts0, ws0, ts1, l, ⟨hs0, _, hlog, _, _⟩, hgl, hc⟩
  · rw [e]
    exact ⟨[], sent_refl BUFSIZE _, by simp⟩
  · rw [e]
    exact ⟨[], sent_refl BUFSIZE _, by simp⟩
  · have hs1 := same_side2_fields _ _
      (same_side2_trans (getline_2pty_side2 BUFSIZE ts0 ts1 l hgl) hs0)
    have hs1r : m.ts.buf2 = ts1.buf2 ∧ m.ts.rdidx2 = ts1.rdidx2 ∧
        m.ts.wridx2 = ts1.wridx2 ∧ m.ts.size2 = ts1.size2 :=
      ⟨hs1.1.symm, hs1.2.1.symm, hs1.2.2.1.symm, hs1.2.2.2.symm⟩
    rcases hc with ⟨_, e, _⟩ | ⟨ln, hl, hc⟩
    · rw [e]
      exact ⟨[], sent_fields BUFSIZE m.ts m.ts m.ts _ _ ⟨rfl, rfl, rfl, rfl⟩ hs1
        (sent_refl BUFSIZE _), by simp⟩
    · subst hl
      rcases hc with ⟨_, _, ts2, hadd, e, _⟩ | ⟨hst, hne, ts2, ts3, w3, rc, hadd, hsl, _, e, _⟩ |
        ⟨_, _, e, _⟩ | ⟨_, _, ts2, hadd, e, _⟩ | ⟨_, hdc⟩ | ⟨_, _, ts2, w2, hec, hdc⟩ |
        ⟨_, _, ts2, w2, hac, e, _⟩ | ⟨_, ts2, hadd, e, _⟩
      · rw [e]
        exact ⟨[PASSWORD_PROMPT], sent_fields BUFSIZE ts1 m.ts ts2 _ _ hs1r
          ⟨rfl, rfl, rfl, rfl⟩ (sent_add BUFSIZE _ _ _ hadd),
          fun s hs => Or.inl (by rw [List.mem_singleton.mp hs]; simp [fixed_responses])⟩
      · rw [e]
        obtain ⟨_, hl3⟩ := start_login_cases env ts2 ts3 m.w w3 ln rc hsl
        have h3 : ts3.buf2 = ts2.buf2 ∧ ts3.rdidx2 = ts2.rdidx2 ∧
            ts3.wridx2 = ts2.wridx2 ∧ ts3.size2 = ts2.size2 := by
          rcases hl3 with ⟨_, fd, e3⟩ | ⟨_, fd, pid, _, e3⟩ <;>
            (rw [e3]; exact ⟨rfl, rfl, rfl, rfl⟩)
        refine ⟨[ln], sent_fields BUFSIZE ts1 m.ts ts2 _ _ hs1r h3
          (sent_add BUFSIZE _ _ _ hadd), fun s hs => Or.inr ?_⟩
        rw [List.mem_singleton.mp hs]
        refine ⟨hst, hne, ?_⟩
        rw [← (hlog hst).1]
        exact extracted_line_of_getline BUFSIZE ts0 ts1 ln hgl
      · rw [e]
        exact ⟨[], sent_fields BUFSIZE m.ts m.ts m.ts _ _ ⟨rfl, rfl, rfl, rfl⟩ hs1
          (sent_refl BUFSIZE _), by simp⟩
      · rw [e]
        exact ⟨[BAD_PASSWORD], sent_fields BUFSIZE ts1 m.ts ts2 _ _ hs1r
          ⟨rfl, rfl, rfl, rfl⟩ (sent_add BUFSIZE _ _ _ hadd),
          fun s hs => Or.inl (by rw [List.mem_singleton.mp hs]; simp [fixed_responses])⟩
      · obtain ⟨strs, h1, h2⟩ := do_cmd_sends BUFSIZE env _ m1 ln t hdc
        exact ⟨strs, sent_fields BUFSIZE ts1 m.ts m1.ts _ _ hs1r ⟨rfl, rfl, rfl, rfl⟩ h1,
          fun s hs => Or.inl (h2 s hs)⟩
      · obtain ⟨strs, h1, h2⟩ := do_cmd_sends BUFSIZE env _ m1 ln t hdc
        obtain ⟨_, _, _, _, hts, _⟩ := end_crontab_cases BUFSIZE env ts1 ts2 m.w w2 hec
        rcases hts with e2 | ⟨s0, hs0m, hadd⟩
        · rw [e2] at h1
          exact ⟨strs, sent_fields BUFSIZE _ m.ts m1.ts _ _ hs1r ⟨rfl, rfl, rfl, rfl⟩ h1,
            fun s hs => Or.inl (h2 s hs)⟩
        · refine ⟨[s0] ++ strs, sent_trans BUFSIZE m.ts ts2 m1.ts _ _
            (sent_fields BUFSIZE ts1 m.ts ts2 _ _ hs1r ⟨rfl, rfl, rfl, rfl⟩
              (sent_add BUFSIZE _ _ _ hadd))
            (sent_fields BUFSIZE _ ts2 m1.ts _ _ ⟨rfl, rfl, rfl, rfl⟩ ⟨rfl, rfl, rfl, rfl⟩ h1),
            fun s hs => Or.inl ?_⟩
          rcases List.mem_append.mp hs with hs | hs
          · rw [List.mem_singleton.mp hs]
            simp only [List.mem_cons, List.mem_singleton, List.not_mem_nil, or_false] at hs0m
            rcases hs0m with e | e | e <;> (rw [e]; simp [fixed_responses])
          · exact h2 s hs
      · rw [e]
        obtain ⟨_, _, _, hc⟩ := add_to_crontab_cases BUFSIZE env ts1 ts2 m.w w2 _ hac
        rcases hc with ⟨_, e2, _⟩ | ⟨f, _, e2, _⟩ | ⟨f, _, hadd, _⟩
        · rw [e2]
          exact ⟨[], sent_fields BUFSIZE m.ts m.ts m.ts _ _ ⟨rfl, rfl, rfl, rfl⟩ hs1
            (sent_refl BUFSIZE _), by simp⟩
        · rw [e2]
          exact ⟨[], sent_fields BUFSIZE m.ts m.ts m.ts _ _ ⟨rfl, rfl, rfl, rfl⟩ hs1
            (sent_refl BUFSIZE _), by simp⟩
        · exact ⟨[IO_ERROR], sent_fields BUFSIZE ts1 m.ts ts2 _ _ hs1r
            ⟨rfl, rfl, rfl, rfl⟩ (sent_add BUFSIZE _ _ _ hadd),
            fun s hs => Or.inl (by rw [List.mem_singleton.mp hs]; simp [fixed_responses])⟩
      · rw [e]
        exact ⟨[BAD_COMMAND], sent_fields BUFSIZE ts1 m.ts ts2 _ _ hs1r
          ⟨rfl, rfl, rfl, rfl⟩ (sent_add BUFSIZE _ _ _ hadd),
          fun s hs => Or.inl (by rw [List.mem_singleton.mp hs]; simp [fixed_responses])⟩

/-- C15, as the code has it: what a returning pass through the switch appends to a
well-formed buffer B is a sequence of strings, each one of the eight fixed responses
(so at most 32 bytes long), except in GET_LOGINNAME, where a line that is not the login
token is itself passed to `add_2sock` (the echo of the login name): its length is the
length of the line the client sent. -/
theorem responses_fixed_or_echo (BUFSIZE : Int) (env : sysenv) (self : Nat)
    (m m1 : machine) (t : target) (hring : ring2_ok BUFSIZE m.ts)
    (h : dispatch BUFSIZE env self m = Except.ok (m1, t)) :
    ∃ strs : List (List Nat),
      content2 BUFSIZE m1.ts = content2 BUFSIZE m.ts ++ strs.flatten ∧
      ∀ s ∈ strs, (s ∈ fixed_responses ∧ s.length ≤ 32) ∨
        (m.ts.state = state.GET_LOGINNAME ∧ s ≠ ATLAS_LOGIN ∧
          extracted_line BUFSIZE (remove_iacs BUFSIZE m.ts m.ws).ts = some s) := by
  obtain ⟨strs, h1, h2⟩ := dispatch_sends BUFSIZE env self m m1 t h
  refine ⟨strs, (h1.1 hring).1, fun s hs => ?_⟩
  rcases h2 s hs with h3 | h3
  · exact Or.inl ⟨h3, fixed_responses_length s h3⟩
  · exact Or.inr h3

/-- C15 on an example: a wrong password gets `BAD_PASSWORD`, one of the fixed
responses. -/
theorem responses_fixed_or_echo_witness :
    ring2_ok 2020 (session_with state.GET_PASSWORD (bytes "guess\r") 6 0 6) ∧
    ∃ m1 t, dispatch 2020 env_ok 1
        { ts := session_with state.GET_PASSWORD (bytes "guess\r") 6 0 6, w := world_idle,
          ws := ⟨24, 80⟩ } = Except.ok (m1, t) ∧
      content2 2020 m1.ts = BAD_PASSWORD ∧
      ∃ strs : List (List Nat),
        content2 2020 m1.ts
          = content2 2020 (session_with state.GET_PASSWORD (bytes "guess\r") 6 0 6)
            ++ strs.flatten ∧
        ∀ s ∈ strs, (s ∈ fixed_responses ∧ s.length ≤ 32) ∨
          (state.GET_PASSWORD = state.GET_LOGINNAME ∧ s ≠ ATLAS_LOGIN ∧
            extracted_line 2020 (remove_iacs 2020
              (session_with state.GET_PASSWORD (bytes "guess\r") 6 0 6) ⟨24, 80⟩).ts
              = some s) :=
  ⟨by decide, _, _, rfl, by decide,
   responses_fixed_or_echo 2020 env_ok 1
     { ts := session_with state.GET_PASSWORD (bytes "guess\r") 6 0 6, w := world_idle,
       ws := ⟨24, 80⟩ } _ _ (by decide) rfl⟩

/-- C15 as stated fails: in GET_LOGINNAME a line other than the login token is passed
to `add_2sock` as it came from the client. The login name `bob` puts `bob` into buffer
B, which is none of the fixed responses; a name of 40 letters puts 40 bytes there, more
than the longest fixed response has. -/
theorem login_echo_not_fixed :
    (∃ m1, dispatch 2020 env_ok 1
        { ts := session_with state.GET_LOGINNAME (bytes "bob\r") 4 0 4, w := world_idle,
          ws := ⟨24, 80⟩ } = Except.ok (m1, target.skip3a) ∧
      content2 2020 m1.ts = bytes "bob" ∧ bytes "bob" ∉ fixed_responses) ∧
    (∃ m1, dispatch 2020 env_ok 1
        { ts := session_with state.GET_LOGINNAME (List.replicate 40 97 ++ [CR]) 41 0 41,
          w := world_idle, ws := ⟨24, 80⟩ } = Except.ok (m1, target.skip3a) ∧
      content2 2020 m1.ts = List.replicate 40 97 ∧
      ∀ s ∈ fixed_responses, s.length < 40) :=
  ⟨⟨_, rfl, by decide, by decide⟩, ⟨_, rfl, by decide, by decide⟩⟩

end Telnetd

/-! ## The cursors of an empty buffer -/

namespace Telnetd

/-- The steps a returning `session_pass` went through, up to the one that ended it. -/
theorem session_pass_cases (BUFSIZE : Int) (env : sysenv) (self : Nat) (io : session_io)
    (m m1 : machine) (j : jump)
    (h : session_pass BUFSIZE env self io m = Except.ok (m1, j)) :
    ∃ ma ja,
      (ma, ja) = (if io.wrfdset m.ts.ptyfd then
          ({ m with ts := (drain_pty BUFSIZE m.ts m.ws io.pty_write).1,
                    ws := (drain_pty BUFSIZE m.ts m.ws io.pty_write).2.1 },
           (drain_pty BUFSIZE m.ts m.ws io.pty_write).2.2)
        else (m, jump.next)) ∧
      ((ja = jump.kill_session ∧ m1 = ma ∧ j = jump.kill_session) ∨
       (ja = jump.next ∧ ∃ tsb jb,
          (tsb, jb) = (if io.wrfdset ma.ts.sockfd_write then
              drain_sock BUFSIZE ma.ts io.sock_write else (ma.ts, jump.next)) ∧
          ((jb = jump.kill_session ∧ m1 = { ma with ts := tsb } ∧ j = jump.kill_session) ∨
           (jb = jump.next ∧ ∃ tsd jd,
              (if io.rdfdset (reset_cursors tsb).sockfd_read then
                  read_sock BUFSIZE (reset_cursors tsb) io.sock_read
                else Except.ok (reset_cursors tsb, jump.next)) = Except.ok (tsd, jd) ∧
              ((jd = jump.kill_session ∧ m1 = { ma with ts := tsd } ∧
                  j = jump.kill_session) ∨
               (jd = jump.next ∧ ∃ mp jp,
                  protocol_step BUFSIZE env self { ma with ts := tsd } = Except.ok (mp, jp) ∧
                  ((jp = jump.kill_session ∧ m1 = mp ∧ j = jump.kill_session) ∨
                   (jp = jump.next ∧
                    (m1, j) = (if io.rdfdset mp.ts.ptyfd then
                        ({ mp with ts := (read_pty BUFSIZE mp.ts io.pty_read).1 },
                         (read_pty BUFSIZE mp.ts io.pty_read).2)
                      else (mp, jump.next)))))))))) := by
  unfold session_pass at h
  simp only at h
  split at h
  · rename_i ma hA
    cases h
    exact ⟨_, _, hA.symm, Or.inl ⟨rfl, rfl, rfl⟩⟩
  · rename_i ma hA
    refine ⟨_, _, hA.symm, Or.inr ⟨rfl, ?_⟩⟩
    split at h
    · rename_i tsb hB
      cases h
      exact ⟨_, _, hB.symm, Or.inl ⟨rfl, rfl, rfl⟩⟩
    · rename_i tsb hB
      refine ⟨_, _, hB.symm, Or.inr ⟨rfl, ?_⟩⟩
      split at h
      · cases h
      · rename_i tsd hD
        cases h
        exact ⟨_, _, hD, Or.inl ⟨rfl, rfl, rfl⟩⟩
      · rename_i tsd hD
        refine ⟨_, _, hD, Or.inr ⟨rfl, ?_⟩⟩
        split at h
        · cases h
        · rename_i mp hP
          cases h
          exact ⟨_, _, hP, Or.inl ⟨rfl, rfl, rfl⟩⟩
        · rename_i mp hP
          refine ⟨_, _, hP, Or.inr ⟨rfl, ?_⟩⟩
          split at h
          · rename_i hf
            cases h
            simp only [hf, if_true]
          · rename_i hf
            cases h
            simp only [hf, if_false]
            rfl

/-- What the passes of the switch within one protocol step append to buffer B. -/
theorem protocol_switch_sends (BUFSIZE : Int) (env : sysenv) (self : Nat) :
    ∀ (fuel : Nat) (m m1 : machine) (j : jump),
    protocol_switch BUFSIZE env self fuel m = Except.ok (m1, j) →
    ∃ strs, sent BUFSIZE m.ts m1.ts strs := by
  intro fuel
  induction fuel with
  | zero =>
    intro m m1 j h
    cases h
  | succ fuel ih =>
    intro m m1 j h
    unfold protocol_switch at h
    split at h
    · cases h
    · rename_i m2 hd
      obtain ⟨s1, h1, _⟩ := dispatch_sends BUFSIZE env self m m2 _ hd
      obtain ⟨s2, h2⟩ := ih m2 m1 j h
      exact ⟨s1 ++ s2, sent_trans BUFSIZE _ _ _ _ _ h1 h2⟩
    · rename_i m2 hd
      cases h
      obtain ⟨s1, h1, _⟩ := dispatch_sends BUFSIZE env self m m1 _ hd
      exact ⟨s1, h1⟩
    · rename_i m2 hd
      cases h
      obtain ⟨s1, h1, _⟩ := dispatch_sends BUFSIZE env self m m1 _ hd
      exact ⟨s1, h1⟩

/-- In DO_TRADITIONAL the protocol step does nothing. -/
theorem protocol_step_traditional (BUFSIZE : Int) (env : sysenv) (self : Nat) (m : machine)
    (hst : m.ts.state = state.DO_TRADITIONAL) :
    protocol_step BUFSIZE env self m = Except.ok (m, jump.next) := by
  unfold protocol_step protocol_switch dispatch
  rw [hst]

theorem drain_pty_next (BUFSIZE : Int) (ts : tsession) (ws : winsize) (w : write_result)
    (hs : 0 ≤ ts.size1) (hw : 0 ≤ ts.wridx1 ∧ ts.wridx1 ≤ BUFSIZE)
    (hpw : ∀ c, w = write_result.wrote c → (c : Int) ≤ (remove_iacs BUFSIZE ts ws).num_totty)
    (hj : (drain_pty BUFSIZE ts ws w).2.2 = jump.next) :
    same_side2 (drain_pty BUFSIZE ts ws w).1 ts ∧ 0 ≤ (drain_pty BUFSIZE ts ws w).1.size1 := by
  obtain ⟨b1, _, _, _, b5, _⟩ := remove_iacs_bounds BUFSIZE ts ws hs hw
  have hside := remove_iacs_side2 BUFSIZE ts ws
  unfold drain_pty at hj ⊢
  cases w with
  | eagain => exact ⟨hside, by simp only; omega⟩
  | failed => cases hj
  | wrote c =>
    have hc := hpw c rfl
    simp only
    split
    · exact ⟨same_side2_trans ⟨rfl, rfl, rfl, rfl, rfl, rfl, rfl, rfl, rfl⟩ hside,
        by simp only; omega⟩
    · exact ⟨same_side2_trans ⟨rfl, rfl, rfl, rfl, rfl, rfl, rfl, rfl, rfl⟩ hside,
        by simp only; omega⟩

theorem drain_sock_next (BUFSIZE : Int) (ts : tsession) (w : write_result)
    (hs : 0 ≤ ts.size2)
    (hsw : ∀ c, w = write_result.wrote c → (c : Int) ≤ drain_sock_request BUFSIZE ts) :
    0 ≤ (drain_sock BUFSIZE ts w).1.size2 ∧
    (drain_sock BUFSIZE ts w).1.size1 = ts.size1 ∧
    (drain_sock BUFSIZE ts w).1.rdidx1 = ts.rdidx1 ∧
    (drain_sock BUFSIZE ts w).1.wridx1 = ts.wridx1 ∧
    (drain_sock BUFSIZE ts w).1.state = ts.state := by
  unfold drain_sock
  cases w with
  | eagain => exact ⟨hs, rfl, rfl, rfl, rfl⟩
  | failed => exact ⟨hs, rfl, rfl, rfl, rfl⟩
  | wrote c =>
    have hc := hsw c rfl
    have hmin : drain_sock_request BUFSIZE ts ≤ ts.size2 := min_le_right _ _
    simp only
    split
    · exact ⟨by simp only; omega, rfl, rfl, rfl, rfl⟩
    · exact ⟨by simp only; omega, rfl, rfl, rfl, rfl⟩

theorem reset_cursors_resets (ts : tsession) :
    cursors_reset1 (reset_cursors ts) ∧ cursors_reset2 (reset_cursors ts) ∧
    (reset_cursors ts).size1 = ts.size1 ∧ (reset_cursors ts).size2 = ts.size2 ∧
    (reset_cursors ts).state = ts.state := by
  unfold reset_cursors cursors_reset1 cursors_reset2
  simp only
  split <;> split <;> simp_all

theorem read_sock_resets (BUFSIZE : Int) (ts ts1 : tsession) (r : read_result) (j : jump)
    (hB : 0 < BUFSIZE) (hs : 0 ≤ ts.size1) (hq : cursors_reset1 ts)
    (h : read_sock BUFSIZE ts r = Except.ok (ts1, j)) :
    same_side2 ts1 ts ∧ 0 ≤ ts1.size1 ∧ (j = jump.next → cursors_reset1 ts1) := by
  unfold read_sock at h
  split at h
  · cases h
  · rename_i ts0 hp
    have h0 : same_side2 ts0 ts ∧ 0 ≤ ts0.size1 ∧ cursors_reset1 ts0 := by
      split at hp
      · rename_i hc
        have hside := pack_2pty_side2 BUFSIZE ts ts0 hp
        unfold pack_2pty at hp
        simp only at hp
        split at hp
        · cases hp
        · cases hp
          refine ⟨hside, hs, ?_⟩
          unfold cursors_reset1 at hq ⊢
          intro hz
          have := hq hz
          omega
      · cases hp
        exact ⟨same_side2_refl _, hs, hq⟩
    obtain ⟨hside, hs0, hq0⟩ := h0
    cases r with
    | eagain =>
      cases h
      exact ⟨hside, hs0, fun _ => hq0⟩
    | failed =>
      cases h
      exact ⟨hside, hs0, fun hj => by cases hj⟩
    | got data =>
      simp only at h
      split at h
      · cases h
        exact ⟨hside, hs0, fun hj => by cases hj⟩
      · rename_i hcount
        unfold cursors_reset1 at hq0 ⊢
        split at h <;> split at h <;> cases h <;>
          refine ⟨same_side2_trans ⟨rfl, rfl, rfl, rfl, rfl, rfl, rfl, rfl, rfl⟩ hside, ?_,
            fun _ => ?_⟩ <;> simp only <;> omega

theorem read_pty_resets (BUFSIZE : Int) (ts : tsession) (r : read_result)
    (hs : 0 ≤ ts.size2) (hq : cursors_reset2 ts)
    (hj : (read_pty BUFSIZE ts r).2 = jump.next) :
    cursors_reset2 (read_pty BUFSIZE ts r).1 ∧
    (read_pty BUFSIZE ts r).1.size1 = ts.size1 ∧
    (read_pty BUFSIZE ts r).1.rdidx1 = ts.rdidx1 ∧
    (read_pty BUFSIZE ts r).1.wridx1 = ts.wridx1 := by
  unfold read_pty at hj ⊢
  cases r with
  | eagain => exact ⟨hq, rfl, rfl, rfl⟩
  | failed => cases hj
  | got data =>
    simp only at hj ⊢
    split
    · rename_i hc
      simp only [hc, if_true] at hj
      cases hj
    · rename_i hc
      unfold cursors_reset2
      split <;> refine ⟨fun hz => ?_, rfl, rfl, rfl⟩ <;> simp only at hz <;> omega

/-- C18, as the code has it: the reset of the cursors is made once per iteration, between
the two writes and the two reads. For a session that starts the iteration with its
occupancies and cursors between 0 and `BUFSIZE` (a cursor may stand at `BUFSIZE`, where
`getline_2pty` can leave it), with each write returning at most the count it was asked
for, and whose pass runs to its end: buffer B, if its occupancy is 0, has both cursors 0; so has buffer A
if the session started the iteration in DO_TRADITIONAL. Right after the reset both
buffers have the property. (In the other phases `getline_2pty` can take the last bytes
of buffer A after the reset and leave both cursors where the line ended.) -/
theorem cursors_reset_at_end (BUFSIZE : Int) (env : sysenv) (self : Nat) (io : session_io)
    (m m1 : machine) (hB : 0 < BUFSIZE) (hb : ring_bounds_incl BUFSIZE m.ts)
    (hpw : ∀ c, io.pty_write = write_result.wrote c →
      (c : Int) ≤ (remove_iacs BUFSIZE m.ts m.ws).num_totty)
    (hsw : ∀ c, io.sock_write = write_result.wrote c →
      (c : Int) ≤ drain_sock_request BUFSIZE m.ts)
    (h : session_pass BUFSIZE env self io m = Except.ok (m1, jump.next)) :
    cursors_reset2 m1.ts ∧
    (m.ts.state = state.DO_TRADITIONAL → cursors_reset1 m1.ts) ∧
    ∀ ts, cursors_reset1 (reset_cursors ts) ∧ cursors_reset2 (reset_cursors ts) := by
  refine ⟨?_, ?_, fun ts => ⟨(reset_cursors_resets ts).1, (reset_cursors_resets ts).2.1⟩⟩
  all_goals
    obtain ⟨⟨hs1, _⟩, _, ⟨hw1, hw1b⟩, ⟨hs2, _⟩, _, _⟩ := hb
    obtain ⟨ma, ja, hA, hrest⟩ := session_pass_cases BUFSIZE env self io m m1 _ h
    rcases hrest with ⟨_, _, hk⟩ | ⟨hja, tsb, jb, hBs, hrest⟩
    · cases hk
    subst hja
    have hA1 : same_side2 ma.ts m.ts ∧ 0 ≤ ma.ts.size1 := by
      split at hA
      · have hj := congrArg Prod.snd hA
        have hm := congrArg Prod.fst hA
        simp only at hj hm
        rw [hm]
        exact drain_pty_next BUFSIZE m.ts m.ws io.pty_write hs1 ⟨hw1, hw1b⟩ hpw hj.symm
      · cases hA
        exact ⟨same_side2_refl _, hs1⟩
    obtain ⟨hsideA, hsA⟩ := hA1
    rcases hrest with ⟨_, _, hk⟩ | ⟨hjb, tsd, jd, hD, hrest⟩
    · cases hk
    subst hjb
    have hB1 : 0 ≤ tsb.size2 ∧ tsb.size1 = ma.ts.size1 ∧ tsb.state = ma.ts.state := by
      have hs2a : 0 ≤ ma.ts.size2 := by rw [hsideA.2.2.2.2.1]; exact hs2
      have hreq : drain_sock_request BUFSIZE ma.ts = drain_sock_request BUFSIZE m.ts := by
        unfold drain_sock_request
        rw [hsideA.2.2.2.1, hsideA.2.2.2.2.1]
      split at hBs
      · have hm := congrArg Prod.fst hBs
        simp only at hm
        rw [hm]
        obtain ⟨a1, a2, _, _, a5⟩ := drain_sock_next BUFSIZE ma.ts io.sock_write hs2a
          (fun c hc => by rw [hreq]; exact hsw c hc)
        exact ⟨a1, a2, a5⟩
      · cases hBs
        exact ⟨hs2a, rfl, rfl⟩
    obtain ⟨hsB2, hsB1, hstB⟩ := hB1
    obtain ⟨hq1, hq2, hz1, hz2, hzst⟩ := reset_cursors_resets tsb
    rcases hrest with ⟨_, _, hk⟩ | ⟨hjd, mp, jp, hP, hrest⟩
    · cases hk
    subst hjd
    have hD1 : same_side2 tsd (reset_cursors tsb) ∧ 0 ≤ tsd.size1 ∧ cursors_reset1 tsd := by
      split at hD
      · obtain ⟨a1, a2, a3⟩ := read_sock_resets BUFSIZE _ tsd io.sock_read _ hB
          (by rw [hz1, hsB1]; exact hsA) hq1 hD
        exact ⟨a1, a2, a3 rfl⟩
      · cases hD
        exact ⟨same_side2_refl _, by rw [hz1, hsB1]; exact hsA, hq1⟩
    obtain ⟨hsideD, hsD, hqD⟩ := hD1
    rcases hrest with ⟨_, _, hk⟩ | ⟨hjp, hF⟩
    · cases hk
    subst hjp
  · -- buffer B
    obtain ⟨strs, _, g1, g2, g3⟩ := protocol_switch_sends BUFSIZE env self _ _ mp _ hP
    simp only at g1 g2 g3
    have hqP : 0 ≤ mp.ts.size2 ∧ cursors_reset2 mp.ts := by
      unfold cursors_reset2 at hq2 ⊢
      rw [g1, g2, g3, hsideD.2.2.2.2.1, hsideD.2.2.1, hsideD.2.2.2.1]
      rw [hz2] at hq2 ⊢
      refine ⟨by omega, fun hz => ?_⟩
      have := hq2 (by omega)
      omega
    split at hF
    · have hm := congrArg Prod.fst hF
      have hj := congrArg Prod.snd hF
      simp only at hm hj
      rw [hm]
      exact (read_pty_resets BUFSIZE mp.ts io.pty_read hqP.1 hqP.2 hj.symm).1
    · cases hF
      exact hqP.2
  · -- buffer A in DO_TRADITIONAL
    intro hst
    have hstd : tsd.state = state.DO_TRADITIONAL := by
      rw [hsideD.1, hzst, hstB, hsideA.1, hst]
    rw [protocol_step_traditional BUFSIZE env self _ hstd] at hP
    cases hP
    split at hF
    · have hm := congrArg Prod.fst hF
      have hj := congrArg Prod.snd hF
      simp only at hm hj
      rw [hm]
      cases hr : io.pty_read with
      | eagain =>
        rw [hr] at hj
        exact hqD
      | failed =>
        rw [hr] at hj
        cases hj
      | got data =>
        unfold cursors_reset1 at hqD ⊢
        unfold read_pty
        simp only
        split
        · exact hqD
        · split <;> exact hqD
    · cases hF
      exact hqD

/-- C18 on examples. A session in DO_TRADITIONAL holds `ls`, CR from offset 5 of buffer A
and the pty takes the three bytes: at the end of the pass buffer A is empty and both its
cursors are 0. The holder in GET_CMD starts an iteration with buffer A empty and both
its cursors at `BUFSIZE`, where the last line ended, and nothing is ready: after the
pass buffer B, which is empty, has both cursors 0. -/
theorem cursors_reset_at_end_witness :
    (((0 : Int) < 2020 ∧
      ring_bounds_incl 2020
        { session_with state.DO_TRADITIONAL [] 8 5 3 with
          buf1 := fun j => if j = 5 then 108 else if j = 6 then 115 else 13 }) ∧
    ∃ m1, session_pass 2020 env_ok 1 (io_pty_took 3)
        { ts := { session_with state.DO_TRADITIONAL [] 8 5 3 with
                  buf1 := fun j => if j = 5 then 108 else if j = 6 then 115 else 13 },
          w := world_idle, ws := ⟨24, 80⟩ } = Except.ok (m1, jump.next) ∧
      m1.ts.size1 = 0 ∧ cursors_reset2 m1.ts ∧
      (state.DO_TRADITIONAL = state.DO_TRADITIONAL → cursors_reset1 m1.ts)) ∧
    (ring_bounds_incl 2020 (session_with state.GET_CMD [] 2020 2020 0) ∧
      ¬ ring_bounds 2020 (session_with state.GET_CMD [] 2020 2020 0) ∧
      ∃ m1, session_pass 2020 env_ok 1 io_idle
          { ts := session_with state.GET_CMD [] 2020 2020 0, w := world_held,
            ws := ⟨0, 0⟩ } = Except.ok (m1, jump.next) ∧
        m1.ts.size2 = 0 ∧ cursors_reset2 m1.ts) :=
  ⟨⟨⟨by decide, by decide⟩, _, rfl, by decide,
    (cursors_reset_at_end 2020 env_ok 1 (io_pty_took 3)
      { ts := { session_with state.DO_TRADITIONAL [] 8 5 3 with
                buf1 := fun j => if j = 5 then 108 else if j = 6 then 115 else 13 },
        w := world_idle, ws := ⟨24, 80⟩ } _ (by decide) (by decide)
      (fun c hc => by cases hc; decide) (fun c hc => by cases hc) rfl).1,
    (cursors_reset_at_end 2020 env_ok 1 (io_pty_took 3)
      { ts := { session_with state.DO_TRADITIONAL [] 8 5 3 with
                buf1 := fun j => if j = 5 then 108 else if j = 6 then 115 else 13 },
        w := world_idle, ws := ⟨24, 80⟩ } _ (by decide) (by decide)
      (fun c hc => by cases hc; decide) (fun c hc => by cases hc) rfl).2.1⟩,
   ⟨by decide, by decide, _, rfl, by decide,
    (cursors_reset_at_end 2020 env_ok 1 io_idle
      { ts := session_with state.GET_CMD [] 2020 2020 0, w := world_held, ws := ⟨0, 0⟩ }
      _ (by decide) (by decide) (fun c hc => by cases hc) (fun c hc => by cases hc) rfl).1⟩⟩

/-- C18 as stated fails: the holder in GET_CMD, both buffers empty and all cursors 0,
receives `hello`, CR. The pass stores the six bytes, takes the line and appends
`BAD_COMMAND`; at its end buffer A has occupancy 0 and both cursors at 6. -/
theorem cursors_left_by_getline :
    ring_bounds 2020 (session_with state.GET_CMD [] 0 0 0) ∧
    ∃ m1, session_pass 2020 env_ok 1 (io_received (bytes "hello\r"))
        { ts := session_with state.GET_CMD [] 0 0 0, w := world_held, ws := ⟨24, 80⟩ }
        = Except.ok (m1, jump.next) ∧
      m1.ts.size1 = 0 ∧ m1.ts.rdidx1 = 6 ∧ m1.ts.wridx1 = 6 ∧ ¬ cursors_reset1 m1.ts ∧
      content2 2020 m1.ts = BAD_COMMAND :=
  ⟨by decide, _, rfl, by decide, by decide, by decide, by decide, by decide⟩

end Telnetd

/-! ## Control sequences cut by the end of the span -/

namespace Telnetd

/-- One pass of the body stores its byte below the new `ptr`. -/
theorem remove_iacs_body_frame (end_ : Int) (s s1 : scan)
    (h : remove_iacs_body end_ s = some s1) (ht : s.totty ≤ s.ptr) :
    ∀ j, s1.ptr ≤ j → s1.buf j = s.buf j := by
  unfold remove_iacs_body at h
  simp only at h
  repeat' split at h
  all_goals cases h
  all_goals intro j hj
  all_goals simp only at hj ⊢
  all_goals first
    | rfl
    | (unfold poke; rw [if_neg (by omega)])

/-- The loop leaves the bytes from its final `ptr` on as they were. -/
theorem remove_iacs_loop_frame (end_ : Int) : ∀ (fuel : Nat) (s : scan),
    s.totty ≤ s.ptr → s.ptr ≤ end_ →
    ∀ j, (remove_iacs_loop end_ fuel s).ptr ≤ j → (remove_iacs_loop end_ fuel s).buf j = s.buf j := by
  intro fuel
  induction fuel with
  | zero => intro s _ _ j _; rfl
  | succ n ih =>
    intro s h1 h2 j hj
    by_cases hlt : s.ptr < end_
    · cases hb : remove_iacs_body end_ s with
      | none => rw [remove_iacs_loop_none end_ _ s hb]
      | some s1 =>
        rw [remove_iacs_loop_some end_ n s s1 hlt hb] at hj ⊢
        obtain ⟨b1, b2, _, _, _⟩ := remove_iacs_body_bounds end_ s s1 hb hlt h1
        rw [ih s1 b1 b2 j hj]
        obtain ⟨_, _, _, c4, _⟩ := remove_iacs_loop_bounds end_ n s1 b1 b2
        exact remove_iacs_body_frame end_ s s1 hb h1 j (by omega)
    · rw [remove_iacs_loop_done end_ _ s hlt]

/-- Running the loop for `k` passes and then for `j` more is running it for `k + j`. -/
theorem remove_iacs_loop_add (end_ : Int) : ∀ (k j : Nat) (s : scan),
    remove_iacs_loop end_ (k + j) s = remove_iacs_loop end_ j (remove_iacs_loop end_ k s) := by
  intro k
  induction k with
  | zero => intro j s; rw [Nat.zero_add]; rfl
  | succ k ih =>
    intro j s
    rw [Nat.succ_add]
    by_cases hlt : s.ptr < end_
    · cases hb : remove_iacs_body end_ s with
      | none =>
        rw [remove_iacs_loop_none end_ _ s hb, remove_iacs_loop_none end_ _ s hb,
          remove_iacs_loop_none end_ _ s hb]
      | some s1 =>
        rw [remove_iacs_loop_some end_ _ s s1 hlt hb, remove_iacs_loop_some end_ _ s s1 hlt hb]
        exact ih j s1
    · rw [remove_iacs_loop_done end_ _ s hlt, remove_iacs_loop_done end_ _ s hlt,
        remove_iacs_loop_done end_ _ s hlt]

/-- With `end - ptr` passes the loop ends by its own test or by `break`: the budget is
never what stops it. -/
theorem remove_iacs_loop_exit (end_ : Int) : ∀ (fuel : Nat) (s : scan),
    s.totty ≤ s.ptr → (end_ - s.ptr).toNat ≤ fuel →
    ¬ (remove_iacs_loop end_ fuel s).ptr < end_ ∨
    remove_iacs_body end_ (remove_iacs_loop end_ fuel s) = none := by
  intro fuel
  induction fuel with
  | zero =>
    intro s _ hf
    left
    rw [remove_iacs_loop_zero]
    omega
  | succ n ih =>
    intro s h1 hf
    by_cases hlt : s.ptr < end_
    · cases hb : remove_iacs_body end_ s with
      | none =>
        rw [remove_iacs_loop_none end_ _ s hb]
        exact Or.inr hb
      | some s1 =>
        rw [remove_iacs_loop_some end_ n s s1 hlt hb]
        obtain ⟨b1, _, _, b4, _⟩ := remove_iacs_body_bounds end_ s s1 hb hlt h1
        exact ih s1 b1 (by omega)
    · rw [remove_iacs_loop_done end_ _ s hlt]
      exact Or.inl hlt

/-- More passes than `end - ptr` change nothing. -/
theorem remove_iacs_loop_stable (end_ : Int) (fuel j : Nat) (s : scan)
    (ht : s.totty ≤ s.ptr) (hf : (end_ - s.ptr).toNat ≤ fuel) :
    remove_iacs_loop end_ j (remove_iacs_loop end_ fuel s) = remove_iacs_loop end_ fuel s := by
  rcases remove_iacs_loop_exit end_ fuel s ht hf with h | h
  · exact remove_iacs_loop_done end_ _ _ h
  · exact remove_iacs_loop_none end_ _ _ h

/-- On a proper prefix that ends the span, the body breaks. -/
theorem remove_iacs_body_cut (end_ : Int) (s : scan) (p : List Nat)
    (hp : cut_sequence p) (hbytes : peek s.buf s.ptr p.length = p)
    (hend : s.ptr + p.length = end_) : remove_iacs_body end_ s = none := by
  rcases hp with e | ⟨c, e, hc1, hc2⟩ | ⟨rest, e, hl⟩
  · subst e
    simp only [List.length_singleton, peek_succ, peek_zero, List.cons.injEq, and_true]
      at hbytes
    simp only [List.length_singleton, Nat.cast_one] at hend
    have n1 : s.ptr + 1 ≥ end_ := by omega
    simp only [remove_iacs_body, hbytes, ne_eq, not_true_eq_false, if_false, n1, if_true]
  · subst e
    simp only [List.length_cons, List.length_nil, peek_succ, peek_zero, List.cons.injEq,
      and_true] at hbytes
    simp only [List.length_cons, List.length_nil] at hend
    obtain ⟨b0, b1⟩ := hbytes
    have n1 : ¬ s.ptr + 1 ≥ end_ := by omega
    have n2 : s.ptr + 2 ≥ end_ := by omega
    simp only [remove_iacs_body, b0, ne_eq, not_true_eq_false, if_false, n1, b1, hc1, hc2,
      n2, if_true]
  · subst e
    have hb3 : peek s.buf s.ptr 3 = [IAC, SB, TELOPT_NAWS] := by
      have hl3 : ([IAC, SB, TELOPT_NAWS] ++ rest).length = 3 + rest.length := by
        simp only [List.length_append, List.length_cons, List.length_nil]
      rw [hl3, peek_append] at hbytes
      exact (List.append_inj hbytes (by rw [peek_length]; rfl)).1
    simp only [peek_succ, peek_zero, List.cons.injEq, and_true] at hb3
    obtain ⟨b0, b1, b2⟩ := hb3
    have e1 : s.ptr + 1 + 1 = s.ptr + 2 := by omega
    rw [e1] at b2
    simp only [List.length_append, List.length_cons, List.length_nil] at hend
    have n1 : ¬ s.ptr + 1 ≥ end_ := by omega
    have n2 : ¬ s.ptr + 2 ≥ end_ := by omega
    have n8 : s.ptr + 8 ≥ end_ := by omega
    have k1 : SB ≠ NOP := by decide
    have k2 : SB ≠ IAC := by decide
    simp only [remove_iacs_body, b0, ne_eq, not_true_eq_false, if_false, n1, b1, k1, k2, n2,
      b2, and_self, if_true, n8]

/-- The first bytes of the logical content of buffer A, as long as they lie before the
physical end. -/
theorem content1_take (BUFSIZE : Int) (ts : tsession) (n : Nat) (h0 : 0 ≤ ts.wridx1)
    (h1 : ts.wridx1 + n ≤ BUFSIZE) (h2 : (n : Int) ≤ ts.size1) :
    (content1 BUFSIZE ts).take n = peek ts.buf1 ts.wridx1 n := by
  unfold content1 peek
  rw [← List.map_take, List.take_range, min_eq_left (by omega)]
  refine List.map_congr_left fun k hk => ?_
  have := List.mem_range.mp hk
  rw [Int.emod_eq_of_lt (by omega) (by omega)]

theorem cut_sequence_length (p : List Nat) (hp : cut_sequence p) : 1 ≤ p.length := by
  rcases hp with e | ⟨c, e, _, _⟩ | ⟨rest, e, _⟩ <;> (subst e; simp)

/-- C12: let the scan of `remove_iacs`, after `k` passes of its loop, stand at the start
of a proper prefix `p` of a control sequence that ends the span. Then the scan stops
there: the returned region ends where `p` starts and holds only what those passes
stored, and once all `num_totty` bytes have been written to the pty, `wridx1` is the
start of `p`, the bytes of `p` are the first bytes of the logical content of buffer A,
and `size1` has gone down by exactly the bytes before `p`. -/
theorem remove_iacs_incomplete (BUFSIZE : Int) (ts : tsession) (ws : winsize) (k : Nat)
    (p : List Nat) (hs : 0 ≤ ts.size1) (hw : 0 ≤ ts.wridx1 ∧ ts.wridx1 ≤ BUFSIZE)
    (hp : cut_sequence p)
    (hmeet : (remove_iacs_loop (scan_end BUFSIZE ts) k (scan_start ts ws)).ptr + p.length
      = scan_end BUFSIZE ts)
    (hbytes : peek ts.buf1 (remove_iacs_loop (scan_end BUFSIZE ts) k (scan_start ts ws)).ptr
      p.length = p) :
    (remove_iacs BUFSIZE ts ws).ptr + (remove_iacs BUFSIZE ts ws).num_totty + p.length
      = scan_end BUFSIZE ts ∧
    (remove_iacs BUFSIZE ts ws).num_totty
      = (remove_iacs_loop (scan_end BUFSIZE ts) k (scan_start ts ws)).totty - ts.wridx1 ∧
    0 ≤ (remove_iacs BUFSIZE ts ws).num_totty ∧
    (drain_pty BUFSIZE ts ws
        (write_result.wrote (remove_iacs BUFSIZE ts ws).num_totty.toNat)).1.wridx1 + p.length
      = scan_end BUFSIZE ts ∧
    (content1 BUFSIZE (drain_pty BUFSIZE ts ws
        (write_result.wrote (remove_iacs BUFSIZE ts ws).num_totty.toNat)).1).take p.length
      = p ∧
    (drain_pty BUFSIZE ts ws
        (write_result.wrote (remove_iacs BUFSIZE ts ws).num_totty.toNat)).1.size1
      = ts.size1 - ((remove_iacs_loop (scan_end BUFSIZE ts) k (scan_start ts ws)).ptr
          - ts.wridx1) := by
  have hmin0 : 0 ≤ min (BUFSIZE - ts.wridx1) ts.size1 := by omega
  have hmin1 : min (BUFSIZE - ts.wridx1) ts.size1 ≤ BUFSIZE - ts.wridx1 := min_le_left _ _
  have hmin2 : min (BUFSIZE - ts.wridx1) ts.size1 ≤ ts.size1 := min_le_right _ _
  have hlen := cut_sequence_length p hp
  have he : scan_end BUFSIZE ts = ts.wridx1 + min (BUFSIZE - ts.wridx1) ts.size1 := rfl
  generalize hsk : remove_iacs_loop (scan_end BUFSIZE ts) k (scan_start ts ws) = sk
    at hmeet hbytes ⊢
  have h0t : (scan_start ts ws).totty ≤ (scan_start ts ws).ptr := le_refl _
  have h0e : (scan_start ts ws).ptr ≤ scan_end BUFSIZE ts := by
    rw [he]
    show ts.wridx1 ≤ _
    omega
  obtain ⟨b1, b2, b3, b4, b5⟩ := remove_iacs_loop_bounds (scan_end BUFSIZE ts) k
    (scan_start ts ws) h0t h0e
  have hfr := remove_iacs_loop_frame (scan_end BUFSIZE ts) k (scan_start ts ws) h0t h0e
  rw [hsk] at b1 b2 b3 b4 b5 hfr
  have hb3 : ts.wridx1 ≤ sk.totty := b3
  have hb4 : ts.wridx1 ≤ sk.ptr := b4
  have hbytes1 : peek sk.buf sk.ptr p.length = p :=
    (peek_congr _ _ _ _ fun j hj _ => hfr j hj).trans hbytes
  have hnone := remove_iacs_body_cut (scan_end BUFSIZE ts) sk p hp hbytes1 hmeet
  have hfin : remove_iacs_loop (scan_end BUFSIZE ts)
      (scan_end BUFSIZE ts - ts.wridx1).toNat (scan_start ts ws) = sk := by
    have a := remove_iacs_loop_add (scan_end BUFSIZE ts)
      (scan_end BUFSIZE ts - ts.wridx1).toNat k (scan_start ts ws)
    have hst := remove_iacs_loop_stable (scan_end BUFSIZE ts)
      (scan_end BUFSIZE ts - ts.wridx1).toNat k (scan_start ts ws) h0t (le_refl _)
    rw [hst] at a
    have b := remove_iacs_loop_add (scan_end BUFSIZE ts) k
      (scan_end BUFSIZE ts - ts.wridx1).toNat (scan_start ts ws)
    rw [hsk, remove_iacs_loop_none _ _ sk hnone, Nat.add_comm] at b
    exact a.symm.trans b
  have hfin1 : remove_iacs_loop (ts.wridx1 + min (BUFSIZE - ts.wridx1) ts.size1)
      (ts.wridx1 + min (BUFSIZE - ts.wridx1) ts.size1 - ts.wridx1).toNat
      { buf := ts.buf1, ptr := ts.wridx1, totty := ts.wridx1, ws := ws, ptyfd := ts.ptyfd } = sk := hfin
  rw [he] at hmeet
  have hframe : ∀ j, sk.ptr ≤ j → sk.buf j = ts.buf1 j := hfr
  have hnn : ((sk.totty - ts.wridx1).toNat : Int) = sk.totty - ts.wridx1 :=
    Int.toNat_of_nonneg (by omega)
  unfold drain_pty remove_iacs
  simp only [hfin1, he]
  by_cases hz : sk.ptr - sk.totty = 0
  · simp only [hz, if_true, hnn]
    have hlt : ¬ ts.wridx1 + (sk.totty - ts.wridx1) ≥ BUFSIZE := by omega
    simp only [hlt, if_false]
    refine ⟨by omega, trivial, by omega, by omega, ?_, by omega⟩
    rw [content1_take BUFSIZE _ p.length (by simp only; omega) (by simp only; omega)
      (by simp only; omega)]
    simp only
    rw [show ts.wridx1 + (sk.totty - ts.wridx1) = sk.ptr by omega]
    exact hbytes1
  · simp only [hz, if_false, hnn]
    have hlt : ¬ ts.wridx1 + (sk.ptr - sk.totty) + (sk.totty - ts.wridx1) ≥ BUFSIZE := by
      omega
    simp only [hlt, if_false]
    refine ⟨by omega, trivial, by omega, by omega, ?_, by omega⟩
    rw [content1_take BUFSIZE _ p.length (by simp only; omega) (by simp only; omega)
      (by simp only; omega)]
    simp only
    rw [show ts.wridx1 + (sk.ptr - sk.totty) + (sk.totty - ts.wridx1) = sk.ptr by omega]
    refine (peek_congr _ _ _ _ fun j hj _ => ?_).trans hbytes1
    unfold memmove
    rw [if_neg (by omega)]

/-- C12 on an example: the span is `a`, `b`, IAC SB NAWS and one byte of the window
size. After two passes the scan stands on the IAC; the pty is given `ab`, and once the
two bytes are written buffer A begins with the four bytes of the unfinished sequence. -/
theorem remove_iacs_incomplete_witness :
    (cut_sequence [255, 250, 31, 0] ∧
      (remove_iacs_loop (scan_end 16 (session_with state.DO_TRADITIONAL
          [97, 98, 255, 250, 31, 0] 6 0 6)) 2
        (scan_start (session_with state.DO_TRADITIONAL [97, 98, 255, 250, 31, 0] 6 0 6)
          ⟨24, 80⟩)).ptr + ([255, 250, 31, 0] : List Nat).length
        = scan_end 16 (session_with state.DO_TRADITIONAL [97, 98, 255, 250, 31, 0] 6 0 6)) ∧
    (remove_iacs 16 (session_with state.DO_TRADITIONAL [97, 98, 255, 250, 31, 0] 6 0 6)
      ⟨24, 80⟩).totty = [97, 98] ∧
    (content1 16 (drain_pty 16
        (session_with state.DO_TRADITIONAL [97, 98, 255, 250, 31, 0] 6 0 6) ⟨24, 80⟩
        (write_result.wrote (remove_iacs 16
          (session_with state.DO_TRADITIONAL [97, 98, 255, 250, 31, 0] 6 0 6)
          ⟨24, 80⟩).num_totty.toNat)).1).take ([255, 250, 31, 0] : List Nat).length
      = [255, 250, 31, 0] :=
  ⟨⟨Or.inr (Or.inr ⟨[0], rfl, by decide⟩), by decide⟩, by decide,
   (remove_iacs_incomplete 16
      (session_with state.DO_TRADITIONAL [97, 98, 255, 250, 31, 0] 6 0 6) ⟨24, 80⟩ 2
      [255, 250, 31, 0] (by decide) (by decide) (Or.inr (Or.inr ⟨[0], rfl, by decide⟩))
      (by decide) (by decide)).2.2.2.2.1⟩

end Telnetd

/-! ## The canonical crontab file -/

namespace Telnetd

theorem getLast_append_suffix (d s : List Nat) (hs : s ≠ []) :
    (d ++ s).getLast? = s.getLast? := by
  rw [List.getLast?_eq_head?_reverse, List.getLast?_eq_head?_reverse, List.reverse_append]
  cases h : s.reverse with
  | nil => exact absurd (List.reverse_eq_nil_iff.mp h) hs
  | cons a l => rfl

/-- No canonical path `<dir>/root` is a staging path `<d>/root.new`. -/
theorem canonical_ne_staging (dir d : List Nat) :
    dir ++ CRONTAB_SUFFIX ≠ d ++ CRONTAB_NEW_SUF := by
  intro h
  have := congrArg List.getLast? h
  rw [getLast_append_suffix _ _ (by decide), getLast_append_suffix _ _ (by decide)] at this
  revert this
  decide

/-- No canonical path `<dir>/root` is a reload path `<d>/cron.update`. -/
theorem canonical_ne_update (dir d : List Nat) :
    dir ++ CRONTAB_SUFFIX ≠ d ++ CRONUPDATE := by
  intro h
  have := congrArg List.getLast? h
  rw [getLast_append_suffix _ _ (by decide), getLast_append_suffix _ _ (by decide)] at this
  revert this
  decide

theorem canonical_kept_trans (a b c : world) (h1 : canonical_kept a b)
    (h2 : canonical_kept b c) : canonical_kept a c :=
  fun dir => (h2 dir).trans (h1 dir)

/-- What a returning `start_crontab` does to the files: it can only create the staging
file of the directory it was given. -/
theorem start_crontab_files (BUFSIZE : Int) (env : sysenv) (ts ts1 : tsession)
    (w w1 : world) (ln : List Nat) (r : Int) (hd : draft_on_staging w)
    (h : start_crontab BUFSIZE env ts w ln = Except.ok (ts1, w1, r)) :
    draft_on_staging w1 ∧
    (∀ q, q ≠ ln.drop CMD_CRONTAB.length ++ CRONTAB_NEW_SUF → w1.fs.files q = w.fs.files q) ∧
    canonical_kept w w1 := by
  obtain ⟨_, _, hc⟩ := start_crontab_cases BUFSIZE env ts ts1 w w1 ln r h
  rcases hc with ⟨_, _, e1, e2, e3⟩ | ⟨_, _, e1, _, e2, e3, e4⟩
  · refine ⟨fun f hf => ?_, fun q _ => by rw [e2], fun dir => by rw [e2]⟩
    rw [e1] at hf
    rcases e3 with e3 | e3
    · rw [e3]
      exact hd f hf
    · rw [e3] at hf
      cases hf
  · refine ⟨fun f hf => ?_, fun q hq => ?_, fun dir => ?_⟩
    · rw [e3] at hf
      cases hf
      rw [e2]
    · rw [e4]
      simp only [fsys.store, hq, if_false]
    · rw [e4]
      simp only [fsys.store, canonical_ne_staging dir _, if_false]

/-- What a returning `add_to_crontab` does to the files: it can only append to the
staging file of the open draft. -/
theorem add_to_crontab_files (BUFSIZE : Int) (env : sysenv) (ts ts1 : tsession)
    (w w1 : world) (ln : List Nat) (hd : draft_on_staging w)
    (h : add_to_crontab BUFSIZE env ts w ln = Except.ok (ts1, w1)) :
    draft_on_staging w1 ∧
    (∀ q, q ≠ w.atlas_dirname ++ CRONTAB_NEW_SUF → w1.fs.files q = w.fs.files q) ∧
    canonical_kept w w1 := by
  obtain ⟨_, e0, _, hc⟩ := add_to_crontab_cases BUFSIZE env ts ts1 w w1 ln h
  have hfr : (∀ q, q ≠ w.atlas_dirname ++ CRONTAB_NEW_SUF → w1.fs.files q = w.fs.files q) := by
    rcases hc with ⟨_, _, e⟩ | ⟨f, hf, _, _, e⟩ | ⟨f, hf, _, _, e⟩
    · intro q _
      rw [e]
    · intro q hq
      rw [e, hd f hf]
      simp only [fsys.append, fsys.store, hq, if_false]
    · intro q hq
      rcases e with e | e
      · rw [e]
      · rw [e, hd f hf]
        simp only [fsys.append, fsys.store, hq, if_false]
  refine ⟨fun f hf => ?_, hfr, fun dir => hfr _ (canonical_ne_staging dir _)⟩
  rcases hc with ⟨_, _, e⟩ | ⟨f1, hf1, _, e1, _⟩ | ⟨f1, _, _, e1, _⟩
  · rw [e] at hf ⊢
    exact hd f hf
  · rw [e1] at hf
    cases hf
    rw [e0]
    exact hd f hf1
  · rw [e1] at hf
    cases hf

/-- What a returning `end_crontab` does to the canonical files: nothing, or the one of
the draft's directory now holds what the staging file held. -/
theorem end_crontab_files (BUFSIZE : Int) (env : sysenv) (ts ts1 : tsession)
    (w w1 : world) (h : end_crontab BUFSIZE env ts w = Except.ok (ts1, w1)) :
    draft_on_staging w1 ∧
    ∀ dir, w1.fs.files (dir ++ CRONTAB_SUFFIX) = w.fs.files (dir ++ CRONTAB_SUFFIX) ∨
      (w.atlas_crontab ≠ none ∧ w.atlas_dirname = dir ∧
        w1.fs.files (dir ++ CRONTAB_SUFFIX) = w.fs.files (dir ++ CRONTAB_NEW_SUF)) := by
  obtain ⟨_, _, _, e1, _, hfs⟩ := end_crontab_cases BUFSIZE env ts ts1 w w1 h
  refine ⟨fun f hf => ?_, fun dir => ?_⟩
  · rw [e1] at hf
    cases hf
  · rcases hfs with e | ⟨hs, _, hq⟩
    · exact Or.inl (by rw [e])
    · rw [hq _ (canonical_ne_update dir _)]
      by_cases hdir : w.atlas_dirname = dir
      · refine Or.inr ⟨hs, hdir, ?_⟩
        rw [hdir]
        simp only [fsys.rename, if_true]
      · left
        have n1 : dir ++ CRONTAB_SUFFIX ≠ w.atlas_dirname ++ CRONTAB_SUFFIX :=
          fun h => hdir (List.append_cancel_right h).symm
        simp only [fsys.rename, n1, canonical_ne_staging dir _, if_false]

/-- The code at `do_cmd` leaves every canonical file as it was. -/
theorem do_cmd_files (BUFSIZE : Int) (env : sysenv) (m m1 : machine) (ln : List Nat)
    (t : target) (hd : draft_on_staging m.w)
    (h : do_cmd BUFSIZE env m ln = Except.ok (m1, t)) :
    draft_on_staging m1.w ∧ canonical_kept m.w m1.w := by
  obtain ⟨_, _, hc⟩ := do_cmd_cases BUFSIZE env m m1 ln t h
  rcases hc with ⟨ts1, w1, r, hsc, e, _⟩ | ⟨_, e⟩ | ⟨_, _, _, e⟩ | ⟨_, _, _, e⟩
  · obtain ⟨a1, _, a3⟩ := start_crontab_files BUFSIZE env m.ts ts1 m.w w1 ln r hd hsc
    rw [e]
    exact ⟨a1, a3⟩
  all_goals
    rw [e]
    exact ⟨hd, fun _ => rfl⟩

theorem take_over_fields (w : world) (self : Nat) :
    (take_over w self).fs = w.fs ∧ (take_over w self).atlas_dirname = w.atlas_dirname ∧
    (take_over w self).atlas_ts = some self ∧
    (take_over w self).login_requests = w.login_requests ∧
    ∀ f, (take_over w self).atlas_crontab = some f → w.atlas_crontab = some f := by
  unfold take_over
  split
  · split
    · exact ⟨rfl, rfl, rfl, rfl, fun f hf => by cases hf⟩
    · exact ⟨rfl, rfl, rfl, rfl, fun f hf => hf⟩
  · exact ⟨rfl, rfl, rfl, rfl, fun f hf => hf⟩

theorem kill_session_files (inetd : Bool) (srv srv1 : server) (a : Nat)
    (h : kill_session inetd srv a = Except.ok srv1) : srv1.w.fs = srv.w.fs := by
  unfold kill_session free_session at h
  simp only at h
  split at h
  · cases h
  · cases h
    simp only
    split
    · split <;> rfl
    · rfl

/-- What a returning pass through the switch does to the canonical files. -/
theorem dispatch_files (BUFSIZE : Int) (env : sysenv) (self : Nat) (m m1 : machine)
    (t : target) (hd : draft_on_staging m.w)
    (h : dispatch BUFSIZE env self m = Except.ok (m1, t)) :
    draft_on_staging m1.w ∧
    ∀ dir, m1.w.fs.files (dir ++ CRONTAB_SUFFIX) = m.w.fs.files (dir ++ CRONTAB_SUFFIX) ∨
      (m.ts.state = state.DO_CRONTAB ∧ m.w.atlas_ts = some self ∧
        m.w.atlas_crontab ≠ none ∧ m.w.atlas_dirname = dir ∧
        (∃ ln, extracted_line BUFSIZE m.ts = some ln ∧ ¬ CMD_CRONLINE <+: ln) ∧
        m1.w.fs.files (dir ++ CRONTAB_SUFFIX) = m.w.fs.files (dir ++ CRONTAB_NEW_SUF)) := by
  rcases dispatch_cases BUFSIZE env self m m1 t h with
    ⟨_, e, _⟩ | ⟨_, _, e, _⟩ | ⟨ts0, ws0, ts1, l, ⟨_, _, _, hnl, hadm⟩, hgl, hc⟩
  · rw [e]
    exact ⟨hd, fun _ => Or.inl rfl⟩
  · rw [e]
    exact ⟨hd, fun _ => Or.inl rfl⟩
  · rcases hc with ⟨_, e, _⟩ | ⟨ln, hl, hc⟩
    · rw [e]
      exact ⟨hd, fun _ => Or.inl rfl⟩
    · subst hl
      rcases hc with ⟨_, _, ts2, _, e, _⟩ | ⟨_, _, ts2, ts3, w3, rc, _, hsl, _, e, _⟩ |
        ⟨_, _, e, _⟩ | ⟨_, _, ts2, _, e, _⟩ | ⟨_, hdc⟩ | ⟨hst, hcl, ts2, w2, hec, hdc⟩ |
        ⟨_, _, ts2, w2, hac, e, _⟩ | ⟨_, ts2, _, e, _⟩
      · rw [e]
        exact ⟨hd, fun _ => Or.inl rfl⟩
      · rw [e]
        obtain ⟨e3, _⟩ := start_login_cases env ts2 ts3 m.w w3 ln rc hsl
        rw [e3]
        exact ⟨hd, fun _ => Or.inl rfl⟩
      · rw [e]
        obtain ⟨a1, a2, _, _, a5⟩ := take_over_fields m.w self
        refine ⟨fun f hf => ?_, fun _ => Or.inl (by simp only [a1])⟩
        simp only at hf ⊢
        rw [a2]
        exact hd f (a5 f hf)
      · rw [e]
        exact ⟨hd, fun _ => Or.inl rfl⟩
      · obtain ⟨a1, a2⟩ := do_cmd_files BUFSIZE env { m with ts := ts1 } m1 ln t hd hdc
        exact ⟨a1, fun dir => Or.inl (a2 dir)⟩
      · obtain ⟨b1, b2⟩ := end_crontab_files BUFSIZE env ts1 ts2 m.w w2 hec
        obtain ⟨a1, a2⟩ := do_cmd_files BUFSIZE env
          { m with ts := { ts2 with state := state.GET_CMD }, w := w2 } m1 ln t b1 hdc
        refine ⟨a1, fun dir => ?_⟩
        have hts0 := (hnl (by rw [hst]; decide)).1
        rcases b2 dir with e | ⟨c1, c2, c3⟩
        · exact Or.inl ((a2 dir).trans e)
        · refine Or.inr ⟨hst, hadm (Or.inr (Or.inl hst)), c1, c2, ⟨ln, ?_, ?_⟩,
            (a2 dir).trans c3⟩
          · rw [← hts0]
            exact extracted_line_of_getline BUFSIZE ts0 ts1 ln hgl
          · exact fun hp => hcl ((strncmp_eq_iff _ _).mpr hp)
      · rw [e]
        obtain ⟨a1, _, a3⟩ := add_to_crontab_files BUFSIZE env ts1 ts2 m.w w2 _ hd hac
        exact ⟨a1, fun dir => Or.inl (a3 dir)⟩
      · rw [e]
        exact ⟨hd, fun _ => Or.inl rfl⟩

/-- C17: in a world whose open draft (if any) is the stream on `<atlas_dirname>/root.new`,
a property every pass keeps, a returning pass through the switch leaves the content of
every canonical file `<dir>/root` as it was, except the pass of the holder in DO_CRONTAB
on a line that is no `CRONLINE `, with the draft for `dir` open: `end_crontab` may then
rename the closed staging file, and `<dir>/root` holds what `<dir>/root.new` held.
`start_crontab` changes no file but the staging file of the directory named in its
line, `add_to_crontab` (write failures included) none but the staging file of the open
draft; `kill_session` and the eviction in `case GET_PASSWORD` change no file. -/
theorem canonical_changes_by_rename (BUFSIZE : Int) (env : sysenv) (self : Nat)
    (m m1 : machine) (t : target) (hd : draft_on_staging m.w)
    (h : dispatch BUFSIZE env self m = Except.ok (m1, t)) :
    draft_on_staging m1.w ∧
    (∀ dir, m1.w.fs.files (dir ++ CRONTAB_SUFFIX) = m.w.fs.files (dir ++ CRONTAB_SUFFIX) ∨
      (m.ts.state = state.DO_CRONTAB ∧ m.w.atlas_ts = some self ∧
        m.w.atlas_crontab ≠ none ∧ m.w.atlas_dirname = dir ∧
        (∃ ln, extracted_line BUFSIZE m.ts = some ln ∧ ¬ CMD_CRONLINE <+: ln) ∧
        m1.w.fs.files (dir ++ CRONTAB_SUFFIX) = m.w.fs.files (dir ++ CRONTAB_NEW_SUF))) ∧
    (∀ ts ts1 w1 ln r, start_crontab BUFSIZE env ts m.w ln = Except.ok (ts1, w1, r) →
      ∀ q, q ≠ ln.drop CMD_CRONTAB.length ++ CRONTAB_NEW_SUF →
        w1.fs.files q = m.w.fs.files q) ∧
    (∀ ts ts1 w1 ln, add_to_crontab BUFSIZE env ts m.w ln = Except.ok (ts1, w1) →
      ∀ q, q ≠ m.w.atlas_dirname ++ CRONTAB_NEW_SUF → w1.fs.files q = m.w.fs.files q) ∧
    (∀ inetd srv srv1 a, kill_session inetd srv a = Except.ok srv1 → srv1.w.fs = srv.w.fs) ∧
    (take_over m.w self).fs = m.w.fs := by
  obtain ⟨a1, a2⟩ := dispatch_files BUFSIZE env self m m1 t hd h
  exact ⟨a1, a2,
    fun ts ts1 w1 ln r hs => (start_crontab_files BUFSIZE env ts ts1 m.w w1 ln r hd hs).2.1,
    fun ts ts1 w1 ln ha => (add_to_crontab_files BUFSIZE env ts ts1 m.w w1 ln hd ha).2.1,
    fun inetd srv srv1 a hk => kill_session_files inetd srv srv1 a hk,
    (take_over_fields m.w self).1⟩

/-- C17 on an example: the holder in DO_CRONTAB sends the empty line that ends the
upload; the pass renames the staging file, and `d/root` holds the uploaded line. -/
theorem canonical_changes_by_rename_witness :
    draft_on_staging world_drafted ∧
    ∃ m1 t, dispatch 2020 env_ok 2
        { ts := session_with state.DO_CRONTAB (bytes "\r") 1 0 1, w := world_drafted,
          ws := ⟨24, 80⟩ } = Except.ok (m1, t) ∧
      world_drafted.fs.files (bytes "d/root") = some (bytes "old\n") ∧
      m1.w.fs.files (bytes "d/root") = some (bytes "* * * * * true\n") ∧
      m1.w.fs.files (bytes "d/root.new") = none ∧
      draft_on_staging m1.w :=
  ⟨fun f hf => by cases hf; rfl, _, _, rfl, by decide, by decide, by decide,
   (canonical_changes_by_rename 2020 env_ok 2
      { ts := session_with state.DO_CRONTAB (bytes "\r") 1 0 1, w := world_drafted,
        ws := ⟨24, 80⟩ } _ _ (fun f hf => by cases hf; rfl) rfl).1⟩

end Telnetd

/-! ## The holder and the registry -/

namespace Telnetd

/-- The code at `do_cmd`, entered in GET_CMD by a session without child, leaves the
holder as it is and the session in one of the phases after the password check. -/
theorem do_cmd_pass_ok (BUFSIZE : Int) (env : sysenv) (m m1 : machine) (ln : List Nat)
    (t : target) (hst : m.ts.state = state.GET_CMD) (hpid : m.ts.shell_pid = 0)
    (h : do_cmd BUFSIZE env m ln = Except.ok (m1, t)) :
    m1.w.atlas_ts = m.w.atlas_ts ∧ admin_state m1.ts.state ∧ m1.ts.shell_pid = 0 := by
  obtain ⟨_, _, hc⟩ := do_cmd_cases BUFSIZE env m m1 ln t h
  rcases hc with ⟨ts1, w1, r, hsc, e, hr⟩ | ⟨e1, e2⟩ | ⟨ts1, hadd, e1, e2⟩ | ⟨ts1, hadd, e1, e2⟩
  · obtain ⟨a1, _, a3⟩ := start_crontab_cases BUFSIZE env m.ts ts1 m.w w1 ln r hsc
    have hts : ts1.state = state.GET_CMD ∧ ts1.shell_pid = 0 := by
      rcases a3 with ⟨_, ⟨s, _, hadd⟩, _⟩ | ⟨_, e3, _⟩
      · obtain ⟨b1, b2, _⟩ := add_2sock_side1 BUFSIZE m.ts ts1 s hadd
        exact ⟨b1.trans hst, b2.trans hpid⟩
      · rw [e3]
        exact ⟨hst, hpid⟩
    rw [e, a1]
    rcases hr with ⟨_, e4⟩ | ⟨_, e4⟩
    · rw [e4]
      exact ⟨rfl, Or.inl hts.1, hts.2⟩
    · rw [e4]
      exact ⟨rfl, Or.inr (Or.inl rfl), hts.2⟩
  · rw [e1, e2]
    exact ⟨rfl, Or.inl hst, hpid⟩
  · obtain ⟨_, b2, _⟩ := add_2sock_side1 BUFSIZE m.ts ts1 _ hadd
    rw [e1, e2]
    exact ⟨rfl, Or.inr (Or.inr rfl), b2.trans hpid⟩
  · obtain ⟨b1, b2, _⟩ := add_2sock_side1 BUFSIZE m.ts ts1 _ hadd
    rw [e1, e2]
    exact ⟨rfl, Or.inl (b1.trans hst), b2.trans hpid⟩

/-- A returning pass through the switch keeps `pass_ok`, and leaves `atlas_ts` as it
was or sets it to the session itself. -/
theorem dispatch_pass_ok (BUFSIZE : Int) (env : sysenv) (self : Nat) (m m1 : machine)
    (t : target) (hp : pass_ok self m)
    (h : dispatch BUFSIZE env self m = Except.ok (m1, t)) :
    pass_ok self m1 ∧ (m1.w.atlas_ts = m.w.atlas_ts ∨ m1.w.atlas_ts = some self) := by
  obtain ⟨hp1, hp2⟩ := hp
  rcases dispatch_cases BUFSIZE env self m m1 t h with
    ⟨_, e, _⟩ | ⟨_, _, e, _⟩ | ⟨ts0, ws0, ts1, l, ⟨hs0, hnt, _, _, hadm⟩, hgl, hc⟩
  · rw [e]
    exact ⟨⟨hp1, hp2⟩, Or.inl rfl⟩
  · rw [e]
    exact ⟨⟨hp1, hp2⟩, Or.inl rfl⟩
  · have hs1 := same_side2_trans (getline_2pty_side2 BUFSIZE ts0 ts1 l hgl) hs0
    have hst1 : ts1.state = m.ts.state := hs1.1
    have hpid1 : ts1.shell_pid = 0 := hs1.2.2.2.2.2.2.1.trans (hp1 hnt)
    rcases hc with ⟨_, e, _⟩ | ⟨ln, hl, hc⟩
    · rw [e]
      exact ⟨⟨fun _ => hpid1, fun ha => by rw [hst1]; exact hp2 ha⟩, Or.inl rfl⟩
    · subst hl
      rcases hc with ⟨hst, _, ts2, hadd, e, _⟩ | ⟨hst, _, ts2, ts3, w3, rc, _, hsl, _, e, _⟩ |
        ⟨hst, _, e, _⟩ | ⟨hst, _, ts2, hadd, e, _⟩ | ⟨hst, hdc⟩ | ⟨hst, _, ts2, w2, hec, hdc⟩ |
        ⟨hst, _, ts2, w2, hac, e, _⟩ | ⟨hst, ts2, hadd, e, _⟩
      · have hno : m.w.atlas_ts ≠ some self := fun ha => by
          have := hp2 ha
          rw [hst] at this
          exact absurd this (by decide)
        obtain ⟨_, b2, _⟩ := add_2sock_side1 BUFSIZE ts1 ts2 _ hadd
        rw [e]
        exact ⟨⟨fun _ => b2.trans hpid1, fun ha => absurd ha hno⟩, Or.inl rfl⟩
      · have hno : m.w.atlas_ts ≠ some self := fun ha => by
          have := hp2 ha
          rw [hst] at this
          exact absurd this (by decide)
        obtain ⟨e3, _⟩ := start_login_cases env ts2 ts3 m.w w3 ln rc hsl
        rw [e, e3]
        exact ⟨⟨fun hn => absurd rfl hn, fun ha => absurd ha hno⟩, Or.inl rfl⟩
      · rw [e]
        exact ⟨⟨fun _ => hpid1, fun _ => Or.inl rfl⟩, Or.inr (take_over_fields m.w self).2.2.1⟩
      · have hno : m.w.atlas_ts ≠ some self := fun ha => by
          have := hp2 ha
          rw [hst] at this
          exact absurd this (by decide)
        obtain ⟨_, b2, _⟩ := add_2sock_side1 BUFSIZE ts1 ts2 _ hadd
        rw [e]
        exact ⟨⟨fun _ => b2.trans hpid1, fun ha => absurd ha hno⟩, Or.inl rfl⟩
      · obtain ⟨a1, a2, a3⟩ := do_cmd_pass_ok BUFSIZE env { m with ts := ts1 } m1 ln t
          (hst1.trans hst) hpid1 hdc
        exact ⟨⟨fun _ => a3, fun _ => a2⟩, Or.inl a1⟩
      · obtain ⟨c1, _, _, _, c5, _⟩ := end_crontab_cases BUFSIZE env ts1 ts2 m.w w2 hec
        have hpid2 : ts2.shell_pid = 0 := by
          rcases c5 with e2 | ⟨s, _, hadd⟩
          · rw [e2]
            exact hpid1
          · exact (add_2sock_side1 BUFSIZE ts1 ts2 s hadd).2.1.trans hpid1
        obtain ⟨a1, a2, a3⟩ := do_cmd_pass_ok BUFSIZE env
          { m with ts := { ts2 with state := state.GET_CMD }, w := w2 } m1 ln t rfl hpid2 hdc
        exact ⟨⟨fun _ => a3, fun _ => a2⟩, Or.inl (a1.trans c1)⟩
      · obtain ⟨c1, _, _, c4⟩ := add_to_crontab_cases BUFSIZE env ts1 ts2 m.w w2 _ hac
        have hts2 : ts2.state = state.DO_CRONTAB ∧ ts2.shell_pid = 0 := by
          rcases c4 with ⟨_, e2, _⟩ | ⟨f, _, e2, _⟩ | ⟨f, _, hadd, _⟩
          · rw [e2]
            exact ⟨hst1.trans hst, hpid1⟩
          · rw [e2]
            exact ⟨hst1.trans hst, hpid1⟩
          · obtain ⟨b1, b2, _⟩ := add_2sock_side1 BUFSIZE ts1 ts2 _ hadd
            exact ⟨b1.trans (hst1.trans hst), b2.trans hpid1⟩
        rw [e]
        exact ⟨⟨fun _ => hts2.2, fun _ => Or.inr (Or.inl hts2.1)⟩, Or.inl c1⟩
      · obtain ⟨b1, b2, _⟩ := add_2sock_side1 BUFSIZE ts1 ts2 _ hadd
        rw [e]
        exact ⟨⟨fun _ => b2.trans hpid1,
          fun _ => Or.inr (Or.inr (b1.trans (hst1.trans hst)))⟩, Or.inl rfl⟩

/-- The same for the passes of one protocol step. -/
theorem protocol_switch_pass_ok (BUFSIZE : Int) (env : sysenv) (self : Nat) :
    ∀ (fuel : Nat) (m m1 : machine) (j : jump), pass_ok self m →
    protocol_switch BUFSIZE env self fuel m = Except.ok (m1, j) →
    pass_ok self m1 ∧ (m1.w.atlas_ts = m.w.atlas_ts ∨ m1.w.atlas_ts = some self) := by
  intro fuel
  induction fuel with
  | zero =>
    intro m m1 j _ h
    cases h
  | succ fuel ih =>
    intro m m1 j hp h
    unfold protocol_switch at h
    split at h
    · cases h
    · rename_i m2 hd
      obtain ⟨a1, a2⟩ := dispatch_pass_ok BUFSIZE env self m m2 _ hp hd
      obtain ⟨b1, b2⟩ := ih m2 m1 j a1 h
      refine ⟨b1, ?_⟩
      rcases b2 with b2 | b2
      · rw [b2]
        exact a2
      · exact Or.inr b2
    · rename_i m2 hd
      cases h
      exact dispatch_pass_ok BUFSIZE env self m m1 _ hp hd
    · rename_i m2 hd
      cases h
      exact dispatch_pass_ok BUFSIZE env self m m1 _ hp hd

theorem drain_pty_id (BUFSIZE : Int) (ts : tsession) (ws : winsize) (w : write_result) :
    (drain_pty BUFSIZE ts ws w).1.state = ts.state ∧
    (drain_pty BUFSIZE ts ws w).1.shell_pid = ts.shell_pid := by
  have hs := remove_iacs_side2 BUFSIZE ts ws
  unfold drain_pty
  cases w with
  | eagain => exact ⟨hs.1, hs.2.2.2.2.2.2.1⟩
  | failed => exact ⟨hs.1, hs.2.2.2.2.2.2.1⟩
  | wrote c =>
    simp only
    split <;> exact ⟨hs.1, hs.2.2.2.2.2.2.1⟩

theorem drain_sock_id (BUFSIZE : Int) (ts : tsession) (w : write_result) :
    (drain_sock BUFSIZE ts w).1.state = ts.state ∧
    (drain_sock BUFSIZE ts w).1.shell_pid = ts.shell_pid := by
  unfold drain_sock
  cases w with
  | eagain => exact ⟨rfl, rfl⟩
  | failed => exact ⟨rfl, rfl⟩
  | wrote c =>
    simp only
    split <;> exact ⟨rfl, rfl⟩

theorem reset_cursors_id (ts : tsession) :
    (reset_cursors ts).state = ts.state ∧ (reset_cursors ts).shell_pid = ts.shell_pid := by
  unfold reset_cursors
  simp only
  split <;> split <;> exact ⟨rfl, rfl⟩

theorem read_sock_id (BUFSIZE : Int) (ts ts1 : tsession) (r : read_result) (j : jump)
    (h : read_sock BUFSIZE ts r = Except.ok (ts1, j)) :
    ts1.state = ts.state ∧ ts1.shell_pid = ts.shell_pid := by
  unfold read_sock at h
  split at h
  · cases h
  · rename_i ts0 hp
    have h0 : ts0.state = ts.state ∧ ts0.shell_pid = ts.shell_pid := by
      split at hp
      · have hs := pack_2pty_side2 BUFSIZE ts ts0 hp
        exact ⟨hs.1, hs.2.2.2.2.2.2.1⟩
      · cases hp
        exact ⟨rfl, rfl⟩
    cases r with
    | eagain =>
      cases h
      exact h0
    | failed =>
      cases h
      exact h0
    | got data =>
      simp only at h
      split at h
      · cases h
        exact h0
      · split at h <;> split at h <;> cases h <;> exact h0

theorem read_pty_id (BUFSIZE : Int) (ts : tsession) (r : read_result) :
    (read_pty BUFSIZE ts r).1.state = ts.state ∧
    (read_pty BUFSIZE ts r).1.shell_pid = ts.shell_pid := by
  unfold read_pty
  cases r with
  | eagain => exact ⟨rfl, rfl⟩
  | failed => exact ⟨rfl, rfl⟩
  | got data =>
    simp only
    split
    · exact ⟨rfl, rfl⟩
    · split <;> exact ⟨rfl, rfl⟩

theorem pass_ok_of_id (self : Nat) (m m1 : machine) (hp : pass_ok self m)
    (h1 : m1.ts.state = m.ts.state) (h2 : m1.ts.shell_pid = m.ts.shell_pid)
    (h3 : m1.w = m.w) : pass_ok self m1 := by
  unfold pass_ok at hp ⊢
  rw [h1, h2, h3]
  exact hp

/-- A returning turn of a session keeps `pass_ok`, and leaves `atlas_ts` as it was or
sets it to the session itself. -/
theorem session_pass_pass_ok (BUFSIZE : Int) (env : sysenv) (self : Nat) (io : session_io)
    (m m1 : machine) (j : jump) (hp : pass_ok self m)
    (h : session_pass BUFSIZE env self io m = Except.ok (m1, j)) :
    pass_ok self m1 ∧ (m1.w.atlas_ts = m.w.atlas_ts ∨ m1.w.atlas_ts = some self) := by
  obtain ⟨ma, ja, hA, hrest⟩ := session_pass_cases BUFSIZE env self io m m1 j h
  have hA1 : ma.ts.state = m.ts.state ∧ ma.ts.shell_pid = m.ts.shell_pid ∧ ma.w = m.w := by
    split at hA
    · have hm := congrArg Prod.fst hA
      simp only at hm
      rw [hm]
      exact ⟨(drain_pty_id BUFSIZE m.ts m.ws io.pty_write).1,
        (drain_pty_id BUFSIZE m.ts m.ws io.pty_write).2, rfl⟩
    · cases hA
      exact ⟨rfl, rfl, rfl⟩
  obtain ⟨a1, a2, a3⟩ := hA1
  have hpa : pass_ok self ma := pass_ok_of_id self m ma hp a1 a2 a3
  rcases hrest with ⟨_, e, _⟩ | ⟨_, tsb, jb, hBs, hrest⟩
  · rw [e, a3]
    exact ⟨hpa, Or.inl rfl⟩
  have hB1 : tsb.state = ma.ts.state ∧ tsb.shell_pid = ma.ts.shell_pid := by
    split at hBs
    · have hm := congrArg Prod.fst hBs
      simp only at hm
      rw [hm]
      exact drain_sock_id BUFSIZE ma.ts io.sock_write
    · cases hBs
      exact ⟨rfl, rfl⟩
  rcases hrest with ⟨_, e, _⟩ | ⟨_, tsd, jd, hD, hrest⟩
  · rw [e]
    exact ⟨pass_ok_of_id self ma _ hpa hB1.1 hB1.2 rfl, Or.inl (congrArg world.atlas_ts a3)⟩
  have hD1 : tsd.state = ma.ts.state ∧ tsd.shell_pid = ma.ts.shell_pid := by
    obtain ⟨r1, r2⟩ := reset_cursors_id tsb
    split at hD
    · obtain ⟨d1, d2⟩ := read_sock_id BUFSIZE _ tsd io.sock_read jd hD
      exact ⟨d1.trans (r1.trans hB1.1), d2.trans (r2.trans hB1.2)⟩
    · cases hD
      exact ⟨r1.trans hB1.1, r2.trans hB1.2⟩
  have hpd : pass_ok self { ma with ts := tsd } :=
    pass_ok_of_id self ma _ hpa hD1.1 hD1.2 rfl
  rcases hrest with ⟨_, e, _⟩ | ⟨_, mp, jp, hP, hrest⟩
  · rw [e]
    exact ⟨hpd, Or.inl (congrArg world.atlas_ts a3)⟩
  obtain ⟨p1, p2⟩ := protocol_switch_pass_ok BUFSIZE env self _ _ mp jp hpd hP
  have p3 : mp.w.atlas_ts = m.w.atlas_ts ∨ mp.w.atlas_ts = some self := by
    rcases p2 with p2 | p2
    · left
      rw [p2, a3]
    · exact Or.inr p2
  rcases hrest with ⟨_, e, _⟩ | ⟨_, hF⟩
  · rw [e]
    exact ⟨p1, p3⟩
  split at hF
  · have hm := congrArg Prod.fst hF
    simp only at hm
    rw [hm]
    exact ⟨pass_ok_of_id self mp _ p1 (read_pty_id BUFSIZE mp.ts io.pty_read).1
      (read_pty_id BUFSIZE mp.ts io.pty_read).2 rfl, p3⟩
  · cases hF
    exact ⟨p1, p3⟩

theorem free_session_cases (inetd : Bool) (srv srv1 : server) (a : Nat)
    (h : free_session inetd srv a = Except.ok srv1) :
    srv1.sessions = srv.sessions.filter (fun e => e.addr ≠ a) ∧ srv1.w = srv.w := by
  unfold free_session at h
  split at h
  · cases h
  · cases h
    exact ⟨rfl, rfl⟩

/-- The outcomes of a returning `kill_session`: the session is unlinked; if it was the
holder, `atlas_ts` is cleared and the draft closed, otherwise the world is untouched. -/
theorem kill_session_cases (inetd : Bool) (srv srv1 : server) (a : Nat)
    (h : kill_session inetd srv a = Except.ok srv1) :
    srv1.sessions = srv.sessions.filter (fun e => e.addr ≠ a) ∧
    ((srv.w.atlas_ts = some a ∧ srv1.w.atlas_ts = none ∧ srv1.w.atlas_crontab = none) ∨
     (srv.w.atlas_ts ≠ some a ∧ srv1.w = srv.w)) := by
  unfold kill_session at h
  obtain ⟨h1, h2⟩ := free_session_cases inetd _ srv1 a h
  refine ⟨h1, ?_⟩
  rw [h2]
  simp only
  split
  · rename_i hh
    left
    refine ⟨hh, rfl, ?_⟩
    simp only
    split
    · rfl
    · rename_i hn
      simpa using hn
  · rename_i hh
    exact Or.inr ⟨hh, rfl⟩

/-- What the sweep leaves: the world, and the sessions at no address of a listed session
whose child has exited. -/
theorem sweep_cases (inetd : Bool) : ∀ (l : List entry) (srv srv1 : server),
    sweep inetd l srv = Except.ok srv1 →
    srv1.w = srv.w ∧
    ∀ x, x ∈ srv1.sessions ↔
      (x ∈ srv.sessions ∧ ∀ d ∈ l, d.ts.shell_pid = -1 → x.addr ≠ d.addr) := by
  intro l
  induction l with
  | nil =>
    intro srv srv1 h
    cases h
    exact ⟨rfl, fun x => ⟨fun hx => ⟨hx, fun d hd => by cases hd⟩, fun hx => hx.1⟩⟩
  | cons e rest ih =>
    intro srv srv1 h
    unfold sweep at h
    split at h
    · rename_i hdead
      split at h
      · cases h
      · rename_i srv2 hfree
        obtain ⟨f1, f2⟩ := free_session_cases inetd srv srv2 e.addr hfree
        obtain ⟨a1, a2⟩ := ih srv2 srv1 h
        refine ⟨a1.trans f2, fun x => ?_⟩
        rw [a2 x, f1, List.mem_filter]
        constructor
        · rintro ⟨⟨hx, hne⟩, hr⟩
          refine ⟨hx, fun d hd hdd => ?_⟩
          rcases List.mem_cons.mp hd with e1 | e1
          · rw [e1]
            simpa using hne
          · exact hr d e1 hdd
        · rintro ⟨hx, hr⟩
          exact ⟨⟨hx, by simpa using hr e (List.mem_cons_self _ _) hdead⟩,
            fun d hd hdd => hr d (List.mem_cons_of_mem _ hd) hdd⟩
    · rename_i hlive
      obtain ⟨a1, a2⟩ := ih srv srv1 h
      refine ⟨a1, fun x => ?_⟩
      rw [a2 x]
      constructor
      · rintro ⟨hx, hr⟩
        refine ⟨hx, fun d hd hdd => ?_⟩
        rcases List.mem_cons.mp hd with e1 | e1
        · rw [e1] at hdd
          exact absurd hdd hlive
        · exact hr d e1 hdd
      · rintro ⟨hx, hr⟩
        exact ⟨hx, fun d hd hdd => hr d (List.mem_cons_of_mem _ hd) hdd⟩

theorem mark_exited_mem (pid : Int) : ∀ (ss : List entry) (x : entry),
    x ∈ mark_exited pid ss →
    ∃ y ∈ ss, x.addr = y.addr ∧ x.ts.state = y.ts.state ∧
      (x.ts.shell_pid = y.ts.shell_pid ∨ y.ts.shell_pid = pid) := by
  intro ss
  induction ss with
  | nil => intro x hx; cases hx
  | cons e rest ih =>
    intro x hx
    unfold mark_exited at hx
    split at hx
    · rename_i hp
      rcases List.mem_cons.mp hx with e1 | e1
      · exact ⟨e, List.mem_cons_self _ _, by rw [e1], by rw [e1], Or.inr hp⟩
      · exact ⟨x, List.mem_cons_of_mem _ e1, rfl, rfl, Or.inl rfl⟩
    · rcases List.mem_cons.mp hx with e1 | e1
      · exact ⟨e, List.mem_cons_self _ _, by rw [e1], by rw [e1], Or.inl (by rw [e1])⟩
      · obtain ⟨y, hy, h1, h2, h3⟩ := ih x e1
        exact ⟨y, List.mem_cons_of_mem _ hy, h1, h2, h3⟩

theorem mark_exited_addr (pid : Int) : ∀ (ss : List entry) (y : entry),
    y ∈ ss → ∃ x ∈ mark_exited pid ss, x.addr = y.addr := by
  intro ss
  induction ss with
  | nil => intro y hy; cases hy
  | cons e rest ih =>
    intro y hy
    unfold mark_exited
    split
    · rcases List.mem_cons.mp hy with e1 | e1
      · exact ⟨_, List.mem_cons_self _ _, by rw [e1]⟩
      · exact ⟨y, List.mem_cons_of_mem _ e1, rfl⟩
    · rcases List.mem_cons.mp hy with e1 | e1
      · exact ⟨e, List.mem_cons_self _ _, by rw [e1]⟩
      · obtain ⟨x, hx, h1⟩ := ih y e1
        exact ⟨x, List.mem_cons_of_mem _ hx, h1⟩

theorem handle_sigchld_mem : ∀ (pids : List Int) (ss : List entry) (x : entry),
    x ∈ handle_sigchld pids ss →
    ∃ y ∈ ss, x.addr = y.addr ∧ x.ts.state = y.ts.state ∧
      (x.ts.shell_pid = y.ts.shell_pid ∨ 0 < y.ts.shell_pid) := by
  intro pids
  induction pids with
  | nil => intro ss x hx; exact ⟨x, hx, rfl, rfl, Or.inl rfl⟩
  | cons pid rest ih =>
    intro ss x hx
    unfold handle_sigchld at hx
    split at hx
    · exact ⟨x, hx, rfl, rfl, Or.inl rfl⟩
    · rename_i hpos
      obtain ⟨y, hy, h1, h2, h3⟩ := ih _ x hx
      obtain ⟨z, hz, g1, g2, g3⟩ := mark_exited_mem pid ss y hy
      refine ⟨z, hz, h1.trans g1, h2.trans g2, ?_⟩
      rcases g3 with g3 | g3
      · rcases h3 with h3 | h3
        · exact Or.inl (h3.trans g3)
        · exact Or.inr (by rw [← g3]; exact h3)
      · exact Or.inr (by rw [g3]; omega)

theorem handle_sigchld_addr : ∀ (pids : List Int) (ss : List entry) (y : entry),
    y ∈ ss → ∃ x ∈ handle_sigchld pids ss, x.addr = y.addr := by
  intro pids
  induction pids with
  | nil => intro ss y hy; exact ⟨y, hy, rfl⟩
  | cons pid rest ih =>
    intro ss y hy
    unfold handle_sigchld
    split
    · exact ⟨y, hy, rfl⟩
    · obtain ⟨z, hz, g1⟩ := mark_exited_addr pid ss y hy
      obtain ⟨x, hx, h1⟩ := ih _ z hz
      exact ⟨x, hx, h1.trans g1⟩

theorem accept_session_cases (BUFSIZE : Int) (env : sysenv) (srv srv1 : server) (addr : Nat)
    (fd : Int) (h : accept_session BUFSIZE env srv addr fd = Except.ok srv1) :
    srv1.w = srv.w ∧
    ∃ ts ws, srv1.sessions = { addr := addr, ts := ts, ws := ws } :: srv.sessions ∧
      ts.state = state.GET_LOGINNAME ∧ ts.shell_pid = 0 := by
  unfold accept_session at h
  simp only at h
  split at h
  · cases h
  · rename_i ts1 h1
    split at h
    · cases h
    · rename_i ts2 h2
      split at h
      · cases h
      · rename_i ts3 h3
        cases h
        obtain ⟨a1, a2, _⟩ := add_2sock_side1 BUFSIZE _ ts1 _ h1
        obtain ⟨b1, b2, _⟩ := add_2sock_side1 BUFSIZE _ ts2 _ h2
        obtain ⟨c1, c2, _⟩ := add_2sock_side1 BUFSIZE _ ts3 _ h3
        exact ⟨rfl, ts3, _, rfl, c1.trans (b1.trans a1), c2.trans (b2.trans a2)⟩

theorem registry_ok_boot (inetd : Bool) (addr : Nat) (fs : fsys) :
    registry_ok (boot inetd addr fs) := by
  refine ⟨fun e he _ => ?_, fun a ha => (by cases ha), fun e _ ha => (by cases ha)⟩
  unfold boot at he
  simp only at he
  split at he
  · rw [List.mem_singleton.mp he]
    rfl
  · cases he

theorem registry_ok_sigchld (srv : server) (pids : List Int) (h : registry_ok srv) :
    registry_ok { srv with sessions := handle_sigchld pids srv.sessions } := by
  obtain ⟨h1, h2, h3⟩ := h
  refine ⟨fun x hx hst => ?_, fun a ha => ?_, fun x hx ha => ?_⟩
  · obtain ⟨y, hy, _, g2, g3⟩ := handle_sigchld_mem pids srv.sessions x hx
    have hy0 := h1 y hy (by rw [← g2]; exact hst)
    rcases g3 with g3 | g3
    · exact g3.trans hy0
    · omega
  · obtain ⟨y, hy, e⟩ := h2 a ha
    obtain ⟨x, hx, e1⟩ := handle_sigchld_addr pids srv.sessions y hy
    exact ⟨x, hx, e1.trans e⟩
  · obtain ⟨y, hy, g1, g2, _⟩ := handle_sigchld_mem pids srv.sessions x hx
    rw [g2]
    exact h3 y hy (by rw [← g1]; exact ha)

/-- The sweep of exited children never removes the holder. -/
theorem registry_ok_sweep (inetd : Bool) (srv srv1 : server) (h : registry_ok srv)
    (hs : sweep inetd srv.sessions srv = Except.ok srv1) : registry_ok srv1 := by
  obtain ⟨h1, h2, h3⟩ := h
  obtain ⟨a1, a2⟩ := sweep_cases inetd srv.sessions srv srv1 hs
  refine ⟨fun x hx hst => h1 x ((a2 x).mp hx).1 hst, fun a ha => ?_, fun x hx ha => ?_⟩
  · rw [a1] at ha
    obtain ⟨y, hy, e⟩ := h2 a ha
    refine ⟨y, (a2 y).mpr ⟨hy, fun d hd hdd hne => ?_⟩, e⟩
    have hadm := h3 d hd (by rw [← hne, e]; exact ha)
    have hd0 := h1 d hd (fun hst => by rw [hst] at hadm; exact absurd hadm (by decide))
    omega
  · rw [a1] at ha
    exact h3 x ((a2 x).mp hx).1 ha

theorem registry_ok_accept (BUFSIZE : Int) (env : sysenv) (srv srv1 : server) (addr : Nat)
    (fd : Int) (h : registry_ok srv) (hfresh : ∀ e ∈ srv.sessions, e.addr ≠ addr)
    (ha : accept_session BUFSIZE env srv addr fd = Except.ok srv1) : registry_ok srv1 := by
  obtain ⟨h1, h2, h3⟩ := h
  obtain ⟨a1, ts, ws, a2, a3, a4⟩ := accept_session_cases BUFSIZE env srv srv1 addr fd ha
  rw [registry_ok, a1, a2]
  refine ⟨fun x hx hst => ?_, fun a hat => ?_, fun x hx hat => ?_⟩
  · rcases List.mem_cons.mp hx with e | e
    · rw [e]
      exact a4
    · exact h1 x e hst
  · obtain ⟨y, hy, e⟩ := h2 a hat
    exact ⟨y, List.mem_cons_of_mem _ hy, e⟩
  · rcases List.mem_cons.mp hx with e | e
    · rw [e] at hat
      obtain ⟨y, hy, e1⟩ := h2 _ hat
      exact absurd e1 (hfresh y hy)
    · exact h3 x e hat

/-- A turn of a listed session keeps the registry invariant, whether the session stays
or is killed. -/
theorem registry_ok_serve (BUFSIZE : Int) (env : sysenv) (inetd : Bool) (io : session_io)
    (srv srv1 : server) (e : entry) (h : registry_ok srv) (he : e ∈ srv.sessions)
    (hs : serve_session BUFSIZE env inetd io srv e = Except.ok srv1) : registry_ok srv1 := by
  obtain ⟨h1, h2, h3⟩ := h
  have hp : pass_ok e.addr { ts := e.ts, w := srv.w, ws := e.ws } := ⟨h1 e he, h3 e he⟩
  unfold serve_session at hs
  split at hs
  · cases hs
  · rename_i m hpass
    cases hs
    obtain ⟨⟨p1, p2⟩, p3⟩ := session_pass_pass_ok BUFSIZE env e.addr io _ m _ hp hpass
    simp only at p3
    refine ⟨fun x hx hst => ?_, fun a ha => ?_, fun x hx ha => ?_⟩
    · simp only [List.mem_map] at hx
      obtain ⟨y, hy, e1⟩ := hx
      split at e1
      · rw [← e1] at hst ⊢
        exact p1 hst
      · rw [← e1] at hst ⊢
        exact h1 y hy hst
    · simp only at ha
      simp only [List.mem_map]
      rcases p3 with p3 | p3
      · rw [p3] at ha
        obtain ⟨y, hy, e1⟩ := h2 a ha
        by_cases hya : y.addr = e.addr
        · exact ⟨_, ⟨y, hy, rfl⟩, by rw [if_pos hya]; exact e1⟩
        · exact ⟨_, ⟨y, hy, rfl⟩, by rw [if_neg hya]; exact e1⟩
      · rw [p3] at ha
        cases ha
        exact ⟨_, ⟨e, he, rfl⟩, by simp only [if_true]⟩
    · simp only at ha
      simp only [List.mem_map] at hx
      obtain ⟨y, hy, e1⟩ := hx
      split at e1
      · rename_i hya
        rw [← e1] at ha ⊢
        exact p2 (by simpa [hya] using ha)
      · rename_i hya
        rw [← e1] at ha ⊢
        rcases p3 with p3 | p3
        · exact h3 y hy (by rw [← p3]; exact ha)
        · rw [p3] at ha
          exact absurd (Option.some.inj ha).symm hya
  · rename_i m hpass
    obtain ⟨⟨p1, p2⟩, p3⟩ := session_pass_pass_ok BUFSIZE env e.addr io _ m _ hp hpass
    simp only at p3
    obtain ⟨k1, k2⟩ := kill_session_cases inetd _ srv1 e.addr hs
    simp only at k1 k2
    refine ⟨fun x hx hst => ?_, fun a ha => ?_, fun x hx ha => ?_⟩
    · rw [k1] at hx
      exact h1 x (List.mem_filter.mp hx).1 hst
    · rcases k2 with ⟨_, k3, _⟩ | ⟨k3, k4⟩
      · rw [k3] at ha
        cases ha
      · rw [k4] at ha
        rcases p3 with p3 | p3
        · have hne : a ≠ e.addr := fun hae => k3 (by rw [← hae]; exact ha)
          rw [p3] at ha
          obtain ⟨y, hy, e1⟩ := h2 a ha
          refine ⟨y, ?_, e1⟩
          rw [k1]
          exact List.mem_filter.mpr ⟨hy, by simpa [e1] using hne⟩
        · exact absurd p3 k3
    · rw [k1] at hx
      rcases k2 with ⟨_, k3, _⟩ | ⟨k3, k4⟩
      · rw [k3] at ha
        cases ha
      · rw [k4] at ha
        rcases p3 with p3 | p3
        · exact h3 x (List.mem_filter.mp hx).1 (by rw [← p3]; exact ha)
        · exact absurd p3 k3

theorem reachable_registry_ok (BUFSIZE : Int) (env : sysenv) (inetd : Bool) (srv : server)
    (h : reachable BUFSIZE env inetd srv) : registry_ok srv := by
  induction h with
  | boot addr fs => exact registry_ok_boot inetd addr fs
  | sigchld srv pids _ ih => exact registry_ok_sigchld srv pids ih
  | sweep srv srv1 _ hs ih => exact registry_ok_sweep inetd srv srv1 ih hs
  | accept srv srv1 addr fd _ hf ha ih =>
    exact registry_ok_accept BUFSIZE env srv srv1 addr fd ih hf ha
  | serve srv srv1 e io _ he hs ih =>
    exact registry_ok_serve BUFSIZE env inetd io srv srv1 e ih he hs

/-- The holder on the paths with a defined outcome: in every state the process reaches
between two steps of the event loop, a holder recorded in `atlas_ts` is a session of the
registry. Two facts carry this.
`kill_session`, the way out of every turn that ends a session (write or read failure,
end of file, stale phase), clears `atlas_ts` and closes the draft when the session it
unlinks is the holder. The sweep of exited children unlinks without that check, but it
never meets the holder: only a session in DO_TRADITIONAL has a child, and the holder is
past the password check. (A failed `start_login` leaves no state to speak of: the record
is freed twice.) -/
theorem holder_registered (BUFSIZE : Int) (env : sysenv) (inetd : Bool) (srv : server)
    (h : reachable BUFSIZE env inetd srv) :
    (∀ a, srv.w.atlas_ts = some a → ∃ e ∈ srv.sessions, e.addr = a) ∧
    (∀ (srv0 srv1 : server) (a : Nat), kill_session inetd srv0 a = Except.ok srv1 →
      (∀ x ∈ srv1.sessions, x.addr ≠ a) ∧
      (srv0.w.atlas_ts = some a → srv1.w.atlas_ts = none ∧ srv1.w.atlas_crontab = none)) ∧
    (∀ srv1, sweep inetd srv.sessions srv = Except.ok srv1 →
      srv1.w = srv.w ∧ ∀ a, srv1.w.atlas_ts = some a → ∃ e ∈ srv1.sessions, e.addr = a) := by
  have hr := reachable_registry_ok BUFSIZE env inetd srv h
  refine ⟨hr.2.1, fun srv0 srv1 a hk => ?_, fun srv1 hs => ?_⟩
  · obtain ⟨k1, k2⟩ := kill_session_cases inetd srv0 srv1 a hk
    refine ⟨fun x hx => ?_, fun ha => ?_⟩
    · rw [k1] at hx
      simpa using (List.mem_filter.mp hx).2
    · rcases k2 with ⟨_, k3, k4⟩ | ⟨k3, _⟩
      · exact ⟨k3, k4⟩
      · exact absurd ha k3
  · exact ⟨(sweep_cases inetd srv.sessions srv srv1 hs).1,
      (registry_ok_sweep inetd srv srv1 hr hs).2.1⟩

/-- The holder on an example: from boot in standalone mode a connection is accepted at
address 1, and in its first turn the socket delivers the login token and the password; the
state reached has the session at address 1 as holder, and it is in the registry. -/
theorem holder_registered_witness :
    ∃ srv, reachable 2020 env_ok false srv ∧ srv.w.atlas_ts = some 1 ∧
      ∃ e ∈ srv.sessions, e.addr = 1 := by
  have h0 := @reachable.boot 2020 env_ok false 0 ⟨fun _ => none⟩
  have h1 := @reachable.accept 2020 env_ok false _ _ 1 4 h0 (fun e he => by cases he) rfl
  have h2 := @reachable.serve 2020 env_ok false _ _ _
    (io_received (bytes "C_TO_P_TEST_V1\rvuurwerk19\r")) h1 (List.mem_cons_self _ _) rfl
  exact ⟨_, h2, rfl, (holder_registered 2020 env_ok false _ h2).1 1 rfl⟩

end Telnetd

/-! ## Compaction when the low part fits below the high part -/

namespace Telnetd

/-- When the occupied bytes are no more than `wridx1`, the first `memmove` of `pack_2pty`
lands below the high part, and the compaction keeps the logical content of buffer A. -/
theorem pack_2pty_content (BUFSIZE : Int) (ts : tsession)
    (hw : 0 ≤ ts.wridx1 ∧ ts.wridx1 < BUFSIZE) (hs : ts.size1 ≤ BUFSIZE)
    (hwrap : ts.wridx1 + ts.size1 > BUFSIZE) (hfit : ts.size1 ≤ ts.wridx1) :
    pack_2pty BUFSIZE ts = Except.ok (packed BUFSIZE ts) ∧
    content1 BUFSIZE (packed BUFSIZE ts) = content1 BUFSIZE ts ∧
    (packed BUFSIZE ts).wridx1 = 0 ∧ (packed BUFSIZE ts).rdidx1 = ts.size1 ∧
    (packed BUFSIZE ts).size1 = ts.size1 := by
  refine ⟨pack_2pty_ok BUFSIZE ts (by omega) (by omega) (by omega), ?_, rfl, rfl, rfl⟩
  unfold content1 packed
  simp only
  refine List.map_congr_left fun k hk => ?_
  have hk1 := List.mem_range.mp hk
  have hk2 : (k : Int) < ts.size1 := by omega
  rw [Int.zero_add, Int.emod_eq_of_lt (by omega) (by omega)]
  unfold memmove
  by_cases hlo : (k : Int) < BUFSIZE - ts.wridx1
  · rw [if_pos ⟨by omega, by omega⟩, if_neg (by omega),
      Int.emod_eq_of_lt (by omega) (by omega)]
    congr 1
    omega
  · rw [if_neg (by omega), if_pos ⟨by omega, by omega⟩, emod_wrap _ _ (by omega) (by omega),
      if_neg (by omega)]
    congr 1
    omega

end Telnetd

/-! ## A line from a buffer A that does not wrap -/

namespace Telnetd

/-- The logical content of a buffer A that does not wrap is what lies from `wridx1`. -/
theorem content1_contiguous (BUFSIZE : Int) (ts : tsession) (hw : 0 ≤ ts.wridx1)
    (hfit : ts.wridx1 + ts.size1 ≤ BUFSIZE) :
    content1 BUFSIZE ts = peek ts.buf1 ts.wridx1 ts.size1.toNat := by
  unfold content1 peek
  refine List.map_congr_left fun k hk => ?_
  have := List.mem_range.mp hk
  rw [Int.emod_eq_of_lt (by omega) (by omega)]

/-- C21: on a buffer A whose occupied region does not wrap, with content `c`. If `c` has
neither CR nor LF, `getline_2pty` returns no line and the session is as it was. If `c` is
a line `ln` without CR, LF and NUL, then a terminator CR or LF, then `rest`, it returns
exactly `ln`, `wridx1` goes up and `size1` down by the length of `ln` plus one, and the
content left is `rest`; `rdidx1`, the phase and buffer B are untouched. -/
theorem getline_2pty_contiguous (BUFSIZE : Int) (ts : tsession) (hw : 0 ≤ ts.wridx1)
    (hs : 0 ≤ ts.size1) (hfit : ts.wridx1 + ts.size1 ≤ BUFSIZE) :
    ((∀ x ∈ content1 BUFSIZE ts, x ≠ CR ∧ x ≠ LF) →
      getline_2pty BUFSIZE ts = Except.ok (ts, none)) ∧
    (∀ (ln rest : List Nat) (t : Nat), content1 BUFSIZE ts = ln ++ t :: rest →
      (t = CR ∨ t = LF) → line_clean ln →
      ∃ ts1, getline_2pty BUFSIZE ts = Except.ok (ts1, some ln) ∧
        ts1.wridx1 = ts.wridx1 + (ln.length + 1) ∧
        ts1.size1 = ts.size1 - (ln.length + 1) ∧
        content1 BUFSIZE ts1 = rest ∧ ts1.rdidx1 = ts.rdidx1 ∧ same_side2 ts1 ts) := by
  have hc := content1_contiguous BUFSIZE ts hw hfit
  refine ⟨fun hno => ?_, fun ln rest t hcont ht hclean => ?_⟩
  · rw [hc] at hno
    have hm : ∀ c, c = CR ∨ c = LF → memchr ts.buf1 ts.wridx1 c ts.size1.toNat = none := by
      intro c hcc
      refine memchr_none _ _ _ _ fun i hi h => ?_
      have hmem : ts.buf1 (ts.wridx1 + i) ∈ peek ts.buf1 ts.wridx1 ts.size1.toNat := by
        unfold peek
        exact List.mem_map.mpr ⟨i, List.mem_range.mpr hi, rfl⟩
      have := hno _ hmem
      rw [h] at this
      rcases hcc with e | e
      · exact this.1 e
      · exact this.2 e
    unfold getline_2pty
    have hfit1 : ¬ ts.wridx1 + ts.size1 > BUFSIZE := by omega
    simp only [hfit1, if_false, hm CR (Or.inl rfl), hm LF (Or.inr rfl)]
  · rw [hc] at hcont
    have hlen : ts.size1.toNat = ln.length + 1 + rest.length := by
      have := congrArg List.length hcont
      rw [peek_length] at this
      simp only [List.length_append, List.length_cons] at this
      omega
    have hsz : (ln.length : Int) + 1 ≤ ts.size1 := by omega
    have hbuf : peek ts.buf1 ts.wridx1 (ln.length + 1) = ln ++ [t] := by
      rw [peek_take _ _ (ln.length + 1) rest.length, ← hlen, hcont,
        show ln ++ t :: rest = (ln ++ [t]) ++ rest by simp, List.take_left' (by simp)]
    refine ⟨_, getline_2pty_line BUFSIZE ts ln t hfit hsz hbuf ht hclean, rfl, rfl, ?_, rfl,
      ⟨rfl, rfl, rfl, rfl, rfl, rfl, rfl, rfl, rfl⟩⟩
    rw [content1_contiguous BUFSIZE _ (by simp only; omega) (by simp only; omega)]
    simp only
    have hn : (ts.size1 - ((ln.length : Int) + 1)).toNat = rest.length := by omega
    rw [hn]
    have hdrop : peek ts.buf1 (ts.wridx1 + ((ln.length : Int) + 1)) rest.length = rest := by
      have := peek_drop ts.buf1 ts.wridx1 (ln.length + 1) rest.length
      rw [← hlen, hcont, show ln ++ t :: rest = (ln ++ [t]) ++ rest by simp,
        List.drop_left' (by simp)] at this
      push_cast at this
      exact this
    refine (peek_congr _ _ _ _ fun j hj _ => ?_).trans hdrop
    split
    · unfold poke
      rw [if_neg (by omega)]
    · rfl

/-- C21 on an example: `ab`, LF, `c` from offset 3; the line is `ab`, the content left
is `c`. -/
theorem getline_2pty_contiguous_witness :
    ((0 : Int) ≤ 3 ∧ (0 : Int) ≤ 4 ∧ (3 : Int) + 4 ≤ 2020) ∧
    content1 2020 { session_with state.GET_CMD [] 7 3 4 with
        buf1 := buf_of [0, 0, 0, 97, 98, 10, 99] } = [97, 98] ++ 10 :: [99] ∧
    ∃ ts1, getline_2pty 2020 { session_with state.GET_CMD [] 7 3 4 with
        buf1 := buf_of [0, 0, 0, 97, 98, 10, 99] } = Except.ok (ts1, some [97, 98]) ∧
      ts1.wridx1 = 3 + (([97, 98] : List Nat).length + 1) ∧
      ts1.size1 = 4 - (([97, 98] : List Nat).length + 1) ∧
      content1 2020 ts1 = [99] := by
  refine ⟨by decide, by decide, ?_⟩
  obtain ⟨ts1, h1, h2, h3, h4, _⟩ := (getline_2pty_contiguous 2020
    { session_with state.GET_CMD [] 7 3 4 with buf1 := buf_of [0, 0, 0, 97, 98, 10, 99] }
    (by decide) (by decide) (by decide)).2 [97, 98] [99] 10 (by decide) (Or.inr rfl)
    (by decide)
  exact ⟨ts1, h1, h2, h3, h4⟩

end Telnetd

/-! ## The counts of remove_iacs -/

namespace Telnetd

/-- The loop of `remove_iacs` as the function runs it, and what the function returns in
terms of the loop's last state: `num_totty` is what `totty` gained, and the returned
region ends where the scan ended. -/
theorem remove_iacs_scan (BUFSIZE : Int) (ts : tsession) (ws : winsize) :
    (remove_iacs BUFSIZE ts ws).num_totty
      = (remove_iacs_loop (scan_end BUFSIZE ts) (scan_end BUFSIZE ts - ts.wridx1).toNat
          (scan_start ts ws)).totty - ts.wridx1 ∧
    (remove_iacs BUFSIZE ts ws).ptr + (remove_iacs BUFSIZE ts ws).num_totty
      = (remove_iacs_loop (scan_end BUFSIZE ts) (scan_end BUFSIZE ts - ts.wridx1).toNat
          (scan_start ts ws)).ptr := by
  unfold remove_iacs scan_end scan_start
  simp only
  split
  · refine ⟨rfl, ?_⟩
    simp only
    omega
  · refine ⟨rfl, ?_⟩
    simp only
    omega

/-- C25: from a buffer A within the ring bounds, with `consumed` the bytes the scan of
`remove_iacs` went over (its last `ptr` minus `wridx1`): `num_totty` is at least 0 and at
most the length of the scanned span; the returned region starts at the new `wridx1` and
ends inside the buffer; `num_totty` is at most the new `size1`; `size1` has gone down,
and `wridx1` up, by exactly `consumed - num_totty`. -/
theorem remove_iacs_counts (BUFSIZE : Int) (ts : tsession) (ws : winsize)
    (hb : ring_bounds BUFSIZE ts) :
    0 ≤ (remove_iacs BUFSIZE ts ws).num_totty ∧
    (remove_iacs BUFSIZE ts ws).num_totty ≤ (scanned_span BUFSIZE ts).length ∧
    (remove_iacs BUFSIZE ts ws).ptr = (remove_iacs BUFSIZE ts ws).ts.wridx1 ∧
    (remove_iacs BUFSIZE ts ws).ts.wridx1 + (remove_iacs BUFSIZE ts ws).num_totty ≤ BUFSIZE ∧
    (remove_iacs BUFSIZE ts ws).num_totty ≤ (remove_iacs BUFSIZE ts ws).ts.size1 ∧
    ts.size1 - (remove_iacs BUFSIZE ts ws).ts.size1
      = ((remove_iacs_loop (scan_end BUFSIZE ts) (scan_end BUFSIZE ts - ts.wridx1).toNat
          (scan_start ts ws)).ptr - ts.wridx1) - (remove_iacs BUFSIZE ts ws).num_totty ∧
    (remove_iacs BUFSIZE ts ws).ts.wridx1 - ts.wridx1
      = ((remove_iacs_loop (scan_end BUFSIZE ts) (scan_end BUFSIZE ts - ts.wridx1).toNat
          (scan_start ts ws)).ptr - ts.wridx1) - (remove_iacs BUFSIZE ts ws).num_totty := by
  obtain ⟨⟨hs0, hs1⟩, _, ⟨hw0, hw1⟩, _⟩ := hb
  obtain ⟨b1, b2, b3, b4, b5, b6, b7, _⟩ :=
    remove_iacs_bounds BUFSIZE ts ws hs0 ⟨hw0, by omega⟩
  obtain ⟨_, c2⟩ := remove_iacs_scan BUFSIZE ts ws
  have hmin0 : 0 ≤ min (BUFSIZE - ts.wridx1) ts.size1 := by omega
  have hmin1 : min (BUFSIZE - ts.wridx1) ts.size1 ≤ BUFSIZE - ts.wridx1 := min_le_left _ _
  have hlen : ((scanned_span BUFSIZE ts).length : Int) = min (BUFSIZE - ts.wridx1) ts.size1 := by
    unfold scanned_span
    rw [peek_length]
    exact Int.toNat_of_nonneg hmin0
  rw [← c2, hlen]
  generalize min (BUFSIZE - ts.wridx1) ts.size1 = mn at *
  refine ⟨b1, by omega, b2.symm, by omega, b5, by omega, by omega⟩

/-- C25 on an example: `a`, IAC NOP, CR LF, `b` from offset 0: six bytes consumed, three
emitted. -/
theorem remove_iacs_counts_witness :
    ring_bounds 2020 (session_with state.DO_TRADITIONAL [97, 255, 241, 13, 10, 98] 6 0 6) ∧
    (remove_iacs 2020 (session_with state.DO_TRADITIONAL [97, 255, 241, 13, 10, 98] 6 0 6)
      ⟨24, 80⟩).num_totty = 3 ∧
    (remove_iacs 2020 (session_with state.DO_TRADITIONAL [97, 255, 241, 13, 10, 98] 6 0 6)
      ⟨24, 80⟩).ts.size1 = 3 ∧
    (remove_iacs 2020 (session_with state.DO_TRADITIONAL [97, 255, 241, 13, 10, 98] 6 0 6)
      ⟨24, 80⟩).num_totty
      ≤ (remove_iacs 2020 (session_with state.DO_TRADITIONAL [97, 255, 241, 13, 10, 98] 6 0 6)
        ⟨24, 80⟩).ts.size1 :=
  ⟨by decide, by decide, by decide,
   (remove_iacs_counts 2020
      (session_with state.DO_TRADITIONAL [97, 255, 241, 13, 10, 98] 6 0 6) ⟨24, 80⟩
      (by decide)).2.2.2.2.1⟩

end Telnetd

/-! ## Running the filter twice -/

namespace Telnetd

/-- C24, as the code has it: let the first run of `remove_iacs` go over its whole span
(no sequence is cut by the end of the span), and let the bytes it returns hold no 0xFF
and no CR followed by LF or NUL. Then a second run, on the session as the first run left
it, scans exactly those bytes, returns the same bytes in the same place, and removes
nothing: `size1` and `wridx1` stay as the first run left them. -/
theorem remove_iacs_twice (BUFSIZE : Int) (ts : tsession) (ws : winsize)
    (hs : 0 ≤ ts.size1) (hw : 0 ≤ ts.wridx1 ∧ ts.wridx1 ≤ BUFSIZE)
    (hdone : (remove_iacs BUFSIZE ts ws).ptr + (remove_iacs BUFSIZE ts ws).num_totty
      = scan_end BUFSIZE ts)
    (hiac : IAC ∉ (remove_iacs BUFSIZE ts ws).totty)
    (hcr : collapse_cr (remove_iacs BUFSIZE ts ws).totty = (remove_iacs BUFSIZE ts ws).totty) :
    scanned_span BUFSIZE (remove_iacs BUFSIZE ts ws).ts = (remove_iacs BUFSIZE ts ws).totty ∧
    (remove_iacs BUFSIZE (remove_iacs BUFSIZE ts ws).ts (remove_iacs BUFSIZE ts ws).ws).totty
      = (remove_iacs BUFSIZE ts ws).totty ∧
    (remove_iacs BUFSIZE (remove_iacs BUFSIZE ts ws).ts (remove_iacs BUFSIZE ts ws).ws).ptr
      = (remove_iacs BUFSIZE ts ws).ptr ∧
    (remove_iacs BUFSIZE (remove_iacs BUFSIZE ts ws).ts
        (remove_iacs BUFSIZE ts ws).ws).ts.size1
      = (remove_iacs BUFSIZE ts ws).ts.size1 ∧
    (remove_iacs BUFSIZE (remove_iacs BUFSIZE ts ws).ts
        (remove_iacs BUFSIZE ts ws).ws).ts.wridx1
      = (remove_iacs BUFSIZE ts ws).ts.wridx1 := by
  obtain ⟨b1, b2, b3, b4, b5, b6, b7, _⟩ := remove_iacs_bounds BUFSIZE ts ws hs hw
  have he : scan_end BUFSIZE ts = ts.wridx1 + min (BUFSIZE - ts.wridx1) ts.size1 := rfl
  rw [he] at hdone
  have hmin1 : min (BUFSIZE - ts.wridx1) ts.size1 ≤ BUFSIZE - ts.wridx1 := min_le_left _ _
  have hmin2 : min (BUFSIZE - ts.wridx1) ts.size1 ≤ ts.size1 := min_le_right _ _
  have hmin3 : min (BUFSIZE - ts.wridx1) ts.size1 = BUFSIZE - ts.wridx1 ∨
      min (BUFSIZE - ts.wridx1) ts.size1 = ts.size1 := by
    rcases le_total (BUFSIZE - ts.wridx1) ts.size1 with h | h
    · exact Or.inl (min_eq_left h)
    · exact Or.inr (min_eq_right h)
  generalize min (BUFSIZE - ts.wridx1) ts.size1 = mn at *
  generalize hr : remove_iacs BUFSIZE ts ws = r at *
  have hspan : scanned_span BUFSIZE r.ts = r.totty := by
    unfold scanned_span iacs_result.totty
    have hm : min (BUFSIZE - r.ts.wridx1) r.ts.size1 = r.num_totty := by
      rcases hmin3 with h | h
      · rw [min_eq_left (by omega)]
        omega
      · rw [min_eq_right (by omega)]
        omega
    rw [hm, b2]
  obtain ⟨p1, p2, p3, p4, _⟩ := remove_iacs_plain BUFSIZE r.ts r.ws (by rw [hspan]; exact hiac)
  rw [hspan, hcr] at p2
  rw [hspan, hcr] at p3
  have hlen : ((r.totty).length : Int) = r.num_totty := by
    unfold iacs_result.totty
    rw [peek_length]
    exact Int.toNat_of_nonneg b1
  have hn2 : 0 ≤ (remove_iacs BUFSIZE r.ts r.ws).num_totty :=
    (remove_iacs_bounds BUFSIZE r.ts r.ws (by omega) ⟨by omega, by omega⟩).1
  have hlen2 : (((remove_iacs BUFSIZE r.ts r.ws).totty).length : Int)
      = (remove_iacs BUFSIZE r.ts r.ws).num_totty := by
    unfold iacs_result.totty
    rw [peek_length]
    exact Int.toNat_of_nonneg hn2
  rw [p2, hlen] at hlen2
  rw [hspan, hlen] at p1
  refine ⟨hspan, p2, by omega, by omega, by omega⟩

/-- C24 on an example: `a`, IAC NOP, `b` is filtered to `ab`, and a second run over `ab`
returns `ab` again. -/
theorem remove_iacs_twice_witness :
    (remove_iacs 2020 (session_with state.GET_LOGINNAME [97, 255, 241, 98] 4 0 4)
      ⟨24, 80⟩).totty = [97, 98] ∧
    (remove_iacs 2020
      (remove_iacs 2020 (session_with state.GET_LOGINNAME [97, 255, 241, 98] 4 0 4)
        ⟨24, 80⟩).ts
      (remove_iacs 2020 (session_with state.GET_LOGINNAME [97, 255, 241, 98] 4 0 4)
        ⟨24, 80⟩).ws).totty
      = (remove_iacs 2020 (session_with state.GET_LOGINNAME [97, 255, 241, 98] 4 0 4)
        ⟨24, 80⟩).totty :=
  ⟨by decide,
   (remove_iacs_twice 2020 (session_with state.GET_LOGINNAME [97, 255, 241, 98] 4 0 4)
      ⟨24, 80⟩ (by decide) (by decide) (by decide) (by decide) (by decide)).2.1⟩

/-- C24 as stated fails. The span IAC IAC `a` `b` has no cut sequence and is filtered to
0xFF `a` `b`; a second run takes these three bytes for an option, returns nothing and
removes all three. So in GET_LOGINNAME: a first pass leaves 0xFF `a` `b` waiting for
their CR, and a second pass, with nothing new received, leaves buffer A empty. The span
CR LF LF is filtered to CR LF, and a second run returns CR alone. -/
theorem remove_iacs_twice_differs :
    ((remove_iacs 2020 (session_with state.GET_LOGINNAME [255, 255, 97, 98] 4 0 4)
        ⟨24, 80⟩).totty = [255, 97, 98] ∧
      (remove_iacs 2020 (session_with state.GET_LOGINNAME [255, 255, 97, 98] 4 0 4)
        ⟨24, 80⟩).ptr
        + (remove_iacs 2020 (session_with state.GET_LOGINNAME [255, 255, 97, 98] 4 0 4)
          ⟨24, 80⟩).num_totty
        = scan_end 2020 (session_with state.GET_LOGINNAME [255, 255, 97, 98] 4 0 4) ∧
      (remove_iacs 2020
        (remove_iacs 2020 (session_with state.GET_LOGINNAME [255, 255, 97, 98] 4 0 4)
          ⟨24, 80⟩).ts ⟨24, 80⟩).totty = [] ∧
      (remove_iacs 2020
        (remove_iacs 2020 (session_with state.GET_LOGINNAME [255, 255, 97, 98] 4 0 4)
          ⟨24, 80⟩).ts ⟨24, 80⟩).ts.size1 = 0) ∧
    (∃ m1 m2, dispatch 2020 env_ok 1
          { ts := session_with state.GET_LOGINNAME [255, 255, 97, 98] 4 0 4,
            w := world_idle, ws := ⟨24, 80⟩ } = Except.ok (m1, target.skip3a) ∧
        content1 2020 m1.ts = [255, 97, 98] ∧
        dispatch 2020 env_ok 1 m1 = Except.ok (m2, target.skip3a) ∧
        content1 2020 m2.ts = []) ∧
    ((remove_iacs 2020 (session_with state.GET_LOGINNAME [13, 10, 10] 3 0 3)
        ⟨24, 80⟩).totty = [13, 10] ∧
      (remove_iacs 2020
        (remove_iacs 2020 (session_with state.GET_LOGINNAME [13, 10, 10] 3 0 3)
          ⟨24, 80⟩).ts ⟨24, 80⟩).totty = [13]) :=
  ⟨⟨by decide, by decide, by decide, by decide⟩,
   ⟨_, _, rfl, by decide, rfl, by decide⟩,
   ⟨by decide, by decide⟩⟩

end Telnetd

/-! ## The session-id check -/

namespace Telnetd

theorem fgets_bytes_line : ∀ (n : Nat) (pre rest : List Nat), LF ∉ pre → pre.length < n →
    fgets_bytes n (pre ++ LF :: rest) = pre ++ [LF] := by
  intro n pre
  induction pre generalizing n with
  | nil =>
    intro rest _ hn
    cases n with
    | zero => omega
    | succ n => simp [fgets_bytes]
  | cons c pre ih =>
    intro rest hno hn
    cases n with
    | zero => simp at hn
    | succ n =>
      have hc : c ≠ LF := fun h => hno (by rw [h]; exact List.mem_cons_self _ _)
      have hpre : LF ∉ pre := fun h => hno (List.mem_cons_of_mem _ h)
      simp only [List.cons_append, fgets_bytes, hc, if_false, List.cons.injEq, true_and]
      exact ih n rest hpre (by simpa using hn)

theorem fgets_bytes_newline : ∀ (n : Nat) (content : List Nat), LF ∈ fgets_bytes n content →
    ∃ pre rest, content = pre ++ LF :: rest ∧ LF ∉ pre ∧ pre.length < n ∧
      fgets_bytes n content = pre ++ [LF] := by
  intro n
  induction n with
  | zero =>
    intro content h
    simp [fgets_bytes] at h
  | succ n ih =>
    intro content h
    cases content with
    | nil => simp [fgets_bytes] at h
    | cons c rest =>
      by_cases hc : c = LF
      · subst hc
        exact ⟨[], rest, rfl, by simp, by simp, by simp [fgets_bytes]⟩
      · simp only [fgets_bytes, hc, if_false, List.mem_cons] at h
        rcases h with h | h
        · exact absurd h.symm hc
        · obtain ⟨pre, rest1, e1, e2, e3, e4⟩ := ih rest h
          refine ⟨c :: pre, rest1, by rw [e1]; rfl, ?_, by simpa using e3, ?_⟩
          · intro hm
            rcases List.mem_cons.mp hm with e | e
            · exact hc e.symm
            · exact e2 e
          · simp only [fgets_bytes, hc, if_false, e4, List.cons_append]

theorem cstr_no_nul (l : List Nat) (h : NUL ∉ l) : cstr l = l := by
  unfold cstr
  rw [List.takeWhile_eq_self_iff]
  intro x hx
  simp only [decide_eq_true_eq]
  exact fun e => h (e ▸ hx)

theorem cstr_newline : ∀ (pre : List Nat), LF ∉ pre → LF ∈ cstr (pre ++ [LF]) → NUL ∉ pre := by
  intro pre
  induction pre with
  | nil => intro _ _; simp
  | cons c pre ih =>
    intro hno h
    have hpre : LF ∉ pre := fun h => hno (List.mem_cons_of_mem _ h)
    by_cases hc : c = NUL
    · subst hc
      simp [cstr, List.takeWhile] at h
    · have hc1 : c ≠ LF := fun h => hno (by rw [h]; exact List.mem_cons_self _ _)
      have e : cstr (c :: pre ++ [LF]) = c :: cstr (pre ++ [LF]) := by
        simp [cstr, List.takeWhile, hc]
      rw [e] at h
      rcases List.mem_cons.mp h with h1 | h1
      · exact absurd h1.symm hc1
      · intro hm
        rcases List.mem_cons.mp hm with e1 | e1
        · exact hc e1.symm
        · exact ih hpre h1 e1

theorem session_id_prefix_length : SESSION_ID_PREFIX.length = 11 := by decide

/-- C22: for a password `p` that is a C string (no NUL byte), `equal_sessionid` returns
true exactly when the session-id source can be read and its first line is `SESSION_ID `
followed by exactly `p` and then a newline within the first 79 bytes; in every other
case it returns false. -/
theorem equal_sessionid_spec (env : sysenv) (p : List Nat) (hp : NUL ∉ p) :
    (equal_sessionid env p = true ↔ session_id_line env.session_file p) ∧
    (equal_sessionid env p = false ↔ ¬ session_id_line env.session_file p) := by
  have hiff : equal_sessionid env p = true ↔ session_id_line env.session_file p := by
    constructor
    · intro h
      unfold equal_sessionid at h
      split at h
      · cases h
      · rename_i content hsrc
        split at h
        · cases h
        · rename_i raw hraw
          simp only at h
          split at h
          · cases h
          · rename_i hlen
            split at h
            · cases h
            · rename_i hpre
              split at h
              · cases h
              · rename_i hnl
                split at h
                · rename_i hpw
                  have hnl1 : LF ∈ cstr raw := not_not.mp hnl
                  have hraw1 : raw = fgets_bytes 79 content := by
                    unfold fgets at hraw
                    split at hraw
                    · cases hraw
                    · cases hraw
                      rfl
                  have hnl2 : LF ∈ raw :=
                    (List.takeWhile_sublist _).subset hnl1
                  rw [hraw1] at hnl2
                  obtain ⟨pre, rest, e1, e2, e3, e4⟩ := fgets_bytes_newline 79 content hnl2
                  rw [hraw1, e4] at hnl1 hpw hpre hlen
                  have hnul := cstr_newline pre e2 hnl1
                  have hcs : cstr (pre ++ [LF]) = pre ++ [LF] := by
                    apply cstr_no_nul
                    intro hm
                    rcases List.mem_append.mp hm with e | e
                    · exact hnul e
                    · simp [NUL, LF] at e
                  rw [hcs] at hpw hpre hlen
                  have hidx : (pre ++ [LF]).indexOf LF = pre.length := by
                    rw [List.indexOf_append_of_not_mem e2]
                    simp
                  rw [hidx, List.take_left' rfl] at hpw
                  have hpre1 : (pre ++ [LF]).take SESSION_ID_PREFIX.length
                      = SESSION_ID_PREFIX := not_not.mp hpre
                  have hplen : SESSION_ID_PREFIX.length ≤ pre.length := by
                    by_contra hlt
                    have hl : pre.length + 1 = SESSION_ID_PREFIX.length := by
                      simp only [List.length_append, List.length_singleton, not_lt] at hlen
                      omega
                    rw [List.take_of_length_le (by simp; omega)] at hpre1
                    have hmem : LF ∈ SESSION_ID_PREFIX := by
                      rw [← hpre1]
                      simp
                    revert hmem
                    decide
                  rw [List.take_append_of_le_length hplen] at hpre1
                  have hsplit : pre = SESSION_ID_PREFIX ++ p := by
                    rw [← hpre1, ← hpw]
                    exact (List.take_append_drop _ _).symm
                  refine ⟨content, rest, hsrc, ?_, ?_, ?_⟩
                  · rw [e1, hsplit]
                  · intro hm
                    exact e2 (by rw [hsplit]; exact List.mem_append_right _ hm)
                  · rw [← hsplit]
                    exact e3
                · cases h
    · rintro ⟨content, rest, hsrc, hc, hlf, hlen⟩
      have hne : content ≠ [] := by
        rw [hc]
        simp
      have hpre : LF ∉ SESSION_ID_PREFIX ++ p := by
        intro hm
        rcases List.mem_append.mp hm with e | e
        · revert e
          decide
        · exact hlf e
      have hnul : NUL ∉ (SESSION_ID_PREFIX ++ p) ++ [LF] := by
        intro hm
        rcases List.mem_append.mp hm with e | e
        · rcases List.mem_append.mp e with e | e
          · revert e
            decide
          · exact hp e
        · simp [NUL, LF] at e
      have hraw : fgets 80 content = some ((SESSION_ID_PREFIX ++ p) ++ [LF]) := by
        unfold fgets
        rw [if_neg hne, hc]
        exact congrArg some (fgets_bytes_line 79 _ rest hpre hlen)
      have hidx : ((SESSION_ID_PREFIX ++ p) ++ [LF]).indexOf LF
          = (SESSION_ID_PREFIX ++ p).length := by
        rw [List.indexOf_append_of_not_mem hpre]
        simp
      unfold equal_sessionid
      rw [hsrc]
      simp only [hraw, cstr_no_nul _ hnul]
      have h1 : ¬ ((SESSION_ID_PREFIX ++ p) ++ [LF]).length < SESSION_ID_PREFIX.length := by
        simp only [List.length_append]
        omega
      have h2 : ((SESSION_ID_PREFIX ++ p) ++ [LF]).take SESSION_ID_PREFIX.length
          = SESSION_ID_PREFIX := by
        rw [List.append_assoc, List.take_left' rfl]
      have h3 : LF ∈ (SESSION_ID_PREFIX ++ p) ++ [LF] := by simp
      simp only [h1, if_false, h2, ne_eq, not_true_eq_false, h3, hidx,
        List.take_left' rfl, List.drop_left' rfl, if_true]
  refine ⟨hiff, ?_⟩
  rw [← hiff]
  cases equal_sessionid env p <;> simp

/-- C22 on an example: the file holds `SESSION_ID tok`, a newline and more; `tok` is
accepted, `tik` is not. -/
theorem equal_sessionid_spec_witness :
    (NUL ∉ bytes "tok" ∧ NUL ∉ bytes "tik") ∧
    equal_sessionid (env_session (bytes "SESSION_ID tok\nmore")) (bytes "tok") = true ∧
    session_id_line (env_session (bytes "SESSION_ID tok\nmore")).session_file (bytes "tok") ∧
    equal_sessionid (env_session (bytes "SESSION_ID tok\nmore")) (bytes "tik") = false ∧
    ¬ session_id_line (env_session (bytes "SESSION_ID tok\nmore")).session_file
      (bytes "tik") :=
  ⟨⟨by decide, by decide⟩, by decide,
   (equal_sessionid_spec (env_session (bytes "SESSION_ID tok\nmore")) (bytes "tok")
      (by decide)).1.mp (by decide),
   by decide,
   (equal_sessionid_spec (env_session (bytes "SESSION_ID tok\nmore")) (bytes "tik")
      (by decide)).2.mp (by decide)⟩

end Telnetd

/-! ## One protocol step ends -/

namespace Telnetd

theorem remove_iacs_loop_totty_le (end_ : Int) : ∀ (fuel : Nat) (s : scan),
    s.totty ≤ s.ptr →
    (remove_iacs_loop end_ fuel s).totty ≤ (remove_iacs_loop end_ fuel s).ptr := by
  intro fuel
  induction fuel with
  | zero => intro s h; exact h
  | succ n ih =>
    intro s h
    by_cases hlt : s.ptr < end_
    · cases hb : remove_iacs_body end_ s with
      | none =>
        rw [remove_iacs_loop_none end_ _ s hb]
        exact h
      | some s1 =>
        rw [remove_iacs_loop_some end_ n s s1 hlt hb]
        exact ih s1 (remove_iacs_body_bounds end_ s s1 hb hlt h).1
    · rw [remove_iacs_loop_done end_ _ s hlt]
      exact h

/-- `remove_iacs` never raises `size1`. -/
theorem remove_iacs_size1_le (BUFSIZE : Int) (ts : tsession) (ws : winsize) :
    (remove_iacs BUFSIZE ts ws).ts.size1 ≤ ts.size1 := by
  have h := remove_iacs_loop_totty_le (ts.wridx1 + min (BUFSIZE - ts.wridx1) ts.size1)
    (ts.wridx1 + min (BUFSIZE - ts.wridx1) ts.size1 - ts.wridx1).toNat
    { buf := ts.buf1, ptr := ts.wridx1, totty := ts.wridx1, ws := ws, ptyfd := ts.ptyfd } (le_refl _)
  unfold remove_iacs
  simp only
  split
  · exact le_refl _
  · simp only
    omega

theorem getline_2pty_consumes_nowrap (BUFSIZE : Int) (ts ts1 : tsession) (ln : List Nat)
    (hfit : ¬ ts.wridx1 + ts.size1 > BUFSIZE)
    (h : getline_2pty BUFSIZE ts = Except.ok (ts1, some ln)) :
    0 ≤ ts1.size1 ∧ ts1.size1 < ts.size1 := by
  by_cases hs : 0 ≤ ts.size1
  · obtain ⟨ts2, l, e, _, _, a3, _, _, a6⟩ := getline_2pty_nopack BUFSIZE ts hfit
    rw [h] at e
    cases e
    exact ⟨a3 hs, a6 (by simp)⟩
  · have hz : ts.size1.toNat = 0 := Int.toNat_eq_zero.mpr (by omega)
    unfold getline_2pty at h
    simp only [hfit, if_false, hz, memchr] at h
    cases h

/-- A line returned by `getline_2pty` has cost buffer A at least one byte. -/
theorem getline_2pty_consumes (BUFSIZE : Int) (ts ts1 : tsession) (ln : List Nat)
    (h : getline_2pty BUFSIZE ts = Except.ok (ts1, some ln)) :
    0 ≤ ts1.size1 ∧ ts1.size1 < ts.size1 := by
  by_cases hwrap : ts.wridx1 + ts.size1 > BUFSIZE
  · by_cases hok : ts.wridx1 < 0 ∨ BUFSIZE - ts.wridx1 < 0 ∨
        ts.size1 - (BUFSIZE - ts.wridx1) < 0 ∨ ts.size1 > BUFSIZE
    · unfold getline_2pty pack_2pty at h
      simp only [hwrap, if_true, hok] at h
      cases h
    · rw [getline_2pty_packed BUFSIZE ts hwrap ⟨by omega, by omega⟩ (by omega)] at h
      have hp : ¬ (packed BUFSIZE ts).wridx1 + (packed BUFSIZE ts).size1 > BUFSIZE := by
        show ¬ (0 : Int) + ts.size1 > BUFSIZE
        omega
      exact getline_2pty_consumes_nowrap BUFSIZE (packed BUFSIZE ts) ts1 ln hp h
  · exact getline_2pty_consumes_nowrap BUFSIZE ts ts1 ln hwrap h

theorem do_cmd_size1 (BUFSIZE : Int) (env : sysenv) (m m1 : machine) (ln : List Nat)
    (t : target) (h : do_cmd BUFSIZE env m ln = Except.ok (m1, t)) :
    m1.ts.size1 = m.ts.size1 := by
  obtain ⟨_, _, hc⟩ := do_cmd_cases BUFSIZE env m m1 ln t h
  rcases hc with ⟨ts1, w1, r, hsc, _, hr⟩ | ⟨e, _⟩ | ⟨ts1, hadd, e, _⟩ | ⟨ts1, hadd, e, _⟩
  · obtain ⟨_, _, hs⟩ := start_crontab_cases BUFSIZE env m.ts ts1 m.w w1 ln r hsc
    have h1 : ts1.size1 = m.ts.size1 := by
      rcases hs with ⟨_, ⟨s, _, hadd⟩, _⟩ | ⟨_, e, _⟩
      · exact (add_2sock_side1 BUFSIZE m.ts ts1 s hadd).2.2.2.2.2.2.2.2
      · rw [e]
    rcases hr with ⟨_, e⟩ | ⟨_, e⟩ <;> (rw [e]; exact h1)
  · rw [e]
  · rw [e]
    exact (add_2sock_side1 BUFSIZE m.ts ts1 _ hadd).2.2.2.2.2.2.2.2
  · rw [e]
    exact (add_2sock_side1 BUFSIZE m.ts ts1 _ hadd).2.2.2.2.2.2.2.2

/-- A pass that jumps back to `skip3` has taken a line from buffer A, in GET_LOGINNAME
after `remove_iacs`, and so has lowered `size1` by at least one. -/
theorem dispatch_back (BUFSIZE : Int) (env : sysenv) (self : Nat) (m m1 : machine)
    (h : dispatch BUFSIZE env self m = Except.ok (m1, target.skip3)) :
    ∃ ts0 ts1 ln, (ts0 = m.ts ∨ ts0 = (remove_iacs BUFSIZE m.ts m.ws).ts) ∧
      getline_2pty BUFSIZE ts0 = Except.ok (ts1, some ln) ∧
      m1.ts.size1 = ts1.size1 ∧ 0 ≤ m1.ts.size1 ∧ m1.ts.size1 < m.ts.size1 := by
  rcases dispatch_cases BUFSIZE env self m m1 _ h with
    ⟨_, _, e⟩ | ⟨_, _, _, e⟩ | ⟨ts0, ws0, ts1, l, ⟨_, _, hlog, hnl, _⟩, hgl, hc⟩
  · cases e
  · cases e
  · have h0 : (ts0 = m.ts ∨ ts0 = (remove_iacs BUFSIZE m.ts m.ws).ts) ∧
        ts0.size1 ≤ m.ts.size1 := by
      by_cases hst : m.ts.state = state.GET_LOGINNAME
      · rw [(hlog hst).1]
        exact ⟨Or.inr rfl, remove_iacs_size1_le BUFSIZE m.ts m.ws⟩
      · rw [(hnl hst).1]
        exact ⟨Or.inl rfl, le_refl _⟩
    rcases hc with ⟨_, _, e⟩ | ⟨ln, hl, hc⟩
    · cases e
    · subst hl
      obtain ⟨g1, g2⟩ := getline_2pty_consumes BUFSIZE ts0 ts1 ln hgl
      have hsz : m1.ts.size1 = ts1.size1 := by
        rcases hc with ⟨_, _, ts2, hadd, e, _⟩ | ⟨_, _, ts2, ts3, w3, rc, _, _, _, _, e⟩ |
          ⟨_, _, e, _⟩ | ⟨_, _, ts2, hadd, e, _⟩ | ⟨_, hdc⟩ | ⟨_, _, ts2, w2, hec, hdc⟩ |
          ⟨_, _, ts2, w2, hac, e, _⟩ | ⟨_, ts2, hadd, e, _⟩
        · rw [e]
          exact (add_2sock_side1 BUFSIZE ts1 ts2 _ hadd).2.2.2.2.2.2.2.2
        · cases e
        · rw [e]
        · rw [e]
          exact (add_2sock_side1 BUFSIZE ts1 ts2 _ hadd).2.2.2.2.2.2.2.2
        · exact do_cmd_size1 BUFSIZE env { m with ts := ts1 } m1 ln _ hdc
        · rw [do_cmd_size1 BUFSIZE env
            { m with ts := { ts2 with state := state.GET_CMD }, w := w2 } m1 ln _ hdc]
          obtain ⟨_, _, _, _, hts, _⟩ := end_crontab_cases BUFSIZE env ts1 ts2 m.w w2 hec
          rcases hts with e2 | ⟨s, _, hadd⟩
          · rw [e2]
          · exact (add_2sock_side1 BUFSIZE ts1 ts2 s hadd).2.2.2.2.2.2.2.2
        · rw [e]
          obtain ⟨_, _, _, hc4⟩ := add_to_crontab_cases BUFSIZE env ts1 ts2 m.w w2 _ hac
          rcases hc4 with ⟨_, e2, _⟩ | ⟨f, _, e2, _⟩ | ⟨f, _, hadd, _⟩
          · rw [e2]
          · rw [e2]
          · exact (add_2sock_side1 BUFSIZE ts1 ts2 _ hadd).2.2.2.2.2.2.2.2
        · rw [e]
          exact (add_2sock_side1 BUFSIZE ts1 ts2 _ hadd).2.2.2.2.2.2.2.2
      exact ⟨ts0, ts1, ln, h0.1, hgl, hsz, by omega, by omega⟩

theorem add_2sock_fault (BUFSIZE : Int) (ts : tsession) (str : List Nat) (e : fault)
    (h : add_2sock BUFSIZE ts str = Except.error e) : e ≠ fault.fuel := by
  by_cases h1 : ts.size2 + str.length > BUFSIZE
  · rw [add_2sock_error BUFSIZE ts str (Or.inl h1)] at h
    cases h
    decide
  · by_cases h2 : ts.rdidx2 + str.length > BUFSIZE
    · rw [add_2sock_error BUFSIZE ts str (Or.inr h2)] at h
      cases h
      decide
    · rw [add_2sock_ok BUFSIZE ts str h1 h2] at h
      cases h

theorem getline_2pty_fault (BUFSIZE : Int) (ts : tsession) (e : fault)
    (h : getline_2pty BUFSIZE ts = Except.error e) : e ≠ fault.fuel := by
  unfold getline_2pty at h
  simp only at h
  split at h
  · rename_i e1 hp
    cases h
    split at hp
    · unfold pack_2pty at hp
      simp only at hp
      split at hp
      · cases hp
        decide
      · cases hp
    · cases hp
  · split at h
    · cases h
    · split at h <;> cases h

theorem start_login_fault (env : sysenv) (ts : tsession) (w : world) (user : List Nat)
    (e : fault) (h : start_login env ts w user = Except.error e) : e ≠ fault.fuel := by
  unfold start_login at h
  simp only at h
  split at h
  · cases h
    decide
  · cases h
  · cases h

theorem start_crontab_fault (BUFSIZE : Int) (env : sysenv) (ts : tsession) (w : world)
    (ln : List Nat) (e : fault)
    (h : start_crontab BUFSIZE env ts w ln = Except.error e) : e ≠ fault.fuel := by
  unfold start_crontab at h
  simp only at h
  repeat' split at h
  all_goals first
    | (cases h; done)
    | (cases h; exact add_2sock_fault _ _ _ _ (by assumption))

theorem add_to_crontab_fault (BUFSIZE : Int) (env : sysenv) (ts : tsession) (w : world)
    (ln : List Nat) (e : fault)
    (h : add_to_crontab BUFSIZE env ts w ln = Except.error e) : e ≠ fault.fuel := by
  unfold add_to_crontab at h
  simp only at h
  repeat' split at h
  all_goals first
    | (cases h; done)
    | (cases h; exact add_2sock_fault _ _ _ _ (by assumption))

theorem end_crontab_fault (BUFSIZE : Int) (env : sysenv) (ts : tsession) (w : world)
    (e : fault) (h : end_crontab BUFSIZE env ts w = Except.error e) : e ≠ fault.fuel := by
  unfold end_crontab at h
  simp only at h
  repeat' split at h
  all_goals first
    | (cases h; done)
    | (cases h; exact add_2sock_fault _ _ _ _ (by assumption))

theorem do_cmd_fault (BUFSIZE : Int) (env : sysenv) (m : machine) (ln : List Nat) (e : fault)
    (h : do_cmd BUFSIZE env m ln = Except.error e) : e ≠ fault.fuel := by
  unfold do_cmd at h
  repeat' split at h
  all_goals first
    | (cases h; done)
    | (cases h; exact add_2sock_fault _ _ _ _ (by assumption))
    | (cases h; exact start_crontab_fault _ _ _ _ _ _ (by assumption))

/-- A pass through the switch fails by `abort`, by undefined behaviour or by `exit`,
never for want of passes. -/
theorem dispatch_fault (BUFSIZE : Int) (env : sysenv) (self : Nat) (m : machine) (e : fault)
    (h : dispatch BUFSIZE env self m = Except.error e) : e ≠ fault.fuel := by
  unfold dispatch at h
  simp only at h
  repeat' split at h
  all_goals first
    | (cases h; done)
    | (cases h; decide)
    | (cases h; exact add_2sock_fault _ _ _ _ (by assumption))
    | (cases h; exact getline_2pty_fault _ _ _ (by assumption))
    | (cases h; exact start_login_fault _ _ _ _ _ (by assumption))
    | (cases h; exact end_crontab_fault _ _ _ _ _ (by assumption))
    | (cases h; exact add_to_crontab_fault _ _ _ _ _ _ (by assumption))
    | exact do_cmd_fault _ _ _ _ _ h

/-- With more passes allowed than `size1`, the switch does not run out of them. -/
theorem protocol_switch_no_fuel (BUFSIZE : Int) (env : sysenv) (self : Nat) :
    ∀ (fuel : Nat) (m : machine), m.ts.size1.toNat < fuel →
    protocol_switch BUFSIZE env self fuel m ≠ Except.error fault.fuel ∧
    protocol_switch BUFSIZE env self (fuel + 1) m = protocol_switch BUFSIZE env self fuel m := by
  intro fuel
  induction fuel with
  | zero => intro m h; omega
  | succ n ih =>
    intro m hf
    rw [show protocol_switch BUFSIZE env self (n + 1 + 1) m
        = (match dispatch BUFSIZE env self m with
          | Except.error e => Except.error e
          | Except.ok (m, target.skip3) => protocol_switch BUFSIZE env self (n + 1) m
          | Except.ok (m, target.skip3a) => Except.ok (m, jump.next)
          | Except.ok (m, target.kill_session) => Except.ok (m, jump.kill_session)) from rfl,
      show protocol_switch BUFSIZE env self (n + 1) m
        = (match dispatch BUFSIZE env self m with
          | Except.error e => Except.error e
          | Except.ok (m, target.skip3) => protocol_switch BUFSIZE env self n m
          | Except.ok (m, target.skip3a) => Except.ok (m, jump.next)
          | Except.ok (m, target.kill_session) => Except.ok (m, jump.kill_session)) from rfl]
    cases hd : dispatch BUFSIZE env self m with
    | error e =>
      refine ⟨?_, rfl⟩
      simp only
      intro he
      cases he
      exact dispatch_fault BUFSIZE env self m _ hd rfl
    | ok r =>
      obtain ⟨m1, t⟩ := r
      cases t with
      | skip3 =>
        obtain ⟨_, _, _, _, _, _, g1, g2⟩ := dispatch_back BUFSIZE env self m m1 hd
        have hlt : m1.ts.size1.toNat < n := by omega
        obtain ⟨a1, a2⟩ := ih m1 hlt
        exact ⟨a1, a2⟩
      | skip3a => exact ⟨by simp, rfl⟩
      | kill_session => exact ⟨by simp, rfl⟩

theorem line_taken_consumes (BUFSIZE : Int) (self : Nat) (m : machine)
    (h : line_taken BUFSIZE self m = true) : 0 < m.ts.size1 := by
  have key : ∀ ts0 : tsession, ts0.size1 ≤ m.ts.size1 →
      (match getline_2pty BUFSIZE ts0 with
        | Except.ok (_, some _) => true
        | _ => false) = true → 0 < m.ts.size1 := by
    intro ts0 hle hm
    split at hm
    · rename_i ts1 ln hg
      obtain ⟨g1, g2⟩ := getline_2pty_consumes BUFSIZE ts0 ts1 ln hg
      omega
    · cases hm
  unfold line_taken at h
  split at h
  · cases h
  · exact key _ (remove_iacs_size1_le BUFSIZE m.ts m.ws) h
  · exact key _ (le_refl _) h
  · split at h
    · cases h
    · exact key _ (le_refl _) h

theorem line_taken_of_back (BUFSIZE : Int) (env : sysenv) (self : Nat) (m m1 : machine)
    (h : dispatch BUFSIZE env self m = Except.ok (m1, target.skip3)) :
    line_taken BUFSIZE self m = true := by
  unfold dispatch at h
  unfold line_taken
  split at h
  · cases h
  · simp only at h
    split at h
    · cases h
    · cases h
    · rename_i hst _ _ _ hg
      simp only [hst, hg]
  · split at h
    · cases h
    · cases h
    · rename_i hst _ _ _ hg
      simp only [hst, hg]
  · split at h
    · cases h
    · rename_i hh
      split at h
      · cases h
      · cases h
      · rename_i hst _ _ _ hg
        simp only [hst, hh, hg, if_false]
  · split at h
    · cases h
    · rename_i hh
      split at h
      · cases h
      · cases h
      · rename_i hst _ _ _ hg
        simp only [hst, hh, hg, if_false]
  · split at h
    · cases h
    · rename_i hh
      split at h
      · cases h
      · cases h
      · rename_i hst _ _ _ hg
        simp only [hst, hh, hg, if_false]

theorem protocol_step_any_fuel (BUFSIZE : Int) (env : sysenv) (self : Nat) (m : machine) :
    ∀ k : Nat, protocol_switch BUFSIZE env self (m.ts.size1.toNat + 1 + k) m
      = protocol_step BUFSIZE env self m := by
  intro k
  induction k with
  | zero => rfl
  | succ k ih =>
    rw [← ih]
    exact (protocol_switch_no_fuel BUFSIZE env self (m.ts.size1.toNat + 1 + k) m
      (by omega)).2

theorem protocol_lines_le (BUFSIZE : Int) (env : sysenv) (self : Nat) :
    ∀ (fuel : Nat) (m : machine),
    protocol_lines BUFSIZE env self fuel m ≤ m.ts.size1.toNat := by
  intro fuel
  induction fuel with
  | zero => intro m; exact Nat.zero_le _
  | succ n ih =>
    intro m
    rw [show protocol_lines BUFSIZE env self (n + 1) m
        = (if line_taken BUFSIZE self m then 1 else 0) +
          (match dispatch BUFSIZE env self m with
          | Except.ok (m1, target.skip3) => protocol_lines BUFSIZE env self n m1
          | _ => 0) from rfl]
    have h1 : (if line_taken BUFSIZE self m = true then 1 else 0) ≤ 1 ∧
        ((if line_taken BUFSIZE self m = true then 1 else 0) = 1 → 0 < m.ts.size1) := by
      by_cases hl : line_taken BUFSIZE self m = true
      · rw [if_pos hl]
        exact ⟨le_refl _, fun _ => line_taken_consumes BUFSIZE self m hl⟩
      · rw [if_neg hl]
        exact ⟨Nat.zero_le _, fun e => by cases e⟩
    generalize (if line_taken BUFSIZE self m = true then 1 else 0) = c at h1
    split
    · rename_i m1 hd
      obtain ⟨_, _, _, _, _, _, g1, g2⟩ := dispatch_back BUFSIZE env self m m1 hd
      have := ih m1
      omega
    · omega

theorem protocol_passes_le (BUFSIZE : Int) (env : sysenv) (self : Nat) :
    ∀ (fuel : Nat) (m : machine),
    protocol_passes BUFSIZE env self fuel m ≤ m.ts.size1.toNat + 1 := by
  intro fuel
  induction fuel with
  | zero => intro m; exact Nat.zero_le _
  | succ n ih =>
    intro m
    rw [show protocol_passes BUFSIZE env self (n + 1) m
        = (match dispatch BUFSIZE env self m with
          | Except.ok (m1, target.skip3) => 1 + protocol_passes BUFSIZE env self n m1
          | _ => 1) from rfl]
    split
    · rename_i m1 hd
      obtain ⟨_, _, _, _, _, _, g1, g2⟩ := dispatch_back BUFSIZE env self m m1 hd
      have h3 : m1.ts.size1.toNat + 1 ≤ m.ts.size1.toNat := by omega
      rw [Nat.add_comm 1]
      exact Nat.add_le_add_right (le_trans (ih m1) h3) 1
    · omega

/-- C26: one protocol step of a session ends. A pass through the switch that jumps back
to `skip3` (the re-dispatch through `do_cmd` included) has taken a line with
`getline_2pty`, and it leaves `size1` lower by at least one and not negative; every line
that `getline_2pty` returns lowers `size1` by at least one; so the step, which allows
`size1 + 1` passes, never runs out of passes, allowing more passes changes nothing, and
with any number of passes allowed at most `size1` lines are dispatched in at most
`size1 + 1` passes. -/
theorem protocol_step_terminates (BUFSIZE : Int) (env : sysenv) (self : Nat) (m : machine) :
    (∀ m1, dispatch BUFSIZE env self m = Except.ok (m1, target.skip3) →
      line_taken BUFSIZE self m = true ∧
      (∃ ts0 ts1 ln, (ts0 = m.ts ∨ ts0 = (remove_iacs BUFSIZE m.ts m.ws).ts) ∧
        getline_2pty BUFSIZE ts0 = Except.ok (ts1, some ln) ∧ m1.ts.size1 = ts1.size1) ∧
      0 ≤ m1.ts.size1 ∧ m1.ts.size1 + 1 ≤ m.ts.size1) ∧
    (∀ ts1 ln, getline_2pty BUFSIZE m.ts = Except.ok (ts1, some ln) →
      0 ≤ ts1.size1 ∧ ts1.size1 + 1 ≤ m.ts.size1) ∧
    protocol_step BUFSIZE env self m ≠ Except.error fault.fuel ∧
    (∀ fuel, m.ts.size1.toNat < fuel →
      protocol_switch BUFSIZE env self fuel m = protocol_step BUFSIZE env self m) ∧
    (∀ fuel, protocol_lines BUFSIZE env self fuel m ≤ m.ts.size1.toNat) ∧
    (∀ fuel, protocol_passes BUFSIZE env self fuel m ≤ m.ts.size1.toNat + 1) := by
  refine ⟨?_, ?_, ?_, ?_, ?_, ?_⟩
  · intro m1 h
    obtain ⟨ts0, ts1, ln, a1, a2, a3, a4, a5⟩ := dispatch_back BUFSIZE env self m m1 h
    exact ⟨line_taken_of_back BUFSIZE env self m m1 h, ⟨ts0, ts1, ln, a1, a2, a3⟩, a4,
      by omega⟩
  · intro ts1 ln h
    obtain ⟨g1, g2⟩ := getline_2pty_consumes BUFSIZE m.ts ts1 ln h
    exact ⟨g1, by omega⟩
  · exact (protocol_switch_no_fuel BUFSIZE env self (m.ts.size1.toNat + 1) m
      (by omega)).1
  · intro fuel hf
    obtain ⟨k, hk⟩ : ∃ k, fuel = m.ts.size1.toNat + 1 + k := ⟨fuel - (m.ts.size1.toNat + 1),
      by omega⟩
    rw [hk]
    exact protocol_step_any_fuel BUFSIZE env self m k
  · exact fun fuel => protocol_lines_le BUFSIZE env self fuel m
  · exact fun fuel => protocol_passes_le BUFSIZE env self fuel m

/-- C26 on an example: a session in GET_PASSWORD with the wrong passwords `x` and `y`
in buffer A; the first pass takes `x` and jumps back, and the step dispatches two lines
in three passes. -/
theorem protocol_step_terminates_witness :
    line_taken 2020 1 two_passwords = true ∧
    protocol_lines 2020 env_ok 1 9 two_passwords = 2 ∧
    protocol_passes 2020 env_ok 1 9 two_passwords = 3 :=
  ⟨((protocol_step_terminates 2020 env_ok 1 two_passwords).1 _ rfl).1, by decide, by decide⟩

end Telnetd

/-! ## The draft and its uploader -/

namespace Telnetd

theorem take_over_draft (w : world) (self : Nat)
    (h : (take_over w self).atlas_crontab ≠ none) :
    w.atlas_ts = none ∧ w.atlas_crontab ≠ none := by
  unfold take_over at h
  split at h
  · split at h
    · exact absurd rfl h
    · rename_i h1 h2
      exact absurd h (by simpa using h2)
  · rename_i h1
    exact ⟨by simpa using h1, h⟩

/-- Entered without a draft, `start_crontab` does not answer `CRONTAB_BUSY`. -/
theorem start_crontab_free (BUFSIZE : Int) (env : sysenv) (ts ts1 : tsession)
    (w w1 : world) (ln : List Nat) (r : Int) (hfree : w.atlas_crontab = none)
    (h : start_crontab BUFSIZE env ts w ln = Except.ok (ts1, w1, r)) :
    (r = -1 ∧ w1.atlas_crontab = none ∧
      ∃ s, s ∈ [NAME_TOO_LONG, CREATE_FAILED] ∧ add_2sock BUFSIZE ts s = Except.ok ts1) ∨
    (r = 0 ∧ ts1 = ts) := by
  unfold start_crontab at h
  split at h
  · rename_i hbusy
    rw [hfree] at hbusy
    cases hbusy
  · simp only at h
    split at h
    · split at h
      · cases h
      · rename_i ts2 hadd
        cases h
        exact Or.inl ⟨rfl, hfree, _, by simp, hadd⟩
    · split at h
      · split at h
        · cases h
        · rename_i ts2 hadd
          cases h
          exact Or.inl ⟨rfl, hfree, _, by simp, hadd⟩
      · split at h
        · cases h
          exact Or.inr ⟨rfl, rfl⟩
        · split at h
          · cases h
          · rename_i ts2 hadd
            cases h
            exact Or.inl ⟨rfl, hfree, _, by simp, hadd⟩

/-- The code at `do_cmd`, entered without a draft: a draft is open afterwards only if
the session is then in DO_CRONTAB, and what is sent is a fixed response other than
`CRONTAB_BUSY`. -/
theorem do_cmd_free (BUFSIZE : Int) (env : sysenv) (m m1 : machine) (ln : List Nat)
    (t : target) (hfree : m.w.atlas_crontab = none)
    (h : do_cmd BUFSIZE env m ln = Except.ok (m1, t)) :
    (m1.w.atlas_crontab ≠ none → m1.ts.state = state.DO_CRONTAB) ∧
    ∃ strs, sent BUFSIZE m.ts m1.ts strs ∧
      ∀ s ∈ strs, s ≠ CRONTAB_BUSY ∧ s ∈ fixed_responses := by
  obtain ⟨_, _, hc⟩ := do_cmd_cases BUFSIZE env m m1 ln t h
  rcases hc with ⟨ts1, w1, r, hsc, e, hr⟩ | ⟨e1, e2⟩ | ⟨ts1, hadd, e1, e2⟩ | ⟨ts1, hadd, e1, e2⟩
  · have hts : m1.ts.buf2 = ts1.buf2 ∧ m1.ts.rdidx2 = ts1.rdidx2 ∧
        m1.ts.wridx2 = ts1.wridx2 ∧ m1.ts.size2 = ts1.size2 := by
      rcases hr with ⟨_, e⟩ | ⟨_, e⟩ <;> (rw [e]; exact ⟨rfl, rfl, rfl, rfl⟩)
    rcases start_crontab_free BUFSIZE env m.ts ts1 m.w w1 ln r hfree hsc with
      ⟨hr1, hw1, s, hs1, hadd⟩ | ⟨hr0, e3⟩
    · refine ⟨fun hopen => absurd (by rw [e]; exact hw1) hopen,
        [s], sent_fields BUFSIZE _ _ _ _ _ ⟨rfl, rfl, rfl, rfl⟩ hts
          (sent_add BUFSIZE _ _ _ hadd), fun x hx => ?_⟩
      rw [List.mem_singleton.mp hx]
      simp only [List.mem_cons, List.mem_singleton, List.not_mem_nil, or_false] at hs1
      rcases hs1 with e4 | e4 <;> (rw [e4]; exact ⟨by decide, by simp [fixed_responses]⟩)
    · refine ⟨fun _ => ?_, [], sent_fields BUFSIZE _ _ _ _ _ ⟨rfl, rfl, rfl, rfl⟩ hts ?_,
        by simp⟩
      · rcases hr with ⟨hr1, _⟩ | ⟨_, e4⟩
        · omega
        · rw [e4]
      · rw [e3]
        exact sent_refl BUFSIZE _
  · refine ⟨fun hopen => absurd (by rw [e2]; exact hfree) hopen, [], ?_, by simp⟩
    rw [e1]
    exact sent_refl BUFSIZE _
  · refine ⟨fun hopen => absurd (by rw [e2]; exact hfree) hopen, [RESULT_OK], ?_,
      fun x hx => by
        rw [List.mem_singleton.mp hx]
        exact ⟨by decide, by simp [fixed_responses]⟩⟩
    rw [e1]
    exact sent_fields BUFSIZE m.ts m.ts ts1 _ _ ⟨rfl, rfl, rfl, rfl⟩ ⟨rfl, rfl, rfl, rfl⟩
      (sent_add BUFSIZE _ _ _ hadd)
  · refine ⟨fun hopen => absurd (by rw [e2]; exact hfree) hopen, [BAD_COMMAND], ?_,
      fun x hx => by
        rw [List.mem_singleton.mp hx]
        exact ⟨by decide, by simp [fixed_responses]⟩⟩
    rw [e1]
    exact sent_add BUFSIZE _ _ _ hadd

theorem take_indexOf_not_mem (c : Nat) : ∀ l : List Nat, c ∉ l.take (l.indexOf c) := by
  intro l
  induction l with
  | nil => simp
  | cons a rest ih =>
    by_cases hac : a = c
    · subst hac
      simp
    · rw [List.indexOf_cons_ne _ hac, List.take_succ_cons, List.mem_cons]
      rintro (e | e)
      · exact hac e.symm
      · exact ih e

/-- A line that `getline_2pty` returns holds no CR. -/
theorem getline_2pty_no_cr (BUFSIZE : Int) (ts ts1 : tsession) (ln : List Nat)
    (h : getline_2pty BUFSIZE ts = Except.ok (ts1, some ln)) : CR ∉ ln := by
  unfold getline_2pty at h
  simp only at h
  split at h
  · cases h
  · split at h
    · cases h
    · split at h
      · cases h
        exact take_indexOf_not_mem CR _
      · cases h

theorem draft_held_of_same (self : Nat) (m m1 : machine) (hd : draft_held self m)
    (h1 : m1.w.atlas_ts = m.w.atlas_ts) (h2 : m1.w.atlas_crontab = m.w.atlas_crontab)
    (h3 : m.w.atlas_ts = some self → m.ts.state = state.DO_CRONTAB →
      m1.ts.state = state.DO_CRONTAB) :
    draft_held self m1 ∧
    (m1.w.atlas_crontab ≠ none → m1.w.atlas_ts = some self ∨
      (m1.w.atlas_ts = m.w.atlas_ts ∧ m.w.atlas_crontab ≠ none)) := by
  unfold draft_held at hd ⊢
  rw [h1, h2]
  exact ⟨fun ho => ⟨(hd ho).1, fun ha => h3 ha ((hd ho).2 ha)⟩, fun ho => Or.inr ⟨rfl, ho⟩⟩

theorem draft_held_of_none (self : Nat) (m m1 : machine) (h : m1.w.atlas_crontab = none) :
    draft_held self m1 ∧
    (m1.w.atlas_crontab ≠ none → m1.w.atlas_ts = some self ∨
      (m1.w.atlas_ts = m.w.atlas_ts ∧ m.w.atlas_crontab ≠ none)) :=
  ⟨fun ho => absurd h ho, fun ho => absurd h ho⟩

/-- A returning pass through the switch keeps `draft_held`; and if it leaves a draft
open, the session itself is the holder, or holder and draft are those from before the
pass. -/
theorem dispatch_draft (BUFSIZE : Int) (env : sysenv) (self : Nat) (m m1 : machine)
    (t : target) (hp : pass_ok self m) (hd : draft_held self m)
    (h : dispatch BUFSIZE env self m = Except.ok (m1, t)) :
    draft_held self m1 ∧
    (m1.w.atlas_crontab ≠ none → m1.w.atlas_ts = some self ∨
      (m1.w.atlas_ts = m.w.atlas_ts ∧ m.w.atlas_crontab ≠ none)) := by
  obtain ⟨hp1, hp2⟩ := hp
  rcases dispatch_cases BUFSIZE env self m m1 t h with
    ⟨_, e, _⟩ | ⟨_, _, e, _⟩ | ⟨ts0, ws0, ts1, l, ⟨hs0, hnt, _, _, hadm⟩, hgl, hc⟩
  · rw [e]
    exact draft_held_of_same self m m hd rfl rfl (fun _ h3 => h3)
  · rw [e]
    exact draft_held_of_same self m m hd rfl rfl (fun _ h3 => h3)
  · have hs1 := same_side2_trans (getline_2pty_side2 BUFSIZE ts0 ts1 l hgl) hs0
    have hst1 : ts1.state = m.ts.state := hs1.1
    have hpid1 : ts1.shell_pid = 0 := hs1.2.2.2.2.2.2.1.trans (hp1 hnt)
    have hnotadm : ¬ admin_state m.ts.state → m.w.atlas_ts ≠ some self :=
      fun hn ha => hn (hp2 ha)
    have hfree : m.w.atlas_ts = some self → m.ts.state ≠ state.DO_CRONTAB →
        m.w.atlas_crontab = none := by
      intro ha hn
      by_contra ho
      exact hn ((hd ho).2 ha)
    rcases hc with ⟨_, e, _⟩ | ⟨ln, hl, hc⟩
    · rw [e]
      exact draft_held_of_same self m _ hd rfl rfl (fun _ h3 => hst1.trans h3)
    · subst hl
      rcases hc with ⟨hst, _, ts2, hadd, e, _⟩ | ⟨hst, _, ts2, ts3, w3, rc, _, hsl, _, e, _⟩ |
        ⟨hst, _, e, _⟩ | ⟨hst, _, ts2, hadd, e, _⟩ | ⟨hst, hdc⟩ | ⟨hst, _, ts2, w2, hec, hdc⟩ |
        ⟨hst, _, ts2, w2, hac, e, _⟩ | ⟨hst, ts2, hadd, e, _⟩
      · have hno := hnotadm (by rw [hst]; decide)
        rw [e]
        exact draft_held_of_same self m _ hd rfl rfl (fun ha _ => absurd ha hno)
      · have hno := hnotadm (by rw [hst]; decide)
        obtain ⟨e3, _⟩ := start_login_cases env ts2 ts3 m.w w3 ln rc hsl
        rw [e, e3]
        exact draft_held_of_same self m _ hd rfl rfl (fun ha _ => absurd ha hno)
      · have hnone : (take_over m.w self).atlas_crontab = none := by
          by_contra ho
          obtain ⟨t1, t2⟩ := take_over_draft m.w self ho
          exact (hd t2).1 t1
        rw [e]
        exact draft_held_of_none self m _ hnone
      · have hno := hnotadm (by rw [hst]; decide)
        rw [e]
        exact draft_held_of_same self m _ hd rfl rfl (fun ha _ => absurd ha hno)
      · have ha : m.w.atlas_ts = some self := hadm (Or.inl hst)
        have hf := hfree ha (by rw [hst]; decide)
        obtain ⟨a1, _, _⟩ := do_cmd_pass_ok BUFSIZE env { m with ts := ts1 } m1 ln t
          (hst1.trans hst) hpid1 hdc
        obtain ⟨b1, _⟩ := do_cmd_free BUFSIZE env { m with ts := ts1 } m1 ln t hf hdc
        have hts : m1.w.atlas_ts = some self := a1.trans ha
        exact ⟨fun ho => ⟨by rw [hts]; simp, fun _ => b1 ho⟩, fun _ => Or.inl hts⟩
      · have ha : m.w.atlas_ts = some self := hadm (Or.inr (Or.inl hst))
        obtain ⟨c1, _, _, c4, c5, _⟩ := end_crontab_cases BUFSIZE env ts1 ts2 m.w w2 hec
        have hpid2 : ts2.shell_pid = 0 := by
          rcases c5 with e2 | ⟨s, _, hadd⟩
          · rw [e2]
            exact hpid1
          · exact (add_2sock_side1 BUFSIZE ts1 ts2 s hadd).2.1.trans hpid1
        obtain ⟨a1, _, _⟩ := do_cmd_pass_ok BUFSIZE env
          { m with ts := { ts2 with state := state.GET_CMD }, w := w2 } m1 ln t rfl hpid2 hdc
        obtain ⟨b1, _⟩ := do_cmd_free BUFSIZE env
          { m with ts := { ts2 with state := state.GET_CMD }, w := w2 } m1 ln t c4 hdc
        have hts : m1.w.atlas_ts = some self := a1.trans (c1.trans ha)
        exact ⟨fun ho => ⟨by rw [hts]; simp, fun _ => b1 ho⟩, fun _ => Or.inl hts⟩
      · have ha : m.w.atlas_ts = some self := hadm (Or.inr (Or.inl hst))
        obtain ⟨c1, _, _, c4⟩ := add_to_crontab_cases BUFSIZE env ts1 ts2 m.w w2 _ hac
        have hts2 : ts2.state = state.DO_CRONTAB := by
          rcases c4 with ⟨_, e2, _⟩ | ⟨f, _, e2, _⟩ | ⟨f, _, hadd, _⟩
          · rw [e2]
            exact hst1.trans hst
          · rw [e2]
            exact hst1.trans hst
          · exact (add_2sock_side1 BUFSIZE ts1 ts2 _ hadd).1.trans (hst1.trans hst)
        have hts : m1.w.atlas_ts = some self := by
          rw [e]
          exact c1.trans ha
        refine ⟨fun ho => ⟨by rw [hts]; simp, fun _ => ?_⟩, fun _ => Or.inl hts⟩
        rw [e]
        exact hts2
      · have ha : m.w.atlas_ts = some self := hadm (Or.inr (Or.inr hst))
        have hf := hfree ha (by rw [hst]; decide)
        rw [e]
        exact draft_held_of_none self m _ hf

/-- The same for the passes of one protocol step. -/
theorem protocol_switch_draft (BUFSIZE : Int) (env : sysenv) (self : Nat) :
    ∀ (fuel : Nat) (m m1 : machine) (j : jump), pass_ok self m → draft_held self m →
    protocol_switch BUFSIZE env self fuel m = Except.ok (m1, j) →
    draft_held self m1 ∧
    (m1.w.atlas_crontab ≠ none → m1.w.atlas_ts = some self ∨
      (m1.w.atlas_ts = m.w.atlas_ts ∧ m.w.atlas_crontab ≠ none)) := by
  intro fuel
  induction fuel with
  | zero =>
    intro m m1 j _ _ h
    cases h
  | succ fuel ih =>
    intro m m1 j hp hd h
    unfold protocol_switch at h
    split at h
    · cases h
    · rename_i m2 hdis
      obtain ⟨a1, _⟩ := dispatch_pass_ok BUFSIZE env self m m2 _ hp hdis
      obtain ⟨d1, d2⟩ := dispatch_draft BUFSIZE env self m m2 _ hp hd hdis
      obtain ⟨b1, b2⟩ := ih m2 m1 j a1 d1 h
      refine ⟨b1, fun ho => ?_⟩
      rcases b2 ho with b3 | ⟨b3, b4⟩
      · exact Or.inl b3
      · rcases d2 b4 with d3 | ⟨d3, d4⟩
        · exact Or.inl (b3.trans d3)
        · exact Or.inr ⟨b3.trans d3, d4⟩
    · rename_i m2 hdis
      cases h
      exact dispatch_draft BUFSIZE env self m m1 _ hp hd hdis
    · rename_i m2 hdis
      cases h
      exact dispatch_draft BUFSIZE env self m m1 _ hp hd hdis

/-- A returning turn of a session keeps `draft_held`; and if it leaves a draft open, the
session itself is the holder, or holder and draft are those from before the turn. -/
theorem session_pass_draft (BUFSIZE : Int) (env : sysenv) (self : Nat) (io : session_io)
    (m m1 : machine) (j : jump) (hp : pass_ok self m) (hd : draft_held self m)
    (h : session_pass BUFSIZE env self io m = Except.ok (m1, j)) :
    draft_held self m1 ∧
    (m1.w.atlas_crontab ≠ none → m1.w.atlas_ts = some self ∨
      (m1.w.atlas_ts = m.w.atlas_ts ∧ m.w.atlas_crontab ≠ none)) := by
  obtain ⟨ma, ja, hA, hrest⟩ := session_pass_cases BUFSIZE env self io m m1 j h
  have hA1 : ma.ts.state = m.ts.state ∧ ma.ts.shell_pid = m.ts.shell_pid ∧ ma.w = m.w := by
    split at hA
    · have hm := congrArg Prod.fst hA
      simp only at hm
      rw [hm]
      exact ⟨(drain_pty_id BUFSIZE m.ts m.ws io.pty_write).1,
        (drain_pty_id BUFSIZE m.ts m.ws io.pty_write).2, rfl⟩
    · cases hA
      exact ⟨rfl, rfl, rfl⟩
  obtain ⟨a1, a2, a3⟩ := hA1
  have hpa : pass_ok self ma := pass_ok_of_id self m ma hp a1 a2 a3
  have hw1 : ma.w.atlas_ts = m.w.atlas_ts := congrArg world.atlas_ts a3
  have hw2 : ma.w.atlas_crontab = m.w.atlas_crontab := congrArg world.atlas_crontab a3
  rcases hrest with ⟨_, e, _⟩ | ⟨_, tsb, jb, hBs, hrest⟩
  · rw [e]
    exact draft_held_of_same self m ma hd hw1 hw2 (fun _ h3 => a1.trans h3)
  have hB1 : tsb.state = ma.ts.state ∧ tsb.shell_pid = ma.ts.shell_pid := by
    split at hBs
    · have hm := congrArg Prod.fst hBs
      simp only at hm
      rw [hm]
      exact drain_sock_id BUFSIZE ma.ts io.sock_write
    · cases hBs
      exact ⟨rfl, rfl⟩
  rcases hrest with ⟨_, e, _⟩ | ⟨_, tsd, jd, hD, hrest⟩
  · rw [e]
    exact draft_held_of_same self m _ hd hw1 hw2 (fun _ h3 => (hB1.1.trans a1).trans h3)
  have hD1 : tsd.state = ma.ts.state ∧ tsd.shell_pid = ma.ts.shell_pid := by
    obtain ⟨r1, r2⟩ := reset_cursors_id tsb
    split at hD
    · obtain ⟨d1, d2⟩ := read_sock_id BUFSIZE _ tsd io.sock_read jd hD
      exact ⟨d1.trans (r1.trans hB1.1), d2.trans (r2.trans hB1.2)⟩
    · cases hD
      exact ⟨r1.trans hB1.1, r2.trans hB1.2⟩
  have hpd : pass_ok self { ma with ts := tsd } :=
    pass_ok_of_id self ma _ hpa hD1.1 hD1.2 rfl
  have hdd := draft_held_of_same self m { ma with ts := tsd } hd hw1 hw2
    (fun _ h3 => (hD1.1.trans a1).trans h3)
  rcases hrest with ⟨_, e, _⟩ | ⟨_, mp, jp, hP, hrest⟩
  · rw [e]
    exact hdd
  obtain ⟨p1, p2⟩ := protocol_switch_draft BUFSIZE env self _ _ mp jp hpd hdd.1 hP
  have p3 : mp.w.atlas_crontab ≠ none → mp.w.atlas_ts = some self ∨
      (mp.w.atlas_ts = m.w.atlas_ts ∧ m.w.atlas_crontab ≠ none) := by
    intro ho
    rcases p2 ho with p4 | ⟨p4, p5⟩
    · exact Or.inl p4
    · exact Or.inr ⟨p4.trans hw1, by rw [← hw2]; exact p5⟩
  rcases hrest with ⟨_, e, _⟩ | ⟨_, hF⟩
  · rw [e]
    exact ⟨p1, p3⟩
  split at hF
  · have hm := congrArg Prod.fst hF
    simp only at hm
    rw [hm]
    exact ⟨(draft_held_of_same self mp
      { mp with ts := (read_pty BUFSIZE mp.ts io.pty_read).1 } p1 rfl rfl
      (fun _ h3 => (read_pty_id BUFSIZE mp.ts io.pty_read).1.trans h3)).1, p3⟩
  · cases hF
    exact ⟨p1, p3⟩

theorem draft_ok_boot (inetd : Bool) (addr : Nat) (fs : fsys) :
    draft_ok (boot inetd addr fs) :=
  fun ho => absurd rfl ho

theorem draft_ok_sigchld (srv : server) (pids : List Int) (h : draft_ok srv) :
    draft_ok { srv with sessions := handle_sigchld pids srv.sessions } := by
  intro ho
  obtain ⟨a, h1, h2⟩ := h ho
  refine ⟨a, h1, fun x hx hxa => ?_⟩
  obtain ⟨y, hy, g1, g2, _⟩ := handle_sigchld_mem pids srv.sessions x hx
  rw [g2]
  exact h2 y hy (g1.symm.trans hxa)

theorem draft_ok_sweep (inetd : Bool) (srv srv1 : server) (h : draft_ok srv)
    (hs : sweep inetd srv.sessions srv = Except.ok srv1) : draft_ok srv1 := by
  obtain ⟨a1, a2⟩ := sweep_cases inetd srv.sessions srv srv1 hs
  intro ho
  rw [a1] at ho ⊢
  obtain ⟨a, h1, h2⟩ := h ho
  exact ⟨a, h1, fun x hx hxa => h2 x ((a2 x).mp hx).1 hxa⟩

theorem draft_ok_accept (BUFSIZE : Int) (env : sysenv) (srv srv1 : server) (addr : Nat)
    (fd : Int) (hr : registry_ok srv) (h : draft_ok srv)
    (hfresh : ∀ e ∈ srv.sessions, e.addr ≠ addr)
    (ha : accept_session BUFSIZE env srv addr fd = Except.ok srv1) : draft_ok srv1 := by
  obtain ⟨a1, ts, ws, a2, _, _⟩ := accept_session_cases BUFSIZE env srv srv1 addr fd ha
  intro ho
  rw [a1] at ho ⊢
  obtain ⟨a, h1, h2⟩ := h ho
  refine ⟨a, h1, fun x hx hxa => ?_⟩
  rw [a2] at hx
  rcases List.mem_cons.mp hx with e | e
  · obtain ⟨y, hy, e1⟩ := hr.2.1 a h1
    rw [e] at hxa
    exact absurd (e1.trans hxa.symm) (hfresh y hy)
  · exact h2 x e hxa

/-- A turn of a listed session keeps the draft invariant, whether the session stays or
is killed. -/
theorem draft_ok_serve (BUFSIZE : Int) (env : sysenv) (inetd : Bool) (io : session_io)
    (srv srv1 : server) (e : entry) (hr : registry_ok srv) (h : draft_ok srv)
    (he : e ∈ srv.sessions)
    (hs : serve_session BUFSIZE env inetd io srv e = Except.ok srv1) : draft_ok srv1 := by
  obtain ⟨h1, h2, h3⟩ := hr
  have hp : pass_ok e.addr { ts := e.ts, w := srv.w, ws := e.ws } := ⟨h1 e he, h3 e he⟩
  have hd : draft_held e.addr { ts := e.ts, w := srv.w, ws := e.ws } := by
    intro ho
    obtain ⟨a, g1, g2⟩ := h ho
    refine ⟨fun hn => ?_, fun ha => ?_⟩
    · rw [g1] at hn
      cases hn
    · rw [g1] at ha
      exact g2 e he (Option.some.inj ha).symm
  unfold serve_session at hs
  split at hs
  · cases hs
  · rename_i m hpass
    cases hs
    obtain ⟨p1, p2⟩ := session_pass_draft BUFSIZE env e.addr io _ m _ hp hd hpass
    simp only at p2
    intro ho
    simp only at ho
    have hself : m.w.atlas_ts = some e.addr →
        ∃ a, m.w.atlas_ts = some a ∧
          ∀ x ∈ srv.sessions.map (fun x =>
              if x.addr = e.addr then { x with ts := m.ts, ws := m.ws } else x),
            x.addr = a → x.ts.state = state.DO_CRONTAB := by
      intro ha
      refine ⟨e.addr, ha, fun x hx hxa => ?_⟩
      simp only [List.mem_map] at hx
      obtain ⟨y, hy, e1⟩ := hx
      split at e1
      · rw [← e1]
        exact (p1 ho).2 ha
      · rename_i hya
        rw [← e1] at hxa
        exact absurd hxa hya
    rcases p2 ho with p3 | ⟨p3, p4⟩
    · exact hself p3
    · obtain ⟨a, g1, g2⟩ := h p4
      by_cases hae : a = e.addr
      · exact hself (by rw [p3, g1, hae])
      · refine ⟨a, p3.trans g1, fun x hx hxa => ?_⟩
        simp only [List.mem_map] at hx
        obtain ⟨y, hy, e1⟩ := hx
        split at e1
        · rename_i hya
          rw [← e1] at hxa
          exact absurd (hxa.symm.trans hya) hae
        · rw [← e1] at hxa ⊢
          exact g2 y hy hxa
  · rename_i m hpass
    obtain ⟨p1, p2⟩ := session_pass_draft BUFSIZE env e.addr io _ m _ hp hd hpass
    simp only at p2
    obtain ⟨k1, k2⟩ := kill_session_cases inetd _ srv1 e.addr hs
    simp only at k1 k2
    intro ho
    rcases k2 with ⟨_, _, k3⟩ | ⟨k3, k4⟩
    · exact absurd k3 ho
    · rw [k4] at ho ⊢
      rcases p2 ho with p3 | ⟨p3, p4⟩
      · exact absurd p3 k3
      · obtain ⟨a, g1, g2⟩ := h p4
        refine ⟨a, p3.trans g1, fun x hx hxa => ?_⟩
        rw [k1] at hx
        exact g2 x (List.mem_filter.mp hx).1 hxa

theorem reachable_draft_ok (BUFSIZE : Int) (env : sysenv) (inetd : Bool) (srv : server)
    (h : reachable BUFSIZE env inetd srv) : draft_ok srv := by
  induction h with
  | boot addr fs => exact draft_ok_boot inetd addr fs
  | sigchld srv pids _ ih => exact draft_ok_sigchld srv pids ih
  | sweep srv srv1 _ hs ih => exact draft_ok_sweep inetd srv srv1 ih hs
  | accept srv srv1 addr fd hr hf ha ih =>
    exact draft_ok_accept BUFSIZE env srv srv1 addr fd
      (reachable_registry_ok BUFSIZE env inetd srv hr) ih hf ha
  | serve srv srv1 e io hr he hs ih =>
    exact draft_ok_serve BUFSIZE env inetd io srv srv1 e
      (reachable_registry_ok BUFSIZE env inetd srv hr) ih he hs

/-- Every pass through the switch starts with `pass_ok` and `draft_held`. -/
theorem pass_reachable_ok (BUFSIZE : Int) (env : sysenv) (inetd : Bool) (self : Nat)
    (m : machine) (h : pass_reachable BUFSIZE env inetd self m) :
    pass_ok self m ∧ draft_held self m := by
  induction h with
  | first srv e ts ws hr he hself hst hpid =>
    obtain ⟨h1, h2, h3⟩ := reachable_registry_ok BUFSIZE env inetd srv hr
    have hdo := reachable_draft_ok BUFSIZE env inetd srv hr
    refine ⟨⟨fun hn => ?_, fun ha => ?_⟩, fun ho => ?_⟩
    · simp only at hn ⊢
      rw [hpid]
      exact h1 e he (by rw [← hst]; exact hn)
    · simp only at ha ⊢
      rw [hst]
      exact h3 e he (by rw [hself]; exact ha)
    · simp only at ho ⊢
      obtain ⟨a, g1, g2⟩ := hdo ho
      refine ⟨by rw [g1]; simp, fun ha => ?_⟩
      rw [hst]
      rw [g1] at ha
      exact g2 e he (hself.trans (Option.some.inj ha).symm)
  | back m m1 _ hdis ih =>
    exact ⟨(dispatch_pass_ok BUFSIZE env self m m1 _ ih.1 hdis).1,
      (dispatch_draft BUFSIZE env self m m1 _ ih.1 ih.2 hdis).1⟩

/-- What a returning pass through the switch appends to buffer B when it starts with
`draft_held`: fixed responses other than `CRONTAB_BUSY`, or in
GET_LOGINNAME the line just taken, which holds no CR and so is not `CRONTAB_BUSY`
either. -/
theorem dispatch_sends_free (BUFSIZE : Int) (env : sysenv) (self : Nat) (m m1 : machine)
    (t : target) (hd : draft_held self m)
    (h : dispatch BUFSIZE env self m = Except.ok (m1, t)) :
    ∃ strs, sent BUFSIZE m.ts m1.ts strs ∧
      ∀ s ∈ strs, s ≠ CRONTAB_BUSY ∧
        (s ∈ fixed_responses ∨
          (m.ts.state = state.GET_LOGINNAME ∧ s ≠ ATLAS_LOGIN ∧
            extracted_line BUFSIZE (remove_iacs BUFSIZE m.ts m.ws).ts = some s)) := by
  rcases dispatch_cases BUFSIZE env self m m1 t h with
    ⟨_, e, _⟩ | ⟨_, _, e, _⟩ | ⟨ts0, ws0, ts1, l, ⟨hs0, _, hlog, _, hadm⟩, hgl, hc⟩
  · rw [e]
    exact ⟨[], sent_refl BUFSIZE _, by simp⟩
  · rw [e]
    exact ⟨[], sent_refl BUFSIZE _, by simp⟩
  · have hs1 := same_side2_fields _ _
      (same_side2_trans (getline_2pty_side2 BUFSIZE ts0 ts1 l hgl) hs0)
    have hs1r : m.ts.buf2 = ts1.buf2 ∧ m.ts.rdidx2 = ts1.rdidx2 ∧
        m.ts.wridx2 = ts1.wridx2 ∧ m.ts.size2 = ts1.size2 :=
      ⟨hs1.1.symm, hs1.2.1.symm, hs1.2.2.1.symm, hs1.2.2.2.symm⟩
    have hone : ∀ (ts2 : tsession) (s : List Nat), s ≠ CRONTAB_BUSY → s ∈ fixed_responses →
        add_2sock BUFSIZE ts1 s = Except.ok ts2 →
        ∀ ts3 : tsession, (ts3.buf2 = ts2.buf2 ∧ ts3.rdidx2 = ts2.rdidx2 ∧
          ts3.wridx2 = ts2.wridx2 ∧ ts3.size2 = ts2.size2) →
        ∃ strs, sent BUFSIZE m.ts ts3 strs ∧
          ∀ s ∈ strs, s ≠ CRONTAB_BUSY ∧
            (s ∈ fixed_responses ∨
              (m.ts.state = state.GET_LOGINNAME ∧ s ≠ ATLAS_LOGIN ∧
                extracted_line BUFSIZE (remove_iacs BUFSIZE m.ts m.ws).ts = some s)) := by
      intro ts2 s hne hfix hadd ts3 h3
      refine ⟨[s], sent_fields BUFSIZE ts1 m.ts ts2 ts3 _ hs1r h3
        (sent_add BUFSIZE _ _ _ hadd), fun x hx => ?_⟩
      rw [List.mem_singleton.mp hx]
      exact ⟨hne, Or.inl hfix⟩
    have hfree : m.w.atlas_ts = some self → m.ts.state ≠ state.DO_CRONTAB →
        m.w.atlas_crontab = none := by
      intro ha hn
      by_contra ho
      exact hn ((hd ho).2 ha)
    rcases hc with ⟨_, e, _⟩ | ⟨ln, hl, hc⟩
    · rw [e]
      exact ⟨[], sent_fields BUFSIZE m.ts m.ts m.ts _ _ ⟨rfl, rfl, rfl, rfl⟩ hs1
        (sent_refl BUFSIZE _), by simp⟩
    · subst hl
      rcases hc with ⟨_, _, ts2, hadd, e, _⟩ | ⟨hst, hne, ts2, ts3, w3, rc, hadd, hsl, _, e, _⟩ |
        ⟨_, _, e, _⟩ | ⟨_, _, ts2, hadd, e, _⟩ | ⟨hst, hdc⟩ | ⟨hst, _, ts2, w2, hec, hdc⟩ |
        ⟨_, _, ts2, w2, hac, e, _⟩ | ⟨_, ts2, hadd, e, _⟩
      · rw [e]
        exact hone ts2 PASSWORD_PROMPT (by decide) (by simp [fixed_responses]) hadd _
          ⟨rfl, rfl, rfl, rfl⟩
      · rw [e]
        obtain ⟨_, hl3⟩ := start_login_cases env ts2 ts3 m.w w3 ln rc hsl
        have h3 : ts3.buf2 = ts2.buf2 ∧ ts3.rdidx2 = ts2.rdidx2 ∧
            ts3.wridx2 = ts2.wridx2 ∧ ts3.size2 = ts2.size2 := by
          rcases hl3 with ⟨_, fd, e3⟩ | ⟨_, fd, pid, _, e3⟩ <;>
            (rw [e3]; exact ⟨rfl, rfl, rfl, rfl⟩)
        refine ⟨[ln], sent_fields BUFSIZE ts1 m.ts ts2 _ _ hs1r h3
          (sent_add BUFSIZE _ _ _ hadd), fun s hs => ?_⟩
        rw [List.mem_singleton.mp hs]
        refine ⟨fun hbusy => ?_, Or.inr ⟨hst, hne, ?_⟩⟩
        · have hcr := getline_2pty_no_cr BUFSIZE ts0 ts1 ln hgl
          rw [hbusy] at hcr
          exact hcr (by decide)
        · rw [← (hlog hst).1]
          exact extracted_line_of_getline BUFSIZE ts0 ts1 ln hgl
      · rw [e]
        exact ⟨[], sent_fields BUFSIZE m.ts m.ts m.ts _ _ ⟨rfl, rfl, rfl, rfl⟩ hs1
          (sent_refl BUFSIZE _), by simp⟩
      · rw [e]
        exact hone ts2 BAD_PASSWORD (by decide) (by simp [fixed_responses]) hadd _
          ⟨rfl, rfl, rfl, rfl⟩
      · have hf := hfree (hadm (Or.inl hst)) (by rw [hst]; decide)
        obtain ⟨_, strs, h1, h2⟩ := do_cmd_free BUFSIZE env { m with ts := ts1 } m1 ln t hf hdc
        exact ⟨strs, sent_fields BUFSIZE ts1 m.ts m1.ts _ _ hs1r ⟨rfl, rfl, rfl, rfl⟩ h1,
          fun s hs => ⟨(h2 s hs).1, Or.inl (h2 s hs).2⟩⟩
      · obtain ⟨_, _, _, c4, hts, _⟩ := end_crontab_cases BUFSIZE env ts1 ts2 m.w w2 hec
        obtain ⟨_, strs, h1, h2⟩ := do_cmd_free BUFSIZE env
          { m with ts := { ts2 with state := state.GET_CMD }, w := w2 } m1 ln t c4 hdc
        rcases hts with e2 | ⟨s0, hs0m, hadd⟩
        · rw [e2] at h1
          exact ⟨strs, sent_fields BUFSIZE _ m.ts m1.ts _ _ hs1r ⟨rfl, rfl, rfl, rfl⟩ h1,
            fun s hs => ⟨(h2 s hs).1, Or.inl (h2 s hs).2⟩⟩
        · refine ⟨[s0] ++ strs, sent_trans BUFSIZE m.ts ts2 m1.ts _ _
            (sent_fields BUFSIZE ts1 m.ts ts2 _ _ hs1r ⟨rfl, rfl, rfl, rfl⟩
              (sent_add BUFSIZE _ _ _ hadd))
            (sent_fields BUFSIZE _ ts2 m1.ts _ _ ⟨rfl, rfl, rfl, rfl⟩ ⟨rfl, rfl, rfl, rfl⟩ h1),
            fun s hs => ?_⟩
          rcases List.mem_append.mp hs with hs | hs
          · rw [List.mem_singleton.mp hs]
            simp only [List.mem_cons, List.mem_singleton, List.not_mem_nil, or_false] at hs0m
            rcases hs0m with e | e | e <;>
              (rw [e]; exact ⟨by decide, Or.inl (by simp [fixed_responses])⟩)
          · exact ⟨(h2 s hs).1, Or.inl (h2 s hs).2⟩
      · rw [e]
        obtain ⟨_, _, _, hc⟩ := add_to_crontab_cases BUFSIZE env ts1 ts2 m.w w2 _ hac
        rcases hc with ⟨_, e2, _⟩ | ⟨f, _, e2, _⟩ | ⟨f, _, hadd, _⟩
        · rw [e2]
          exact ⟨[], sent_fields BUFSIZE m.ts m.ts m.ts _ _ ⟨rfl, rfl, rfl, rfl⟩ hs1
            (sent_refl BUFSIZE _), by simp⟩
        · rw [e2]
          exact ⟨[], sent_fields BUFSIZE m.ts m.ts m.ts _ _ ⟨rfl, rfl, rfl, rfl⟩ hs1
            (sent_refl BUFSIZE _), by simp⟩
        · exact hone ts2 IO_ERROR (by decide) (by simp [fixed_responses]) hadd _
            ⟨rfl, rfl, rfl, rfl⟩
      · rw [e]
        exact hone ts2 BAD_COMMAND (by decide) (by simp [fixed_responses]) hadd _
          ⟨rfl, rfl, rfl, rfl⟩

/-- C23: in every state the process reaches between two steps of the event loop, an
open draft has a holder, the holder is a listed session, and it is in DO_CRONTAB. What
follows for every pass through the switch that any turn makes: a holder in GET_CMD
reaches `do_cmd` with no draft open; `end_crontab`, after which DO_CRONTAB falls into
`do_cmd`, leaves no draft open; so `start_crontab` is entered without a draft, where
it sends `NAME_TOO_LONG`, `CREATE_FAILED` or nothing; and what the pass appends to
buffer B is made of fixed responses other than `CRONTAB_BUSY` and of the echoed login
name, which is not `CRONTAB_BUSY` either. -/
theorem draft_has_uploader (BUFSIZE : Int) (env : sysenv) (inetd : Bool) :
    (∀ srv, reachable BUFSIZE env inetd srv → srv.w.atlas_crontab ≠ none →
      ∃ e ∈ srv.sessions, srv.w.atlas_ts = some e.addr ∧
        e.ts.state = state.DO_CRONTAB) ∧
    (∀ self m, pass_reachable BUFSIZE env inetd self m →
      (m.ts.state = state.GET_CMD → m.w.atlas_ts = some self →
        m.w.atlas_crontab = none) ∧
      (∀ ts ts2 w2, end_crontab BUFSIZE env ts m.w = Except.ok (ts2, w2) →
        w2.atlas_crontab = none ∧
        ∀ ln ts3 w3 r, start_crontab BUFSIZE env ts2 w2 ln = Except.ok (ts3, w3, r) →
          (r = -1 ∧ w3.atlas_crontab = none ∧
            ∃ s, s ∈ [NAME_TOO_LONG, CREATE_FAILED] ∧
              add_2sock BUFSIZE ts2 s = Except.ok ts3) ∨
          (r = 0 ∧ ts3 = ts2)) ∧
      (m.ts.state = state.GET_CMD → m.w.atlas_ts = some self →
        ∀ ts ln ts3 w3 r, start_crontab BUFSIZE env ts m.w ln = Except.ok (ts3, w3, r) →
          (r = -1 ∧ w3.atlas_crontab = none ∧
            ∃ s, s ∈ [NAME_TOO_LONG, CREATE_FAILED] ∧
              add_2sock BUFSIZE ts s = Except.ok ts3) ∨
          (r = 0 ∧ ts3 = ts)) ∧
      (∀ m1 t, dispatch BUFSIZE env self m = Except.ok (m1, t) →
        ∃ strs, sent BUFSIZE m.ts m1.ts strs ∧
          ∀ s ∈ strs, s ≠ CRONTAB_BUSY ∧
            (s ∈ fixed_responses ∨
              (m.ts.state = state.GET_LOGINNAME ∧ s ≠ ATLAS_LOGIN ∧
                extracted_line BUFSIZE (remove_iacs BUFSIZE m.ts m.ws).ts = some s)))) := by
  refine ⟨fun srv hr ho => ?_, fun self m hm => ?_⟩
  · obtain ⟨a, g1, g2⟩ := reachable_draft_ok BUFSIZE env inetd srv hr ho
    obtain ⟨e, he, e1⟩ := (reachable_registry_ok BUFSIZE env inetd srv hr).2.1 a g1
    exact ⟨e, he, by rw [g1, e1], g2 e he e1⟩
  · obtain ⟨hp, hd⟩ := pass_reachable_ok BUFSIZE env inetd self m hm
    have hfree : m.ts.state = state.GET_CMD → m.w.atlas_ts = some self →
        m.w.atlas_crontab = none := by
      intro hst ha
      by_contra ho
      have := (hd ho).2 ha
      rw [hst] at this
      cases this
    refine ⟨hfree, fun ts ts2 w2 hec => ?_, fun hst ha ts ln ts3 w3 r hsc => ?_,
      fun m1 t hdis => dispatch_sends_free BUFSIZE env self m m1 t hd hdis⟩
    · obtain ⟨_, _, _, c4, _⟩ := end_crontab_cases BUFSIZE env ts ts2 m.w w2 hec
      exact ⟨c4, fun ln ts3 w3 r hsc =>
        start_crontab_free BUFSIZE env ts2 ts3 w2 w3 ln r c4 hsc⟩
    · exact start_crontab_free BUFSIZE env ts ts3 m.w w3 ln r (hfree hst ha) hsc

/-- C23 on an example: from boot in standalone mode a connection is accepted at address
1, and in its first turn the socket delivers the login token, the password and
`CRONTAB d`; the state reached has a draft open, and its holder, the session at address
1, is in DO_CRONTAB. -/
theorem draft_has_uploader_witness :
    ∃ srv, reachable 2020 env_ok false srv ∧
      srv.w.atlas_crontab = some { name := bytes "d/root.new" } ∧
      ∃ e ∈ srv.sessions, srv.w.atlas_ts = some e.addr ∧ e.ts.state = state.DO_CRONTAB := by
  have h0 := @reachable.boot 2020 env_ok false 0 ⟨fun _ => none⟩
  have h1 := @reachable.accept 2020 env_ok false _ _ 1 4 h0 (fun e he => by cases he) rfl
  have h2 := @reachable.serve 2020 env_ok false _ _ _
    (io_received (bytes "C_TO_P_TEST_V1\rvuurwerk19\rCRONTAB d\r")) h1
    (List.mem_cons_self _ _) rfl
  exact ⟨_, h2, rfl, (draft_has_uploader 2020 env_ok false).1 _ h2 (fun hn => by cases hn)⟩

end Telnetd

/-! ## The window size before the login, and a failed vfork -/

namespace Telnetd

/-- C2 fails on the code before the login. From boot in standalone mode a connection is
accepted at address 1: the session has `ptyfd = 0` and no pty. Its first turn receives
the window-size sub-negotiation for 80 columns and 24 rows and the login name `root`.
`remove_iacs`, called in `case GET_LOGINNAME`, removes the nine bytes and passes the
size to `ioctl` on descriptor 0; `start_login` then opens the pty (descriptor 5), and
the turn ends with the session in DO_TRADITIONAL, all bytes consumed and the window size
of its pty still 0 x 0. The same bytes scanned for a session whose pty is descriptor 5
set the size to 24 x 80. -/
theorem naws_before_login_lost :
    (∃ srv1 srv2 e,
      accept_session 2020 env_ok (boot false 0 ⟨fun _ => none⟩) 1 4 = Except.ok srv1 ∧
      srv1.sessions = [e] ∧ e.ts.state = state.GET_LOGINNAME ∧ e.ts.ptyfd = 0 ∧
      e.ws = ⟨0, 0⟩ ∧
      serve_session 2020 env_ok false (io_received naws_then_login) srv1 e
        = Except.ok srv2 ∧
      srv2.sessions.map (fun x => (x.ts.state, x.ts.ptyfd, x.ts.size1, x.ws))
        = [(state.DO_TRADITIONAL, 5, 0, ⟨0, 0⟩)]) ∧
    ((remove_iacs 2020 (session_with state.GET_LOGINNAME naws_then_login 14 0 14)
        ⟨0, 0⟩).totty = bytes "root\r" ∧
      (remove_iacs 2020 (session_with state.GET_LOGINNAME naws_then_login 14 0 14)
        ⟨0, 0⟩).ws = ⟨0, 0⟩) ∧
    ((remove_iacs 2020
        { session_with state.DO_TRADITIONAL naws_then_login 14 0 14 with ptyfd := 5 }
        ⟨0, 0⟩).totty = bytes "root\r" ∧
      (remove_iacs 2020
        { session_with state.DO_TRADITIONAL naws_then_login 14 0 14 with ptyfd := 5 }
        ⟨0, 0⟩).ws = ⟨24, 80⟩) :=
  ⟨⟨_, _, _, rfl, rfl, rfl, rfl, rfl, rfl, rfl⟩,
   ⟨by decide, by decide⟩, ⟨by decide, by decide⟩⟩

/-- C16 fails on the code when `vfork` fails. `start_login` then returns -1 after
`free(ts)`, and `case GET_LOGINNAME` jumps to `kill_session`, where `free_session(ts)`
walks the list through the freed record and frees it a second time: the turn has no
defined outcome. Here from boot in standalone mode a connection is accepted at address
1 and its first turn receives the login name `root`. -/
theorem spawn_failure_undefined :
    (∀ ts w, start_login env_novfork ts w (bytes "root")
      = Except.ok ({ ts with ptyfd := 5 },
          { w with login_requests := w.login_requests ++ [bytes "root"] }, -1)) ∧
    (∃ srv1 e,
      reachable 2020 env_novfork false srv1 ∧ srv1.sessions = [e] ∧
      e.ts.state = state.GET_LOGINNAME ∧
      serve_session 2020 env_novfork false (io_received (bytes "root\r")) srv1 e
        = Except.error fault.undefined) ∧
    dispatch 2020 env_novfork 1
      { ts := session_with state.GET_LOGINNAME (bytes "root\r") 5 0 5,
        w := (two_sessions state.GET_LOGINNAME (bytes "root\r")).w, ws := ⟨0, 0⟩ }
      = Except.error fault.undefined :=
  ⟨fun _ _ => rfl,
   ⟨_, _, @reachable.accept 2020 env_novfork false _ _ 1 4
      (@reachable.boot 2020 env_novfork false 0 ⟨fun _ => none⟩)
      (fun e he => by cases he) rfl, rfl, rfl, rfl⟩,
   rfl⟩

end Telnetd

/-! ## The crontab upload, pass by pass -/

namespace Telnetd

end Telnetd
